import Mathlib

/-!
# A shallow embedding of the tis-mkfs virtual file layer (`__tis_mkfs.c`)

The C globals are gathered in one `State` record that every operation takes and
returns.  Conventions of the embedding:

* an operation returns `none` when the C execution has no defined result
  (out-of-bounds array access, NULL dereference, a violated ACSL assertion or
  precondition of the sources, or a value that its C type cannot hold);
* pointers are indices: a file object is a `FileRef`, an inode record a
  `StatRef`, a data buffer the number of its row in `mkfs_data_table`; the
  addresses that `mmap` hands out are integers, with 0 for NULL and -1 for
  `MAP_FAILED`;
* constants, macros and type bounds that come from headers outside the
  repository (`O_*`, `S_I*`, `E*`, `FOPEN_MAX`, `INT_MAX`, ...) and the
  credentials of the generated configuration are fields of `Env`;
* the build is the default one for allocation (static table) and descriptor
  reuse; the switch `__TIS_MKFS_NO_ERR` is the field `Env.no_err`;
* the analyser primitives `tis_nondet`, `tis_make_unknown`, `tis_interval`
  read their values from the stream `State.nondet`.
-/

namespace Mkfs

/-! ## Constants and configuration -/

/-- Constants of the C library headers, build switches and credentials. -/
structure Env where
  /-- The build switch `__TIS_MKFS_NO_ERR`: no random error is ever returned. -/
  no_err : Bool
  FOPEN_MAX : Nat
  INT_MAX : Nat
  /-- Largest value of `off_t`. -/
  OFF_MAX : Nat
  /-- Largest value of `size_t`. -/
  SIZE_MAX : Nat
  O_RDONLY : Nat
  O_WRONLY : Nat
  O_RDWR : Nat
  O_CREAT : Nat
  O_EXCL : Nat
  O_TRUNC : Nat
  O_APPEND : Nat
  S_IFMT : Nat
  S_IFREG : Nat
  S_IFDIR : Nat
  S_IFCHR : Nat
  S_IFIFO : Nat
  S_IFSOCK : Nat
  S_IRUSR : Nat
  S_IWUSR : Nat
  S_IXUSR : Nat
  S_IRGRP : Nat
  S_IWGRP : Nat
  S_IXGRP : Nat
  S_IROTH : Nat
  S_IWOTH : Nat
  S_IXOTH : Nat
  R_OK : Nat
  W_OK : Nat
  X_OK : Nat
  F_OK : Nat
  SEEK_SET : Int
  SEEK_CUR : Int
  SEEK_END : Int
  EBADF : Int
  EINVAL : Int
  EISDIR : Int
  EMFILE : Int
  ENOMEM : Int
  EEXIST : Int
  ENOENT : Int
  PROT_NONE : Nat
  PROT_READ : Nat
  PROT_WRITE : Nat
  PROT_EXEC : Nat
  MAP_SHARED : Nat
  MAP_PRIVATE : Nat
  MAP_FIXED : Nat
  MS_ASYNC : Nat
  MS_SYNC : Nat
  MS_INVALIDATE : Nat
  F_GETFL : Int
  EOF : Int
  /-- The macro `__TIS_MKFS_ST_DEV`. -/
  ST_DEV : Nat
  /-- The macro `__TIS_MKFS_BLKSIZE`. -/
  BLKSIZE : Nat
  /-- The credentials `__mkfs_uid`, `__mkfs_gid`, `__mkfs_euid`, `__mkfs_egid`. -/
  uid : Nat
  gid : Nat
  euid : Nat
  egid : Nat
deriving DecidableEq

/-- The macro `TIS_FSIZE`, the length of one row of `mkfs_data_table`;
the sources define it as `INT_MAX`. -/
def TIS_FSIZE (e : Env) : Nat := e.INT_MAX

/-! ## Data model -/

/-- A pointer to a `struct __mkfs_fs_file`. -/
inductive FileRef where
  /-- The global `__mkfs_fs_stdin`. -/
  | fs_stdin : FileRef
  /-- The global `__mkfs_fs_stdout`. -/
  | fs_stdout : FileRef
  /-- The global `__mkfs_fs_stderr`. -/
  | fs_stderr : FileRef
  /-- The element `__mkfs_fs_files[i]`. -/
  | fs_files (i : Nat) : FileRef
  /-- An object obtained from `calloc` (pipe ends). -/
  | heap (k : Nat) : FileRef
deriving DecidableEq

/-- A pointer to a `struct stat`. -/
inductive StatRef where
  /-- The element `inode_table[i]` of the pool inside `mk_inode`. -/
  | inode_table (i : Nat) : StatRef
  /-- The metadata record number `j` of the generated file-system image. -/
  | image (j : Nat) : StatRef
deriving DecidableEq

/-- The fields of `struct stat` that the sources use. -/
structure Stat where
  st_ino : Int
  st_mode : Nat
  st_uid : Nat
  st_gid : Nat
  st_size : Int
  st_nlink : Nat
  st_dev : Nat
  st_blksize : Nat
deriving DecidableEq

/-- The record `struct __mkfs_fd_info`. -/
structure mkfs_fd_info where
  fd_kind : Int
  fd_index : Int
deriving DecidableEq

/-- The record `__mkfs_file_info`. -/
structure mkfs_file_info where
  position : Int
  error : Int
  eof : Int
  flags : Nat
  file : Option FileRef
deriving DecidableEq

/-- The record `struct __mkfs_fs_file`.  The content provider is represented
by the bytes that the function returns (`none` for a NULL function pointer);
`data` is the row of `mkfs_data_table` the buffer pointer designates. -/
structure mkfs_fs_file where
  fullpath : Option String
  stat : Option StatRef
  content : Option (List Nat)
  data : Option Nat
deriving DecidableEq

/-- The fields of `DIR` (`__mkfs_dir_info`) that the sources use; the entry
array is represented by the list of its entries before the null sentinel. -/
structure mkfs_dir_info where
  dir_id : Int
  dir_position : Int
  dir_inode : Option StatRef
  dir_entries : Option (List String)
deriving DecidableEq

/-- The record `__mkfs_socket_info`. -/
structure mkfs_socket_info where
  sock_addr : Option (List Nat)
  sock_addrlen : Nat
  sock_domain : Int
  sock_type : Int
  sock_protocol : Int
deriving DecidableEq

/-- The record `struct __mkfs_fs_dir`; the entry array is represented by the
list of its entries before the null sentinel, each entry by its name. -/
structure mkfs_fs_dir where
  fullpath : Option String
  stat : Option StatRef
  dir_entries : Option (List String)
deriving DecidableEq

/-- The record `struct __mkfs_map` (type `map`).  `data` is the buffer of the
mapped file (a row of `mkfs_data_table`, `none` for NULL) and `addr` the
address of the block that holds the mapping. -/
structure mkfs_map where
  data : Option Nat
  addr : Int
  length : Nat
  shared : Bool
  need_sync : Bool
deriving DecidableEq

/-- The global variables of `__tis_mkfs.c` and of the generated file. -/
structure State where
  errno : Int
  /-- The values that the analyser primitives will return, in order. -/
  nondet : List Int
  /-- The array `__mkfs_file_desc`. -/
  file_desc : List mkfs_fd_info
  /-- The array `mkfs_opened_files`. -/
  opened_files : List mkfs_file_info
  /-- The static counter of `mkfs_get_next_file_index`. -/
  next_file_index : Nat
  /-- The used part `__mkfs_fs_files[0 .. __mkfs_fs_files_nb)`. -/
  fs_files : List mkfs_fs_file
  fs_files_nb_max : Nat
  fs_stdin : mkfs_fs_file
  fs_stdout : mkfs_fs_file
  fs_stderr : mkfs_fs_file
  /-- The objects obtained from `calloc`; `none` once freed. -/
  heap_files : List (Option mkfs_fs_file)
  /-- The pool `inode_table` of `mk_inode`. -/
  inode_table : List Stat
  next_inode_index : Nat
  /-- The metadata records of the generated file-system image. -/
  image_stats : List Stat
  /-- The counter `__mkfs_next_inode`. -/
  next_inode : Int
  /-- The array `mkfs_data_table`; a row lists its leading bytes, the bytes
  behind them are zero (static storage). -/
  mkfs_data_table : List (List Nat)
  /-- The array `__fc_opendir`. -/
  opendir : List mkfs_dir_info
  /-- The array `mkfs_opened_socket`. -/
  opened_socket : List mkfs_socket_info
  /-- The bytes passed to `tis_printf`. -/
  out_stream : List Nat
  /-- The bytes passed to `tis_fprintf (stderr, ...)`. -/
  err_stream : List Nat
  /-- The array `maps.maps`. -/
  maps : List mkfs_map
  /-- The counter `maps.nb_used`. -/
  maps_nb_used : Nat
  /-- The blocks that `malloc` returned to `add_map`: block number `k` is at
  address `k + 1`, and is `none` once freed. -/
  map_heap : List (Option (List Nat))
  /-- The used part `__mkfs_fs_dirs[0 .. __mkfs_fs_dirs_nb)`. -/
  fs_dirs : List mkfs_fs_dir
deriving DecidableEq

/-! ## Memory helpers -/

/-- Read of `xs[i]` for a C index; `none` outside the array. -/
def arr_get {α : Type} (xs : List α) (i : Int) : Option α :=
  if i < 0 then none else xs[i.toNat]?

/-- Store `xs[i] = v` for a C index; `none` outside the array. -/
def arr_set {α : Type} (xs : List α) (i : Int) (v : α) : Option (List α) :=
  if 0 ≤ i ∧ i.toNat < xs.length then some (xs.set i.toNat v) else none

/-- The byte at index `i` of a row of `mkfs_data_table`. -/
def row_get (row : List Nat) (i : Nat) : Nat := row.getD i 0

/-- The row after `memcpy (row + off, src, src.length)`. -/
def row_write (row : List Nat) (off : Nat) (src : List Nat) : List Nat :=
  (List.range (max row.length (off + src.length))).map
    (fun i => if off ≤ i ∧ i < off + src.length then src.getD (i - off) 0 else row.getD i 0)

/-- The bytes `row[off .. off + n)`. -/
def row_read (row : List Nat) (off n : Nat) : List Nat :=
  (List.range n).map (fun i => row_get row (off + i))

/-- The row after `memset (row + off, 0, n)`. -/
def row_zero (row : List Nat) (off n : Nat) : List Nat :=
  row_write row off (List.replicate n 0)

/-- Bitwise and of a C `int` with a non-negative mask (two's complement). -/
def land_int (m : Int) (n : Nat) : Nat :=
  match m with
  | Int.ofNat a => a &&& n
  | Int.negSucc a => n - (n &&& a)

/-- Conversion of a signed value to `size_t`. -/
def to_size_t (e : Env) (x : Int) : Nat := (x % ((e.SIZE_MAX : Int) + 1)).toNat

/-- The macro `S_ISREG`. -/
def S_ISREG (e : Env) (m : Int) : Bool := land_int m e.S_IFMT == e.S_IFREG

/-- The macro `S_ISDIR`. -/
def S_ISDIR (e : Env) (m : Int) : Bool := land_int m e.S_IFMT == e.S_IFDIR

/-- The macro `S_ISCHR`. -/
def S_ISCHR (e : Env) (m : Int) : Bool := land_int m e.S_IFMT == e.S_IFCHR

/-- The macro `S_ISFIFO`. -/
def S_ISFIFO (e : Env) (m : Int) : Bool := land_int m e.S_IFMT == e.S_IFIFO

/-- The macro `S_ISSOCK`. -/
def S_ISSOCK (e : Env) (m : Int) : Bool := land_int m e.S_IFMT == e.S_IFSOCK

/-- Dereference of a file-object pointer. -/
def get_fs_file (s : State) : FileRef → Option mkfs_fs_file
  | FileRef.fs_stdin => some s.fs_stdin
  | FileRef.fs_stdout => some s.fs_stdout
  | FileRef.fs_stderr => some s.fs_stderr
  | FileRef.fs_files i => s.fs_files[i]?
  | FileRef.heap k => (s.heap_files[k]?).bind id

/-- Store through a file-object pointer. -/
def set_fs_file (s : State) (r : FileRef) (f : mkfs_fs_file) : Option State :=
  match r with
  | FileRef.fs_stdin => some { s with fs_stdin := f }
  | FileRef.fs_stdout => some { s with fs_stdout := f }
  | FileRef.fs_stderr => some { s with fs_stderr := f }
  | FileRef.fs_files i =>
    if i < s.fs_files.length then some { s with fs_files := s.fs_files.set i f } else none
  | FileRef.heap k =>
    match (s.heap_files[k]?).bind id with
    | some _ => some { s with heap_files := s.heap_files.set k (some f) }
    | none => none

/-- Dereference of an inode pointer. -/
def get_stat (s : State) : StatRef → Option Stat
  | StatRef.inode_table i => s.inode_table[i]?
  | StatRef.image j => s.image_stats[j]?

/-- Store through an inode pointer. -/
def set_stat (s : State) (r : StatRef) (st : Stat) : Option State :=
  match r with
  | StatRef.inode_table i =>
    if i < s.inode_table.length then some { s with inode_table := s.inode_table.set i st }
    else none
  | StatRef.image j =>
    if j < s.image_stats.length then some { s with image_stats := s.image_stats.set j st }
    else none

/-! ## Analyser primitives -/

/-- The next value of the nondeterminism stream (0 once it is exhausted). -/
def tis_next (s : State) : Int × State :=
  match s.nondet with
  | [] => (0, s)
  | c :: rest => (c, { s with nondet := rest })

/-- The call `tis_make_unknown (&errno, sizeof errno)`. -/
def tis_make_unknown_errno (s : State) : State :=
  let r := tis_next s
  { r.2 with errno := r.1 }

/-- The call `tis_make_unknown (buf, n)` on a caller buffer: `n` unknown bytes. -/
def tis_make_unknown_buf (s : State) (buf : List Nat) : Nat → List Nat × State
  | 0 => (buf, s)
  | n + 1 =>
    let r := tis_next s
    let rest := tis_make_unknown_buf r.2 (buf.drop 1) n
    ((r.1 % 256).toNat :: rest.1, rest.2)

/-- The macro `RETURN_RANDOM_ERROR`: the boolean tells whether the enclosing
function returns its error value (then `errno` has been made unknown). -/
def RETURN_RANDOM_ERROR (e : Env) (s : State) : Bool × State :=
  if e.no_err then (false, s)
  else
    let r := tis_next s
    if r.1 ≠ 0 then (true, tis_make_unknown_errno r.2) else (false, r.2)


/-! ## File descriptors -/

/-- The function `__mkfs_check_fd_ok`. -/
def __mkfs_check_fd_ok (e : Env) (s : State) (fd : Int) : Int × State :=
  if fd < 0 ∨ fd ≥ e.FOPEN_MAX then (-1, { s with errno := e.EBADF }) else (0, s)

/-- The function `mkfs_get_next_file_index`. -/
def mkfs_get_next_file_index (e : Env) (s : State) : Int × State :=
  if s.next_file_index ≥ e.FOPEN_MAX then (-1, s)
  else (s.next_file_index, { s with next_file_index := s.next_file_index + 1 })

/-- The function `__mkfs_get_file_info`: the inner option is the returned
pointer, an index in `mkfs_opened_files` or NULL. -/
def __mkfs_get_file_info (e : Env) (s : State) (fd : Int) : Option (Option Int) :=
  if (__mkfs_check_fd_ok e s fd).1 ≠ 0 then some none
  else
    match arr_get s.file_desc fd with
    | none => none
    | some d =>
      if S_ISREG e d.fd_kind || S_ISCHR e d.fd_kind || S_ISFIFO e d.fd_kind then
        some (some d.fd_index)
      else some none

/-- The function `__mkfs_get_socket_info`. -/
def __mkfs_get_socket_info (e : Env) (s : State) (fd : Int) : Option (Option Int) :=
  if (__mkfs_check_fd_ok e s fd).1 ≠ 0 then some none
  else
    match arr_get s.file_desc fd with
    | none => none
    | some d => if S_ISSOCK e d.fd_kind then some (some d.fd_index) else some none

/-- The function `__mkfs_get_dir_info`. -/
def __mkfs_get_dir_info (e : Env) (s : State) (fd : Int) : Option (Option Int) :=
  if (__mkfs_check_fd_ok e s fd).1 ≠ 0 then some none
  else
    match arr_get s.file_desc fd with
    | none => none
    | some d => if S_ISDIR e d.fd_kind then some (some d.fd_index) else some none

/-- The function `mk_inode`; the pool is exhausted when the assertion
`no_more_inode_mkfs_niy` fails and the stores go through NULL. -/
def mk_inode (e : Env) (s : State) (mode : Nat) : Option (StatRef × State) :=
  if s.next_inode_index < e.FOPEN_MAX then
    let st : Stat :=
      { st_ino := s.next_inode, st_mode := mode, st_uid := e.uid, st_gid := e.gid,
        st_size := 0, st_nlink := 1, st_dev := e.ST_DEV, st_blksize := e.BLKSIZE }
    match arr_set s.inode_table s.next_inode_index st with
    | none => none
    | some tbl =>
      some (StatRef.inode_table s.next_inode_index,
        { s with inode_table := tbl, next_inode_index := s.next_inode_index + 1,
                 next_inode := s.next_inode + 1 })
  else none

/-- The function `init_fd_file`. -/
def init_fd_file (e : Env) (s : State) (fd : Int) (kind : Int) (flags : Nat)
    (file : Option FileRef) : Option (Int × State) :=
  let r := mkfs_get_next_file_index e s
  match arr_set r.2.file_desc fd { fd_kind := kind, fd_index := r.1 } with
  | none => none
  | some fds =>
    match arr_set r.2.opened_files r.1
        { position := 0, error := 0, eof := 0, flags := flags, file := file } with
    | none => none
    | some ofs => some (r.1, { r.2 with file_desc := fds, opened_files := ofs })

/-- The scan of `get_next_file_desc`: `n` iterations remain, `fd` is the
current value of the loop variable. -/
def get_next_file_desc_loop (s : State) : Nat → Nat → Option Nat
  | 0, fd => some fd
  | n + 1, fd =>
    match s.file_desc[fd]? with
    | none => none
    | some d => if d.fd_kind = 0 then some fd else get_next_file_desc_loop s n (fd + 1)

/-- The function `get_next_file_desc` (build without `__TIS_MKFS_NO_CLOSE`). -/
def get_next_file_desc (e : Env) (s : State) : Option (Int × State) :=
  match get_next_file_desc_loop s e.FOPEN_MAX 0 with
  | none => none
  | some fd =>
    if fd < e.FOPEN_MAX then some (fd, s)
    else
      let r := RETURN_RANDOM_ERROR e s
      if r.1 then some (-1, r.2) else some (-1, { r.2 with errno := e.EMFILE })

/-- The function `__mkfs_check_fd_file_ok`; the descriptor table is read
before any range check. -/
def __mkfs_check_fd_file_ok (e : Env) (s : State) (fd : Int) : Option (Int × State) :=
  match arr_get s.file_desc fd with
  | none => none
  | some d =>
    if S_ISDIR e d.fd_kind then some (-1, { s with errno := e.EISDIR })
    else
      match __mkfs_get_file_info e s fd with
      | none => none
      | some none => some (-1, { s with errno := e.EBADF })
      | some (some idx) =>
        match arr_get s.opened_files idx with
        | none => none
        | some info =>
          if info.file = none then some (-1, { s with errno := e.EBADF })
          else
            let r := RETURN_RANDOM_ERROR e s
            if r.1 then some (-1, r.2) else some (0, r.2)

/-- The function `__mkfs_check_fd_socket_ok`. -/
def __mkfs_check_fd_socket_ok (e : Env) (s : State) (fd : Int) : Option (Int × State) :=
  match __mkfs_get_socket_info e s fd with
  | none => none
  | some none => some (-1, { s with errno := e.EBADF })
  | some (some _) =>
    let r := RETURN_RANDOM_ERROR e s
    if r.1 then some (-1, r.2) else some (0, r.2)

/-! ## Permissions -/

/-- The value of the local `ok` of `stat_access` before the final test. -/
def stat_access_ok (e : Env) (st : Stat) (mode : Nat) : Bool :=
  let m := st.st_mode
  if st.st_uid = e.euid then
    (if mode &&& e.R_OK ≠ 0 then m &&& e.S_IRUSR ≠ 0 else true)
    && (if mode &&& e.W_OK ≠ 0 then m &&& e.S_IWUSR ≠ 0 else true)
    && (if mode &&& e.X_OK ≠ 0 then m &&& e.S_IXUSR ≠ 0 else true)
  else if st.st_uid = e.egid then
    (if mode &&& e.R_OK ≠ 0 then m &&& e.S_IRGRP ≠ 0 else true)
    && (if mode &&& e.W_OK ≠ 0 then m &&& e.S_IWGRP ≠ 0 else true)
    && (if mode &&& e.X_OK ≠ 0 then m &&& e.S_IXGRP ≠ 0 else true)
  else
    (if mode &&& e.R_OK ≠ 0 then m &&& e.S_IROTH ≠ 0 else true)
    && (if mode &&& e.W_OK ≠ 0 then m &&& e.S_IWOTH ≠ 0 else true)
    && (if mode &&& e.X_OK ≠ 0 then m &&& e.S_IXOTH ≠ 0 else true)

/-- The function `stat_access`, applied to the record its argument points to. -/
def stat_access (e : Env) (s : State) (st : Stat) (mode : Nat) : Int × State :=
  if stat_access_ok e st mode then
    let r := RETURN_RANDOM_ERROR e s
    if r.1 then (-1, r.2) else (0, r.2)
  else (-1, { s with errno := e.EBADF })

/-- The open-file record number `idx` with the file object it points to
(`file_info->__mkfs_file`). -/
def file_info_file (s : State) (idx : Int) :
    Option (mkfs_file_info × FileRef × mkfs_fs_file) :=
  match arr_get s.opened_files idx with
  | none => none
  | some info =>
    match info.file with
    | none => none
    | some fr =>
      match get_fs_file s fr with
      | none => none
      | some f => some (info, fr, f)

/-- The inode record of a file object (`file->__mkfs_stat`). -/
def file_stat (s : State) (f : mkfs_fs_file) : Option (StatRef × Stat) :=
  match f.stat with
  | none => none
  | some sr =>
    match get_stat s sr with
    | none => none
    | some st => some (sr, st)

/-- The record behind `file_info->__mkfs_file->__mkfs_stat` for the open-file
record number `idx`, with the pointers on the way. -/
def file_info_stat (s : State) (idx : Int) :
    Option (mkfs_file_info × FileRef × mkfs_fs_file × StatRef × Stat) :=
  match file_info_file s idx with
  | none => none
  | some (info, fr, f) =>
    match file_stat s f with
    | none => none
    | some (sr, st) => some (info, fr, f, sr, st)

/-- The function `__mkfs_check_fd_file_ok_for_reading`. -/
def __mkfs_check_fd_file_ok_for_reading (e : Env) (s : State) (fd : Int) :
    Option (Int × State) :=
  match __mkfs_check_fd_file_ok e s fd with
  | none => none
  | some (ret, s1) =>
    if ret = -1 then some (-1, s1)
    else
      match __mkfs_get_file_info e s1 fd with
      | none => none
      | some none => none
      | some (some idx) =>
        match arr_get s1.opened_files idx with
        | none => none
        | some info =>
          if info.flags &&& e.O_WRONLY ≠ 0 then some (-1, { s1 with errno := e.EBADF })
          else
            match file_info_stat s1 idx with
            | none => none
            | some (_, _, _, _, st) => some (stat_access e s1 st e.R_OK)

/-- The function `__mkfs_check_fd_file_ok_for_writing`. -/
def __mkfs_check_fd_file_ok_for_writing (e : Env) (s : State) (fd : Int) :
    Option (Int × State) :=
  match __mkfs_check_fd_file_ok e s fd with
  | none => none
  | some (ret, s1) =>
    if ret = -1 then some (-1, s1)
    else
      match __mkfs_get_file_info e s1 fd with
      | none => none
      | some none => none
      | some (some idx) =>
        match arr_get s1.opened_files idx with
        | none => none
        | some info =>
          if ¬ (info.flags &&& e.O_WRONLY ≠ 0) ∧ ¬ (info.flags &&& e.O_RDWR ≠ 0) then
            some (-1, { s1 with errno := e.EBADF })
          else
            match file_info_stat s1 idx with
            | none => none
            | some (_, _, _, _, st) => some (stat_access e s1 st e.W_OK)

/-! ## Opening files -/

/-- The scan of `__mkfs_get_file` over `__mkfs_fs_files[i ..]`. -/
def __mkfs_get_file_loop (path : String) : List mkfs_fs_file → Nat → Option Nat
  | [], _ => none
  | f :: rest, i =>
    if f.fullpath = some path then some i else __mkfs_get_file_loop path rest (i + 1)

/-- The function `__mkfs_get_file`: the index of the first entry named `path`. -/
def __mkfs_get_file (s : State) (path : String) : Option Nat :=
  __mkfs_get_file_loop path s.fs_files 0

/-- The function `open_fd`; a call that violates its precondition `file_fd`
(the kind is `S_IFREG`, `S_IFIFO` or `S_IFCHR`) has no defined result.  In the
build embedded here `alloc_data` returns a row of the static `mkfs_data_table`,
never NULL, so the exit `errno = ENOMEM; return -1` that follows it is not
reached; it is under `__TIS_MKFS_PREALLOCATE` and `__TIS_MKFS_DYNAMIC_ALLOCATE`,
where `alloc_data` calls `malloc`. -/
def open_fd (e : Env) (s : State) (fd : Int) (kind : Int) (flags : Nat)
    (content : Option (List Nat)) (file : FileRef) : Option (Int × State) :=
  if kind = e.S_IFREG ∨ kind = e.S_IFIFO ∨ kind = e.S_IFCHR then
    match get_fs_file s file with
    | none => none
    | some f0 =>
      match f0.stat with
      | none => none
      | some sr =>
        match init_fd_file e s fd kind flags (some file) with
        | none => none
        | some (_, s1) =>
          match (if flags &&& e.O_TRUNC ≠ 0 ∧ (flags &&& e.O_WRONLY ≠ 0 ∨ flags &&& e.O_RDWR ≠ 0)
                 then (get_stat s1 sr).bind (fun st => set_stat s1 sr { st with st_size := 0 })
                 else some s1) with
          | none => none
          | some s2 =>
            match get_fs_file s2 file with
            | none => none
            | some f =>
              if f.data = none ∧ (content ≠ none ∨ flags &&& e.O_CREAT ≠ 0) then
                match get_stat s2 sr with
                | none => none
                | some st =>
                  -- alloc_data (st_ino, st_size) returns `mkfs_data_table[st_ino]`
                  if to_size_t e st.st_size > TIS_FSIZE e then none
                  else if st.st_ino < 0 ∨ st.st_ino ≥ e.FOPEN_MAX then none
                  else
                    match s2.mkfs_data_table[st.st_ino.toNat]? with
                    | none => none
                    | some row =>
                      if st.st_size > 0 then
                        match content with
                        | none => none
                        | some bytes =>
                          if bytes.length < st.st_size.toNat then none
                          else
                            let filled := row_write row 0 (bytes.take st.st_size.toNat)
                            let tbl := s2.mkfs_data_table.set st.st_ino.toNat filled
                            (set_fs_file { s2 with mkfs_data_table := tbl } file
                              { f with data := some st.st_ino.toNat }).map (fun s3 => (0, s3))
                      else
                        (set_fs_file s2 file { f with data := some st.st_ino.toNat }).map
                          (fun s3 => (0, s3))
              else some (0, s2)
  else none

/-- The function `create_file`: the result is the index of the new entry of
`__mkfs_fs_files`, or NULL.  Outside the `__TIS_MKFS_NO_ERR` build `strdup`
may return NULL; the stream of unknown values decides. -/
def create_file (e : Env) (s : State) (filename : String) (mode : Nat) :
    Option (Option Nat × State) :=
  if s.fs_files.length ≥ s.fs_files_nb_max then some (none, { s with errno := e.EMFILE })
  else
    let r := RETURN_RANDOM_ERROR e s
    if r.1 then some (none, r.2)
    else
      let a := if e.no_err then ((0 : Int), r.2) else tis_next r.2
      if a.1 ≠ 0 then some (none, { a.2 with errno := e.ENOMEM })
      else
        match mk_inode e a.2 (e.S_IFREG ||| mode) with
        | none => none
        | some (st, s1) =>
          some (some s1.fs_files.length,
            { s1 with fs_files := s1.fs_files ++
                [{ fullpath := some filename, stat := some st, content := none, data := none }] })

/-- The precondition `tis_open_flags` of `open_file`: the flags name an access
mode. -/
def tis_open_flags (e : Env) (flags : Nat) : Bool :=
  (flags &&& e.O_RDONLY == e.O_RDONLY) || (flags &&& e.O_WRONLY == e.O_WRONLY)
    || (flags &&& e.O_RDWR == e.O_RDWR)

/-- The function `open_file`; a call that violates its precondition
`tis_open_flags` has no defined result. -/
def open_file (e : Env) (s : State) (filename : String) (flags : Nat) (mode : Nat) :
    Option (Int × State) :=
  if tis_open_flags e flags then
    let found := __mkfs_get_file s filename
    let created : Option (Option (Option Nat × State)) :=
      if flags &&& e.O_CREAT ≠ 0 then
        match found with
        | none => (create_file e s filename mode).map some
        | some i => if flags &&& e.O_EXCL ≠ 0 then some none else some (some (some i, s))
      else some (some (found, s))
    match created with
    | none => none
    | some none => some (-1, { s with errno := e.EEXIST })
    | some (some (none, s0)) =>
      if flags &&& e.O_CREAT ≠ 0 then some (-1, s0)
      else some (-1, { s0 with errno := e.ENOENT })
    | some (some (some i, s0)) =>
      match get_fs_file s0 (FileRef.fs_files i) with
      | none => none
      | some f =>
        match file_stat s0 f with
        | none => none
        | some (_, st) =>
          let r1 := if flags &&& e.O_RDONLY ≠ 0 ∨ flags &&& e.O_RDWR ≠ 0
                    then stat_access e s0 st e.R_OK else (0, s0)
          if r1.1 = -1 then some (-1, r1.2)
          else
            let r2 := if flags &&& e.O_WRONLY ≠ 0 ∨ flags &&& e.O_RDWR ≠ 0
                      then stat_access e r1.2 st e.W_OK else (0, r1.2)
            if r2.1 = -1 then some (-1, r2.2)
            else
              match get_next_file_desc e r2.2 with
              | none => none
              | some (fd, s3) =>
                if fd ≠ -1 then
                  let kind : Int :=
                    if S_ISREG e st.st_mode then e.S_IFREG
                    else if S_ISFIFO e st.st_mode then e.S_IFIFO
                    else if S_ISCHR e st.st_mode then e.S_IFCHR
                    else -1
                  match open_fd e s3 fd kind flags f.content (FileRef.fs_files i) with
                  | none => none
                  | some (res, s4) => if res ≠ 0 then some (res, s4) else some (fd, s4)
                else some (fd, s3)
  else none

/-- The function `__mkfs_open`; `mode` is the variadic argument, read only
when `O_CREAT` is set. -/
def __mkfs_open (e : Env) (s : State) (filename : String) (flags : Nat) (mode : Nat) :
    Option (Int × State) :=
  open_file e s filename flags
    (if flags &&& e.O_CREAT ≠ 0 then mode
     else e.S_IRUSR ||| e.S_IWUSR ||| e.S_IRGRP ||| e.S_IWGRP ||| e.S_IROTH ||| e.S_IWOTH)

/-- The function `__mkfs_creat`. -/
def __mkfs_creat (e : Env) (s : State) (filename : String) (mode : Nat) :
    Option (Int × State) :=
  open_file e s filename (e.O_WRONLY ||| e.O_CREAT ||| e.O_TRUNC) mode

/-! ## Reading -/

/-- The function `local_pread`.  `buf` is the caller's buffer, `count` the
number of bytes asked for; the result carries the buffer after the call. -/
def local_pread (e : Env) (s : State) (fd : Int) (buf : List Nat) (count : Nat)
    (offset : Int) : Option (Int × List Nat × State) :=
  if offset < 0 then some (-1, buf, { s with errno := e.EINVAL })
  else
    match __mkfs_check_fd_file_ok_for_reading e s fd with
    | none => none
    | some (ret, s1) =>
      if ret ≠ 0 then some (ret, buf, s1)
      else
        match __mkfs_get_file_info e s1 fd with
        | none => none
        | some none => none
        | some (some idx) =>
          match file_info_stat s1 idx with
          | none => none
          | some (_, _, f, _, st) =>
            let max := to_size_t e st.st_size
            if offset.toNat ≥ max then some (0, buf, s1)
            else
              let n_avail := max - offset.toNat
              let n_read := if n_avail ≥ count then count else n_avail
              if n_read > buf.length then none
              else
                match f.data with
                | some p =>
                  match s1.mkfs_data_table[p]? with
                  | none => none
                  | some row =>
                    if offset.toNat + n_read > TIS_FSIZE e then none
                    else some (n_read, row_read row offset.toNat n_read ++ buf.drop n_read, s1)
                | none =>
                  let r := tis_make_unknown_buf s1 buf n_read
                  some (n_read, r.1, r.2)

/-- The function `read_file`. -/
def read_file (e : Env) (s : State) (fd : Int) (buf : List Nat) (count : Nat) :
    Option (Int × List Nat × State) :=
  match __mkfs_get_file_info e s fd with
  | none => none
  | some none => none
  | some (some idx) =>
    match arr_get s.opened_files idx with
    | none => none
    | some info =>
      if info.position < 0 ∨ info.position > e.OFF_MAX then none
      else
        match local_pread e s fd buf count info.position with
        | none => none
        | some (n_read, buf1, s1) =>
          if n_read > 0 then
            match arr_get s1.opened_files idx with
            | none => none
            | some info1 =>
              match arr_set s1.opened_files idx
                  { info1 with position := info1.position + n_read } with
              | none => none
              | some ofs => some (n_read, buf1, { s1 with opened_files := ofs })
          else some (n_read, buf1, s1)

/-- The function `read_socket`; `tis_long_long_interval (-1, count)` takes the
next unknown value, brought into the interval. -/
def read_socket (e : Env) (s : State) (buf : List Nat) (count : Nat) :
    Option (Int × List Nat × State) :=
  let r := tis_next s
  let res : Int := if r.1 < -1 then -1 else if r.1 > count then count else r.1
  if res = -1 then
    if e.no_err then some (0, buf, r.2) else some (-1, buf, tis_make_unknown_errno r.2)
  else if res.toNat > buf.length then none
  else
    let u := tis_make_unknown_buf r.2 buf res.toNat
    some (res, u.1, u.2)

/-- The function `__mkfs_read`. -/
def __mkfs_read (e : Env) (s : State) (fd : Int) (buf : List Nat) (count : Nat) :
    Option (Int × List Nat × State) :=
  if fd < 0 ∨ fd ≥ e.FOPEN_MAX then some (-1, buf, { s with errno := e.EBADF })
  else
    match arr_get s.file_desc fd with
    | none => none
    | some d =>
      if d.fd_kind = 0 then some (-1, buf, { s with errno := e.EBADF })
      else if d.fd_kind = e.S_IFIFO ∨ d.fd_kind = e.S_IFCHR ∨ d.fd_kind = e.S_IFREG then
        read_file e s fd buf count
      else if d.fd_kind = e.S_IFDIR then some (-1, buf, { s with errno := e.EISDIR })
      else if d.fd_kind = e.S_IFSOCK then read_socket e s buf count
      else some (-1, buf, tis_make_unknown_errno s)

/-- The function `__mkfs_pread`. -/
def __mkfs_pread (e : Env) (s : State) (fd : Int) (buf : List Nat) (count : Nat)
    (offset : Int) : Option (Int × List Nat × State) :=
  local_pread e s fd buf count offset

/-! ## Writing -/

/-- The function `write__mkfs_data` for the open-file record number `idx`;
`buf` lists the `count` bytes to write.  The `int` result must hold `count`
(assertion `mkfs_pwrite_ok`), and the copy must stay inside the row
(assertion `file_fits_2`). -/
def write__mkfs_data (e : Env) (s : State) (idx : Int) (offset : Int) (buf : List Nat) :
    Option (Int × State) :=
  match file_info_file s idx with
  | none => none
  | some (_, fr, f) =>
    if buf.length > e.INT_MAX then none
    else
      match f.data with
      | some p =>
        match file_stat s f with
        | none => none
        | some _ =>
          if offset < 0 ∨ offset.toNat + buf.length > TIS_FSIZE e then none
          else
            match s.mkfs_data_table[p]? with
            | none => none
            | some row =>
              let tbl := s.mkfs_data_table.set p (row_write row offset.toNat buf)
              some (buf.length, { s with mkfs_data_table := tbl })
      | none =>
        let printed := buf.takeWhile (fun b => b != 0)
        if fr = FileRef.fs_stdout then
          some (buf.length, { s with out_stream := s.out_stream ++ printed })
        else if fr = FileRef.fs_stderr then
          some (buf.length, { s with err_stream := s.err_stream ++ printed })
        else some (buf.length, s)

/-- The statements of `local_pwrite` that follow the choice of the offset:
the copy, the zero fill of the hole and the update of the size.  `idx` is the
open-file record `file_info` points to. -/
def local_pwrite_at (e : Env) (s1 : State) (idx : Int) (buf : List Nat) (off : Int) :
    Option (Int × State) :=
  match write__mkfs_data e s1 idx off buf with
  | none => none
  | some (ret2, s2) =>
    if ret2 = -1 then some (-1, s2)
    else
      match file_info_stat s2 idx with
      | none => none
      | some (_, _, f, sr, st) =>
        let filled : Option State :=
          match f.data with
          | some p =>
            if off > st.st_size then
              if st.st_size < 0 then none
              else
                match s2.mkfs_data_table[p]? with
                | none => none
                | some row =>
                  let hole := row_zero row st.st_size.toNat (off - st.st_size).toNat
                  some { s2 with mkfs_data_table := s2.mkfs_data_table.set p hole }
            else some s2
          | none => some s2
        match filled with
        | none => none
        | some s3 =>
          let sum := to_size_t e (off + buf.length)
          if sum > to_size_t e st.st_size then
            if sum > e.OFF_MAX then none
            else
              (set_stat s3 sr { st with st_size := sum }).map
                (fun s4 => ((buf.length : Int), s4))
          else some (buf.length, s3)

/-- The function `local_pwrite`; `buf` lists the `count` bytes to write. -/
def local_pwrite (e : Env) (s : State) (fd : Int) (buf : List Nat) (offset : Int) :
    Option (Int × State) :=
  if offset < 0 then some (-1, { s with errno := e.EINVAL })
  else
    match __mkfs_check_fd_file_ok_for_writing e s fd with
    | none => none
    | some (ret, s1) =>
      if ret = -1 then some (-1, s1)
      else
        match __mkfs_get_file_info e s1 fd with
        | none => none
        | some fi =>
          if buf.length = 0 then some (0, s1)
          else
            match fi with
            | none => none
            | some idx =>
              match file_info_file s1 idx with
              | none => none
              | some (info, _, f0) =>
                match (if info.flags &&& e.O_APPEND ≠ 0
                       then (file_stat s1 f0).map (fun r => r.2.st_size)
                       else some offset) with
                | none => none
                | some off => local_pwrite_at e s1 idx buf off

/-- The function `write_file`. -/
def write_file (e : Env) (s : State) (fd : Int) (buf : List Nat) : Option (Int × State) :=
  match __mkfs_get_file_info e s fd with
  | none => none
  | some none => none
  | some (some idx) =>
    match arr_get s.opened_files idx with
    | none => none
    | some info =>
      if info.position < 0 ∨ info.position > e.OFF_MAX then none
      else
        match local_pwrite e s fd buf info.position with
        | none => none
        | some (n_write, s1) =>
          if n_write > 0 then
            match file_info_stat s1 idx with
            | none => none
            | some (info1, _, _, _, st) =>
              let pos := if info1.flags &&& e.O_APPEND ≠ 0 then st.st_size
                         else info1.position + n_write
              match arr_set s1.opened_files idx { info1 with position := pos } with
              | none => none
              | some ofs => some (n_write, { s1 with opened_files := ofs })
          else some (n_write, s1)

/-- The function `write_socket`. -/
def write_socket (e : Env) (s : State) (count : Nat) : Option (Int × State) :=
  let r := tis_next s
  let res : Int := if r.1 < -1 then -1 else if r.1 > count then count else r.1
  if res = -1 then
    if e.no_err then some (0, r.2) else some (-1, tis_make_unknown_errno r.2)
  else some (res, r.2)

/-- The function `__mkfs_write`. -/
def __mkfs_write (e : Env) (s : State) (fd : Int) (buf : List Nat) : Option (Int × State) :=
  match __mkfs_check_fd_file_ok_for_writing e s fd with
  | none => none
  | some (ret, s1) =>
    if ret = -1 then some (-1, s1)
    else
      match arr_get s1.file_desc fd with
      | none => none
      | some d =>
        if d.fd_kind = 0 then some (-1, { s1 with errno := e.EBADF })
        else if d.fd_kind = e.S_IFIFO ∨ d.fd_kind = e.S_IFCHR ∨ d.fd_kind = e.S_IFREG then
          write_file e s1 fd buf
        else if d.fd_kind = e.S_IFDIR then some (-1, { s1 with errno := e.EISDIR })
        else if d.fd_kind = e.S_IFSOCK then write_socket e s1 buf.length
        else some (-1, tis_make_unknown_errno s1)

/-- The function `__mkfs_pwrite`. -/
def __mkfs_pwrite (e : Env) (s : State) (fd : Int) (buf : List Nat) (offset : Int) :
    Option (Int × State) :=
  local_pwrite e s fd buf offset

/-! ## Offsets -/

/-- The function `__mkfs_seekable`. -/
def __mkfs_seekable (e : Env) (s : State) (fd : Int) : Option (Int × State) :=
  if fd < 0 ∨ fd ≥ e.FOPEN_MAX then some (-1, { s with errno := e.EBADF })
  else
    match arr_get s.file_desc fd with
    | none => none
    | some d =>
      if d.fd_kind ≠ e.S_IFREG then some (-1, { s with errno := e.EBADF })
      else
        let r := RETURN_RANDOM_ERROR e s
        if r.1 then some (-1, r.2) else some (0, r.2)

/-- The function `__mkfs_lseek`.  A sum that `off_t` cannot hold has no
defined result. -/
def __mkfs_lseek (e : Env) (s : State) (fd : Int) (offset : Int) (whence : Int) :
    Option (Int × State) :=
  match __mkfs_seekable e s fd with
  | none => none
  | some (r, s1) =>
    if r = -1 then some (-1, s1)
    else
      match __mkfs_get_file_info e s1 fd with
      | none => none
      | some fi =>
        let new_off : Option (Option Int) :=
          if whence = e.SEEK_SET then some (some offset)
          else if whence = e.SEEK_END then
            match fi with
            | none => none
            | some idx => (file_info_stat s1 idx).map (fun t => some (t.2.2.2.2.st_size + offset))
          else if whence = e.SEEK_CUR then
            match fi with
            | none => none
            | some idx => (arr_get s1.opened_files idx).map (fun i => some (i.position + offset))
          else some none
        match new_off with
        | none => none
        | some none => some (-1, { s1 with errno := e.EINVAL })
        | some (some n) =>
          if n > e.OFF_MAX ∨ n < -(e.OFF_MAX : Int) - 1 then none
          else if n < 0 then some (-1, { s1 with errno := e.EINVAL })
          else
            match fi with
            | none => none
            | some idx =>
              match arr_get s1.opened_files idx with
              | none => none
              | some info =>
                match arr_set s1.opened_files idx { info with position := n } with
                | none => none
                | some ofs => some (n, { s1 with opened_files := ofs })

/-! ## Truncation -/

/-- The function `__mkfs_ftruncate`. -/
def __mkfs_ftruncate (e : Env) (s : State) (fd : Int) (length : Int) : Option (Int × State) :=
  match __mkfs_check_fd_file_ok_for_writing e s fd with
  | none => none
  | some (ret, s1) =>
    if ret = -1 then some (-1, s1)
    else
      match __mkfs_get_file_info e s1 fd with
      | none => none
      | some none => none
      | some (some idx) =>
        match file_info_stat s1 idx with
        | none => none
        | some (_, _, _, _, st0) =>
          let r := stat_access e s1 st0 e.W_OK
          if r.1 ≠ 0 then some (r.1, r.2)
          else if length < 0 then some (-1, { r.2 with errno := e.EINVAL })
          else
            match file_info_stat r.2 idx with
            | none => none
            | some (_, _, f, sr, st) =>
              let resized : Option State :=
                match f.data with
                | some p =>
                  -- realloc_data (data, length): assertion file_fits_2
                  if length.toNat > TIS_FSIZE e then none
                  else if length > st.st_size then
                    if st.st_size < 0 then none
                    else
                      match r.2.mkfs_data_table[p]? with
                      | none => none
                      | some row =>
                        let tail := row_zero row st.st_size.toNat (length - st.st_size).toNat
                        some { r.2 with mkfs_data_table := r.2.mkfs_data_table.set p tail }
                  else some r.2
                | none => some r.2
              match resized with
              | none => none
              | some s2 =>
                (set_stat s2 sr { st with st_size := length }).map (fun s3 => ((0 : Int), s3))

/-- The function `__mkfs_truncate`. -/
def __mkfs_truncate (e : Env) (s : State) (filename : String) (length : Int) :
    Option (Int × State) :=
  match __mkfs_get_file s filename with
  | none => some (-1, { s with errno := e.ENOENT })
  | some i =>
    match get_fs_file s (FileRef.fs_files i) with
    | none => none
    | some f =>
      match file_stat s f with
      | none => none
      | some (sr, st) =>
        let r := stat_access e s st e.W_OK
        if r.1 ≠ 0 then some (r.1, r.2)
        else
          match set_stat r.2 sr { st with st_size := length } with
          | none => none
          | some s1 =>
            (set_fs_file s1 (FileRef.fs_files i) { f with content := none }).map
              (fun s2 => ((0 : Int), s2))

/-! ## Closing -/

/-- The function `close_file`. -/
def close_file (e : Env) (s : State) (fd : Int) : Option (Int × State) :=
  match __mkfs_get_file_info e s fd with
  | none => none
  | some fi =>
    match __mkfs_check_fd_file_ok e s fd with
    | none => none
    | some (res, s1) =>
      if res = -1 then some (-1, s1)
      else
        match arr_get s1.file_desc fd with
        | none => none
        | some d =>
          match arr_set s1.file_desc fd { d with fd_kind := 0 } with
          | none => none
          | some fds =>
            match fi with
            | none => none
            | some idx =>
              match arr_get s1.opened_files idx with
              | none => none
              | some info =>
                match arr_set s1.opened_files idx { info with file := none } with
                | none => none
                | some ofs => some (0, { s1 with file_desc := fds, opened_files := ofs })

/-- The call `free (p)` on a file-object pointer: only objects obtained from
`calloc` can be released, `free (NULL)` does nothing. -/
def free_fs_file (s : State) : Option FileRef → Option State
  | none => some s
  | some (FileRef.heap k) =>
    match (s.heap_files[k]?).bind id with
    | some _ => some { s with heap_files := s.heap_files.set k none }
    | none => none
  | some _ => none

/-- The function `close_fifo`. -/
def close_fifo (e : Env) (s : State) (fd : Int) : Option (Int × State) :=
  match __mkfs_get_file_info e s fd with
  | none => none
  | some fi =>
    match close_file e s fd with
    | none => none
    | some (res, s1) =>
      if res = 0 then
        match fi with
        | none => none
        | some idx =>
          match arr_get s1.opened_files idx with
          | none => none
          | some info =>
            match free_fs_file s1 info.file with
            | none => none
            | some s2 =>
              match arr_set s2.opened_files idx { info with file := none } with
              | none => none
              | some ofs => some (res, { s2 with opened_files := ofs })
      else some (res, s1)

/-- The function `close_dir`. -/
def close_dir (e : Env) (s : State) (fd : Int) : Option (Int × State) :=
  match __mkfs_get_dir_info e s fd with
  | none => none
  | some none => some (-1, s)
  | some (some idx) =>
    match arr_get s.opendir idx with
    | none => none
    | some dir =>
      match arr_set s.opendir idx { dir with dir_inode := none } with
      | none => none
      | some dirs =>
        match arr_get s.file_desc fd with
        | none => none
        | some d =>
          match arr_set s.file_desc fd { d with fd_kind := 0 } with
          | none => none
          | some fds => some (0, { s with opendir := dirs, file_desc := fds })

/-- The function `close_socket`; the address buffer is released, the pointer
field keeps its value. -/
def close_socket (e : Env) (s : State) (fd : Int) : Option (Int × State) :=
  match __mkfs_check_fd_socket_ok e s fd with
  | none => none
  | some (ret, s1) =>
    if ret ≠ 0 then some (-1, s1)
    else
      match __mkfs_get_socket_info e s1 fd with
      | none => none
      | some none => some (-1, s1)
      | some (some _) =>
        match arr_get s1.file_desc fd with
        | none => none
        | some d =>
          match arr_set s1.file_desc fd { d with fd_kind := 0 } with
          | none => none
          | some fds => some (0, { s1 with file_desc := fds })

/-- The function `__mkfs_close`. -/
def __mkfs_close (e : Env) (s : State) (fd : Int) : Option (Int × State) :=
  if fd < 0 ∨ fd ≥ e.FOPEN_MAX then some (-1, { s with errno := e.EBADF })
  else
    match arr_get s.file_desc fd with
    | none => none
    | some d =>
      if d.fd_kind = 0 then some (-1, { s with errno := e.EBADF })
      else if d.fd_kind = e.S_IFIFO then close_fifo e s fd
      else if d.fd_kind = e.S_IFREG then close_file e s fd
      else if d.fd_kind = e.S_IFDIR then close_dir e s fd
      else if d.fd_kind = e.S_IFSOCK then close_socket e s fd
      else if d.fd_kind = e.S_IFCHR then
        match arr_set s.file_desc fd { d with fd_kind := 0 } with
        | none => none
        | some fds => some (0, { s with file_desc := fds })
      else some (-1, tis_make_unknown_errno s)

/-! ## Duplication -/

/-- The function `__mkfs_dup2`: when `newfd` is in use it is closed first (the
result of that `close` is dropped), then the kind and the index of the slot
`oldfd` are copied to the slot `newfd`. -/
def __mkfs_dup2 (e : Env) (s : State) (oldfd newfd : Int) : Option (Int × State) :=
  let r := __mkfs_check_fd_ok e s oldfd
  if r.1 = -1 then some (-1, r.2)
  else
    match arr_get s.file_desc oldfd with
    | none => none
    | some d =>
      if d.fd_kind = 0 then some (-1, { s with errno := e.EBADF })
      else
        let r2 := __mkfs_check_fd_ok e s newfd
        if r2.1 = -1 then some (-1, r2.2)
        else if newfd = oldfd then some (newfd, s)
        else
          match arr_get s.file_desc newfd with
          | none => none
          | some dn =>
            match (if dn.fd_kind ≠ 0 then (__mkfs_close e s newfd).map Prod.snd else some s) with
            | none => none
            | some s1 =>
              match arr_get s1.file_desc oldfd with
              | none => none
              | some dold =>
                match arr_set s1.file_desc newfd
                    { fd_kind := dold.fd_kind, fd_index := dold.fd_index } with
                | none => none
                | some fds => some (newfd, { s1 with file_desc := fds })

/-! ## Descriptor control -/

/-- The function `__mkfs_fcntl`; `cmd` is the command, the variadic arguments
are not read.  Outside `F_GETFL` the result is an unknown value. -/
def __mkfs_fcntl (e : Env) (s : State) (fd : Int) (cmd : Int) : Option (Int × State) :=
  match __mkfs_check_fd_file_ok e s fd with
  | none => none
  | some (ret, s1) =>
    if ret ≠ 0 then some (ret, s1)
    else if cmd = e.F_GETFL then
      match __mkfs_get_file_info e s1 fd with
      | none => none
      | some none => none
      | some (some idx) =>
        match arr_get s1.opened_files idx with
        | none => none
        | some info => some ((info.flags : Int), s1)
    else
      let r := tis_next s1
      if r.1 ≠ 0 then some (-1, tis_make_unknown_errno r.2)
      else some (tis_next r.2)

/-! ## Memory mappings -/

/-- The macro `MAP_FAILED`, the address `(void *) -1`. -/
def MAP_FAILED : Int := -1

/-- The block of bytes at address `addr`; `none` for NULL, for `MAP_FAILED`,
for a freed block and for an address that `malloc` did not return. -/
def region_load (s : State) (addr : Int) : Option (List Nat) :=
  if addr ≤ 0 then none else (s.map_heap[(addr - 1).toNat]?).bind id

/-- A store of the program through a mapped address: `bytes` are written at
offset `off` of the block at `addr`; no defined result outside the block. -/
def region_store (s : State) (addr : Int) (off : Nat) (bytes : List Nat) : Option State :=
  match region_load s addr with
  | none => none
  | some blk =>
    if off + bytes.length ≤ blk.length then
      some { s with map_heap := s.map_heap.set (addr - 1).toNat (some (row_write blk off bytes)) }
    else none

/-- The call `free (addr)` on the address of a mapping: `free (NULL)` does
nothing, only a live block can be released. -/
def map_free (s : State) (addr : Int) : Option State :=
  if addr = 0 then some s
  else
    match region_load s addr with
    | none => none
    | some _ => some { s with map_heap := s.map_heap.set (addr - 1).toNat none }

/-- The scan of `find_data_map`: `n` iterations remain, `i` is the current
index; the inner option is the entry found or NULL. -/
def find_data_map_loop (s : State) (data : Option Nat) : Nat → Nat → Option (Option Nat)
  | 0, _ => some none
  | n + 1, i =>
    match s.maps[i]? with
    | none => none
    | some m => if m.data = data then some (some i) else find_data_map_loop s data n (i + 1)

/-- The function `find_data_map`: the first of the `nb_used` entries whose
`data` is the given buffer, whatever its other fields. -/
def find_data_map (s : State) (data : Option Nat) : Option (Option Nat) :=
  find_data_map_loop s data s.maps_nb_used 0

/-- The scan of `find_addr_map`. -/
def find_addr_map_loop (s : State) (addr : Int) (length : Nat) :
    Nat → Nat → Option (Option Nat)
  | 0, _ => some none
  | n + 1, i =>
    match s.maps[i]? with
    | none => none
    | some m =>
      if m.addr = addr ∧ m.length = length then some (some i)
      else find_addr_map_loop s addr length n (i + 1)

/-- The function `find_addr_map`: the first of the `nb_used` entries with the
given address and length. -/
def find_addr_map (s : State) (addr : Int) (length : Nat) : Option (Option Nat) :=
  find_addr_map_loop s addr length s.maps_nb_used 0

/-- The function `add_map` (`MMAP_MAX` is `FOPEN_MAX`).  Outside the
`__TIS_MKFS_NO_ERR` build `malloc` may return NULL; the stream of unknown
values decides.  The new block is filled by `memcpy (addr, data, length)`. -/
def add_map (e : Env) (s : State) (data : Option Nat) (length : Nat)
    (shared need_sync : Bool) : Option (Int × State) :=
  match (if shared then find_data_map s data else some none) with
  | none => none
  | some (some i) =>
    match s.maps[i]? with
    | none => none
    | some m => some (m.addr, s)
  | some none =>
    if s.maps_nb_used ≥ e.FOPEN_MAX then some (MAP_FAILED, { s with errno := e.ENOMEM })
    else
      let m := s.maps_nb_used
      let s1 := { s with maps_nb_used := m + 1 }
      let a := if e.no_err then ((0 : Int), s1) else tis_next s1
      if a.1 ≠ 0 then some (MAP_FAILED, { a.2 with errno := e.ENOMEM })
      else
        match data with
        | none => none
        | some p =>
          match a.2.mkfs_data_table[p]? with
          | none => none
          | some row =>
            if length ≤ TIS_FSIZE e then
              let addr : Int := (a.2.map_heap.length : Int) + 1
              match arr_set a.2.maps m
                  { data := data, addr := addr, length := length, shared := shared,
                    need_sync := need_sync } with
              | none => none
              | some tbl =>
                some (addr, { a.2 with maps := tbl,
                                       map_heap := a.2.map_heap ++ [some (row_read row 0 length)] })
            else none

/-- The function `__mkfs_check_mmap_prot`. -/
def __mkfs_check_mmap_prot (e : Env) (s : State) (fd : Int) (prot : Int) :
    Option (Int × State) :=
  match __mkfs_check_fd_file_ok_for_reading e s fd with
  | none => none
  | some (ret, s1) =>
    if ret ≠ 0 then some (ret, s1)
    else if prot = e.PROT_NONE then some (-1, s1)
    else if land_int prot e.PROT_WRITE ≠ 0 then __mkfs_check_fd_file_ok_for_writing e s1 fd
    else some (0, s1)

/-- The function `__mkfs_mmap`.  The test written
`flags & MAP_SHARED == flags & MAP_PRIVATE` is parsed by C as
`(flags & (MAP_SHARED == flags)) & MAP_PRIVATE`, since `==` binds tighter than
`&`; the test that follows it guards an analyser warning only. -/
def __mkfs_mmap (e : Env) (s : State) (_addr : Int) (length : Nat) (prot flags : Int)
    (fd : Int) (offset : Int) : Option (Int × State) :=
  if land_int flags e.MAP_FIXED ≠ 0 then some (MAP_FAILED, s)
  else if offset ≠ 0 then some (MAP_FAILED, s)
  else
    match __mkfs_get_file_info e s fd with
    | none => none
    | some none => none
    | some (some idx) =>
      match file_info_stat s idx with
      | none => none
      | some (_, _, _, _, st) =>
        if length ≠ to_size_t e st.st_size then some (MAP_FAILED, s)
        else
          match __mkfs_check_mmap_prot e s fd prot with
          | none => none
          | some (ret, s1) =>
            if ret ≠ 0 then some (MAP_FAILED, s1)
            else if (land_int flags (if (e.MAP_SHARED : Int) = flags then 1 else 0))
                &&& e.MAP_PRIVATE ≠ 0 then
              some (MAP_FAILED, { s1 with errno := e.EINVAL })
            else
              let r := RETURN_RANDOM_ERROR e s1
              if r.1 then some (MAP_FAILED, r.2)
              else
                match file_info_file r.2 idx with
                | none => none
                | some (_, _, f) =>
                  if land_int flags e.MAP_SHARED ≠ 0 then
                    add_map e r.2 f.data length true (land_int prot e.PROT_WRITE ≠ 0)
                  else add_map e r.2 f.data length false false

/-- The body of `msync_map_to_file`, `memcpy (map->data, map->addr,
map->length)`, for the entry number `i` of the table. -/
def memcpy_map_to_file (e : Env) (s : State) (i : Nat) : Option State :=
  match s.maps[i]? with
  | none => none
  | some m =>
    match m.data with
    | none => none
    | some p =>
      match region_load s m.addr with
      | none => none
      | some blk =>
        match s.mkfs_data_table[p]? with
        | none => none
        | some row =>
          if m.length ≤ blk.length ∧ m.length ≤ TIS_FSIZE e then
            some { s with mkfs_data_table :=
                            s.mkfs_data_table.set p (row_write row 0 (blk.take m.length)) }
          else none

/-- The function `msync_map_to_file`; a call that violates its precondition
`map->need_sync` has no defined result. -/
def msync_map_to_file (e : Env) (s : State) (i : Nat) : Option State :=
  match s.maps[i]? with
  | none => none
  | some m => if m.need_sync then memcpy_map_to_file e s i else none

/-- The function `__mkfs_munmap`. -/
def __mkfs_munmap (e : Env) (s : State) (addr : Int) (length : Nat) : Option (Int × State) :=
  let r := RETURN_RANDOM_ERROR e s
  if r.1 then some (-1, r.2)
  else
    match find_addr_map r.2 addr length with
    | none => none
    | some none => some (-1, r.2)
    | some (some i) =>
      match r.2.maps[i]? with
      | none => none
      | some m =>
        match (if m.need_sync then msync_map_to_file e r.2 i else some r.2) with
        | none => none
        | some s1 =>
          match map_free s1 m.addr with
          | none => none
          | some s2 =>
            some (0, { s2 with maps :=
                                 s2.maps.set i { m with data := none, addr := 0, length := 0 } })

/-- The function `msync`.  The second test, written
`flags != flags & (MS_ASYNC & MS_SYNC & MS_INVALIDATE)`, is parsed by C as
`(flags != flags) & (...)`; the assertion under `MS_INVALIDATE` is `\false`. -/
def msync (e : Env) (s : State) (addr : Int) (length : Nat) (flags : Int) :
    Option (Int × State) :=
  if land_int flags e.MS_ASYNC = land_int flags e.MS_SYNC then
    some (-1, { s with errno := e.EINVAL })
  else if (if flags ≠ flags then 1 else 0) &&& (e.MS_ASYNC &&& e.MS_SYNC &&& e.MS_INVALIDATE)
      ≠ 0 then
    some (-1, { s with errno := e.EINVAL })
  else if land_int flags e.MS_INVALIDATE ≠ 0 then none
  else
    match find_addr_map s addr length with
    | none => none
    | some none => some (-1, { s with errno := e.ENOMEM })
    | some (some i) => (msync_map_to_file e s i).map (fun s1 => ((0 : Int), s1))

/-! ## Paths, directories and sockets -/

/-! ## Metadata by path -/

/-- The scan of `__mkfs_get_dir` over `__mkfs_fs_dirs[i ..]`. -/
def __mkfs_get_dir_loop (path : String) : List mkfs_fs_dir → Nat → Option Nat
  | [], _ => none
  | d :: rest, i =>
    if d.fullpath = some path then some i else __mkfs_get_dir_loop path rest (i + 1)

/-- The function `__mkfs_get_dir`: the index of the first directory named
`path`. -/
def __mkfs_get_dir (s : State) (path : String) : Option Nat :=
  __mkfs_get_dir_loop path s.fs_dirs 0

/-- The function `__mkfs_stat`; the second component is the record copied to
`*buf` (none when nothing is copied). -/
def __mkfs_stat (e : Env) (s : State) (pathname : String) :
    Option (Int × Option Stat × State) :=
  match __mkfs_get_file s pathname with
  | some i =>
    let r := RETURN_RANDOM_ERROR e s
    if r.1 then some (-1, none, r.2)
    else
      match get_fs_file r.2 (FileRef.fs_files i) with
      | none => none
      | some f =>
        match file_stat r.2 f with
        | none => none
        | some (_, st) => some (0, some st, r.2)
  | none =>
    match __mkfs_get_dir s pathname with
    | some j =>
      let r := RETURN_RANDOM_ERROR e s
      if r.1 then some (-1, none, r.2)
      else
        match r.2.fs_dirs[j]? with
        | none => none
        | some d =>
          match d.stat with
          | none => none
          | some sr =>
            match get_stat r.2 sr with
            | none => none
            | some st => some (0, some st, r.2)
    | none =>
      let r := RETURN_RANDOM_ERROR e s
      if r.1 then some (-1, none, r.2) else some (-1, none, { r.2 with errno := e.ENOENT })

/-- The function `__mkfs_access`.  The test written
`mode & (R_OK | W_OK | X_OK) != mode` is parsed by C as
`mode & ((R_OK | W_OK | X_OK) != mode)`, since `!=` binds tighter than `&`.
The call of `stat_access` must satisfy its precondition `tis_access_mode`,
`(mode & (R_OK | W_OK | X_OK)) == mode`, which the other calls of the sources,
with `R_OK` and `W_OK`, always do.  The function calls `stat`, which is
`__mkfs_stat` in the build without `__TIS_USER_STAT`. -/
def __mkfs_access (e : Env) (s : State) (pathname : String) (mode : Int) :
    Option (Int × State) :=
  if mode ≠ e.F_OK ∧
      land_int mode (if ((e.R_OK ||| e.W_OK ||| e.X_OK : Nat) : Int) ≠ mode then 1 else 0) ≠ 0 then
    some (-1, { s with errno := e.EINVAL })
  else
    match __mkfs_stat e s pathname with
    | none => none
    | some (ret, buf, s1) =>
      if ret = 0 then
        if mode = e.F_OK then some (0, s1)
        else
          match buf with
          | none => none
          | some st =>
            if (land_int mode (e.R_OK ||| e.W_OK ||| e.X_OK) : Int) = mode then
              some (stat_access e s1 st mode.toNat)
            else none
      else some (-1, tis_make_unknown_errno s1)

/-! ## Pushing a byte back -/

/-- The conversion of an `off_t` value to `int`, as in `int pos = ...`: the
value is kept when `int` can hold it, and wraps modulo `2 * (INT_MAX + 1)`
otherwise. -/
def to_int (e : Env) (x : Int) : Int :=
  (x + ((e.INT_MAX : Int) + 1)) % (2 * ((e.INT_MAX : Int) + 1)) - ((e.INT_MAX : Int) + 1)

/-- The function `__mkfs_ungetc`; the store `data[pos]` has no defined result
when `pos` is outside the row of the buffer. -/
def __mkfs_ungetc (e : Env) (s : State) (c : Int) (fd : Int) : Option (Int × State) :=
  match __mkfs_check_fd_file_ok_for_reading e s fd with
  | none => none
  | some (ret, s1) =>
    if ret ≠ 0 then some (e.EOF, s1)
    else
      match __mkfs_get_file_info e s1 fd with
      | none => none
      | some none => none
      | some (some idx) =>
        match file_info_file s1 idx with
        | none => none
        | some (info, _, f) =>
          let stored : Option (mkfs_file_info × State) :=
            match f.data with
            | some p =>
              let pos := to_int e (info.position - 1)
              if pos < 0 ∨ pos ≥ TIS_FSIZE e then none
              else
                match s1.mkfs_data_table[p]? with
                | none => none
                | some row =>
                  let tbl := s1.mkfs_data_table.set p (row_write row pos.toNat [(c % 256).toNat])
                  some ({ info with position := pos }, { s1 with mkfs_data_table := tbl })
            | none => some (info, s1)
          match stored with
          | none => none
          | some (info1, s2) =>
            match arr_set s2.opened_files idx { info1 with eof := 0 } with
            | none => none
            | some ofs =>
              let r := RETURN_RANDOM_ERROR e { s2 with opened_files := ofs }
              if r.1 then some (e.EOF, r.2) else some (c, r.2)

/-! ## Directories -/

/-- The function `__mkfs_check_fd_dir_ok`. -/
def __mkfs_check_fd_dir_ok (e : Env) (s : State) (fd : Int) : Option (Int × State) :=
  match __mkfs_get_dir_info e s fd with
  | none => none
  | some none => some (-1, { s with errno := e.EBADF })
  | some (some idx) =>
    match arr_get s.opendir idx with
    | none => none
    | some dir =>
      if dir.dir_id ≠ fd ∨ dir.dir_inode = none then some (-1, { s with errno := e.EBADF })
      else
        let r := RETURN_RANDOM_ERROR e s
        if r.1 then some (-1, r.2) else some (0, r.2)

/-- The function `opendir_fd`. -/
def opendir_fd (e : Env) (s : State) (pathname : String) : Option (Int × State) :=
  match __mkfs_get_dir s pathname with
  | none => some (-1, tis_make_unknown_errno s)
  | some j =>
    match s.fs_dirs[j]? with
    | none => none
    | some dir =>
      match dir.stat with
      | none => none
      | some sr =>
        match get_stat s sr with
        | none => none
        | some st =>
          let r := stat_access e s st e.R_OK
          if r.1 = -1 then some (-1, r.2)
          else
            match get_next_file_desc e r.2 with
            | none => none
            | some (fd, s1) =>
              if fd ≠ -1 then
                match arr_set s1.file_desc fd { fd_kind := e.S_IFDIR, fd_index := fd } with
                | none => none
                | some fds =>
                  match __mkfs_get_dir_info e { s1 with file_desc := fds } fd with
                  | none => none
                  | some none => none
                  | some (some idx) =>
                    match arr_set s1.opendir idx
                        { dir_id := fd, dir_position := 0, dir_inode := some sr,
                          dir_entries := dir.dir_entries } with
                    | none => none
                    | some dirs => some (fd, { s1 with file_desc := fds, opendir := dirs })
              else some (fd, s1)

/-- The function `__mkfs_opendir`: the result is the index of the `DIR` object
in `__fc_opendir`, or NULL. -/
def __mkfs_opendir (e : Env) (s : State) (path : String) : Option (Option Int × State) :=
  match opendir_fd e s path with
  | none => none
  | some (fd, s1) =>
    if fd ≠ -1 then
      match __mkfs_get_dir_info e s1 fd with
      | none => none
      | some d => some (d, s1)
    else some (none, s1)

/-- The function `__mkfs_readdir` on the `DIR` object number `dirp` of
`__fc_opendir`; the result is the entry returned, or NULL.  The read of
`dirs[position]` has no defined result behind the null sentinel. -/
def __mkfs_readdir (e : Env) (s : State) (dirp : Int) : Option (Option String × State) :=
  match arr_get s.opendir dirp with
  | none => none
  | some d0 =>
    match __mkfs_check_fd_dir_ok e s d0.dir_id with
    | none => none
    | some (res, s1) =>
      if res ≠ 0 then some (none, s1)
      else
        match arr_get s1.opendir dirp with
        | none => none
        | some d =>
          match d.dir_entries with
          | none => none
          | some es =>
            if d.dir_position < 0 ∨ d.dir_position > es.length then none
            else
              match es[d.dir_position.toNat]? with
              | none => some (none, s1)
              | some ent =>
                match arr_set s1.opendir dirp { d with dir_position := d.dir_position + 1 } with
                | none => none
                | some dirs => some (some ent, { s1 with opendir := dirs })

/-- The results of `n` successive calls of `readdir` on the `DIR` object number
`dirp`, in order, with the state after the last one. -/
def readdir_times (e : Env) (dirp : Int) : Nat → State → Option (List (Option String) × State)
  | 0, s => some ([], s)
  | n + 1, s =>
    match __mkfs_readdir e s dirp with
    | none => none
    | some (r, s1) =>
      match readdir_times e dirp n s1 with
      | none => none
      | some (rs, s2) => some (r :: rs, s2)

/-! ## Sockets -/

/-- The function `__mkfs_socket`. -/
def __mkfs_socket (e : Env) (s : State) (domain type protocol : Int) : Option (Int × State) :=
  match get_next_file_desc e s with
  | none => none
  | some (fd, s1) =>
    if fd ≠ -1 then
      match arr_set s1.file_desc fd { fd_kind := e.S_IFSOCK, fd_index := fd } with
      | none => none
      | some fds =>
        match __mkfs_get_socket_info e { s1 with file_desc := fds } fd with
        | none => none
        | some none => none
        | some (some idx) =>
          match arr_set s1.opened_socket idx
              { sock_addr := none, sock_addrlen := 0, sock_domain := domain,
                sock_type := type, sock_protocol := protocol } with
          | none => none
          | some socks => some (fd, { s1 with file_desc := fds, opened_socket := socks })
    else some (fd, s1)

/-! ## Calls of the interface -/

/-- A call of one of the functions of the interface, with its arguments, or a
store of the program through a mapped address. -/
inductive Call where
  | open (path : String) (flags mode : Nat) : Call
  | creat (path : String) (mode : Nat) : Call
  | close (fd : Int) : Call
  | dup2 (oldfd newfd : Int) : Call
  | read (fd : Int) (buf : List Nat) (count : Nat) : Call
  | pread (fd : Int) (buf : List Nat) (count : Nat) (offset : Int) : Call
  | write (fd : Int) (buf : List Nat) : Call
  | pwrite (fd : Int) (buf : List Nat) (offset : Int) : Call
  | lseek (fd : Int) (offset whence : Int) : Call
  | ftruncate (fd : Int) (length : Int) : Call
  | truncate (path : String) (length : Int) : Call
  | fcntl (fd : Int) (cmd : Int) : Call
  | stat (path : String) : Call
  | access (path : String) (mode : Int) : Call
  | ungetc (c : Int) (fd : Int) : Call
  | socket (domain type protocol : Int) : Call
  | opendir (path : String) : Call
  | readdir (dirp : Int) : Call
  | mmap (addr : Int) (length : Nat) (prot flags : Int) (fd : Int) (offset : Int) : Call
  | munmap (addr : Int) (length : Nat) : Call
  | msync (addr : Int) (length : Nat) (flags : Int) : Call
  | store (addr : Int) (off : Nat) (bytes : List Nat) : Call

/-- The state after a call (`none` when the call has no defined result). -/
def run_call (e : Env) (s : State) : Call → Option State
  | Call.open path flags mode => (__mkfs_open e s path flags mode).map Prod.snd
  | Call.creat path mode => (__mkfs_creat e s path mode).map Prod.snd
  | Call.close fd => (__mkfs_close e s fd).map Prod.snd
  | Call.dup2 a b => (__mkfs_dup2 e s a b).map Prod.snd
  | Call.read fd buf count => (__mkfs_read e s fd buf count).map (fun r => r.2.2)
  | Call.pread fd buf count offset => (__mkfs_pread e s fd buf count offset).map (fun r => r.2.2)
  | Call.write fd buf => (__mkfs_write e s fd buf).map Prod.snd
  | Call.pwrite fd buf offset => (__mkfs_pwrite e s fd buf offset).map Prod.snd
  | Call.lseek fd offset whence => (__mkfs_lseek e s fd offset whence).map Prod.snd
  | Call.ftruncate fd length => (__mkfs_ftruncate e s fd length).map Prod.snd
  | Call.truncate path length => (__mkfs_truncate e s path length).map Prod.snd
  | Call.fcntl fd cmd => (__mkfs_fcntl e s fd cmd).map Prod.snd
  | Call.stat path => (__mkfs_stat e s path).map (fun r => r.2.2)
  | Call.access path mode => (__mkfs_access e s path mode).map Prod.snd
  | Call.ungetc c fd => (__mkfs_ungetc e s c fd).map Prod.snd
  | Call.socket domain type protocol => (__mkfs_socket e s domain type protocol).map Prod.snd
  | Call.opendir path => (__mkfs_opendir e s path).map Prod.snd
  | Call.readdir dirp => (__mkfs_readdir e s dirp).map Prod.snd
  | Call.mmap addr length prot flags fd offset =>
    (__mkfs_mmap e s addr length prot flags fd offset).map Prod.snd
  | Call.munmap addr length => (__mkfs_munmap e s addr length).map Prod.snd
  | Call.msync addr length flags => (msync e s addr length flags).map Prod.snd
  | Call.store addr off bytes => region_store s addr off bytes

/-- The state after a sequence of calls. -/
def run_calls (e : Env) : State → List Call → Option State
  | s, [] => some s
  | s, c :: rest =>
    match run_call e s c with
    | none => none
    | some s1 => run_calls e s1 rest

/-! ## Start-up -/

/-- The globals before any code runs: static storage is zero, the generated
file of the repository declares no file, and `nb_max` is the value given to
`__mkfs_fs_files_nb_max` (option `-nb-max-created-files` of the generator). -/
def zero_state (e : Env) (nb_max : Nat) (unknowns : List Int) : State :=
  let z : mkfs_fs_file := { fullpath := none, stat := none, content := none, data := none }
  { errno := 0, nondet := unknowns,
    file_desc := List.replicate e.FOPEN_MAX { fd_kind := 0, fd_index := 0 },
    opened_files := List.replicate e.FOPEN_MAX
      { position := 0, error := 0, eof := 0, flags := 0, file := none },
    next_file_index := 0,
    fs_files := [], fs_files_nb_max := nb_max,
    fs_stdin := z, fs_stdout := z, fs_stderr := z,
    heap_files := [],
    inode_table := List.replicate e.FOPEN_MAX
      { st_ino := 0, st_mode := 0, st_uid := 0, st_gid := 0, st_size := 0, st_nlink := 0,
        st_dev := 0, st_blksize := 0 },
    next_inode_index := 0, image_stats := [], next_inode := 0,
    mkfs_data_table := List.replicate e.FOPEN_MAX [],
    opendir := List.replicate e.FOPEN_MAX
      { dir_id := 0, dir_position := 0, dir_inode := none, dir_entries := none },
    opened_socket := List.replicate e.FOPEN_MAX
      { sock_addr := none, sock_addrlen := 0, sock_domain := 0, sock_type := 0,
        sock_protocol := 0 },
    out_stream := [], err_stream := [],
    maps := List.replicate e.FOPEN_MAX
      { data := none, addr := 0, length := 0, shared := false, need_sync := false },
    maps_nb_used := 0, map_heap := [], fs_dirs := [] }

/-- The constructor `__mkfs_init_stdio`, for an image without an entry named
`tis-mkfs-stdin` (with such an entry the buffer of the standard input is the
provider's own storage, which the embedding does not represent). -/
def __mkfs_init_stdio (e : Env) (s : State) : Option State :=
  match mk_inode e s (e.S_IFCHR ||| e.S_IRUSR ||| e.S_IRGRP ||| e.S_IROTH) with
  | none => none
  | some (st0, s1) =>
    match __mkfs_get_file s1 "tis-mkfs-stdin" with
    | some _ => none
    | none =>
      let s2 := { s1 with fs_stdin := { s1.fs_stdin with stat := some st0 } }
      match init_fd_file e s2 0 e.S_IFCHR e.O_RDONLY (some FileRef.fs_stdin) with
      | none => none
      | some (_, s3) =>
        let w_mode := e.S_IFCHR ||| e.S_IWUSR ||| e.S_IWGRP ||| e.S_IWOTH
        match mk_inode e s3 w_mode with
        | none => none
        | some (st1, s4) =>
          let s5 := { s4 with fs_stdout := { s4.fs_stdout with stat := some st1 } }
          match init_fd_file e s5 1 e.S_IFCHR e.O_WRONLY (some FileRef.fs_stdout) with
          | none => none
          | some (_, s6) =>
            match mk_inode e s6 w_mode with
            | none => none
            | some (st2, s7) =>
              let s8 := { s7 with fs_stderr := { s7.fs_stderr with stat := some st2 } }
              (init_fd_file e s8 2 e.S_IFCHR e.O_WRONLY (some FileRef.fs_stderr)).map
                (fun r => r.2)

/-- A sample configuration with the values of a Linux C library and eight
descriptors; `ne` is the switch `__TIS_MKFS_NO_ERR`, `u` and `eu` the real and
effective user ids. -/
def sample_env (ne : Bool) (u eu : Nat) : Env :=
  { no_err := ne, FOPEN_MAX := 8, INT_MAX := 2147483647,
    OFF_MAX := 9223372036854775807, SIZE_MAX := 18446744073709551615,
    O_RDONLY := 0, O_WRONLY := 1, O_RDWR := 2, O_CREAT := 64, O_EXCL := 128,
    O_TRUNC := 512, O_APPEND := 1024,
    S_IFMT := 61440, S_IFREG := 32768, S_IFDIR := 16384, S_IFCHR := 8192,
    S_IFIFO := 4096, S_IFSOCK := 49152,
    S_IRUSR := 256, S_IWUSR := 128, S_IXUSR := 64, S_IRGRP := 32, S_IWGRP := 16,
    S_IXGRP := 8, S_IROTH := 4, S_IWOTH := 2, S_IXOTH := 1,
    R_OK := 4, W_OK := 2, X_OK := 1, F_OK := 0,
    SEEK_SET := 0, SEEK_CUR := 1, SEEK_END := 2,
    EBADF := 9, EINVAL := 22, EISDIR := 21, EMFILE := 24, ENOMEM := 12, EEXIST := 17,
    ENOENT := 2, PROT_NONE := 0, PROT_READ := 1, PROT_WRITE := 2, PROT_EXEC := 4,
    MAP_SHARED := 1, MAP_PRIVATE := 2, MAP_FIXED := 16,
    MS_ASYNC := 1, MS_SYNC := 4, MS_INVALIDATE := 2, F_GETFL := 3, EOF := -1,
    ST_DEV := 88, BLKSIZE := 512,
    uid := u, gid := 100, euid := eu, egid := 100 }

/-- The state after start-up in the sample configuration, with room for one
created file and the given stream of unknown values. -/
def boot_state (ne : Bool) (u eu : Nat) (unknowns : List Int) : Option State :=
  __mkfs_init_stdio (sample_env ne u eu) (zero_state (sample_env ne u eu) 1 unknowns)

/-! ## Vocabulary of the statements -/

/-- What the development assumes of the header constants: `int` is not wider
than `off_t`, and `size_t` has at least the width of `off_t`; every file-type
code lies under the mask `S_IFMT`, is not zero and differs from the others; the
three `whence` values differ; `O_WRONLY`, `O_RDWR` and `O_CREAT` are not zero,
and no two of the seven open flags share a bit. -/
structure Env.Sane (e : Env) : Prop where
  int_le_off : e.INT_MAX ≤ e.OFF_MAX
  off_size : 2 * e.OFF_MAX + 1 ≤ e.SIZE_MAX
  ifreg : e.S_IFREG &&& e.S_IFMT = e.S_IFREG
  ifchr : e.S_IFCHR &&& e.S_IFMT = e.S_IFCHR
  ififo : e.S_IFIFO &&& e.S_IFMT = e.S_IFIFO
  ifdir : e.S_IFDIR &&& e.S_IFMT = e.S_IFDIR
  ifsock : e.S_IFSOCK &&& e.S_IFMT = e.S_IFSOCK
  kinds : [0, e.S_IFREG, e.S_IFCHR, e.S_IFIFO, e.S_IFDIR, e.S_IFSOCK].Nodup
  whence : [e.SEEK_SET, e.SEEK_CUR, e.SEEK_END].Nodup
  wronly : e.O_WRONLY ≠ 0
  rdwr : e.O_RDWR ≠ 0
  creat : e.O_CREAT ≠ 0
  flag_bits : [e.O_RDONLY, e.O_WRONLY, e.O_RDWR, e.O_CREAT, e.O_EXCL, e.O_TRUNC,
    e.O_APPEND].Pairwise (fun a b => a &&& b = 0)

/-- The kind stored for descriptors that `__mkfs_get_file_info` accepts. -/
def file_kind (e : Env) (k : Int) : Prop :=
  k = e.S_IFREG ∨ k = e.S_IFCHR ∨ k = e.S_IFIFO

/-- Descriptor `fd` is in use: its slot holds a file kind and designates the
open-file record number `idx`, which is `info` and points to the file object
`f` (at `fr`) whose inode record is `st` (at `sr`). -/
def fd_open (e : Env) (s : State) (fd idx : Int) (info : mkfs_file_info) (fr : FileRef)
    (f : mkfs_fs_file) (sr : StatRef) (st : Stat) : Prop :=
  0 ≤ fd ∧ fd < e.FOPEN_MAX ∧
  (∃ d, arr_get s.file_desc fd = some d ∧ file_kind e d.fd_kind ∧ d.fd_index = idx) ∧
  file_info_stat s idx = some (info, fr, f, sr, st)

/-- The backing buffer of file object `f` is materialized: its data pointer
designates row `p` of the table, whose leading bytes are `row`, and the size
recorded in the inode fits the row. -/
def materialized (e : Env) (s : State) (f : mkfs_fs_file) (st : Stat) (p : Nat)
    (row : List Nat) : Prop :=
  f.data = some p ∧ s.mkfs_data_table[p]? = some row ∧ st.st_size ≤ TIS_FSIZE e

/-- No random error is returned at the next `RETURN_RANDOM_ERROR`. -/
def no_injection (e : Env) (s : State) : Prop :=
  (RETURN_RANDOM_ERROR e s).1 = false

/-- The state with the inode record at `sr` replaced by `st`. -/
def put_stat (s : State) (sr : StatRef) (st : Stat) : State :=
  match sr with
  | StatRef.inode_table i => { s with inode_table := s.inode_table.set i st }
  | StatRef.image j => { s with image_stats := s.image_stats.set j st }

/-- The function `get_fs_file` in terms of the five globals it reads. -/
def get_fs_file_of (i o r : mkfs_fs_file) (fs : List mkfs_fs_file)
    (hp : List (Option mkfs_fs_file)) : FileRef → Option mkfs_fs_file
  | FileRef.fs_stdin => some i
  | FileRef.fs_stdout => some o
  | FileRef.fs_stderr => some r
  | FileRef.fs_files k => fs[k]?
  | FileRef.heap k => (hp[k]?).bind id

/-- The function `get_stat` in terms of the two globals it reads. -/
def get_stat_of (tbl img : List Stat) : StatRef → Option Stat
  | StatRef.inode_table i => tbl[i]?
  | StatRef.image j => img[j]?

/-- The state with `errno` and the stream of unknown values replaced. -/
def ambient (s : State) (a : Int) (b : List Int) : State := { s with errno := a, nondet := b }

/-- The base that `whence` selects for `lseek`: 0 for `SEEK_SET`, the current
position for `SEEK_CUR`, the size of the file otherwise (`SEEK_END`). -/
def lseek_base (e : Env) (info : mkfs_file_info) (st : Stat) (whence : Int) : Int :=
  if whence = e.SEEK_SET then 0 else if whence = e.SEEK_CUR then info.position else st.st_size

/-- The inode record of a regular file created with permission bits `mode`,
with inode number `ino`, once the file holds `size` bytes. -/
def created_stat (e : Env) (ino : Int) (mode : Nat) (size : Int) : Stat :=
  { st_ino := ino, st_mode := e.S_IFREG ||| mode, st_uid := e.uid, st_gid := e.gid,
    st_size := size, st_nlink := 1, st_dev := e.ST_DEV, st_blksize := e.BLKSIZE }

/-- The entry of `__mkfs_fs_files` of a created file named `path` whose inode
record is number `k` of the pool. -/
def created_file (path : String) (k : Nat) (data : Option Nat) : mkfs_fs_file :=
  { fullpath := some path, stat := some (StatRef.inode_table k), content := none, data := data }

/-! ## Sample states -/

/-- The sample configuration without random errors, real and effective user 1000. -/
def demo_env : Env := sample_env true 1000 1000

/-- The state after start-up, `open ("f", O_CREAT | flags, 0644)` (descriptor 3)
and `pwrite (3, content, 0)`, in the sample configuration with switch `ne`. -/
def demo_file (ne : Bool) (flags : Nat) (content : List Nat) (unknowns : List Int) :
    Option State :=
  match boot_state ne 1000 1000 unknowns with
  | none => none
  | some s0 =>
    match __mkfs_open (sample_env ne 1000 1000) s0 "f" (64 ||| flags) 420 with
    | none => none
    | some (_, s1) =>
      match content with
      | [] => some s1
      | _ => (__mkfs_pwrite (sample_env ne 1000 1000) s1 3 content 0).map (fun r => r.2)

/-- The state a computation ends in (the zero state when it has no result). -/
def state_of (x : Option State) : State :=
  x.getD (zero_state demo_env 0 [])

/-- A state with descriptor 3 open read-write at position 1 on the file `f`
whose bytes are 65, 66, 67. -/
def demo_rw : State :=
  state_of ((demo_file true 2 [65, 66, 67] []).bind
    (fun s => (__mkfs_lseek demo_env s 3 1 0).map Prod.snd))

/-- The state after `write (3, [1, 2, 3], 3)` in `demo_rw`. -/
def demo_rw_written : State :=
  state_of ((__mkfs_write demo_env demo_rw 3 [1, 2, 3]).map Prod.snd)

/-- The state after start-up in the sample configuration. -/
def demo_boot : State := state_of (boot_state true 1000 1000 [])

/-- The state after start-up in the sample configuration built with random
errors, when the next unknown values are 1 and 5. -/
def demo_boot_err : State := state_of (boot_state false 1000 1000 [1, 5])

/-- A state with descriptor 3 open read-write with `O_APPEND` at position 0 on
the file `f` whose bytes are 65, 66, 67. -/
def demo_append : State := state_of (demo_file true (2 ||| 1024) [65, 66, 67] [])

/-- The file object of `f` in the sample states. -/
def demo_f : mkfs_fs_file :=
  { fullpath := some "f", stat := some (StatRef.inode_table 3), content := none,
    data := some 3 }

/-- The inode record of `f` in the sample states, for a given size. -/
def demo_st (size : Int) : Stat :=
  { st_ino := 3, st_mode := 33188, st_uid := 1000, st_gid := 100, st_size := size,
    st_nlink := 1, st_dev := 88, st_blksize := 512 }

/-- The open-file record of descriptor 3 in the sample states. -/
def demo_info (pos : Int) (flags : Nat) : mkfs_file_info :=
  { position := pos, error := 0, eof := 0, flags := flags, file := some (FileRef.fs_files 0) }

/-- A state with descriptor 3 open write-only at position 0 on the empty file `f`. -/
def demo_wo : State := state_of (demo_file true 1 [] [])

/-- A state with descriptor 3 open read-only at position 0 on the empty file `f`. -/
def demo_ro : State := state_of (demo_file true 0 [] [])

/-- The state reached from `demo_rw` by writing one byte at offset 5. -/
def demo_gap : State := state_of ((__mkfs_pwrite demo_env demo_rw 3 [9] 5).map Prod.snd)

/-- The state reached from `demo_append` by `write` of one byte. -/
def demo_append_written : State :=
  state_of ((__mkfs_write demo_env demo_append 3 [9]).map Prod.snd)

/-- The state reached from `demo_rw` by `ftruncate` to length 1. -/
def demo_truncated : State := state_of ((__mkfs_ftruncate demo_env demo_rw 3 1).map Prod.snd)

/-- The sample configuration without random errors in which the effective user
(0) differs from the real user (1000). -/
def demo_su_env : Env := sample_env true 1000 0

/-- The state after start-up in the configuration `demo_su_env`. -/
def demo_su_boot : State := state_of (boot_state true 1000 0 [])

/-- The state reached from `demo_truncated` by `ftruncate` back to length 3. -/
def demo_regrown : State :=
  state_of ((__mkfs_ftruncate demo_env demo_truncated 3 3).map Prod.snd)

/-- The state reached from `demo_rw` by `truncate` of `f` to length 1. -/
def demo_cut : State := state_of ((__mkfs_truncate demo_env demo_rw "f" 1).map Prod.snd)

/-- The state reached from `demo_rw` by a second `open` of `f`, write-only with
`O_TRUNC`. -/
def demo_trunc_open : State :=
  state_of ((__mkfs_open demo_env demo_rw "f" (512 ||| 1) 0).map Prod.snd)

/-- An inode record owned by user 1000 and group 100 with mode 0640: the group
may read, the others may not. -/
def demo_grp_st : Stat :=
  { st_ino := 3, st_mode := 33184, st_uid := 1000, st_gid := 100, st_size := 3,
    st_nlink := 1, st_dev := 88, st_blksize := 512 }

/-- A state in which the file `f` exists with mode 0200 (write access for its
owner only) and no descriptor is open on it: `f` is created write-only with
that mode, then closed. -/
def demo_noread : State :=
  state_of ((__mkfs_open demo_env demo_boot "f" (64 ||| 1) 128).bind
    (fun r => (__mkfs_close demo_env r.2 3).map Prod.snd))

/-- The state reached from `demo_rw` by `dup2 (3, 4)`. -/
def demo_dup : State := state_of ((__mkfs_dup2 demo_env demo_rw 3 4).map Prod.snd)

/-- The state reached from `demo_dup` by `close (3)`. -/
def demo_dup_closed : State := state_of ((__mkfs_close demo_env demo_dup 3).map Prod.snd)

/-- The state reached from `demo_rw` by `close (3)`. -/
def demo_closed : State := state_of ((__mkfs_close demo_env demo_rw 3).map Prod.snd)

/-- The state reached from `s` by `n` rounds of `open ("f", O_CREAT | O_RDWR,
0644)` followed by `close` of the descriptor returned, in the sample
configuration. -/
def demo_cycles : Nat → State → Option State
  | 0, s => some s
  | n + 1, s =>
    match __mkfs_open demo_env s "f" (64 ||| 2) 420 with
    | none => none
    | some (fd, s1) =>
      match __mkfs_close demo_env s1 fd with
      | none => none
      | some (_, s2) => demo_cycles n s2

/-- The state after start-up and five rounds of `open` and `close` of `f`. -/
def demo_worn : State := state_of (demo_cycles 5 demo_boot)

/-- The state reached from `demo_rw` by
`mmap (NULL, 3, PROT_READ | PROT_WRITE, MAP_SHARED, 3, 0)`. -/
def demo_shared : State := state_of ((__mkfs_mmap demo_env demo_rw 0 3 3 1 3 0).map Prod.snd)

/-- The state reached from `demo_shared` by storing 7, 8, 9 through the mapped
address. -/
def demo_shared_stored : State := state_of (region_store demo_shared 1 0 [7, 8, 9])

/-- The state reached from `demo_rw` by
`mmap (NULL, 3, PROT_READ | PROT_WRITE, MAP_PRIVATE, 3, 0)`. -/
def demo_private : State := state_of ((__mkfs_mmap demo_env demo_rw 0 3 3 2 3 0).map Prod.snd)

/-- The state reached from `demo_private` by the same `mmap` call again. -/
def demo_private2 : State :=
  state_of ((__mkfs_mmap demo_env demo_private 0 3 3 2 3 0).map Prod.snd)

/-- The state reached from `demo_private` by storing 7, 8, 9 through the mapped
address. -/
def demo_private_stored : State := state_of (region_store demo_private 1 0 [7, 8, 9])

/-- The state reached from `demo_private` by `munmap` of its mapping. -/
def demo_unmapped : State := state_of ((__mkfs_munmap demo_env demo_private 1 3).map Prod.snd)

/-- The state reached from `demo_private_stored` by `munmap` of its mapping. -/
def demo_private_unmapped : State :=
  state_of ((__mkfs_munmap demo_env demo_private_stored 1 3).map Prod.snd)

/-- The map table, its counter and the blocks of the mappings are the same in
the two states. -/
def maps_kept (s s1 : State) : Prop :=
  s1.maps = s.maps ∧ s1.maps_nb_used = s.maps_nb_used ∧ s1.map_heap = s.map_heap

/-- The directory `/`, whose entries are `.`, `..` and `f`. -/
def demo_root_dir : mkfs_fs_dir :=
  { fullpath := some "/", stat := some (StatRef.image 0), dir_entries := some [".", "..", "f"] }

/-- The state `demo_rw` with one directory, `demo_root_dir`, owned by user 1000
with mode 0755. -/
def demo_dirs : State :=
  { demo_rw with
    fs_dirs := [demo_root_dir],
    image_stats := [{ st_ino := 100, st_mode := 16384 ||| 493, st_uid := 1000, st_gid := 100,
                      st_size := 0, st_nlink := 2, st_dev := 88, st_blksize := 512 }] }

/-- The state reached from `demo_dirs` by `opendir ("/")`. -/
def demo_dir_open : State := state_of ((__mkfs_opendir demo_env demo_dirs "/").map Prod.snd)

/-- The calls `mmap (NULL, 3, PROT_READ, MAP_PRIVATE, 3, 0)` and `munmap (p, 3)`
of the mapping number `k`, whose address `p` is `k + 1`. -/
def demo_map_round (k : Nat) : List Call :=
  [Call.mmap 0 3 1 2 3 0, Call.munmap ((k : Int) + 1) 3]

/-- The state reached from `demo_rw` by eight rounds of `mmap` and `munmap`:
every mapping made has been released. -/
def demo_maps_worn : State :=
  state_of (run_calls demo_env demo_rw ((List.range 8).flatMap demo_map_round))

/-- The state reached from `demo_boot` by `open ("g", O_CREAT | O_RDWR, 0)`,
which returns -1. -/
def demo_denied : State := state_of ((__mkfs_open demo_env demo_boot "g" (64 ||| 2) 0).map Prod.snd)

/-- The state reached from `demo_dup` by a second `dup2 (3, 4)`. -/
def demo_dup_twice : State := state_of ((__mkfs_dup2 demo_env demo_dup 3 4).map Prod.snd)

/-- The state reached from `demo_rw` by `socket (AF_UNIX, SOCK_STREAM, 0)`,
which returns the descriptor 4. -/
def demo_sock : State := state_of ((__mkfs_socket demo_env demo_rw 1 1 0).map Prod.snd)

/-- The state reached from `demo_rw` by `pwrite (3, [1, 2], 2)`. -/
def demo_pwritten : State := state_of ((__mkfs_pwrite demo_env demo_rw 3 [1, 2] 2).map Prod.snd)

/-- The state reached from `demo_rw` by `lseek (3, 5, SEEK_SET)`. -/
def demo_seek5 : State := state_of ((__mkfs_lseek demo_env demo_rw 3 5 0).map Prod.snd)

theorem arr_get_eq_some {α : Type} {xs : List α} {i : Int} {x : α} :
    arr_get xs i = some x ↔ 0 ≤ i ∧ xs[i.toNat]? = some x := by
  unfold arr_get
  by_cases h : i < 0
  · simp [h]
  · simp [h]
    omega

theorem arr_set_of_get {α : Type} {xs : List α} {i : Int} {x : α} (v : α)
    (h : arr_get xs i = some x) : arr_set xs i v = some (xs.set i.toNat v) := by
  rw [arr_get_eq_some] at h
  have hlt : i.toNat < xs.length := by
    have := h.2
    rw [List.getElem?_eq_some] at this
    exact this.1
  simp [arr_set, h.1, hlt]

theorem arr_get_set_same {α : Type} {xs : List α} {i : Int} {x : α} (v : α)
    (h : arr_get xs i = some x) : arr_get (xs.set i.toNat v) i = some v := by
  rw [arr_get_eq_some] at h ⊢
  have hlt : i.toNat < xs.length := by
    have := h.2
    rw [List.getElem?_eq_some] at this
    exact this.1
  simp [h.1, hlt]

theorem get_fs_file_eq (s : State) (fr : FileRef) :
    get_fs_file s fr =
      get_fs_file_of s.fs_stdin s.fs_stdout s.fs_stderr s.fs_files s.heap_files fr := by
  cases fr <;> rfl

theorem get_stat_eq (s : State) (sr : StatRef) :
    get_stat s sr = get_stat_of s.inode_table s.image_stats sr := by
  cases sr <;> rfl

theorem random_error_shape (e : Env) (s : State) :
    ∃ a b, (RETURN_RANDOM_ERROR e s).2 = ambient s a b := by
  unfold RETURN_RANDOM_ERROR tis_make_unknown_errno tis_next ambient
  by_cases h : e.no_err = true
  · exact ⟨s.errno, s.nondet, by simp [h]⟩
  · simp only [h]
    cases s with
    | mk en nd =>
      cases nd with
      | nil => exact ⟨en, [], by simp⟩
      | cons c rest =>
        by_cases hc : c = 0
        · exact ⟨en, rest, by simp [hc]⟩
        · cases rest with
          | nil => exact ⟨0, [], by simp [hc]⟩
          | cons v r2 => exact ⟨v, r2, by simp [hc]⟩

theorem ambient_ambient (s : State) (a c : Int) (b d : List Int) :
    ambient (ambient s a b) c d = ambient s c d := rfl

theorem ambient_errno (s : State) (a c : Int) (b : List Int) :
    { ambient s a b with errno := c } = ambient s c b := rfl

theorem stat_access_shape (e : Env) (s : State) (st : Stat) (m : Nat) :
    ∃ a b, (stat_access e s st m).2 = ambient s a b := by
  unfold stat_access
  by_cases h : stat_access_ok e st m = true
  · obtain ⟨a, b, hab⟩ := random_error_shape e s
    refine ⟨a, b, ?_⟩
    by_cases hinj : (RETURN_RANDOM_ERROR e s).1 = true <;> simp [h, hinj, hab]
  · exact ⟨e.EBADF, s.nondet, by simp [h, ambient]⟩

theorem random_error_no_err (e : Env) (s : State) (h : e.no_err = true) :
    RETURN_RANDOM_ERROR e s = (false, s) := by
  simp [RETURN_RANDOM_ERROR, h]


/-- What `__mkfs_get_file_info` returns for a descriptor in use. -/
theorem get_file_info_of_open {e : Env} (hs : e.Sane) {s : State} {fd : Int} {d : mkfs_fd_info}
    (h0 : 0 ≤ fd) (h1 : fd < e.FOPEN_MAX) (hd : arr_get s.file_desc fd = some d)
    (hk : file_kind e d.fd_kind) :
    __mkfs_get_file_info e s fd = some (some d.fd_index) := by
  have hnot : ¬ (fd < 0 ∨ fd ≥ e.FOPEN_MAX) := by omega
  unfold __mkfs_get_file_info __mkfs_check_fd_ok
  simp only [hnot, if_false, hd]
  rcases hk with hk | hk | hk
  · simp [hk, S_ISREG, land_int, hs.ifreg]
  · simp [hk, S_ISCHR, land_int, hs.ifchr]
  · simp [hk, S_ISFIFO, land_int, hs.ififo]

theorem not_isdir_of_file_kind {e : Env} (hs : e.Sane) {k : Int} (hk : file_kind e k) :
    S_ISDIR e k = false := by
  have hn := hs.kinds
  simp only [List.nodup_cons, List.mem_cons, List.mem_singleton, not_or] at hn
  rcases hk with hk | hk | hk
  · simp [hk, S_ISDIR, land_int, hs.ifreg]; omega
  · simp [hk, S_ISDIR, land_int, hs.ifchr]; omega
  · simp [hk, S_ISDIR, land_int, hs.ififo]; omega


/-! ## Frame facts: what the read-only helpers depend on -/

theorem check_fd_ok_fst (e : Env) (s : State) (fd : Int) :
    (__mkfs_check_fd_ok e s fd).1 = if fd < 0 ∨ fd ≥ e.FOPEN_MAX then -1 else 0 := by
  unfold __mkfs_check_fd_ok
  split <;> rfl

theorem get_file_info_congr (e : Env) {s s' : State} (fd : Int)
    (h : s'.file_desc = s.file_desc) :
    __mkfs_get_file_info e s' fd = __mkfs_get_file_info e s fd := by
  simp only [__mkfs_get_file_info, check_fd_ok_fst, h]

theorem file_info_file_congr {s s' : State} (idx : Int)
    (h1 : s'.opened_files = s.opened_files) (h2 : s'.fs_stdin = s.fs_stdin)
    (h3 : s'.fs_stdout = s.fs_stdout) (h4 : s'.fs_stderr = s.fs_stderr)
    (h5 : s'.fs_files = s.fs_files) (h6 : s'.heap_files = s.heap_files) :
    file_info_file s' idx = file_info_file s idx := by
  simp [file_info_file, get_fs_file_eq, h1, h2, h3, h4, h5, h6]

theorem file_stat_congr {s s' : State} (f : mkfs_fs_file)
    (h1 : s'.inode_table = s.inode_table) (h2 : s'.image_stats = s.image_stats) :
    file_stat s' f = file_stat s f := by
  simp [file_stat, get_stat_eq, h1, h2]

theorem file_info_stat_congr {s s' : State} (idx : Int)
    (h1 : s'.opened_files = s.opened_files) (h2 : s'.fs_stdin = s.fs_stdin)
    (h3 : s'.fs_stdout = s.fs_stdout) (h4 : s'.fs_stderr = s.fs_stderr)
    (h5 : s'.fs_files = s.fs_files) (h6 : s'.heap_files = s.heap_files)
    (h7 : s'.inode_table = s.inode_table) (h8 : s'.image_stats = s.image_stats) :
    file_info_stat s' idx = file_info_stat s idx := by
  simp [file_info_stat, file_info_file_congr idx h1 h2 h3 h4 h5 h6, file_stat,
    get_stat_eq, h7, h8]

theorem file_info_stat_parts {s : State} {idx : Int} {info : mkfs_file_info} {fr : FileRef}
    {f : mkfs_fs_file} {sr : StatRef} {st : Stat}
    (h : file_info_stat s idx = some (info, fr, f, sr, st)) :
    arr_get s.opened_files idx = some info ∧ info.file = some fr ∧
      file_info_file s idx = some (info, fr, f) ∧ file_stat s f = some (sr, st) ∧
      f.stat = some sr ∧ get_stat s sr = some st := by
  unfold file_info_stat at h
  cases hf : file_info_file s idx with
  | none => simp [hf] at h
  | some t =>
    obtain ⟨i1, r1, f1⟩ := t
    simp only [hf] at h
    cases hs : file_stat s f1 with
    | none => simp [hs] at h
    | some u =>
      obtain ⟨sr1, st1⟩ := u
      simp only [hs, Option.some.injEq, Prod.mk.injEq] at h
      obtain ⟨rfl, rfl, rfl, rfl, rfl⟩ := h
      unfold file_info_file at hf
      unfold file_stat at hs
      cases ha : arr_get s.opened_files idx with
      | none => simp [ha] at hf
      | some i2 =>
        simp only [ha] at hf
        cases hfile : i2.file with
        | none => simp [hfile] at hf
        | some r2 =>
          simp only [hfile] at hf
          cases hg : get_fs_file s r2 with
          | none => simp [hg] at hf
          | some f2 =>
            simp only [hg, Option.some.injEq, Prod.mk.injEq] at hf
            obtain ⟨rfl, rfl, rfl⟩ := hf
            cases hstat : f2.stat with
            | none => simp [hstat] at hs
            | some sr2 =>
              simp only [hstat] at hs
              cases hgs : get_stat s sr2 with
              | none => simp [hgs] at hs
              | some st2 =>
                simp only [hgs, Option.some.injEq, Prod.mk.injEq] at hs
                obtain ⟨rfl, rfl⟩ := hs
                refine ⟨rfl, hfile, ?_, ?_, rfl, hgs⟩
                · simp [file_info_file, ha, hfile, hg]
                · simp [file_stat, hstat, hgs]


theorem get_file_info_ambient (e : Env) (s : State) (a : Int) (b : List Int) (fd : Int) :
    __mkfs_get_file_info e (ambient s a b) fd = __mkfs_get_file_info e s fd :=
  get_file_info_congr e fd rfl

theorem file_info_stat_ambient (s : State) (a : Int) (b : List Int) (idx : Int) :
    file_info_stat (ambient s a b) idx = file_info_stat s idx :=
  file_info_stat_congr idx rfl rfl rfl rfl rfl rfl rfl rfl

theorem file_info_file_ambient (s : State) (a : Int) (b : List Int) (idx : Int) :
    file_info_file (ambient s a b) idx = file_info_file s idx :=
  file_info_file_congr idx rfl rfl rfl rfl rfl rfl

theorem file_stat_ambient (s : State) (a : Int) (b : List Int) (f : mkfs_fs_file) :
    file_stat (ambient s a b) f = file_stat s f :=
  file_stat_congr f rfl rfl

/-! ## The descriptor checks on a descriptor in use -/

theorem fd_open_get_file_info {e : Env} (hs : e.Sane) {s : State} {fd idx : Int}
    {info : mkfs_file_info} {fr : FileRef} {f : mkfs_fs_file} {sr : StatRef} {st : Stat}
    (h : fd_open e s fd idx info fr f sr st) :
    __mkfs_get_file_info e s fd = some (some idx) := by
  obtain ⟨h0, h1, ⟨d, hd, hk, rfl⟩, _⟩ := h
  exact get_file_info_of_open hs h0 h1 hd hk

theorem check_fd_file_ok_open {e : Env} (hs : e.Sane) {s : State} {fd idx : Int}
    {info : mkfs_file_info} {fr : FileRef} {f : mkfs_fs_file} {sr : StatRef} {st : Stat}
    (h : fd_open e s fd idx info fr f sr st) :
    __mkfs_check_fd_file_ok e s fd =
      some (if (RETURN_RANDOM_ERROR e s).1 then -1 else 0, (RETURN_RANDOM_ERROR e s).2) := by
  have hfi := fd_open_get_file_info hs h
  obtain ⟨_, _, ⟨d, hd, hk, rfl⟩, hst⟩ := h
  obtain ⟨ha, hfile, _⟩ := file_info_stat_parts hst
  unfold __mkfs_check_fd_file_ok
  simp only [hd, not_isdir_of_file_kind hs hk, hfi, ha, hfile]
  by_cases hinj : (RETURN_RANDOM_ERROR e s).1 = true <;> simp [hinj]

theorem check_reading_open {e : Env} (hs : e.Sane) {s : State} {fd idx : Int}
    {info : mkfs_file_info} {fr : FileRef} {f : mkfs_fs_file} {sr : StatRef} {st : Stat}
    (h : fd_open e s fd idx info fr f sr st) :
    __mkfs_check_fd_file_ok_for_reading e s fd =
      some (if (RETURN_RANDOM_ERROR e s).1 then (-1, (RETURN_RANDOM_ERROR e s).2)
            else if info.flags &&& e.O_WRONLY ≠ 0 then
              (-1, { (RETURN_RANDOM_ERROR e s).2 with errno := e.EBADF })
            else stat_access e (RETURN_RANDOM_ERROR e s).2 st e.R_OK) := by
  have hfi := fd_open_get_file_info hs h
  have hchk := check_fd_file_ok_open hs h
  obtain ⟨_, _, _, hst⟩ := h
  obtain ⟨a, b, hshape⟩ := random_error_shape e s
  have hfi1 : __mkfs_get_file_info e (RETURN_RANDOM_ERROR e s).2 fd = some (some idx) := by
    rw [hshape, get_file_info_ambient]; exact hfi
  have hst1 : file_info_stat (RETURN_RANDOM_ERROR e s).2 idx = some (info, fr, f, sr, st) := by
    rw [hshape, file_info_stat_ambient]; exact hst
  obtain ⟨ha, _⟩ := file_info_stat_parts hst1
  unfold __mkfs_check_fd_file_ok_for_reading
  rw [hchk]
  by_cases hinj : (RETURN_RANDOM_ERROR e s).1 = true
  · simp [hinj]
  · simp only [hinj, hfi1, ha, hst1]
    by_cases hw : info.flags &&& e.O_WRONLY = 0 <;> simp [hw]

theorem check_writing_open {e : Env} (hs : e.Sane) {s : State} {fd idx : Int}
    {info : mkfs_file_info} {fr : FileRef} {f : mkfs_fs_file} {sr : StatRef} {st : Stat}
    (h : fd_open e s fd idx info fr f sr st) :
    __mkfs_check_fd_file_ok_for_writing e s fd =
      some (if (RETURN_RANDOM_ERROR e s).1 then (-1, (RETURN_RANDOM_ERROR e s).2)
            else if info.flags &&& e.O_WRONLY = 0 ∧ info.flags &&& e.O_RDWR = 0 then
              (-1, { (RETURN_RANDOM_ERROR e s).2 with errno := e.EBADF })
            else stat_access e (RETURN_RANDOM_ERROR e s).2 st e.W_OK) := by
  have hfi := fd_open_get_file_info hs h
  have hchk := check_fd_file_ok_open hs h
  obtain ⟨_, _, _, hst⟩ := h
  obtain ⟨a, b, hshape⟩ := random_error_shape e s
  have hfi1 : __mkfs_get_file_info e (RETURN_RANDOM_ERROR e s).2 fd = some (some idx) := by
    rw [hshape, get_file_info_ambient]; exact hfi
  have hst1 : file_info_stat (RETURN_RANDOM_ERROR e s).2 idx = some (info, fr, f, sr, st) := by
    rw [hshape, file_info_stat_ambient]; exact hst
  obtain ⟨ha, _⟩ := file_info_stat_parts hst1
  unfold __mkfs_check_fd_file_ok_for_writing
  rw [hchk]
  by_cases hinj : (RETURN_RANDOM_ERROR e s).1 = true
  · simp [hinj]
  · simp only [hinj, hfi1, ha, hst1]
    by_cases hw : info.flags &&& e.O_WRONLY = 0 ∧ info.flags &&& e.O_RDWR = 0 <;> simp [hw]

/-! ## Rows of the data table -/

theorem row_get_row_write (row : List Nat) (off : Nat) (src : List Nat) (i : Nat) :
    row_get (row_write row off src) i =
      if off ≤ i ∧ i < off + src.length then src.getD (i - off) 0 else row_get row i := by
  unfold row_get row_write
  by_cases hi : i < max row.length (off + src.length)
  · simp [List.getD_eq_getElem?_getD, List.getElem?_map, List.getElem?_range hi]
  · have h1 : ¬ (i < off + src.length) := by omega
    have h2 : row.length ≤ i := by omega
    have hr : (List.range (max row.length (off + src.length)))[i]? = none :=
      List.getElem?_eq_none (by simp only [List.length_range]; omega)
    simp [List.getD_eq_getElem?_getD, List.getElem?_map, hr, h1, List.getElem?_eq_none h2]

theorem row_get_row_zero (row : List Nat) (off n i : Nat) :
    row_get (row_zero row off n) i = if off ≤ i ∧ i < off + n then 0 else row_get row i := by
  unfold row_zero
  rw [row_get_row_write]
  simp only [List.length_replicate]
  split
  · rename_i h
    simp [List.getD_eq_getElem?_getD]
  · rfl

theorem row_read_eq_iff (row : List Nat) (off n : Nat) (l : List Nat) :
    row_read row off n = l ↔ l.length = n ∧ ∀ i, i < n → row_get row (off + i) = l.getD i 0 := by
  constructor
  · rintro rfl
    refine ⟨by simp [row_read], ?_⟩
    intro i hi
    simp [row_read, List.getD_eq_getElem?_getD, List.getElem?_map, List.getElem?_range hi]
  · rintro ⟨hlen, h⟩
    apply List.ext_getElem
    · simp [row_read, hlen]
    · intro i h1 h2
      simp [row_read] at h1 ⊢
      rw [h i h1]
      simp [List.getD_eq_getElem?_getD, List.getElem?_eq_getElem h2]

theorem row_read_length (row : List Nat) (off n : Nat) : (row_read row off n).length = n := by
  simp [row_read]

/-! ## Stores through an inode pointer -/

theorem set_stat_of_get {s : State} {sr : StatRef} {st : Stat} (x : Stat)
    (h : get_stat s sr = some st) : set_stat s sr x = some (put_stat s sr x) := by
  cases sr with
  | inode_table i =>
    have hlt : i < s.inode_table.length := by
      simp only [get_stat] at h
      exact (List.getElem?_eq_some.mp h).1
    simp [set_stat, put_stat, hlt]
  | image j =>
    have hlt : j < s.image_stats.length := by
      simp only [get_stat] at h
      exact (List.getElem?_eq_some.mp h).1
    simp [set_stat, put_stat, hlt]

theorem get_stat_put_stat {s : State} {sr : StatRef} {st : Stat} (x : Stat)
    (h : get_stat s sr = some st) : get_stat (put_stat s sr x) sr = some x := by
  cases sr with
  | inode_table i =>
    have hlt : i < s.inode_table.length := by
      simp only [get_stat] at h
      exact (List.getElem?_eq_some.mp h).1
    simp [get_stat, put_stat, hlt]
  | image j =>
    have hlt : j < s.image_stats.length := by
      simp only [get_stat] at h
      exact (List.getElem?_eq_some.mp h).1
    simp [get_stat, put_stat, hlt]

theorem get_stat_congr {s s' : State} (sr : StatRef)
    (h1 : s'.inode_table = s.inode_table) (h2 : s'.image_stats = s.image_stats) :
    get_stat s' sr = get_stat s sr := by
  simp [get_stat_eq, h1, h2]

theorem put_stat_file_desc (s : State) (sr : StatRef) (x : Stat) :
    (put_stat s sr x).file_desc = s.file_desc := by
  cases sr <;> rfl

theorem put_stat_opened_files (s : State) (sr : StatRef) (x : Stat) :
    (put_stat s sr x).opened_files = s.opened_files := by
  cases sr <;> rfl

theorem put_stat_data_table (s : State) (sr : StatRef) (x : Stat) :
    (put_stat s sr x).mkfs_data_table = s.mkfs_data_table := by
  cases sr <;> rfl

theorem put_stat_errno (s : State) (sr : StatRef) (x : Stat) :
    (put_stat s sr x).errno = s.errno := by
  cases sr <;> rfl

theorem put_stat_nondet (s : State) (sr : StatRef) (x : Stat) :
    (put_stat s sr x).nondet = s.nondet := by
  cases sr <;> rfl

theorem get_file_info_put_stat (e : Env) (s : State) (sr : StatRef) (x : Stat) (fd : Int) :
    __mkfs_get_file_info e (put_stat s sr x) fd = __mkfs_get_file_info e s fd :=
  get_file_info_congr e fd (put_stat_file_desc s sr x)

theorem file_info_file_put_stat (s : State) (sr : StatRef) (x : Stat) (idx : Int) :
    file_info_file (put_stat s sr x) idx = file_info_file s idx := by
  cases sr <;> exact file_info_file_congr idx rfl rfl rfl rfl rfl rfl

/-- The inode and the open-file record seen through `idx` after a store to the
inode of that very file. -/
theorem file_info_stat_put_stat {s : State} {idx : Int} {info : mkfs_file_info} {fr : FileRef}
    {f : mkfs_fs_file} {sr : StatRef} {st : Stat} (x : Stat)
    (h : file_info_stat s idx = some (info, fr, f, sr, st)) :
    file_info_stat (put_stat s sr x) idx = some (info, fr, f, sr, x) := by
  obtain ⟨_, _, hf, _, hstat, hg⟩ := file_info_stat_parts h
  simp [file_info_stat, file_info_file_put_stat, hf, file_stat, hstat, get_stat_put_stat x hg]


/-! ## Writing -/

theorem to_size_t_of_range {e : Env} {x : Int} (h0 : 0 ≤ x) (h1 : x ≤ e.SIZE_MAX) :
    to_size_t e x = x.toNat := by
  unfold to_size_t
  rw [Int.emod_eq_of_lt h0 (by omega)]

theorem write_data_spec {e : Env} {s : State} {idx : Int} {info : mkfs_file_info}
    {fr : FileRef} {f : mkfs_fs_file} (hf : file_info_file s idx = some (info, fr, f))
    {o : Int} {buf : List Nat} {r : Int} {s2 : State}
    (h : write__mkfs_data e s idx o buf = some (r, s2)) :
    r = buf.length ∧ buf.length ≤ e.INT_MAX ∧
    ∃ tbl os es,
      s2 = { s with mkfs_data_table := tbl, out_stream := os, err_stream := es } ∧
      (∀ p, f.data = some p → 0 ≤ o ∧ o.toNat + buf.length ≤ TIS_FSIZE e ∧
        ∃ row, s.mkfs_data_table[p]? = some row ∧
          tbl = s.mkfs_data_table.set p (row_write row o.toNat buf)) ∧
      (f.data = none → tbl = s.mkfs_data_table) := by
  unfold write__mkfs_data at h
  simp only [hf] at h
  by_cases hlen : buf.length > e.INT_MAX
  · simp [hlen] at h
  · simp only [hlen, if_false] at h
    cases hd : f.data with
    | none =>
      simp only [hd] at h
      refine ⟨?_, by omega, ?_⟩
      · split at h
        · simp at h; exact h.1.symm
        · split at h <;> (simp at h; exact h.1.symm)
      · split at h
        · simp at h
          exact ⟨s.mkfs_data_table, _, s.err_stream, h.2.symm, by simp, by simp⟩
        · split at h
          · simp at h
            exact ⟨s.mkfs_data_table, s.out_stream, _, h.2.symm, by simp, by simp⟩
          · simp at h
            exact ⟨s.mkfs_data_table, s.out_stream, s.err_stream, h.2.symm, by simp, by simp⟩
    | some p =>
      simp only [hd] at h
      cases hfs : file_stat s f with
      | none => simp [hfs] at h
      | some t =>
        simp only [hfs] at h
        by_cases hb : o < 0 ∨ o.toNat + buf.length > TIS_FSIZE e
        · simp [hb] at h
        · simp only [hb, if_false] at h
          cases hrow : s.mkfs_data_table[p]? with
          | none => simp [hrow] at h
          | some row =>
            simp only [hrow, Option.some.injEq, Prod.mk.injEq] at h
            refine ⟨h.1.symm, by omega, _, s.out_stream, s.err_stream, h.2.symm, ?_, by simp⟩
            intro p' hp'
            simp only [Option.some.injEq] at hp'
            subst hp'
            exact ⟨by omega, by omega, row, hrow, rfl⟩


theorem stat_access_fst (e : Env) (s : State) (st : Stat) (m : Nat) :
    ((stat_access e s st m).1 = 0 ∧ stat_access_ok e st m = true ∧
        (RETURN_RANDOM_ERROR e s).1 = false ∧
        (stat_access e s st m).2 = (RETURN_RANDOM_ERROR e s).2) ∨
      (stat_access e s st m).1 = -1 := by
  unfold stat_access
  by_cases h : stat_access_ok e st m = true
  · by_cases hinj : (RETURN_RANDOM_ERROR e s).1 = true <;> simp [h, hinj]
  · simp [h]

theorem list_set_self {α : Type} (l : List α) (i : Nat) (h : i < l.length) :
    l.set i l[i] = l := by
  apply List.ext_getElem (by simp)
  intro n h1 h2
  rw [List.getElem_set]
  split
  · rename_i hin
    subst hin
    rfl
  · rfl

theorem put_stat_self {s : State} {sr : StatRef} {st : Stat} (h : get_stat s sr = some st) :
    put_stat s sr st = s := by
  cases sr with
  | inode_table i =>
    simp only [get_stat] at h
    have := List.getElem?_eq_some.mp h
    obtain ⟨hlt, hv⟩ := this
    simp only [put_stat]
    rw [← hv, list_set_self _ _ hlt]
  | image j =>
    simp only [get_stat] at h
    have := List.getElem?_eq_some.mp h
    obtain ⟨hlt, hv⟩ := this
    simp only [put_stat]
    rw [← hv, list_set_self _ _ hlt]

/-- What `local_pwrite_at` has done when it returns. -/
theorem local_pwrite_at_spec {e : Env} (hs : e.Sane) {s : State} {idx : Int}
    {info : mkfs_file_info} {fr : FileRef} {f : mkfs_fs_file} {sr : StatRef} {st : Stat}
    (hst : file_info_stat s idx = some (info, fr, f, sr, st))
    (hsz0 : 0 ≤ st.st_size) (hsz1 : st.st_size ≤ e.OFF_MAX)
    {buf : List Nat} {o : Int} (ho0 : 0 ≤ o) (ho1 : o ≤ e.OFF_MAX) {r : Int} {s' : State}
    (hw : local_pwrite_at e s idx buf o = some (r, s')) :
    r = buf.length ∧ o + buf.length ≤ e.OFF_MAX ∧
    ∃ (tbl : List (List Nat)) (os es : List Nat),
      s' = put_stat { s with mkfs_data_table := tbl, out_stream := os, err_stream := es } sr
             { st with st_size := max st.st_size (o + buf.length) } ∧
      (∀ p, f.data = some p → o + buf.length ≤ TIS_FSIZE e ∧
        ∃ row row', s.mkfs_data_table[p]? = some row ∧ tbl = s.mkfs_data_table.set p row' ∧
          ∀ i : Nat, row_get row' i =
            if o ≤ i ∧ (i : Int) < o + buf.length then buf.getD (i - o.toNat) 0
            else if st.st_size ≤ i ∧ (i : Int) < o then 0 else row_get row i) ∧
      (f.data = none → tbl = s.mkfs_data_table) := by
  obtain ⟨_, _, hf, hfs, hstat, hg⟩ := file_info_stat_parts hst
  unfold local_pwrite_at at hw
  cases hwd : write__mkfs_data e s idx o buf with
  | none => simp [hwd] at hw
  | some t =>
    obtain ⟨ret2, s2⟩ := t
    obtain ⟨hret2, hlenmax, tbl, os, es, hs2, hdat, hnodat⟩ := write_data_spec hf hwd
    subst hs2
    have hst2 : file_info_stat
        { s with mkfs_data_table := tbl, out_stream := os, err_stream := es } idx =
        some (info, fr, f, sr, st) := by
      rw [file_info_stat_congr idx rfl rfl rfl rfl rfl rfl rfl rfl]; exact hst
    have hne : ret2 ≠ -1 := by omega
    simp only [hwd, hne, if_false, hst2] at hw
    have hint := hs.int_le_off
    have hsize := hs.off_size
    have hsum : to_size_t e (o + buf.length) = (o + buf.length).toNat :=
      to_size_t_of_range (by omega) (by omega)
    have hszc : to_size_t e st.st_size = st.st_size.toNat := to_size_t_of_range hsz0 (by omega)
    rw [hsum, hszc] at hw
    -- the last step, common to both kinds of file
    have hfinal : ∀ (s3 : State), get_stat s3 sr = some st →
        (if (o + buf.length).toNat > st.st_size.toNat then
          if (o + buf.length).toNat > e.OFF_MAX then none
          else
            (set_stat s3 sr { st with st_size := ((o + buf.length).toNat : Nat) }).map
              (fun s4 => ((buf.length : Int), s4))
        else some ((buf.length : Int), s3)) = some (r, s') →
        r = buf.length ∧ o + buf.length ≤ e.OFF_MAX ∧
          s' = put_stat s3 sr { st with st_size := max st.st_size (o + buf.length) } := by
      intro s3 hg3 hlast
      by_cases hgrow : (o + buf.length).toNat > st.st_size.toNat
      · simp only [hgrow, if_true] at hlast
        by_cases hbig : (o + buf.length).toNat > e.OFF_MAX
        · simp [hbig] at hlast
        · simp only [hbig, if_false, set_stat_of_get _ hg3, Option.map_some',
            Option.some.injEq, Prod.mk.injEq] at hlast
          refine ⟨hlast.1.symm, by omega, ?_⟩
          rw [← hlast.2]
          congr 2
          omega
      · simp only [hgrow, if_false, Option.some.injEq, Prod.mk.injEq] at hlast
        refine ⟨hlast.1.symm, by omega, ?_⟩
        have hmax : max st.st_size (o + buf.length) = st.st_size := by omega
        rw [hmax, ← hlast.2]
        exact (put_stat_self hg3).symm
    cases hd : f.data with
    | none =>
      have htbl := hnodat hd
      subst htbl
      simp only [hd] at hw
      obtain ⟨h1, h2, h3⟩ := hfinal _ (by rw [get_stat_congr sr rfl rfl]; exact hg) hw
      exact ⟨h1, h2, _, os, es, h3, by simp, by simp⟩
    | some p =>
      obtain ⟨_, hfit, row, hrow, htbl⟩ := hdat p hd
      subst htbl
      have hplt : p < s.mkfs_data_table.length := (List.getElem?_eq_some.mp hrow).1
      simp only [hd] at hw
      by_cases hhole : o > st.st_size
      · have hnn : ¬ st.st_size < 0 := by omega
        simp only [hhole, if_true, hnn, if_false, List.getElem?_set_self hplt, List.set_set] at hw
        obtain ⟨h1, h2, h3⟩ := hfinal _ (by rw [get_stat_congr sr rfl rfl]; exact hg) hw
        refine ⟨h1, h2, _, os, es, h3, ?_, by simp⟩
        intro p' hp'
        simp only [Option.some.injEq] at hp'
        subst hp'
        refine ⟨by omega, row, _, hrow, rfl, ?_⟩
        intro i
        rw [row_get_row_zero, row_get_row_write]
        by_cases c1 : o ≤ (i : Int) ∧ (i : Int) < o + buf.length
        · have c1' : o.toNat ≤ i ∧ i < o.toNat + buf.length := by omega
          have c2 : ¬ (st.st_size.toNat ≤ i ∧ i < st.st_size.toNat + (o - st.st_size).toNat) := by
            omega
          rw [if_neg c2, if_pos c1', if_pos c1]
        · have c1' : ¬ (o.toNat ≤ i ∧ i < o.toNat + buf.length) := by omega
          by_cases c2 : st.st_size ≤ (i : Int) ∧ (i : Int) < o
          · have c2' : st.st_size.toNat ≤ i ∧ i < st.st_size.toNat + (o - st.st_size).toNat := by
              omega
            rw [if_pos c2', if_neg c1, if_pos c2]
          · have c2' : ¬ (st.st_size.toNat ≤ i ∧ i < st.st_size.toNat + (o - st.st_size).toNat) := by
              omega
            rw [if_neg c2', if_neg c1', if_neg c1, if_neg c2]
      · simp only [hhole, if_false] at hw
        obtain ⟨h1, h2, h3⟩ := hfinal _ (by rw [get_stat_congr sr rfl rfl]; exact hg) hw
        refine ⟨h1, h2, _, os, es, h3, ?_, by simp⟩
        intro p' hp'
        simp only [Option.some.injEq] at hp'
        subst hp'
        refine ⟨by omega, row, _, hrow, rfl, ?_⟩
        intro i
        rw [row_get_row_write]
        by_cases c1 : o ≤ (i : Int) ∧ (i : Int) < o + buf.length
        · have c1' : o.toNat ≤ i ∧ i < o.toNat + buf.length := by omega
          rw [if_pos c1', if_pos c1]
        · have c1' : ¬ (o.toNat ≤ i ∧ i < o.toNat + buf.length) := by omega
          have c2 : ¬ (st.st_size ≤ (i : Int) ∧ (i : Int) < o) := by omega
          rw [if_neg c1', if_neg c1, if_neg c2]


/-- What a call of `local_pwrite` that does not return -1 has done, for a
non-empty buffer on a descriptor in use. -/
theorem local_pwrite_spec {e : Env} (hs : e.Sane) {s : State} {fd idx : Int}
    {info : mkfs_file_info} {fr : FileRef} {f : mkfs_fs_file} {sr : StatRef} {st : Stat}
    (h : fd_open e s fd idx info fr f sr st)
    (hsz0 : 0 ≤ st.st_size) (hsz1 : st.st_size ≤ e.OFF_MAX)
    {buf : List Nat} (hn : buf ≠ []) {off : Int} (hoff : off ≤ e.OFF_MAX) {r : Int} {s' : State}
    (hw : local_pwrite e s fd buf off = some (r, s')) (hr : r ≠ -1) :
    r = buf.length ∧ 0 ≤ off ∧
    (info.flags &&& e.O_WRONLY ≠ 0 ∨ info.flags &&& e.O_RDWR ≠ 0) ∧
    ∃ (o : Int) (a : Int) (b : List Int) (tbl : List (List Nat)) (os es : List Nat),
      o = (if info.flags &&& e.O_APPEND ≠ 0 then st.st_size else off) ∧
      o + buf.length ≤ e.OFF_MAX ∧
      s' = put_stat { s with errno := a, nondet := b, mkfs_data_table := tbl,
                             out_stream := os, err_stream := es } sr
             { st with st_size := max st.st_size (o + buf.length) } ∧
      (∀ p, f.data = some p → o + buf.length ≤ TIS_FSIZE e ∧
        ∃ row row', s.mkfs_data_table[p]? = some row ∧ tbl = s.mkfs_data_table.set p row' ∧
          ∀ i : Nat, row_get row' i =
            if o ≤ i ∧ (i : Int) < o + buf.length then buf.getD (i - o.toNat) 0
            else if st.st_size ≤ i ∧ (i : Int) < o then 0 else row_get row i) ∧
      (f.data = none → tbl = s.mkfs_data_table) := by
  have hfi := fd_open_get_file_info hs h
  have hst := h.2.2.2
  obtain ⟨_, _, hf, hfs, hstat, hg⟩ := file_info_stat_parts hst
  have hlen : buf.length ≠ 0 := by simpa using hn
  unfold local_pwrite at hw
  by_cases hneg : off < 0
  · simp [hneg] at hw; omega
  simp only [hneg, if_false, check_writing_open hs h] at hw
  by_cases hinj : (RETURN_RANDOM_ERROR e s).1 = true
  · simp [hinj] at hw; omega
  simp only [hinj] at hw
  by_cases hfl : info.flags &&& e.O_WRONLY = 0 ∧ info.flags &&& e.O_RDWR = 0
  · simp [hfl] at hw; omega
  simp only [hfl, if_false] at hw
  obtain ⟨a0, b0, hab0⟩ := random_error_shape e s
  obtain ⟨a, b, hab⟩ := stat_access_shape e (RETURN_RANDOM_ERROR e s).2 st e.W_OK
  rw [hab0, ambient_ambient] at hab
  rw [hab0] at hw
  rcases hsa : stat_access e (ambient s a0 b0) st e.W_OK with ⟨ret, s1⟩
  rw [hsa] at hw hab
  simp only at hab
  subst hab
  simp only [Bool.false_eq_true, if_false] at hw
  by_cases hret : ret = -1
  · simp [hret] at hw; omega
  simp only [hret, if_false, get_file_info_ambient, hfi, hlen, file_info_file_ambient, hf,
    file_stat_ambient, hfs, Option.map_some'] at hw
  have hst' : file_info_stat (ambient s a b) idx = some (info, fr, f, sr, st) := by
    rw [file_info_stat_ambient]; exact hst
  refine ⟨?_, by omega, by tauto, ?_⟩
  · by_cases happ : info.flags &&& e.O_APPEND = 0
    · simp only [happ, ne_eq, not_true_eq_false, if_false] at hw
      exact (local_pwrite_at_spec hs hst' hsz0 hsz1 (by omega) hoff hw).1
    · simp only [happ, ne_eq, not_false_eq_true, if_true] at hw
      exact (local_pwrite_at_spec hs hst' hsz0 hsz1 hsz0 hsz1 hw).1
  · by_cases happ : info.flags &&& e.O_APPEND = 0
    · simp only [happ, ne_eq, not_true_eq_false, if_false] at hw
      obtain ⟨_, h2, tbl, os, es, h3, h4, h5⟩ :=
        local_pwrite_at_spec hs hst' hsz0 hsz1 (by omega) hoff hw
      exact ⟨off, a, b, tbl, os, es, by simp [happ], h2, h3, h4, h5⟩
    · simp only [happ, ne_eq, not_false_eq_true, if_true] at hw
      obtain ⟨_, h2, tbl, os, es, h3, h4, h5⟩ :=
        local_pwrite_at_spec hs hst' hsz0 hsz1 hsz0 hsz1 hw
      exact ⟨st.st_size, a, b, tbl, os, es, by simp [happ], h2, h3, h4, h5⟩

/-! ## Descriptors in use across state changes -/

theorem fd_open_congr {e : Env} {s s' : State} {fd idx : Int} {info : mkfs_file_info}
    {fr : FileRef} {f : mkfs_fs_file} {sr : StatRef} {st : Stat}
    (h : fd_open e s fd idx info fr f sr st)
    (h0 : s'.file_desc = s.file_desc)
    (h1 : s'.opened_files = s.opened_files) (h2 : s'.fs_stdin = s.fs_stdin)
    (h3 : s'.fs_stdout = s.fs_stdout) (h4 : s'.fs_stderr = s.fs_stderr)
    (h5 : s'.fs_files = s.fs_files) (h6 : s'.heap_files = s.heap_files)
    (h7 : s'.inode_table = s.inode_table) (h8 : s'.image_stats = s.image_stats) :
    fd_open e s' fd idx info fr f sr st := by
  obtain ⟨a, b, c, d⟩ := h
  refine ⟨a, b, ?_, ?_⟩
  · rw [h0]; exact c
  · rw [file_info_stat_congr idx h1 h2 h3 h4 h5 h6 h7 h8]; exact d

theorem fd_open_ambient {e : Env} {s : State} {fd idx : Int} {info : mkfs_file_info}
    {fr : FileRef} {f : mkfs_fs_file} {sr : StatRef} {st : Stat}
    (h : fd_open e s fd idx info fr f sr st) (a : Int) (b : List Int) :
    fd_open e (ambient s a b) fd idx info fr f sr st :=
  fd_open_congr h rfl rfl rfl rfl rfl rfl rfl rfl rfl

theorem check_reading_shape {e : Env} (hs : e.Sane) {s : State} {fd idx : Int}
    {info : mkfs_file_info} {fr : FileRef} {f : mkfs_fs_file} {sr : StatRef} {st : Stat}
    (h : fd_open e s fd idx info fr f sr st) {r : Int} {s1 : State}
    (hc : __mkfs_check_fd_file_ok_for_reading e s fd = some (r, s1)) :
    ∃ a b, s1 = ambient s a b := by
  rw [check_reading_open hs h] at hc
  obtain ⟨a0, b0, hab0⟩ := random_error_shape e s
  obtain ⟨a, b, hab⟩ := stat_access_shape e (RETURN_RANDOM_ERROR e s).2 st e.R_OK
  rw [hab0, ambient_ambient] at hab
  rw [hab0] at hc
  simp only [Option.some.injEq] at hc
  split at hc
  · simp only [Prod.mk.injEq] at hc
    exact ⟨a0, b0, hc.2.symm⟩
  · split at hc
    · simp only [Prod.mk.injEq] at hc
      exact ⟨e.EBADF, b0, hc.2.symm⟩
    · refine ⟨a, b, ?_⟩
      rw [← hab, hc]

theorem check_writing_shape {e : Env} (hs : e.Sane) {s : State} {fd idx : Int}
    {info : mkfs_file_info} {fr : FileRef} {f : mkfs_fs_file} {sr : StatRef} {st : Stat}
    (h : fd_open e s fd idx info fr f sr st) {r : Int} {s1 : State}
    (hc : __mkfs_check_fd_file_ok_for_writing e s fd = some (r, s1)) :
    ∃ a b, s1 = ambient s a b := by
  rw [check_writing_open hs h] at hc
  obtain ⟨a0, b0, hab0⟩ := random_error_shape e s
  obtain ⟨a, b, hab⟩ := stat_access_shape e (RETURN_RANDOM_ERROR e s).2 st e.W_OK
  rw [hab0, ambient_ambient] at hab
  rw [hab0] at hc
  simp only [Option.some.injEq] at hc
  split at hc
  · simp only [Prod.mk.injEq] at hc
    exact ⟨a0, b0, hc.2.symm⟩
  · split at hc
    · simp only [Prod.mk.injEq] at hc
      exact ⟨e.EBADF, b0, hc.2.symm⟩
    · refine ⟨a, b, ?_⟩
      rw [← hab, hc]

/-! ## Reading -/

/-- The result of `local_pread` on a descriptor in use whose checks pass. -/
theorem local_pread_open {e : Env} (hs : e.Sane) {s : State} {fd idx : Int}
    {info : mkfs_file_info} {fr : FileRef} {f : mkfs_fs_file} {sr : StatRef} {st : Stat}
    (h : fd_open e s fd idx info fr f sr st)
    (hsz0 : 0 ≤ st.st_size) (hsz1 : st.st_size ≤ e.OFF_MAX)
    (buf : List Nat) (count : Nat) {offset : Int} (ho : 0 ≤ offset) {s1 : State}
    (hc : __mkfs_check_fd_file_ok_for_reading e s fd = some (0, s1)) :
    local_pread e s fd buf count offset =
      if offset ≥ st.st_size then some ((0 : Int), buf, s1)
      else if min count (st.st_size - offset).toNat > buf.length then none
      else
        match f.data with
        | some p =>
          match s.mkfs_data_table[p]? with
          | none => none
          | some row =>
            if offset.toNat + min count (st.st_size - offset).toNat > TIS_FSIZE e then none
            else
              some (((min count (st.st_size - offset).toNat : Nat) : Int),
                row_read row offset.toNat (min count (st.st_size - offset).toNat) ++
                  buf.drop (min count (st.st_size - offset).toNat), s1)
        | none =>
          some (((min count (st.st_size - offset).toNat : Nat) : Int),
            (tis_make_unknown_buf s1 buf (min count (st.st_size - offset).toNat)).1,
            (tis_make_unknown_buf s1 buf (min count (st.st_size - offset).toNat)).2) := by
  obtain ⟨a, b, rfl⟩ := check_reading_shape hs h hc
  have hfi := fd_open_get_file_info hs (fd_open_ambient h a b)
  have hst := (fd_open_ambient h a b).2.2.2
  have hneg : ¬ offset < 0 := by omega
  have hsize := hs.off_size
  have hszc : to_size_t e st.st_size = st.st_size.toNat := to_size_t_of_range hsz0 (by omega)
  unfold local_pread
  simp only [hneg, if_false, hc, ne_eq, not_true_eq_false, hfi, hst, hszc]
  by_cases hge : offset ≥ st.st_size
  · have : offset.toNat ≥ st.st_size.toNat := by omega
    simp [hge, this]
  · have hlt : ¬ offset.toNat ≥ st.st_size.toNat := by omega
    have hmin : (if st.st_size.toNat - offset.toNat ≥ count then count
        else st.st_size.toNat - offset.toNat) = min count (st.st_size - offset).toNat := by
      split <;> omega
    simp only [hlt, if_false, hmin, hge]
    rfl


/-! ## Writing at the current position -/

/-- What a call of `write_file` that does not return -1 has done, for a
non-empty buffer on a descriptor in use. -/
theorem write_file_spec {e : Env} (hs : e.Sane) {s : State} {fd idx : Int}
    {info : mkfs_file_info} {fr : FileRef} {f : mkfs_fs_file} {sr : StatRef} {st : Stat}
    (h : fd_open e s fd idx info fr f sr st)
    (hsz0 : 0 ≤ st.st_size) (hsz1 : st.st_size ≤ e.OFF_MAX)
    {buf : List Nat} (hn : buf ≠ []) {r : Int} {s' : State}
    (hw : write_file e s fd buf = some (r, s')) (hr : r ≠ -1) :
    r = buf.length ∧ 0 ≤ info.position ∧
    (info.flags &&& e.O_WRONLY ≠ 0 ∨ info.flags &&& e.O_RDWR ≠ 0) ∧
    ∃ (o : Int) (a : Int) (b : List Int) (tbl : List (List Nat)) (os es : List Nat),
      o = (if info.flags &&& e.O_APPEND ≠ 0 then st.st_size else info.position) ∧
      o + buf.length ≤ e.OFF_MAX ∧
      s' = { put_stat { s with errno := a, nondet := b, mkfs_data_table := tbl,
                               out_stream := os, err_stream := es } sr
               { st with st_size := max st.st_size (o + buf.length) } with
             opened_files := s.opened_files.set idx.toNat
               { info with position := o + buf.length } } ∧
      (∀ p, f.data = some p → o + buf.length ≤ TIS_FSIZE e ∧
        ∃ row row', s.mkfs_data_table[p]? = some row ∧ tbl = s.mkfs_data_table.set p row' ∧
          ∀ i : Nat, row_get row' i =
            if o ≤ i ∧ (i : Int) < o + buf.length then buf.getD (i - o.toNat) 0
            else if st.st_size ≤ i ∧ (i : Int) < o then 0 else row_get row i) ∧
      (f.data = none → tbl = s.mkfs_data_table) := by
  have hfi := fd_open_get_file_info hs h
  have hst := h.2.2.2
  obtain ⟨ha, _, hf, hfs, hstat, hg⟩ := file_info_stat_parts hst
  have hlen : 0 < buf.length := List.length_pos.mpr hn
  unfold write_file at hw
  simp only [hfi, ha] at hw
  by_cases hpos : info.position < 0 ∨ info.position > e.OFF_MAX
  · simp [hpos] at hw
  simp only [hpos, if_false] at hw
  cases hlp : local_pwrite e s fd buf info.position with
  | none => simp [hlp] at hw
  | some t =>
    obtain ⟨n_write, s1⟩ := t
    simp only [hlp] at hw
    by_cases hnw : n_write = -1
    · subst hnw
      simp at hw
      omega
    obtain ⟨h1, h2, h3, o, a, b, tbl, os, es, ho, hsum, hs1, hdat, hnodat⟩ :=
      local_pwrite_spec hs h hsz0 hsz1 hn (by omega) hlp hnw
    have hgt : n_write > 0 := by omega
    have hst1 : file_info_stat s1 idx =
        some (info, fr, f, sr, { st with st_size := max st.st_size (o + buf.length) }) := by
      rw [hs1]
      apply file_info_stat_put_stat
      rw [file_info_stat_congr idx rfl rfl rfl rfl rfl rfl rfl rfl]
      exact hst
    have ha1 : arr_get s1.opened_files idx = some info := by
      rw [hs1, put_stat_opened_files]; exact ha
    simp only [hgt, if_true, hst1, arr_set_of_get _ ha1, Option.some.injEq, Prod.mk.injEq] at hw
    refine ⟨by omega, by omega, h3, o, a, b, tbl, os, es, ho, hsum, ?_, hdat, hnodat⟩
    rw [← hw.2, hs1]
    have hposeq : (if info.flags &&& e.O_APPEND ≠ 0 then max st.st_size (o + buf.length)
        else info.position + n_write) = o + buf.length := by
      rw [ho]
      split <;> omega
    simp only [hposeq, put_stat_opened_files]


theorem file_kind_ne_zero {e : Env} (hs : e.Sane) {k : Int} (hk : file_kind e k) : k ≠ 0 := by
  have hn := hs.kinds
  simp only [List.nodup_cons, List.mem_cons, List.mem_singleton, not_or] at hn
  rcases hk with hk | hk | hk <;> omega

/-- What a call of `__mkfs_write` that does not return -1 has done, for a
non-empty buffer on a descriptor in use. -/
theorem mkfs_write_spec {e : Env} (hs : e.Sane) {s : State} {fd idx : Int}
    {info : mkfs_file_info} {fr : FileRef} {f : mkfs_fs_file} {sr : StatRef} {st : Stat}
    (h : fd_open e s fd idx info fr f sr st)
    (hsz0 : 0 ≤ st.st_size) (hsz1 : st.st_size ≤ e.OFF_MAX)
    {buf : List Nat} (hn : buf ≠ []) {r : Int} {s' : State}
    (hw : __mkfs_write e s fd buf = some (r, s')) (hr : r ≠ -1) :
    r = buf.length ∧ 0 ≤ info.position ∧
    (info.flags &&& e.O_WRONLY ≠ 0 ∨ info.flags &&& e.O_RDWR ≠ 0) ∧
    ∃ (o : Int) (a : Int) (b : List Int) (tbl : List (List Nat)) (os es : List Nat),
      o = (if info.flags &&& e.O_APPEND ≠ 0 then st.st_size else info.position) ∧
      o + buf.length ≤ e.OFF_MAX ∧
      s' = { put_stat { s with errno := a, nondet := b, mkfs_data_table := tbl,
                               out_stream := os, err_stream := es } sr
               { st with st_size := max st.st_size (o + buf.length) } with
             opened_files := s.opened_files.set idx.toNat
               { info with position := o + buf.length } } ∧
      (∀ p, f.data = some p → o + buf.length ≤ TIS_FSIZE e ∧
        ∃ row row', s.mkfs_data_table[p]? = some row ∧ tbl = s.mkfs_data_table.set p row' ∧
          ∀ i : Nat, row_get row' i =
            if o ≤ i ∧ (i : Int) < o + buf.length then buf.getD (i - o.toNat) 0
            else if st.st_size ≤ i ∧ (i : Int) < o then 0 else row_get row i) ∧
      (f.data = none → tbl = s.mkfs_data_table) := by
  obtain ⟨d, hd, hk, hidx⟩ := h.2.2.1
  unfold __mkfs_write at hw
  cases hc : __mkfs_check_fd_file_ok_for_writing e s fd with
  | none => simp [hc] at hw
  | some t =>
    obtain ⟨ret, s1⟩ := t
    obtain ⟨a0, b0, rfl⟩ := check_writing_shape hs h hc
    simp only [hc] at hw
    by_cases hret : ret = -1
    · simp [hret] at hw
      omega
    have hd1 : arr_get (ambient s a0 b0).file_desc fd = some d := hd
    have hk0 := file_kind_ne_zero hs hk
    have hk1 : d.fd_kind = e.S_IFIFO ∨ d.fd_kind = e.S_IFCHR ∨ d.fd_kind = e.S_IFREG := by
      rcases hk with hk | hk | hk <;> simp [hk]
    simp only [hret, if_false, hd1, hk0, hk1, if_true] at hw
    exact write_file_spec hs (fd_open_ambient h a0 b0) hsz0 hsz1 hn hw hr

/-- A descriptor in use stays in use, on the same file object, after a store to
the inode of its file and a store to its open-file record that keeps the file
pointer. -/
theorem fd_open_update {e : Env} {s : State} {fd idx : Int} {info : mkfs_file_info}
    {fr : FileRef} {f : mkfs_fs_file} {sr : StatRef} {st : Stat}
    (h : fd_open e s fd idx info fr f sr st) (base : State) (info' : mkfs_file_info)
    (st' : Stat) (hfile : info'.file = info.file)
    (h0 : base.file_desc = s.file_desc)
    (h2 : base.fs_stdin = s.fs_stdin)
    (h3 : base.fs_stdout = s.fs_stdout) (h4 : base.fs_stderr = s.fs_stderr)
    (h5 : base.fs_files = s.fs_files) (h6 : base.heap_files = s.heap_files)
    (h7 : base.inode_table = s.inode_table) (h8 : base.image_stats = s.image_stats) :
    fd_open e { put_stat base sr st' with opened_files := s.opened_files.set idx.toNat info' }
      fd idx info' fr f sr st' := by
  obtain ⟨a, b, c, d⟩ := h
  obtain ⟨ha, hf0, hf, hfs, hstat, hg⟩ := file_info_stat_parts d
  refine ⟨a, b, ?_, ?_⟩
  · show ∃ d, arr_get (put_stat base sr st').file_desc fd = some d ∧ _
    rw [put_stat_file_desc, h0]; exact c
  · have hgf : get_fs_file { put_stat base sr st' with
        opened_files := s.opened_files.set idx.toNat info' } fr = some f := by
      have hfile0 : get_fs_file s fr = some f := by
        unfold file_info_file at hf
        simp only [ha, hf0] at hf
        cases hx : get_fs_file s fr with
        | none => simp [hx] at hf
        | some f1 =>
          simp only [hx, Option.some.injEq, Prod.mk.injEq, true_and] at hf
          rw [hf]
      rw [get_fs_file_eq] at hfile0 ⊢
      cases sr <;> simpa [put_stat, h2, h3, h4, h5, h6] using hfile0
    have hgs : get_stat { put_stat base sr st' with
        opened_files := s.opened_files.set idx.toNat info' } sr = some st' := by
      have hb : get_stat base sr = some st := by
        rw [get_stat_congr sr h7 h8]; exact hg
      have := get_stat_put_stat st' hb
      rw [get_stat_eq] at this ⊢
      exact this
    simp only [file_info_stat, file_info_file, arr_get_set_same info' ha, hfile, hf0, hgf,
      file_stat, hstat, hgs]


/-! ## The build without random errors -/

theorem stat_access_no_err {e : Env} (hne : e.no_err = true) (s : State) (st : Stat) (m : Nat) :
    stat_access e s st m =
      if stat_access_ok e st m then (0, s) else (-1, { s with errno := e.EBADF }) := by
  unfold stat_access
  rw [random_error_no_err e s hne]
  simp

theorem check_reading_no_err {e : Env} (hs : e.Sane) (hne : e.no_err = true) {s : State}
    {fd idx : Int} {info : mkfs_file_info} {fr : FileRef} {f : mkfs_fs_file} {sr : StatRef}
    {st : Stat} (h : fd_open e s fd idx info fr f sr st)
    (hflags : info.flags &&& e.O_WRONLY = 0) (hperm : stat_access_ok e st e.R_OK = true) :
    __mkfs_check_fd_file_ok_for_reading e s fd = some (0, s) := by
  rw [check_reading_open hs h, random_error_no_err e s hne, stat_access_no_err hne]
  simp [hflags, hperm]

theorem check_writing_no_err {e : Env} (hs : e.Sane) (hne : e.no_err = true) {s : State}
    {fd idx : Int} {info : mkfs_file_info} {fr : FileRef} {f : mkfs_fs_file} {sr : StatRef}
    {st : Stat} (h : fd_open e s fd idx info fr f sr st) {r : Int} {s1 : State}
    (hc : __mkfs_check_fd_file_ok_for_writing e s fd = some (r, s1)) (hr : r ≠ -1) :
    r = 0 ∧ s1 = s := by
  rw [check_writing_open hs h, random_error_no_err e s hne, stat_access_no_err hne] at hc
  simp only [Bool.false_eq_true, if_false, Option.some.injEq] at hc
  split at hc
  · simp only [Prod.mk.injEq] at hc
    omega
  · split at hc
    · simp only [Prod.mk.injEq] at hc
      exact ⟨hc.1.symm, hc.2.symm⟩
    · simp only [Prod.mk.injEq] at hc
      omega

/-- With an empty buffer `__mkfs_write` changes nothing when it returns 0 in
the build without random errors. -/
theorem mkfs_write_nil_no_err {e : Env} (hs : e.Sane) (hne : e.no_err = true) {s : State}
    {fd idx : Int} {info : mkfs_file_info} {fr : FileRef} {f : mkfs_fs_file} {sr : StatRef}
    {st : Stat} (h : fd_open e s fd idx info fr f sr st) {s1 : State}
    (hw : __mkfs_write e s fd [] = some (0, s1)) : s1 = s := by
  obtain ⟨d, hd, hk, hidx⟩ := h.2.2.1
  have hfi := fd_open_get_file_info hs h
  obtain ⟨ha, _⟩ := file_info_stat_parts h.2.2.2
  unfold __mkfs_write at hw
  cases hc : __mkfs_check_fd_file_ok_for_writing e s fd with
  | none => simp [hc] at hw
  | some t =>
    obtain ⟨ret, s0⟩ := t
    simp only [hc] at hw
    by_cases hret : ret = -1
    · simp [hret] at hw
    obtain ⟨_, rfl⟩ := check_writing_no_err hs hne h hc hret
    have hk0 := file_kind_ne_zero hs hk
    have hk1 : d.fd_kind = e.S_IFIFO ∨ d.fd_kind = e.S_IFCHR ∨ d.fd_kind = e.S_IFREG := by
      rcases hk with hk | hk | hk <;> simp [hk]
    simp only [hret, if_false, hd, hk0, hk1, if_true] at hw
    unfold write_file at hw
    simp only [hfi, ha] at hw
    by_cases hpos : info.position < 0 ∨ info.position > e.OFF_MAX
    · simp [hpos] at hw
    have hneg : ¬ info.position < 0 := by omega
    simp only [hpos, if_false, local_pwrite, hneg, hc, hret, hfi, List.length_nil] at hw
    have hboth : info.position ≤ e.OFF_MAX ∧ s1 = s0 := by simpa using hw.symm
    exact hboth.2


/-! ## Claims -/

/-- C1: with error injection disabled, on a descriptor open read-write without
`O_APPEND` whose file has a materialized buffer, when `write` of the bytes `buf`
returns their number, `pread` of as many bytes at the position the write
started from returns that number and puts exactly `buf` in the caller's
buffer (and changes nothing else). -/
theorem C1_write_then_pread_roundtrip (e : Env) (hs : e.Sane) (hne : e.no_err = true)
    (s s1 : State) (fd idx : Int) (info : mkfs_file_info) (fr : FileRef) (f : mkfs_fs_file)
    (sr : StatRef) (st : Stat) (p : Nat) (row : List Nat) (buf buf2 : List Nat)
    (h : fd_open e s fd idx info fr f sr st)
    (hrw : info.flags &&& e.O_RDWR ≠ 0 ∧ info.flags &&& e.O_WRONLY = 0)
    (hna : info.flags &&& e.O_APPEND = 0)
    (hperm : stat_access_ok e st e.R_OK = true)
    (hmat : materialized e s f st p row) (hsz : 0 ≤ st.st_size)
    (hcap : buf.length ≤ buf2.length)
    (hw : __mkfs_write e s fd buf = some ((buf.length : Int), s1)) :
    __mkfs_pread e s1 fd buf2 buf.length info.position =
      some ((buf.length : Int), buf ++ buf2.drop buf.length, s1) := by
  obtain ⟨hdata, hrow, hfit⟩ := hmat
  have hint := hs.int_le_off
  have hsz1 : st.st_size ≤ e.OFF_MAX := by
    unfold TIS_FSIZE at hfit
    omega
  unfold __mkfs_pread
  by_cases hn : buf = []
  · subst hn
    have hs1 : s1 = s := mkfs_write_nil_no_err hs hne h hw
    subst hs1
    have hpos : 0 ≤ info.position ∧ info.position ≤ e.OFF_MAX := by
      obtain ⟨d, hd, hk, hidx⟩ := h.2.2.1
      have hfi := fd_open_get_file_info hs h
      obtain ⟨ha, _⟩ := file_info_stat_parts h.2.2.2
      unfold __mkfs_write at hw
      cases hc : __mkfs_check_fd_file_ok_for_writing e s1 fd with
      | none => simp [hc] at hw
      | some t =>
        obtain ⟨ret, s0⟩ := t
        simp only [hc] at hw
        by_cases hret : ret = -1
        · simp [hret] at hw
        obtain ⟨_, rfl⟩ := check_writing_no_err hs hne h hc hret
        have hk0 := file_kind_ne_zero hs hk
        have hk1 : d.fd_kind = e.S_IFIFO ∨ d.fd_kind = e.S_IFCHR ∨ d.fd_kind = e.S_IFREG := by
          rcases hk with hk | hk | hk <;> simp [hk]
        simp only [hret, if_false, hd, hk0, hk1, if_true] at hw
        unfold write_file at hw
        simp only [hfi, ha] at hw
        by_cases hpos : info.position < 0 ∨ info.position > e.OFF_MAX
        · simp [hpos] at hw
        · omega
    rw [local_pread_open hs h hsz hsz1 buf2 _ hpos.1
      (check_reading_no_err hs hne h hrw.2 hperm)]
    by_cases hge : info.position ≥ st.st_size
    · simp [hge]
    · have hpf : ¬ (info.position.toNat > TIS_FSIZE e) := by omega
      simp [hge, hdata, hrow, hpf, row_read]
  · have hne1 : (buf.length : Int) ≠ -1 := by omega
    obtain ⟨_, hp0, _, o, a, b, tbl, os, es, ho, hsum, hs1, hdat, _⟩ :=
      mkfs_write_spec hs h hsz hsz1 hn hw hne1
    have ho' : o = info.position := by simp [ho, hna]
    subst ho'
    obtain ⟨hfit', row0, row', hrow0, htbl, hbytes⟩ := hdat p hdata
    have hopen1 := fd_open_update h
      { s with errno := a, nondet := b, mkfs_data_table := tbl, out_stream := os,
               err_stream := es }
      { info with position := info.position + buf.length }
      { st with st_size := max st.st_size (info.position + buf.length) }
      rfl rfl rfl rfl rfl rfl rfl rfl rfl
    rw [← hs1] at hopen1
    have hplt : p < s.mkfs_data_table.length := (List.getElem?_eq_some.mp hrow0).1
    have hrow1 : s1.mkfs_data_table[p]? = some row' := by
      rw [hs1]
      show (put_stat _ sr _).mkfs_data_table[p]? = some row'
      rw [put_stat_data_table]
      simp [htbl, hplt]
    rw [local_pread_open hs hopen1 (by simp; omega) (by simp; omega) buf2 _ hp0
      (check_reading_no_err hs hne hopen1 hrw.2 hperm)]
    have hlt : ¬ (info.position ≥ max st.st_size (info.position + buf.length)) := by
      have : 0 < buf.length := List.length_pos.mpr hn
      omega
    have hmin : min buf.length
        (max st.st_size (info.position + buf.length) - info.position).toNat = buf.length := by
      omega
    have hread : row_read row' info.position.toNat buf.length = buf := by
      rw [row_read_eq_iff]
      refine ⟨rfl, ?_⟩
      intro i hi
      rw [hbytes]
      have c1 : info.position ≤ ((info.position.toNat + i : Nat) : Int) ∧
          ((info.position.toNat + i : Nat) : Int) < info.position + buf.length := by omega
      rw [if_pos c1]
      congr 1
      omega
    have hfit2 : ¬ (info.position.toNat + buf.length > TIS_FSIZE e) := by omega
    simp only [hlt, if_false, hmin, hdata, hrow1, hfit2, hread]
    have hcap' : ¬ (buf.length > buf2.length) := by omega
    simp [hcap']

theorem sample_env_sane (ne : Bool) (u eu : Nat) : (sample_env ne u eu).Sane := by
  constructor <;> simp only [sample_env] <;> decide



theorem C1_witness :
    __mkfs_write demo_env demo_rw 3 [1, 2, 3] = some (3, demo_rw_written) ∧
      __mkfs_pread demo_env demo_rw_written 3 [7, 7, 7, 7] 3 1 =
        some (3, [1, 2, 3, 7], demo_rw_written) :=
  ⟨by decide,
   C1_write_then_pread_roundtrip demo_env (sample_env_sane _ _ _) rfl demo_rw demo_rw_written 3 3
    { position := 1, error := 0, eof := 0, flags := 66, file := some (FileRef.fs_files 0) }
    (FileRef.fs_files 0)
    { fullpath := some "f", stat := some (StatRef.inode_table 3), content := none,
      data := some 3 }
    (StatRef.inode_table 3)
    { st_ino := 3, st_mode := 33188, st_uid := 1000, st_gid := 100, st_size := 3,
      st_nlink := 1, st_dev := 88, st_blksize := 512 }
    3 [65, 66, 67] [1, 2, 3] [7, 7, 7, 7]
    ⟨by decide, by decide, ⟨⟨32768, 3⟩, by decide, Or.inl rfl, rfl⟩, by decide⟩
    (by decide) (by decide) (by decide) ⟨rfl, by decide, by decide⟩ (by decide) (by decide)
    (by decide)⟩

/-- A descriptor on the file whose inode record is replaced sees the new record. -/
theorem fd_open_put_stat {e : Env} {s : State} {fd idx : Int} {info : mkfs_file_info}
    {fr : FileRef} {f : mkfs_fs_file} {sr : StatRef} {st : Stat}
    (h : fd_open e s fd idx info fr f sr st) (base : State) (st' : Stat)
    (h0 : base.file_desc = s.file_desc) (h1 : base.opened_files = s.opened_files)
    (h2 : base.fs_stdin = s.fs_stdin)
    (h3 : base.fs_stdout = s.fs_stdout) (h4 : base.fs_stderr = s.fs_stderr)
    (h5 : base.fs_files = s.fs_files) (h6 : base.heap_files = s.heap_files)
    (h7 : base.inode_table = s.inode_table) (h8 : base.image_stats = s.image_stats) :
    fd_open e (put_stat base sr st') fd idx info fr f sr st' := by
  have hb : fd_open e base fd idx info fr f sr st :=
    fd_open_congr h h0 h1 h2 h3 h4 h5 h6 h7 h8
  obtain ⟨a, b, c, d⟩ := hb
  refine ⟨a, b, ?_, file_info_stat_put_stat st' d⟩
  rw [put_stat_file_desc]
  exact c

theorem check_reading_ret {e : Env} (hs : e.Sane) {s : State} {fd idx : Int}
    {info : mkfs_file_info} {fr : FileRef} {f : mkfs_fs_file} {sr : StatRef} {st : Stat}
    (h : fd_open e s fd idx info fr f sr st) :
    ∃ r s1, __mkfs_check_fd_file_ok_for_reading e s fd = some (r, s1) ∧ (r = 0 ∨ r = -1) := by
  rw [check_reading_open hs h]
  by_cases hinj : (RETURN_RANDOM_ERROR e s).1 = true
  · exact ⟨-1, (RETURN_RANDOM_ERROR e s).2, by simp [hinj], Or.inr rfl⟩
  · by_cases hw : info.flags &&& e.O_WRONLY = 0
    · rcases stat_access_fst e (RETURN_RANDOM_ERROR e s).2 st e.R_OK with h0 | h1
      · exact ⟨0, (stat_access e (RETURN_RANDOM_ERROR e s).2 st e.R_OK).2,
          by simp [hinj, hw, ← h0.1], Or.inl rfl⟩
      · exact ⟨-1, (stat_access e (RETURN_RANDOM_ERROR e s).2 st e.R_OK).2,
          by simp [hinj, hw, ← h1], Or.inr rfl⟩
    · exact ⟨-1, { (RETURN_RANDOM_ERROR e s).2 with errno := e.EBADF },
        by simp [hinj, hw], Or.inr rfl⟩

/-- C4: on a descriptor in use whose `pread` passes its checks, with a
non-negative offset `o` and a file of size `s`, `pread` returns `min (c, s - o)`
when `o < s` and 0 when `o >= s`; when the buffer is materialized the bytes
put in the caller's buffer are the file bytes from `o` on, and nothing else
changes. -/
theorem C4_pread_clamps_to_file_size (e : Env) (hs : e.Sane) (s s1 : State) (fd idx : Int)
    (info : mkfs_file_info) (fr : FileRef) (f : mkfs_fs_file) (sr : StatRef) (st : Stat)
    (buf : List Nat) (count : Nat) (o : Int)
    (h : fd_open e s fd idx info fr f sr st)
    (hsz0 : 0 ≤ st.st_size) (hsz1 : st.st_size ≤ e.OFF_MAX) (ho : 0 ≤ o)
    (hcap : count ≤ buf.length)
    (hfit : ∀ p, f.data = some p →
      st.st_size ≤ TIS_FSIZE e ∧ ∃ row, s.mkfs_data_table[p]? = some row)
    (hchk : __mkfs_check_fd_file_ok_for_reading e s fd = some (0, s1)) :
    ∃ r b s2, __mkfs_pread e s fd buf count o = some (r, b, s2) ∧
      r = (if o < st.st_size then min (count : Int) (st.st_size - o) else 0) ∧
      (∀ p row, f.data = some p → s.mkfs_data_table[p]? = some row →
        b = row_read row o.toNat r.toNat ++ buf.drop r.toNat ∧ s2 = s1) := by
  unfold __mkfs_pread
  rw [local_pread_open hs h hsz0 hsz1 buf count ho hchk]
  by_cases hge : o ≥ st.st_size
  · have hlt : ¬ o < st.st_size := by omega
    refine ⟨0, buf, s1, by simp [hge], by simp [hlt], ?_⟩
    intro p row _ _
    simp [row_read]
  · have hlt : o < st.st_size := by omega
    have hcap' : ¬ (min count (st.st_size - o).toNat > buf.length) := by omega
    simp only [hge, if_false, hcap', hlt, if_true]
    cases hd : f.data with
    | none =>
      refine ⟨_, _, _, rfl, by omega, ?_⟩
      intro p row hp
      simp at hp
    | some p =>
      obtain ⟨hf1, row, hrow⟩ := hfit p hd
      have hfit2 : ¬ (o.toNat + min count (st.st_size - o).toNat > TIS_FSIZE e) := by omega
      simp only [hrow, hfit2, if_false]
      refine ⟨_, _, _, rfl, by omega, ?_⟩
      intro p' row' hp' hrow'
      simp only [Option.some.injEq] at hp'
      subst hp'
      rw [hrow] at hrow'
      simp only [Option.some.injEq] at hrow'
      subst hrow'
      exact ⟨by rw [Int.toNat_ofNat], rfl⟩


/-- C3: on a materialized file of size `s`, after a successful `pwrite` of
`n > 0` bytes at an offset `o > s` through a descriptor without `O_APPEND`, a
`pread` of `o - s` bytes at offset `s` through any descriptor on that file has
a result, and unless it fails its checks (result -1) it returns `o - s` and the
`o - s` bytes it delivers are all zero; with `__TIS_MKFS_NO_ERR` it does not
fail when the descriptor is not write-only and the inode grants read access. -/
theorem C3_gap_after_write_past_end_reads_zero (e : Env) (hs : e.Sane) (s s1 : State)
    (fd idx : Int) (info : mkfs_file_info) (fr : FileRef) (f : mkfs_fs_file) (sr : StatRef)
    (st : Stat) (p : Nat) (row : List Nat) (buf : List Nat) (o : Int)
    (fd2 idx2 : Int) (info2 : mkfs_file_info) (buf2 : List Nat)
    (h : fd_open e s fd idx info fr f sr st)
    (hmat : materialized e s f st p row) (hsz : 0 ≤ st.st_size)
    (hna : info.flags &&& e.O_APPEND = 0)
    (hn : buf ≠ []) (ho : st.st_size < o) (homax : o ≤ e.OFF_MAX)
    (hw : __mkfs_pwrite e s fd buf o = some ((buf.length : Int), s1))
    (h2 : fd_open e s fd2 idx2 info2 fr f sr st)
    (hcap : (o - st.st_size).toNat ≤ buf2.length) :
    ∃ r b s2,
      __mkfs_pread e s1 fd2 buf2 (o - st.st_size).toNat st.st_size = some (r, b, s2) ∧
      (r ≠ -1 → r = o - st.st_size ∧
        b.take (o - st.st_size).toNat = List.replicate (o - st.st_size).toNat 0) ∧
      (e.no_err = true → info2.flags &&& e.O_WRONLY = 0 →
        stat_access_ok e st e.R_OK = true → r ≠ -1) := by
  obtain ⟨hdata, hrow, hfit⟩ := hmat
  have hint := hs.int_le_off
  have hsz1 : st.st_size ≤ e.OFF_MAX := by
    unfold TIS_FSIZE at hfit
    omega
  have hlen : 0 < buf.length := List.length_pos.mpr hn
  have hne1 : (buf.length : Int) ≠ -1 := by omega
  unfold __mkfs_pwrite at hw
  obtain ⟨_, _, _, o', a, b, tbl, os, es, ho', hsum, hs1, hdat, _⟩ :=
    local_pwrite_spec hs h hsz hsz1 hn homax hw hne1
  have ho'' : o' = o := by simp [ho', hna]
  subst ho''
  obtain ⟨hfit', row0, row', hrow0, htbl, hbytes⟩ := hdat p hdata
  have hopen1 := fd_open_put_stat h2
    { s with errno := a, nondet := b, mkfs_data_table := tbl, out_stream := os,
             err_stream := es }
    { st with st_size := max st.st_size (o' + buf.length) }
    rfl rfl rfl rfl rfl rfl rfl rfl rfl
  rw [← hs1] at hopen1
  have hplt : p < s.mkfs_data_table.length := (List.getElem?_eq_some.mp hrow0).1
  have hrow1 : s1.mkfs_data_table[p]? = some row' := by
    rw [hs1, put_stat_data_table]
    simp [htbl, hplt]
  unfold __mkfs_pread
  obtain ⟨r0, s0, hc, hr0⟩ := check_reading_ret hs hopen1
  rcases hr0 with hr0 | hr0
  · subst hr0
    rw [local_pread_open hs hopen1 (by simp; omega) (by simp; omega) buf2 _ hsz hc]
    have hlt : ¬ (st.st_size ≥ max st.st_size (o' + buf.length)) := by omega
    have hmin : min (o' - st.st_size).toNat
        (max st.st_size (o' + buf.length) - st.st_size).toNat = (o' - st.st_size).toNat := by
      omega
    have hcap' : ¬ ((o' - st.st_size).toNat > buf2.length) := by omega
    have hfit2 : ¬ (st.st_size.toNat + (o' - st.st_size).toNat > TIS_FSIZE e) := by omega
    simp only [hlt, if_false, hmin, hcap', hdata, hrow1, hfit2]
    refine ⟨_, _, _, rfl, ?_, fun _ _ _ => by omega⟩
    intro _
    refine ⟨by omega, ?_⟩
    have hzero : row_read row' st.st_size.toNat (o' - st.st_size).toNat =
        List.replicate (o' - st.st_size).toNat 0 := by
      rw [row_read_eq_iff]
      refine ⟨by simp, ?_⟩
      intro i hi
      rw [hbytes]
      have c1 : ¬ (o' ≤ ((st.st_size.toNat + i : Nat) : Int) ∧
          ((st.st_size.toNat + i : Nat) : Int) < o' + buf.length) := by omega
      have c2 : st.st_size ≤ ((st.st_size.toNat + i : Nat) : Int) ∧
          ((st.st_size.toNat + i : Nat) : Int) < o' := by omega
      rw [if_neg c1, if_pos c2]
      simp [List.getD_eq_getElem?_getD, List.getElem?_replicate, hi]
    rw [hzero]
    simp
  · subst hr0
    refine ⟨-1, buf2, s0, ?_, by simp, ?_⟩
    · unfold local_pread
      have hneg : ¬ st.st_size < 0 := by omega
      simp [hneg, hc]
    · intro hne hfl hp
      have hok := check_reading_no_err hs hne hopen1 hfl hp
      rw [hok] at hc
      simp only [Option.some.injEq, Prod.mk.injEq] at hc
      omega

theorem ambient_of_errno (s : State) (a : Int) : { s with errno := a } = ambient s a s.nondet :=
  rfl

/-- The reading check on a descriptor whose flags carry `O_WRONLY`. -/
theorem check_reading_write_only {e : Env} (hs : e.Sane) {s : State} {fd idx : Int}
    {info : mkfs_file_info} {fr : FileRef} {f : mkfs_fs_file} {sr : StatRef} {st : Stat}
    (h : fd_open e s fd idx info fr f sr st) (hwo : info.flags &&& e.O_WRONLY ≠ 0) :
    ∃ a b, __mkfs_check_fd_file_ok_for_reading e s fd = some (-1, ambient s a b) ∧
      (no_injection e s → a = e.EBADF) := by
  rw [check_reading_open hs h]
  obtain ⟨a0, b0, hab0⟩ := random_error_shape e s
  by_cases hinj : (RETURN_RANDOM_ERROR e s).1 = true
  · refine ⟨a0, b0, by simp [hinj, hab0], ?_⟩
    intro hno
    unfold no_injection at hno
    rw [hinj] at hno
    exact absurd hno (by decide)
  · refine ⟨e.EBADF, b0, ?_, fun _ => rfl⟩
    simp only [hinj, hwo, Bool.false_eq_true, if_false, ne_eq, not_false_eq_true, if_true, hab0]
    rfl

/-- The writing check on a descriptor whose flags carry neither `O_WRONLY` nor
`O_RDWR`. -/
theorem check_writing_read_only {e : Env} (hs : e.Sane) {s : State} {fd idx : Int}
    {info : mkfs_file_info} {fr : FileRef} {f : mkfs_fs_file} {sr : StatRef} {st : Stat}
    (h : fd_open e s fd idx info fr f sr st)
    (hro : info.flags &&& e.O_WRONLY = 0 ∧ info.flags &&& e.O_RDWR = 0) :
    ∃ a b, __mkfs_check_fd_file_ok_for_writing e s fd = some (-1, ambient s a b) ∧
      (no_injection e s → a = e.EBADF) := by
  rw [check_writing_open hs h]
  obtain ⟨a0, b0, hab0⟩ := random_error_shape e s
  by_cases hinj : (RETURN_RANDOM_ERROR e s).1 = true
  · refine ⟨a0, b0, by simp [hinj, hab0], ?_⟩
    intro hno
    unfold no_injection at hno
    rw [hinj] at hno
    exact absurd hno (by decide)
  · refine ⟨e.EBADF, b0, ?_, fun _ => rfl⟩
    simp only [hinj, hro, Bool.false_eq_true, if_false, and_self, if_true, hab0]
    rfl

/-- C5, as amended: on a descriptor whose flags carry `O_WRONLY`, `pread` and
`read` return -1 and leave the caller's buffer and the whole state but `errno`
and the stream of unknown values as they were (so the position and the file
are unchanged); `errno` is `EBADF` when the offset is not negative and no random
error is returned, and `EINVAL` when the offset of `pread` is negative. -/
theorem C5_read_on_write_only_descriptor (e : Env) (hs : e.Sane) (s : State) (fd idx : Int)
    (info : mkfs_file_info) (fr : FileRef) (f : mkfs_fs_file) (sr : StatRef) (st : Stat)
    (buf : List Nat) (count : Nat) (o : Int)
    (h : fd_open e s fd idx info fr f sr st) (hwo : info.flags &&& e.O_WRONLY ≠ 0)
    (hpos : 0 ≤ info.position ∧ info.position ≤ e.OFF_MAX) :
    (∃ a b, __mkfs_pread e s fd buf count o = some (-1, buf, ambient s a b) ∧
      (0 ≤ o → no_injection e s → a = e.EBADF) ∧ (o < 0 → a = e.EINVAL)) ∧
    (∃ a b, __mkfs_read e s fd buf count = some (-1, buf, ambient s a b) ∧
      (no_injection e s → a = e.EBADF)) := by
  obtain ⟨a, b, hc, hab⟩ := check_reading_write_only hs h hwo
  have hpread : ∀ off : Int, 0 ≤ off →
      local_pread e s fd buf count off = some (-1, buf, ambient s a b) := by
    intro off hoff
    have hneg : ¬ off < 0 := by omega
    unfold local_pread
    simp [hneg, hc]
  constructor
  · unfold __mkfs_pread
    by_cases hneg : o < 0
    · refine ⟨e.EINVAL, s.nondet, ?_, fun h0 => absurd hneg (by omega), fun _ => rfl⟩
      unfold local_pread
      simp [hneg, ambient]
    · exact ⟨a, b, hpread o (by omega), fun _ => hab, fun h0 => absurd h0 hneg⟩
  · obtain ⟨h0, h1, ⟨d, hd, hk, hidx⟩, hst⟩ := h
    have hfi := get_file_info_of_open hs h0 h1 hd hk
    rw [hidx] at hfi
    obtain ⟨ha, _⟩ := file_info_stat_parts hst
    have hk0 := file_kind_ne_zero hs hk
    have hk1 : d.fd_kind = e.S_IFIFO ∨ d.fd_kind = e.S_IFCHR ∨ d.fd_kind = e.S_IFREG := by
      rcases hk with hk | hk | hk <;> simp [hk]
    have hrange : ¬ (fd < 0 ∨ fd ≥ e.FOPEN_MAX) := by omega
    have hposn : ¬ (info.position < 0 ∨ info.position > e.OFF_MAX) := by omega
    refine ⟨a, b, ?_, hab⟩
    unfold __mkfs_read
    simp only [hrange, if_false, hd, hk0, hk1, if_true, read_file, hfi, ha, hposn,
      hpread info.position hpos.1]
    simp

/-- C6, as amended: on a descriptor whose flags carry neither `O_WRONLY` nor
`O_RDWR`, `pwrite` and `write` return -1 and leave the whole state but `errno`
and the stream of unknown values as it was (so the bytes and the size of the
file and the position are unchanged); `errno` is `EBADF` when the offset is not
negative and no random error is returned, and `EINVAL` when the offset of
`pwrite` is negative. -/
theorem C6_write_on_read_only_descriptor (e : Env) (hs : e.Sane) (s : State) (fd idx : Int)
    (info : mkfs_file_info) (fr : FileRef) (f : mkfs_fs_file) (sr : StatRef) (st : Stat)
    (buf : List Nat) (o : Int)
    (h : fd_open e s fd idx info fr f sr st)
    (hro : info.flags &&& e.O_WRONLY = 0 ∧ info.flags &&& e.O_RDWR = 0) :
    (∃ a b, __mkfs_pwrite e s fd buf o = some (-1, ambient s a b) ∧
      (0 ≤ o → no_injection e s → a = e.EBADF) ∧ (o < 0 → a = e.EINVAL)) ∧
    (∃ a b, __mkfs_write e s fd buf = some (-1, ambient s a b) ∧
      (no_injection e s → a = e.EBADF)) := by
  obtain ⟨a, b, hc, hab⟩ := check_writing_read_only hs h hro
  constructor
  · unfold __mkfs_pwrite
    by_cases hneg : o < 0
    · refine ⟨e.EINVAL, s.nondet, ?_, fun h0 => absurd hneg (by omega), fun _ => rfl⟩
      unfold local_pwrite
      simp [hneg, ambient]
    · refine ⟨a, b, ?_, fun _ => hab, fun h0 => absurd h0 hneg⟩
      unfold local_pwrite
      simp [hneg, hc]
  · refine ⟨a, b, ?_, hab⟩
    unfold __mkfs_write
    simp [hc]

/-- C7: on a descriptor opened with `O_APPEND` on a materialized file of size
`s`, a successful `pwrite` of `n > 0` bytes, whatever the offset `o >= 0` the
caller gives, and a successful `write`, whatever the position, store the bytes
at `[s, s + n)`, leave the bytes below `s` unchanged and set the size to
`s + n`; `write` also sets the position to `s + n`, `pwrite` leaves it. -/
theorem C7_append_writes_at_end_of_file (e : Env) (hs : e.Sane) (s : State) (fd idx : Int)
    (info : mkfs_file_info) (fr : FileRef) (f : mkfs_fs_file) (sr : StatRef) (st : Stat)
    (p : Nat) (row : List Nat) (buf : List Nat)
    (h : fd_open e s fd idx info fr f sr st) (happ : info.flags &&& e.O_APPEND ≠ 0)
    (hmat : materialized e s f st p row) (hsz : 0 ≤ st.st_size) (hn : buf ≠ []) :
    (∀ (o : Int) (s1 : State), 0 ≤ o → o ≤ e.OFF_MAX →
      __mkfs_pwrite e s fd buf o = some ((buf.length : Int), s1) →
      (∃ row', s1.mkfs_data_table[p]? = some row' ∧
        row_read row' st.st_size.toNat buf.length = buf ∧
        ∀ i : Nat, (i : Int) < st.st_size → row_get row' i = row_get row i) ∧
      file_info_stat s1 idx =
        some (info, fr, f, sr, { st with st_size := st.st_size + buf.length })) ∧
    (∀ (s1 : State), __mkfs_write e s fd buf = some ((buf.length : Int), s1) →
      (∃ row', s1.mkfs_data_table[p]? = some row' ∧
        row_read row' st.st_size.toNat buf.length = buf ∧
        ∀ i : Nat, (i : Int) < st.st_size → row_get row' i = row_get row i) ∧
      file_info_stat s1 idx =
        some ({ info with position := st.st_size + buf.length }, fr, f, sr,
          { st with st_size := st.st_size + buf.length })) := by
  obtain ⟨hdata, hrow, hfit⟩ := hmat
  have hint := hs.int_le_off
  have hsz1 : st.st_size ≤ e.OFF_MAX := by
    unfold TIS_FSIZE at hfit
    omega
  have hlen : 0 < buf.length := List.length_pos.mpr hn
  have hne1 : (buf.length : Int) ≠ -1 := by omega
  have hmax : max st.st_size (st.st_size + (buf.length : Int)) = st.st_size + buf.length := by
    omega
  -- the facts on the row, from the description of the new row
  have hrowfacts : ∀ (tbl : List (List Nat)) (row0 row' : List Nat),
      s.mkfs_data_table[p]? = some row0 → tbl = s.mkfs_data_table.set p row' →
      (∀ i : Nat, row_get row' i =
        if st.st_size ≤ i ∧ (i : Int) < st.st_size + buf.length then
          buf.getD (i - st.st_size.toNat) 0
        else if st.st_size ≤ i ∧ (i : Int) < st.st_size then 0 else row_get row0 i) →
      tbl[p]? = some row' ∧ row_read row' st.st_size.toNat buf.length = buf ∧
        ∀ i : Nat, (i : Int) < st.st_size → row_get row' i = row_get row i := by
    intro tbl row0 row' hrow0 htbl hbytes
    have hplt : p < s.mkfs_data_table.length := (List.getElem?_eq_some.mp hrow0).1
    have hrr : row0 = row := by
      rw [hrow] at hrow0
      exact (Option.some.inj hrow0).symm
    subst hrr
    refine ⟨by simp [htbl, hplt], ?_, ?_⟩
    · rw [row_read_eq_iff]
      refine ⟨rfl, ?_⟩
      intro i hi
      rw [hbytes]
      have c1 : st.st_size ≤ ((st.st_size.toNat + i : Nat) : Int) ∧
          ((st.st_size.toNat + i : Nat) : Int) < st.st_size + buf.length := by omega
      rw [if_pos c1]
      congr 1
      omega
    · intro i hi
      rw [hbytes]
      have c1 : ¬ (st.st_size ≤ (i : Int) ∧ (i : Int) < st.st_size + buf.length) := by omega
      have c2 : ¬ (st.st_size ≤ (i : Int) ∧ (i : Int) < st.st_size) := by omega
      rw [if_neg c1, if_neg c2]
  constructor
  · intro o s1 ho0 ho1 hw
    unfold __mkfs_pwrite at hw
    obtain ⟨_, _, _, o', a, b, tbl, os, es, ho', hsum, hs1, hdat, _⟩ :=
      local_pwrite_spec hs h hsz hsz1 hn ho1 hw hne1
    have ho'' : o' = st.st_size := by simp [ho', happ]
    subst ho''
    obtain ⟨_, row0, row', hrow0, htbl, hbytes⟩ := hdat p hdata
    obtain ⟨g1, g2, g3⟩ := hrowfacts tbl row0 row' hrow0 htbl hbytes
    refine ⟨⟨row', ?_, g2, g3⟩, ?_⟩
    · rw [hs1, put_stat_data_table]
      exact g1
    · rw [hs1, hmax]
      apply file_info_stat_put_stat
      rw [file_info_stat_congr idx rfl rfl rfl rfl rfl rfl rfl rfl]
      exact h.2.2.2
  · intro s1 hw
    obtain ⟨_, _, _, o', a, b, tbl, os, es, ho', hsum, hs1, hdat, _⟩ :=
      mkfs_write_spec hs h hsz hsz1 hn hw hne1
    have ho'' : o' = st.st_size := by simp [ho', happ]
    subst ho''
    obtain ⟨_, row0, row', hrow0, htbl, hbytes⟩ := hdat p hdata
    obtain ⟨g1, g2, g3⟩ := hrowfacts tbl row0 row' hrow0 htbl hbytes
    refine ⟨⟨row', ?_, g2, g3⟩, ?_⟩
    · rw [hs1]
      show (put_stat _ sr _).mkfs_data_table[p]? = some row'
      rw [put_stat_data_table]
      exact g1
    · have hopen1 := fd_open_update h
        { s with errno := a, nondet := b, mkfs_data_table := tbl, out_stream := os,
                 err_stream := es }
        { info with position := st.st_size + buf.length }
        { st with st_size := max st.st_size (st.st_size + buf.length) }
        rfl rfl rfl rfl rfl rfl rfl rfl rfl
      rw [← hs1, hmax] at hopen1
      exact hopen1.2.2.2

/-! ## Seeking -/

/-- The result of `__mkfs_lseek` on a descriptor in use. -/
theorem lseek_open {e : Env} (hs : e.Sane) {s : State} {fd idx : Int}
    {info : mkfs_file_info} {fr : FileRef} {f : mkfs_fs_file} {sr : StatRef} {st : Stat}
    (h : fd_open e s fd idx info fr f sr st) {d : mkfs_fd_info}
    (hd : arr_get s.file_desc fd = some d) (offset whence : Int) :
    __mkfs_lseek e s fd offset whence =
      if d.fd_kind ≠ e.S_IFREG then some (-1, { s with errno := e.EBADF })
      else if (RETURN_RANDOM_ERROR e s).1 then some (-1, (RETURN_RANDOM_ERROR e s).2)
      else if whence = e.SEEK_SET ∨ whence = e.SEEK_END ∨ whence = e.SEEK_CUR then
        if (if whence = e.SEEK_SET then 0 else if whence = e.SEEK_END then st.st_size
              else info.position) + offset > e.OFF_MAX ∨
            (if whence = e.SEEK_SET then 0 else if whence = e.SEEK_END then st.st_size
              else info.position) + offset < -(e.OFF_MAX : Int) - 1 then none
        else if (if whence = e.SEEK_SET then 0 else if whence = e.SEEK_END then st.st_size
              else info.position) + offset < 0 then
          some (-1, { (RETURN_RANDOM_ERROR e s).2 with errno := e.EINVAL })
        else
          some ((if whence = e.SEEK_SET then 0 else if whence = e.SEEK_END then st.st_size
              else info.position) + offset,
            { (RETURN_RANDOM_ERROR e s).2 with
              opened_files := (RETURN_RANDOM_ERROR e s).2.opened_files.set idx.toNat
                { info with position :=
                    (if whence = e.SEEK_SET then 0 else if whence = e.SEEK_END then st.st_size
                      else info.position) + offset } })
      else some (-1, { (RETURN_RANDOM_ERROR e s).2 with errno := e.EINVAL }) := by
  have hfi := fd_open_get_file_info hs h
  obtain ⟨h0, h1, _, hst⟩ := h
  obtain ⟨ha, _⟩ := file_info_stat_parts hst
  have hrange : ¬ (fd < 0 ∨ fd ≥ e.FOPEN_MAX) := by omega
  obtain ⟨a0, b0, hab0⟩ := random_error_shape e s
  unfold __mkfs_lseek __mkfs_seekable
  simp only [hrange, if_false, hd]
  by_cases hk : d.fd_kind = e.S_IFREG
  · simp only [hk, ne_eq, not_true_eq_false, if_false]
    by_cases hinj : (RETURN_RANDOM_ERROR e s).1 = true
    · simp [hinj]
    · have hfi1 : __mkfs_get_file_info e (RETURN_RANDOM_ERROR e s).2 fd = some (some idx) := by
        rw [hab0, get_file_info_ambient]; exact hfi
      have hst1 : file_info_stat (RETURN_RANDOM_ERROR e s).2 idx =
          some (info, fr, f, sr, st) := by
        rw [hab0, file_info_stat_ambient]; exact hst
      have ha1 : arr_get (RETURN_RANDOM_ERROR e s).2.opened_files idx = some info := by
        rw [hab0]; exact ha
      have h01 : ¬ ((0 : Int) = -1) := by decide
      simp only [hinj, Bool.false_eq_true, if_false, hfi1, hst1, ha1, Option.map_some', h01]
      by_cases w1 : whence = e.SEEK_SET
      · subst w1
        simp only [if_true, true_or, zero_add, arr_set_of_get _ ha1]
      · by_cases w2 : whence = e.SEEK_END
        · subst w2
          simp only [w1, if_true, if_false, true_or, or_true, arr_set_of_get _ ha1]
        · by_cases w3 : whence = e.SEEK_CUR
          · subst w3
            simp only [w1, w2, if_true, if_false, or_true, arr_set_of_get _ ha1]
          · simp only [w1, w2, w3, if_false, or_self]
  · simp [hk]


theorem no_injection_shape {e : Env} {s : State} (h : no_injection e s) :
    ∃ b, (RETURN_RANDOM_ERROR e s).2 = ambient s s.errno b := by
  unfold no_injection at h
  unfold RETURN_RANDOM_ERROR at h ⊢
  by_cases hne : e.no_err = true
  · exact ⟨s.nondet, by simp [hne, ambient]⟩
  · simp only [hne] at h ⊢
    by_cases hc : (tis_next s).1 = 0
    · refine ⟨(tis_next s).2.nondet, ?_⟩
      simp only [hc, ne_eq, not_true_eq_false, if_false, Bool.false_eq_true]
      unfold tis_next ambient
      cases s.nondet <;> rfl
    · simp [hc] at h

/-- C9: on a regular-file descriptor with position `p` on a file of size `s`,
when no random error is returned, `lseek` takes the base 0 for `SEEK_SET`, `p`
for `SEEK_CUR` and `s` for `SEEK_END`; if `whence` is one of the three and
`base + offset` is not negative (and is a value of `off_t`) it returns
`base + offset` and makes it the position, whatever the size; otherwise it
returns -1 with `errno` set to `EINVAL` and the position unchanged.  Nothing
else changes but the stream of unknown values. -/
theorem C9_lseek_sets_position (e : Env) (hs : e.Sane) (s : State) (fd idx : Int)
    (info : mkfs_file_info) (fr : FileRef) (f : mkfs_fs_file) (sr : StatRef) (st : Stat)
    (d : mkfs_fd_info) (offset whence : Int)
    (h : fd_open e s fd idx info fr f sr st)
    (hd : arr_get s.file_desc fd = some d) (hreg : d.fd_kind = e.S_IFREG)
    (hq : no_injection e s)
    (hrep : whence = e.SEEK_SET ∨ whence = e.SEEK_CUR ∨ whence = e.SEEK_END →
      -(e.OFF_MAX : Int) - 1 ≤ lseek_base e info st whence + offset ∧
        lseek_base e info st whence + offset ≤ e.OFF_MAX) :
    ∃ b, __mkfs_lseek e s fd offset whence =
      some (if (whence = e.SEEK_SET ∨ whence = e.SEEK_CUR ∨ whence = e.SEEK_END) ∧
              0 ≤ lseek_base e info st whence + offset then
            (lseek_base e info st whence + offset,
              { ambient s s.errno b with
                opened_files := s.opened_files.set idx.toNat
                  { info with position := lseek_base e info st whence + offset } })
          else (-1, ambient s e.EINVAL b)) := by
  obtain ⟨b, hb⟩ := no_injection_shape hq
  refine ⟨b, ?_⟩
  have hw := hs.whence
  simp only [List.nodup_cons, List.mem_cons, List.mem_singleton, not_or, List.not_mem_nil,
    not_false_eq_true, List.nodup_nil, and_true] at hw
  obtain ⟨⟨hsc, hse⟩, hce⟩ := hw
  unfold no_injection at hq
  rw [lseek_open hs h hd offset whence, hb]
  simp only [hreg, ne_eq, not_true_eq_false, if_false, hq, Bool.false_eq_true]
  by_cases w1 : whence = e.SEEK_SET
  · subst w1
    have hr := hrep (Or.inl rfl)
    simp only [lseek_base, if_true] at hr ⊢
    have hr' : ¬ (0 + offset > e.OFF_MAX ∨ 0 + offset < -(e.OFF_MAX : Int) - 1) := by omega
    simp only [true_or, if_true, hr', if_false, true_and]
    by_cases hn : 0 + offset < 0
    · have : ¬ (0 ≤ 0 + offset) := by omega
      simp only [hn, if_true, this, if_false]
      rfl
    · have : 0 ≤ 0 + offset := by omega
      simp only [hn, if_false, this, if_true]
      rfl
  · by_cases w2 : whence = e.SEEK_END
    · subst w2
      have hr := hrep (Or.inr (Or.inr rfl))
      have hec : ¬ e.SEEK_END = e.SEEK_CUR := fun hx => hce hx.symm
      simp only [lseek_base, w1, hec, if_false] at hr ⊢
      have hr' : ¬ (st.st_size + offset > e.OFF_MAX ∨
          st.st_size + offset < -(e.OFF_MAX : Int) - 1) := by omega
      simp only [true_or, or_true, if_true, hr', if_false, true_and]
      by_cases hn : st.st_size + offset < 0
      · have : ¬ (0 ≤ st.st_size + offset) := by omega
        simp only [hn, if_true, this, if_false]
        rfl
      · have : 0 ≤ st.st_size + offset := by omega
        simp only [hn, if_false, this, if_true]
        rfl
    · by_cases w3 : whence = e.SEEK_CUR
      · subst w3
        have hr := hrep (Or.inr (Or.inl rfl))
        simp only [lseek_base, w1, w2, if_true, if_false] at hr ⊢
        have hr' : ¬ (info.position + offset > e.OFF_MAX ∨
            info.position + offset < -(e.OFF_MAX : Int) - 1) := by omega
        simp only [true_or, or_true, if_true, hr', if_false, true_and]
        by_cases hn : info.position + offset < 0
        · have : ¬ (0 ≤ info.position + offset) := by omega
          simp only [hn, if_true, this, if_false]
          rfl
        · have : 0 ≤ info.position + offset := by omega
          simp only [hn, if_false, this, if_true]
          rfl
      · simp only [w1, w2, w3, or_self, if_false, false_and]
        rfl


/-! ## Truncation through a descriptor -/

/-- What `__mkfs_ftruncate` has done when it returns 0 on a descriptor in use. -/
theorem ftruncate_spec {e : Env} (hs : e.Sane) {s : State} {fd idx : Int}
    {info : mkfs_file_info} {fr : FileRef} {f : mkfs_fs_file} {sr : StatRef} {st : Stat}
    (h : fd_open e s fd idx info fr f sr st) {length : Int} {s1 : State}
    (ht : __mkfs_ftruncate e s fd length = some (0, s1)) :
    0 ≤ length ∧
    ∃ (a : Int) (b : List Int) (tbl : List (List Nat)),
      s1 = put_stat { s with errno := a, nondet := b, mkfs_data_table := tbl } sr
             { st with st_size := length } ∧
      (∀ p, f.data = some p → length ≤ TIS_FSIZE e ∧
        (length ≤ st.st_size → tbl = s.mkfs_data_table) ∧
        (st.st_size < length → 0 ≤ st.st_size ∧ ∃ row, s.mkfs_data_table[p]? = some row ∧
          tbl = s.mkfs_data_table.set p
            (row_zero row st.st_size.toNat (length - st.st_size).toNat))) ∧
      (f.data = none → tbl = s.mkfs_data_table) := by
  have hfi := fd_open_get_file_info hs h
  have hst := h.2.2.2
  obtain ⟨_, _, _, _, _, hg⟩ := file_info_stat_parts hst
  unfold __mkfs_ftruncate at ht
  cases hc : __mkfs_check_fd_file_ok_for_writing e s fd with
  | none => simp [hc] at ht
  | some t =>
    obtain ⟨ret, s0⟩ := t
    obtain ⟨a0, b0, rfl⟩ := check_writing_shape hs h hc
    simp only [hc] at ht
    by_cases hret : ret = -1
    · simp [hret] at ht
    simp only [hret, if_false, get_file_info_ambient, hfi, file_info_stat_ambient, hst] at ht
    obtain ⟨a, b, hab⟩ := stat_access_shape e (ambient s a0 b0) st e.W_OK
    rw [ambient_ambient] at hab
    by_cases hr1 : (stat_access e (ambient s a0 b0) st e.W_OK).1 = 0
    · simp only [hr1, ne_eq, not_true_eq_false, if_false, hab, file_info_stat_ambient,
        hst] at ht
      by_cases hneg : length < 0
      · simp [hneg] at ht
      simp only [hneg, if_false] at ht
      have hga : get_stat (ambient s a b) sr = some st := by
        rw [get_stat_congr sr rfl rfl]; exact hg
      refine ⟨by omega, a, b, ?_⟩
      cases hd : f.data with
      | none =>
        simp only [hd, set_stat_of_get _ hga, Option.map_some', Option.some.injEq,
          Prod.mk.injEq, true_and] at ht
        exact ⟨s.mkfs_data_table, ht.symm, by simp, by simp⟩
      | some p =>
        simp only [hd] at ht
        by_cases hbig : length.toNat > TIS_FSIZE e
        · simp [hbig] at ht
        simp only [hbig, if_false] at ht
        by_cases hgrow : length > st.st_size
        · simp only [hgrow, if_true] at ht
          by_cases hnn : st.st_size < 0
          · simp [hnn] at ht
          simp only [hnn, if_false] at ht
          cases hrow : (ambient s a b).mkfs_data_table[p]? with
          | none => simp [hrow] at ht
          | some row =>
            have hgb : ∀ tbl : List (List Nat),
                get_stat { ambient s a b with mkfs_data_table := tbl } sr = some st := by
              intro tbl
              rw [get_stat_congr sr rfl rfl]; exact hg
            simp only [hrow, set_stat_of_get _ (hgb _), Option.map_some', Option.some.injEq,
              Prod.mk.injEq, true_and] at ht
            refine ⟨_, ht.symm, ?_, by simp⟩
            intro p' hp'
            simp only [Option.some.injEq] at hp'
            subst hp'
            refine ⟨by omega, fun hle => absurd hle (by omega), fun _ => ?_⟩
            exact ⟨by omega, row, hrow, rfl⟩
        · simp only [hgrow, if_false, set_stat_of_get _ hga, Option.map_some',
            Option.some.injEq, Prod.mk.injEq, true_and] at ht
          refine ⟨s.mkfs_data_table, ht.symm, ?_, by simp⟩
          intro p' _
          exact ⟨by omega, fun _ => rfl, fun hlt => absurd hlt (by omega)⟩
    · simp only [hr1, ne_eq, not_false_eq_true, if_true, Option.some.injEq,
        Prod.mk.injEq] at ht
      exact False.elim ht.1


/-- C10: on a regular-file descriptor, a successful `ftruncate (fd, L)` with
`L >= 0` sets the size of the file to `L`; `lseek (fd, 0, SEEK_END)` then has a
result, which is `L` whenever no random error is returned (and -1 otherwise). -/
theorem C10_ftruncate_sets_size (e : Env) (hs : e.Sane) (s s1 : State) (fd idx : Int)
    (info : mkfs_file_info) (fr : FileRef) (f : mkfs_fs_file) (sr : StatRef) (st : Stat)
    (d : mkfs_fd_info) (L : Int)
    (h : fd_open e s fd idx info fr f sr st)
    (hd : arr_get s.file_desc fd = some d) (hreg : d.fd_kind = e.S_IFREG)
    (hL0 : 0 ≤ L) (hL1 : L ≤ e.OFF_MAX)
    (ht : __mkfs_ftruncate e s fd L = some (0, s1)) :
    file_info_stat s1 idx = some (info, fr, f, sr, { st with st_size := L }) ∧
    ∃ r s2, __mkfs_lseek e s1 fd 0 e.SEEK_END = some (r, s2) ∧
      (no_injection e s1 → r = L) ∧ (r = L ∨ r = -1) := by
  obtain ⟨_, a, b, tbl, hs1, _, _⟩ := ftruncate_spec hs h ht
  have hopen1 := fd_open_put_stat h
    { s with errno := a, nondet := b, mkfs_data_table := tbl }
    { st with st_size := L } rfl rfl rfl rfl rfl rfl rfl rfl rfl
  rw [← hs1] at hopen1
  have hd1 : arr_get s1.file_desc fd = some d := by
    rw [hs1, put_stat_file_desc]; exact hd
  have hw := hs.whence
  simp only [List.nodup_cons, List.mem_cons, List.mem_singleton, not_or, List.not_mem_nil,
    not_false_eq_true, List.nodup_nil, and_true] at hw
  obtain ⟨⟨hsc, hse⟩, hce⟩ := hw
  have hes : ¬ e.SEEK_END = e.SEEK_SET := fun hx => hse hx.symm
  refine ⟨hopen1.2.2.2, ?_⟩
  rw [lseek_open hs hopen1 hd1 0 e.SEEK_END]
  have hr' : ¬ (L + 0 > e.OFF_MAX ∨ L + 0 < -(e.OFF_MAX : Int) - 1) := by omega
  have hn : ¬ (L + 0 < 0) := by omega
  simp only [hreg, ne_eq, not_true_eq_false, if_false, hes, if_true, true_or, or_true, hr', hn]
  by_cases hinj : (RETURN_RANDOM_ERROR e s1).1 = true
  · simp only [hinj, if_true]
    refine ⟨-1, _, rfl, ?_, Or.inr rfl⟩
    intro hno
    unfold no_injection at hno
    rw [hinj] at hno
    exact absurd hno (by decide)
  · simp only [hinj, Bool.false_eq_true, if_false, add_zero]
    exact ⟨L, _, rfl, fun _ => rfl, Or.inl rfl⟩


/-- C8: on a descriptor without `O_APPEND` on a file of size `s`, a successful
`pwrite` of `n > 0` bytes at offset `o`, and a successful `write` of `n > 0`
bytes from position `o`, leave the size `max (s, o + n)`; hence, when
`lseek (fd, 0, SEEK_END)` has succeeded, a successful `write` of `n` bytes
leaves the size `s + n` (and the position `s + n`). -/
theorem C8_size_after_write_is_max (e : Env) (hs : e.Sane) (s : State) (fd idx : Int)
    (info : mkfs_file_info) (fr : FileRef) (f : mkfs_fs_file) (sr : StatRef) (st : Stat)
    (buf : List Nat)
    (h : fd_open e s fd idx info fr f sr st) (hna : info.flags &&& e.O_APPEND = 0)
    (hsz0 : 0 ≤ st.st_size) (hsz1 : st.st_size ≤ e.OFF_MAX) (hn : buf ≠ []) :
    (∀ (o : Int) (s1 : State), o ≤ e.OFF_MAX →
      __mkfs_pwrite e s fd buf o = some ((buf.length : Int), s1) →
      file_info_stat s1 idx =
        some (info, fr, f, sr, { st with st_size := max st.st_size (o + buf.length) })) ∧
    (∀ (s1 : State), __mkfs_write e s fd buf = some ((buf.length : Int), s1) →
      file_info_stat s1 idx =
        some ({ info with position := info.position + buf.length }, fr, f, sr,
          { st with st_size := max st.st_size (info.position + buf.length) })) ∧
    (∀ (r : Int) (s1 s2 : State), __mkfs_lseek e s fd 0 e.SEEK_END = some (r, s1) → r ≠ -1 →
      __mkfs_write e s1 fd buf = some ((buf.length : Int), s2) →
      file_info_stat s2 idx =
        some ({ info with position := st.st_size + buf.length }, fr, f, sr,
          { st with st_size := st.st_size + buf.length })) := by
  have hlen : 0 < buf.length := List.length_pos.mpr hn
  have hne1 : (buf.length : Int) ≠ -1 := by omega
  -- a successful write, from any position
  have hwrite : ∀ (s0 : State) (info0 : mkfs_file_info) (s1 : State),
      fd_open e s0 fd idx info0 fr f sr st → info0.flags = info.flags →
      __mkfs_write e s0 fd buf = some ((buf.length : Int), s1) →
      file_info_stat s1 idx =
        some ({ info0 with position := info0.position + buf.length }, fr, f, sr,
          { st with st_size := max st.st_size (info0.position + buf.length) }) := by
    intro s0 info0 s1 h0 hfl hw
    obtain ⟨_, _, _, o', a, b, tbl, os, es, ho', hsum, hs1, _, _⟩ :=
      mkfs_write_spec hs h0 hsz0 hsz1 hn hw hne1
    have ho'' : o' = info0.position := by simp [ho', hfl, hna]
    subst ho''
    have hopen1 := fd_open_update h0
      { s0 with errno := a, nondet := b, mkfs_data_table := tbl, out_stream := os,
                err_stream := es }
      { info0 with position := info0.position + buf.length }
      { st with st_size := max st.st_size (info0.position + buf.length) }
      rfl rfl rfl rfl rfl rfl rfl rfl rfl
    rw [← hs1] at hopen1
    exact hopen1.2.2.2
  refine ⟨?_, ?_, ?_⟩
  · intro o s1 ho1 hw
    unfold __mkfs_pwrite at hw
    obtain ⟨_, _, _, o', a, b, tbl, os, es, ho', hsum, hs1, _, _⟩ :=
      local_pwrite_spec hs h hsz0 hsz1 hn ho1 hw hne1
    have ho'' : o' = o := by simp [ho', hna]
    subst ho''
    rw [hs1]
    apply file_info_stat_put_stat
    rw [file_info_stat_congr idx rfl rfl rfl rfl rfl rfl rfl rfl]
    exact h.2.2.2
  · intro s1 hw
    exact hwrite s info s1 h rfl hw
  · intro r s1 s2 hl hr hw
    obtain ⟨d, hd, _, _⟩ := h.2.2.1
    obtain ⟨_, _, _, _, _, hg⟩ := file_info_stat_parts h.2.2.2
    have hwh := hs.whence
    simp only [List.nodup_cons, List.mem_cons, List.mem_singleton, not_or, List.not_mem_nil,
      not_false_eq_true, List.nodup_nil, and_true] at hwh
    obtain ⟨⟨hsc, hse⟩, hce⟩ := hwh
    have hes : ¬ e.SEEK_END = e.SEEK_SET := fun hx => hse hx.symm
    obtain ⟨a0, b0, hab0⟩ := random_error_shape e s
    rw [lseek_open hs h hd 0 e.SEEK_END, hab0] at hl
    have hr' : ¬ (st.st_size > e.OFF_MAX ∨ st.st_size < -(e.OFF_MAX : Int) - 1) := by
      omega
    have hnn : ¬ (st.st_size < 0) := by omega
    simp only [hes, if_false, if_true, true_or, or_true, add_zero, hr', hnn] at hl
    by_cases hk : d.fd_kind = e.S_IFREG
    · simp only [hk, ne_eq, not_true_eq_false, if_false] at hl
      by_cases hinj : (RETURN_RANDOM_ERROR e s).1 = true
      · simp only [hinj, if_true, Option.some.injEq, Prod.mk.injEq] at hl
        exact absurd hl.1.symm hr
      · simp only [hinj, Bool.false_eq_true, if_false, Option.some.injEq, Prod.mk.injEq] at hl
        have hopen1 := fd_open_update h (ambient s a0 b0)
          { info with position := st.st_size } st rfl rfl rfl rfl rfl rfl rfl rfl rfl
        rw [put_stat_self (by rw [get_stat_congr sr rfl rfl]; exact hg)] at hopen1
        have hs1 : s1 = { ambient s a0 b0 with
            opened_files := s.opened_files.set idx.toNat { info with position := st.st_size } } :=
          hl.2.symm
        rw [← hs1] at hopen1
        have hfin := hwrite s1 { info with position := st.st_size } s2 hopen1 rfl hw
        have hmax : max st.st_size (st.st_size + (buf.length : Int)) =
            st.st_size + buf.length := by omega
        simp only [hmax] at hfin
        exact hfin
    · simp only [hk, ne_eq, not_false_eq_true, if_true, Option.some.injEq, Prod.mk.injEq] at hl
      exact absurd hl.1.symm hr

/-! ## Create, write, close, reopen, read -/

theorem init_fd_file_eq (e : Env) (s : State) (fd0 : Nat) (kind : Int) (flags : Nat)
    (file : Option FileRef) (hfd : fd0 < s.file_desc.length)
    (hi : s.next_file_index < e.FOPEN_MAX) (hof : s.next_file_index < s.opened_files.length) :
    init_fd_file e s fd0 kind flags file =
      some ((s.next_file_index : Int),
        { s with next_file_index := s.next_file_index + 1,
                 file_desc := s.file_desc.set fd0 { fd_kind := kind, fd_index := s.next_file_index },
                 opened_files := s.opened_files.set s.next_file_index
                   { position := 0, error := 0, eof := 0, flags := flags, file := file } }) := by
  have h1 : ¬ (s.next_file_index ≥ e.FOPEN_MAX) := by omega
  simp only [init_fd_file, mkfs_get_next_file_index, if_neg h1, arr_set]
  have h2 : (0 : Int) ≤ (fd0 : Int) ∧ ((fd0 : Int)).toNat < s.file_desc.length := by
    constructor
    · omega
    · simpa using hfd
  have h3 : (0 : Int) ≤ (s.next_file_index : Int) ∧
      ((s.next_file_index : Int)).toNat < s.opened_files.length := by
    constructor
    · omega
    · simpa using hof
  rw [if_pos h2, if_pos h3]
  simp only [Int.toNat_ofNat]

theorem open_fd_existing (e : Env) (s : State) (fd0 : Nat) (kind : Int) (flags : Nat)
    (content : Option (List Nat)) (L : Nat) (f : mkfs_fs_file) (sr : StatRef) (p : Nat)
    (hf : s.fs_files[L]? = some f) (hsr : f.stat = some sr) (hdata : f.data = some p)
    (hfd : fd0 < s.file_desc.length)
    (hi : s.next_file_index < e.FOPEN_MAX) (hof : s.next_file_index < s.opened_files.length)
    (htr : flags &&& e.O_TRUNC = 0)
    (hkind : kind = e.S_IFREG ∨ kind = e.S_IFIFO ∨ kind = e.S_IFCHR) :
    open_fd e s fd0 kind flags content (FileRef.fs_files L) =
      some (0,
        { s with next_file_index := s.next_file_index + 1,
                 file_desc := s.file_desc.set fd0 { fd_kind := kind, fd_index := s.next_file_index },
                 opened_files := s.opened_files.set s.next_file_index
                   { position := 0, error := 0, eof := 0, flags := flags,
                     file := some (FileRef.fs_files L) } }) := by
  have hnt : ¬ (flags &&& e.O_TRUNC ≠ 0 ∧ (flags &&& e.O_WRONLY ≠ 0 ∨ flags &&& e.O_RDWR ≠ 0)) :=
    fun h => h.1 htr
  simp only [open_fd, if_pos hkind, get_fs_file, hf, hsr,
    init_fd_file_eq e s fd0 kind flags _ hfd hi hof, if_neg hnt, hdata]
  simp

theorem open_fd_fresh (e : Env) (s : State) (fd0 : Nat) (kind : Int) (flags : Nat)
    (L : Nat) (f : mkfs_fs_file) (k : Nat) (st : Stat) (row : List Nat)
    (hf : s.fs_files[L]? = some f) (hsr : f.stat = some (StatRef.inode_table k))
    (hdata : f.data = none) (hst : s.inode_table[k]? = some st) (hsz : st.st_size = 0)
    (hino0 : 0 ≤ st.st_ino) (hino1 : st.st_ino < e.FOPEN_MAX)
    (hrow : s.mkfs_data_table[st.st_ino.toNat]? = some row)
    (hfd : fd0 < s.file_desc.length)
    (hi : s.next_file_index < e.FOPEN_MAX) (hof : s.next_file_index < s.opened_files.length)
    (htr : flags &&& e.O_TRUNC = 0) (hcr : flags &&& e.O_CREAT ≠ 0)
    (hkind : kind = e.S_IFREG ∨ kind = e.S_IFIFO ∨ kind = e.S_IFCHR) :
    open_fd e s fd0 kind flags none (FileRef.fs_files L) =
      some (0,
        { s with next_file_index := s.next_file_index + 1,
                 file_desc := s.file_desc.set fd0 { fd_kind := kind, fd_index := s.next_file_index },
                 opened_files := s.opened_files.set s.next_file_index
                   { position := 0, error := 0, eof := 0, flags := flags,
                     file := some (FileRef.fs_files L) },
                 fs_files := s.fs_files.set L { f with data := some st.st_ino.toNat } }) := by
  have hnt : ¬ (flags &&& e.O_TRUNC ≠ 0 ∧ (flags &&& e.O_WRONLY ≠ 0 ∨ flags &&& e.O_RDWR ≠ 0)) :=
    fun h => h.1 htr
  have hL : L < s.fs_files.length := by
    rcases List.getElem?_eq_some.mp hf with ⟨h, _⟩
    exact h
  have hc : f.data = none ∧ ((none : Option (List Nat)) ≠ none ∨ flags &&& e.O_CREAT ≠ 0) :=
    ⟨hdata, Or.inr hcr⟩
  have hz : ¬ (to_size_t e 0 > TIS_FSIZE e) := by
    simp [to_size_t]
  have hb : ¬ (st.st_ino < 0 ∨ st.st_ino ≥ e.FOPEN_MAX) := by omega
  have hp : ¬ ((0 : Int) > 0) := by decide
  simp only [open_fd, if_pos hkind, get_fs_file, hf, hsr,
    init_fd_file_eq e s fd0 kind flags _ hfd hi hof,
    if_neg hnt, if_pos hc, get_stat, hst, hsz, if_neg hz, if_neg hb, hrow, if_neg hp,
    set_fs_file, if_pos hL, Option.map_some']

theorem desc_loop_congr {s s' : State} (h : s'.file_desc = s.file_desc) (n k : Nat) :
    get_next_file_desc_loop s' n k = get_next_file_desc_loop s n k := by
  induction n generalizing k with
  | zero => rfl
  | succ n ih => simp only [get_next_file_desc_loop, h, ih]

theorem desc_loop_found {s : State} {n k fd0 : Nat}
    (h : get_next_file_desc_loop s n k = some fd0) (hlt : fd0 < k + n) :
    k ≤ fd0 ∧ (∃ d, s.file_desc[fd0]? = some d ∧ d.fd_kind = 0) ∧
      ∀ j, k ≤ j → j < fd0 → ∃ d, s.file_desc[j]? = some d ∧ d.fd_kind ≠ 0 := by
  induction n generalizing k with
  | zero =>
    simp only [get_next_file_desc_loop, Option.some.injEq] at h
    omega
  | succ n ih =>
    simp only [get_next_file_desc_loop] at h
    cases hd : s.file_desc[k]? with
    | none => simp [hd] at h
    | some d =>
      simp only [hd] at h
      by_cases hk : d.fd_kind = 0
      · rw [if_pos hk] at h
        have hfd : k = fd0 := Option.some.inj h
        subst hfd
        exact ⟨Nat.le_refl _, ⟨d, hd, hk⟩, fun j h1 h2 => by omega⟩
      · rw [if_neg hk] at h
        obtain ⟨h1, h2, h3⟩ := ih h (by omega)
        refine ⟨by omega, h2, fun j hj1 hj2 => ?_⟩
        by_cases hjk : j = k
        · subst hjk
          exact ⟨d, hd, hk⟩
        · exact h3 j (by omega) hj2

theorem desc_loop_of {s : State} {n k fd0 : Nat} (hk : k ≤ fd0) (hlt : fd0 < k + n)
    (h0 : ∃ d, s.file_desc[fd0]? = some d ∧ d.fd_kind = 0)
    (hb : ∀ j, k ≤ j → j < fd0 → ∃ d, s.file_desc[j]? = some d ∧ d.fd_kind ≠ 0) :
    get_next_file_desc_loop s n k = some fd0 := by
  induction n generalizing k with
  | zero => omega
  | succ n ih =>
    simp only [get_next_file_desc_loop]
    by_cases hkf : k = fd0
    · subst hkf
      obtain ⟨d, hd, hz⟩ := h0
      simp only [hd, if_pos hz]
    · obtain ⟨d, hd, hz⟩ := hb k (Nat.le_refl _) (by omega)
      simp only [hd, if_neg hz]
      exact ih (by omega) (by omega) (fun j h1 h2 => hb j (by omega) h2)

theorem desc_loop_reuse {s s' : State} {n fd0 : Nat} (d1 d0 : mkfs_fd_info)
    (h : get_next_file_desc_loop s n 0 = some fd0) (hlt : fd0 < n) (hz : d0.fd_kind = 0)
    (hfd : s'.file_desc = (s.file_desc.set fd0 d1).set fd0 d0) :
    get_next_file_desc_loop s' n 0 = some fd0 := by
  obtain ⟨_, ⟨d, hd, _⟩, h3⟩ := desc_loop_found h (by omega)
  have hlen : fd0 < s.file_desc.length := (List.getElem?_eq_some.mp hd).1
  refine desc_loop_of (Nat.zero_le _) (by omega) ⟨d0, ?_, hz⟩ (fun j h1 h2 => ?_)
  · rw [hfd, List.getElem?_set_self]
    simpa using hlen
  · obtain ⟨dj, hdj, hkj⟩ := h3 j h1 h2
    refine ⟨dj, ?_, hkj⟩
    rw [hfd, List.getElem?_set_ne (by omega), List.getElem?_set_ne (by omega)]
    exact hdj

theorem or_and_eq_zero {a b c : Nat} (h1 : a &&& c = 0) (h2 : b &&& c = 0) :
    (a ||| b) &&& c = 0 := by
  rw [Nat.and_comm, Nat.and_or_distrib_left, Nat.and_comm c a, Nat.and_comm c b, h1, h2]
  rfl

theorem or_and_right_ne_zero {a b : Nat} (h1 : a &&& b = 0) (hb : b ≠ 0) :
    (a ||| b) &&& b ≠ 0 := by
  rw [Nat.and_comm, Nat.and_or_distrib_left, Nat.and_comm b a, h1, Nat.and_self, Nat.zero_or]
  exact hb

theorem or_and_left_ne_zero {a b : Nat} (h1 : a &&& b = 0) (ha : a ≠ 0) :
    (a ||| b) &&& a ≠ 0 := by
  rw [Nat.and_comm, Nat.and_or_distrib_left, h1, Nat.and_self, Nat.or_zero]
  exact ha

theorem flag_facts {e : Env} (hs : e.Sane) :
    (e.O_RDONLY &&& e.O_WRONLY = 0 ∧ e.O_RDONLY &&& e.O_RDWR = 0 ∧
      e.O_RDONLY &&& e.O_CREAT = 0 ∧ e.O_RDONLY &&& e.O_TRUNC = 0) ∧
    ((e.O_CREAT ||| e.O_WRONLY) &&& e.O_CREAT ≠ 0 ∧ (e.O_CREAT ||| e.O_WRONLY) &&& e.O_WRONLY ≠ 0 ∧
      (e.O_CREAT ||| e.O_WRONLY) &&& e.O_RDONLY = 0 ∧ (e.O_CREAT ||| e.O_WRONLY) &&& e.O_RDWR = 0 ∧
      (e.O_CREAT ||| e.O_WRONLY) &&& e.O_TRUNC = 0 ∧
      (e.O_CREAT ||| e.O_WRONLY) &&& e.O_APPEND = 0) := by
  have h := hs.flag_bits
  simp only [List.pairwise_cons, List.mem_cons, List.mem_singleton, forall_eq_or_imp, forall_eq,
    List.not_mem_nil, false_implies, implies_true, and_true, List.Pairwise.nil,
    IsEmpty.forall_iff] at h
  obtain ⟨⟨r1, r2, r3, _, r5, _⟩, ⟨w1, w2, _, w4, w5⟩, ⟨_, _, _, _⟩, ⟨_, c2, c3⟩, _⟩ := h
  have w2c : e.O_CREAT &&& e.O_WRONLY = 0 := by rw [Nat.and_comm]; exact w2
  have r3c : e.O_CREAT &&& e.O_RDONLY = 0 := by rw [Nat.and_comm]; exact r3
  have r1c : e.O_WRONLY &&& e.O_RDONLY = 0 := by rw [Nat.and_comm]; exact r1
  have x3c : e.O_CREAT &&& e.O_RDWR = 0 := by
    rw [Nat.and_comm]
    assumption
  exact ⟨⟨r1, r2, r3, r5⟩, or_and_left_ne_zero w2c hs.creat, or_and_right_ne_zero w2c hs.wronly,
    or_and_eq_zero r3c r1c, or_and_eq_zero x3c w1, or_and_eq_zero c2 w4, or_and_eq_zero c3 w5⟩

theorem create_file_eq {e : Env} (hne : e.no_err = true) (s : State) (path : String)
    (mode : Nat) (hroom : s.fs_files.length < s.fs_files_nb_max)
    (hk : s.next_inode_index < e.FOPEN_MAX) (hklen : s.next_inode_index < s.inode_table.length) :
    create_file e s path mode =
      some (some s.fs_files.length,
        { s with inode_table := s.inode_table.set s.next_inode_index
                   (created_stat e s.next_inode mode 0),
                 next_inode_index := s.next_inode_index + 1,
                 next_inode := s.next_inode + 1,
                 fs_files := s.fs_files ++ [created_file path s.next_inode_index none] }) := by
  have h1 : ¬ (s.fs_files.length ≥ s.fs_files_nb_max) := by omega
  have h3 : (0 : Int) ≤ (s.next_inode_index : Int) ∧
      ((s.next_inode_index : Int)).toNat < s.inode_table.length := by
    constructor
    · omega
    · simpa using hklen
  have h3' : (0 : Int) ≤ (s.next_inode_index : Int) ∧
      s.next_inode_index < s.inode_table.length := ⟨h3.1, hklen⟩
  have h01 : ¬ ((0 : Int) ≠ 0) := by decide
  simp only [create_file, if_neg h1, random_error_no_err e s hne, hne, Bool.false_eq_true,
    if_false, if_true, if_neg h01, mk_inode, if_pos hk, arr_set, if_pos h3, Int.toNat_ofNat,
    if_pos h3', created_stat, created_file]

theorem land_int_ofNat (a n : Nat) : land_int (a : Int) n = a &&& n := rfl

theorem get_next_file_desc_eq (e : Env) {s : State} {fd0 : Nat}
    (h : get_next_file_desc_loop s e.FOPEN_MAX 0 = some fd0) (hlt : fd0 < e.FOPEN_MAX) :
    get_next_file_desc e s = some ((fd0 : Int), s) := by
  simp only [get_next_file_desc, h, if_pos hlt]

theorem list_set_append_last {α : Type} (xs : List α) (a b : α) :
    (xs ++ [a]).set xs.length b = xs ++ [b] := by
  induction xs with
  | nil => rfl
  | cons x xs ih => simp only [List.cons_append, List.length_cons, List.set_cons_succ, ih]

theorem list_getElem?_append_last {α : Type} (xs : List α) (a : α) :
    (xs ++ [a])[xs.length]? = some a := by
  induction xs with
  | nil => rfl
  | cons x xs ih => simp

theorem open_create_eq {e : Env} (hs : e.Sane) (hne : e.no_err = true) (s : State)
    (path : String) (mode : Nat) (fd0 : Nat) (row : List Nat)
    (hunk : __mkfs_get_file s path = none)
    (hroom : s.fs_files.length < s.fs_files_nb_max)
    (hk : s.next_inode_index < e.FOPEN_MAX) (hklen : s.next_inode_index < s.inode_table.length)
    (hino0 : 0 ≤ s.next_inode) (hino1 : s.next_inode < e.FOPEN_MAX)
    (hrow : s.mkfs_data_table[s.next_inode.toNat]? = some row)
    (hi : s.next_file_index < e.FOPEN_MAX) (hof : s.next_file_index < s.opened_files.length)
    (hfd : get_next_file_desc_loop s e.FOPEN_MAX 0 = some fd0) (hfd0 : fd0 < e.FOPEN_MAX)
    (hreg : (e.S_IFREG ||| mode) &&& e.S_IFMT = e.S_IFREG)
    (hw : stat_access_ok e (created_stat e s.next_inode mode 0) e.W_OK = true) :
    __mkfs_open e s path (e.O_CREAT ||| e.O_WRONLY) mode =
      some ((fd0 : Int),
        { s with inode_table := s.inode_table.set s.next_inode_index
                   (created_stat e s.next_inode mode 0),
                 next_inode_index := s.next_inode_index + 1,
                 next_inode := s.next_inode + 1,
                 fs_files := s.fs_files ++
                   [created_file path s.next_inode_index (some s.next_inode.toNat)],
                 next_file_index := s.next_file_index + 1,
                 file_desc := s.file_desc.set fd0
                   { fd_kind := e.S_IFREG, fd_index := s.next_file_index },
                 opened_files := s.opened_files.set s.next_file_index
                   { position := 0, error := 0, eof := 0, flags := e.O_CREAT ||| e.O_WRONLY,
                     file := some (FileRef.fs_files s.fs_files.length) } }) := by
  obtain ⟨_, fc, fw, fr, frw, ftr, _⟩ := flag_facts hs
  obtain ⟨sA, hsA⟩ : ∃ sA : State, sA =
      { s with inode_table := s.inode_table.set s.next_inode_index
                 (created_stat e s.next_inode mode 0),
               next_inode_index := s.next_inode_index + 1,
               next_inode := s.next_inode + 1,
               fs_files := s.fs_files ++ [created_file path s.next_inode_index none] } :=
    ⟨_, rfl⟩
  have hc : create_file e s path mode = some (some s.fs_files.length, sA) := by
    rw [hsA]
    exact create_file_eq hne s path mode hroom hk hklen
  have hfdlen : fd0 < s.file_desc.length := by
    obtain ⟨_, ⟨d, hd, _⟩, _⟩ := desc_loop_found hfd (by omega)
    exact (List.getElem?_eq_some.mp hd).1
  have hr1 : ¬ ((e.O_CREAT ||| e.O_WRONLY) &&& e.O_RDONLY ≠ 0 ∨
      (e.O_CREAT ||| e.O_WRONLY) &&& e.O_RDWR ≠ 0) := by
    intro h
    rcases h with h | h
    · exact h fr
    · exact h frw
  have hr2 : (e.O_CREAT ||| e.O_WRONLY) &&& e.O_WRONLY ≠ 0 ∨
      (e.O_CREAT ||| e.O_WRONLY) &&& e.O_RDWR ≠ 0 := Or.inl fw
  have h01 : ¬ ((0 : Int) = -1) := by decide
  have hfdne : ((fd0 : Int)) ≠ -1 := by omega
  have hisreg : S_ISREG e ((created_stat e s.next_inode mode 0).st_mode : Int) = true := by
    simp only [S_ISREG, land_int_ofNat, created_stat, hreg, beq_self_eq_true]
  have hgf : get_fs_file sA (FileRef.fs_files s.fs_files.length) =
      some (created_file path s.next_inode_index none) := by
    rw [hsA]
    exact list_getElem?_append_last _ _
  have hfs : file_stat sA (created_file path s.next_inode_index none) =
      some (StatRef.inode_table s.next_inode_index, created_stat e s.next_inode mode 0) := by
    rw [hsA]
    simp only [file_stat, created_file, get_stat, List.getElem?_set_self hklen]
  have hgl : get_next_file_desc e sA = some ((fd0 : Int), sA) := by
    refine get_next_file_desc_eq e ((desc_loop_congr ?_ _ _).trans hfd) hfd0
    rw [hsA]
  have hopen := open_fd_fresh e sA fd0 e.S_IFREG (e.O_CREAT ||| e.O_WRONLY) s.fs_files.length
    (created_file path s.next_inode_index none) s.next_inode_index
    (created_stat e s.next_inode mode 0) row
    (by rw [hsA]; exact list_getElem?_append_last _ _) rfl rfl
    (by rw [hsA]; simp only [List.getElem?_set_self hklen]) rfl hino0 hino1
    (by rw [hsA]; exact hrow) (by rw [hsA]; exact hfdlen) (by rw [hsA]; exact hi)
    (by rw [hsA]; exact hof) ftr fc (Or.inl rfl)
  have hcontent : (created_file path s.next_inode_index none).content = none := rfl
  have htof : tis_open_flags e (e.O_CREAT ||| e.O_WRONLY) = true := by
    have hcw : e.O_CREAT &&& e.O_WRONLY = 0 := by
      have h := hs.flag_bits
      simp only [List.pairwise_cons, List.mem_cons, List.mem_singleton, forall_eq_or_imp,
        forall_eq, List.not_mem_nil, false_implies, implies_true, and_true, List.Pairwise.nil,
        IsEmpty.forall_iff] at h
      rw [Nat.and_comm]
      exact h.2.1.2.1
    have hw2 : (e.O_CREAT ||| e.O_WRONLY) &&& e.O_WRONLY = e.O_WRONLY := by
      rw [Nat.and_comm, Nat.and_or_distrib_left, Nat.and_comm e.O_WRONLY e.O_CREAT, hcw,
        Nat.and_self, Nat.zero_or]
    simp only [tis_open_flags, hw2, beq_self_eq_true, Bool.true_or, Bool.or_true]
  simp only [__mkfs_open, open_file, htof, if_true, hunk, if_pos fc, hc, Option.map_some', hgf,
    hfs,
    if_neg hr1, if_pos hr2, stat_access_no_err hne, hw, if_true, if_neg h01, hgl,
    if_pos hfdne, hisreg, hcontent, hopen, ne_eq, not_true_eq_false, if_false]
  rw [hsA]
  simp only [created_stat, created_file, list_set_append_last]

theorem local_pwrite_at_exists {e : Env} (hs : e.Sane) {s : State} {idx : Int}
    {info : mkfs_file_info} {fr : FileRef} {f : mkfs_fs_file} {sr : StatRef} {st : Stat}
    (hst : file_info_stat s idx = some (info, fr, f, sr, st))
    {p : Nat} {row : List Nat} (hdata : f.data = some p)
    (hrow : s.mkfs_data_table[p]? = some row)
    (hsz0 : 0 ≤ st.st_size) (hsz1 : st.st_size ≤ e.OFF_MAX)
    {buf : List Nat} {o : Int} (ho0 : 0 ≤ o) (hfit : o + buf.length ≤ TIS_FSIZE e) :
    ∃ s', local_pwrite_at e s idx buf o = some ((buf.length : Int), s') := by
  obtain ⟨_, _, hf, hfs, hstat, hg⟩ := file_info_stat_parts hst
  have hint := hs.int_le_off
  have hsize := hs.off_size
  have hT : TIS_FSIZE e = e.INT_MAX := rfl
  have hplt : p < s.mkfs_data_table.length := (List.getElem?_eq_some.mp hrow).1
  have c1 : ¬ (buf.length > e.INT_MAX) := by omega
  have c2 : ¬ (o < 0 ∨ o.toNat + buf.length > TIS_FSIZE e) := by omega
  have hwd : write__mkfs_data e s idx o buf =
      some ((buf.length : Int),
        { s with mkfs_data_table := s.mkfs_data_table.set p (row_write row o.toNat buf) }) := by
    simp only [write__mkfs_data, hf, if_neg c1, hdata, hfs, if_neg c2, hrow]
  have hst2 : file_info_stat
      { s with mkfs_data_table := s.mkfs_data_table.set p (row_write row o.toNat buf) } idx =
      some (info, fr, f, sr, st) := by
    rw [file_info_stat_congr idx rfl rfl rfl rfl rfl rfl rfl rfl]; exact hst
  have hne : ¬ ((buf.length : Int) = -1) := by omega
  have hsum : to_size_t e (o + buf.length) = (o + buf.length).toNat :=
    to_size_t_of_range (by omega) (by omega)
  have hszc : to_size_t e st.st_size = st.st_size.toNat := to_size_t_of_range hsz0 (by omega)
  have hfinal : ∀ (s3 : State), get_stat s3 sr = some st →
      ∃ s', (if (o + buf.length).toNat > st.st_size.toNat then
        if (o + buf.length).toNat > e.OFF_MAX then none
        else
          (set_stat s3 sr { st with st_size := ((o + buf.length).toNat : Nat) }).map
            (fun s4 => ((buf.length : Int), s4))
      else some ((buf.length : Int), s3)) = some ((buf.length : Int), s') := by
    intro s3 hg3
    by_cases hgrow : (o + buf.length).toNat > st.st_size.toNat
    · have hbig : ¬ ((o + buf.length).toNat > e.OFF_MAX) := by omega
      simp only [hgrow, if_true, hbig, if_false, set_stat_of_get _ hg3, Option.map_some']
      exact ⟨_, rfl⟩
    · simp only [hgrow, if_false]
      exact ⟨_, rfl⟩
  simp only [local_pwrite_at, hwd, if_neg hne, hst2, hdata, hsum, hszc]
  by_cases hhole : o > st.st_size
  · have hnn : ¬ st.st_size < 0 := by omega
    simp only [hhole, if_true, hnn, if_false, List.getElem?_set_self hplt]
    exact hfinal _ (by rw [get_stat_congr sr rfl rfl]; exact hg)
  · simp only [hhole, if_false]
    exact hfinal _ (by rw [get_stat_congr sr rfl rfl]; exact hg)

theorem check_writing_ok_no_err {e : Env} (hs : e.Sane) (hne : e.no_err = true) {s : State}
    {fd idx : Int} {info : mkfs_file_info} {fr : FileRef} {f : mkfs_fs_file} {sr : StatRef}
    {st : Stat} (h : fd_open e s fd idx info fr f sr st)
    (hflags : info.flags &&& e.O_WRONLY ≠ 0 ∨ info.flags &&& e.O_RDWR ≠ 0)
    (hperm : stat_access_ok e st e.W_OK = true) :
    __mkfs_check_fd_file_ok_for_writing e s fd = some (0, s) := by
  have hc : ¬ (info.flags &&& e.O_WRONLY = 0 ∧ info.flags &&& e.O_RDWR = 0) := by
    intro hx
    rcases hflags with h1 | h1
    · exact h1 hx.1
    · exact h1 hx.2
  rw [check_writing_open hs h, random_error_no_err e s hne]
  simp only [Bool.false_eq_true, if_false, if_neg hc, stat_access_no_err hne, hperm, if_true]

theorem mkfs_write_exists {e : Env} (hs : e.Sane) (hne : e.no_err = true) {s : State}
    {fd idx : Int} {info : mkfs_file_info} {fr : FileRef} {f : mkfs_fs_file} {sr : StatRef}
    {st : Stat} (h : fd_open e s fd idx info fr f sr st)
    (hflags : info.flags &&& e.O_WRONLY ≠ 0 ∨ info.flags &&& e.O_RDWR ≠ 0)
    (hperm : stat_access_ok e st e.W_OK = true)
    (hna : info.flags &&& e.O_APPEND = 0) (hpos : 0 ≤ info.position)
    {p : Nat} {row : List Nat} (hdata : f.data = some p)
    (hrow : s.mkfs_data_table[p]? = some row)
    (hsz0 : 0 ≤ st.st_size) (hsz1 : st.st_size ≤ e.OFF_MAX)
    {buf : List Nat} (hfit : info.position + buf.length ≤ TIS_FSIZE e) :
    ∃ s', __mkfs_write e s fd buf = some ((buf.length : Int), s') := by
  have hint := hs.int_le_off
  have hT : TIS_FSIZE e = e.INT_MAX := rfl
  obtain ⟨hinfo, _, hf, hfs, hstat, hg⟩ := file_info_stat_parts h.2.2.2
  obtain ⟨d, hd, hk, hidx⟩ := h.2.2.1
  have hchk := check_writing_ok_no_err hs hne h hflags hperm
  have hgi := fd_open_get_file_info hs h
  have h01 : ¬ ((0 : Int) = -1) := by decide
  have hk0 : ¬ (d.fd_kind = 0) := file_kind_ne_zero hs hk
  have hkk : d.fd_kind = e.S_IFIFO ∨ d.fd_kind = e.S_IFCHR ∨ d.fd_kind = e.S_IFREG := by
    rcases hk with h1 | h1 | h1
    · exact Or.inr (Or.inr h1)
    · exact Or.inr (Or.inl h1)
    · exact Or.inl h1
  have hposok : ¬ (info.position < 0 ∨ info.position > e.OFF_MAX) := by omega
  have hoff : ¬ (info.position < 0) := by omega
  have hnapp : ¬ (info.flags &&& e.O_APPEND ≠ 0) := fun hx => hx hna
  simp only [__mkfs_write, hchk, if_neg h01, hd, if_neg hk0, if_pos hkk, write_file, hgi, hinfo,
    if_neg hposok, local_pwrite, if_neg hoff]
  by_cases hlen : buf.length = 0
  · have hnil : ¬ ((0 : Int) > 0) := by decide
    simp only [hlen, if_true, Nat.cast_zero, if_neg hnil]
    exact ⟨_, rfl⟩
  · obtain ⟨s', hs'⟩ := local_pwrite_at_exists hs h.2.2.2 hdata hrow hsz0 hsz1 hpos hfit
    obtain ⟨_, _, tbl, os, es, hshape, _, _⟩ :=
      local_pwrite_at_spec hs h.2.2.2 hsz0 hsz1 hpos (by omega) hs'
    have hgt : (buf.length : Int) > 0 := by omega
    have hst' : file_info_stat s' idx =
        some (info, fr, f, sr, { st with st_size := max st.st_size (info.position + buf.length) }) := by
      rw [hshape]
      apply file_info_stat_put_stat
      rw [file_info_stat_congr idx rfl rfl rfl rfl rfl rfl rfl rfl]
      exact h.2.2.2
    have hinfo' : arr_get s'.opened_files idx = some info := (file_info_stat_parts hst').1
    simp only [if_neg hlen, hf, if_neg hnapp, hs', if_pos hgt, hst',
      arr_set_of_get _ hinfo']
    exact ⟨_, rfl⟩

theorem put_stat_fs_files (s : State) (sr : StatRef) (x : Stat) :
    (put_stat s sr x).fs_files = s.fs_files := by
  cases sr <;> rfl

theorem put_stat_next_file_index (s : State) (sr : StatRef) (x : Stat) :
    (put_stat s sr x).next_file_index = s.next_file_index := by
  cases sr <;> rfl

/-- With `__TIS_MKFS_NO_ERR`, `write` on a descriptor open for writing without
`O_APPEND` on a materialized file returns the length of the buffer; the frame
of the call and the bytes stored are as stated. -/
theorem mkfs_write_frame {e : Env} (hs : e.Sane) (hne : e.no_err = true) {s : State}
    {fd idx : Int} {info : mkfs_file_info} {fr : FileRef} {f : mkfs_fs_file} {sr : StatRef}
    {st : Stat} (h : fd_open e s fd idx info fr f sr st)
    (hflags : info.flags &&& e.O_WRONLY ≠ 0 ∨ info.flags &&& e.O_RDWR ≠ 0)
    (hperm : stat_access_ok e st e.W_OK = true)
    (hna : info.flags &&& e.O_APPEND = 0) (hpos : 0 ≤ info.position)
    {p : Nat} {row : List Nat} (hdata : f.data = some p)
    (hrow : s.mkfs_data_table[p]? = some row)
    (hsz0 : 0 ≤ st.st_size) (hsz1 : st.st_size ≤ e.OFF_MAX)
    {buf : List Nat} (hfit : info.position + buf.length ≤ TIS_FSIZE e)
    (hposle : info.position ≤ st.st_size) :
    ∃ s' row' info', __mkfs_write e s fd buf = some ((buf.length : Int), s') ∧
      fd_open e s' fd idx info' fr f sr
        { st with st_size := max st.st_size (info.position + buf.length) } ∧
      info'.flags = info.flags ∧
      s'.file_desc = s.file_desc ∧ s'.fs_files = s.fs_files ∧
      s'.next_file_index = s.next_file_index ∧
      s'.opened_files.length = s.opened_files.length ∧
      s'.mkfs_data_table.length = s.mkfs_data_table.length ∧
      s'.mkfs_data_table[p]? = some row' ∧
      row_read row' info.position.toNat buf.length = buf := by
  have hint := hs.int_le_off
  have hT : TIS_FSIZE e = e.INT_MAX := rfl
  obtain ⟨s', hw⟩ := mkfs_write_exists hs hne h hflags hperm hna hpos hdata hrow hsz0 hsz1 hfit
  by_cases hnil : buf = []
  · subst hnil
    have hs' : s' = s := mkfs_write_nil_no_err hs hne h hw
    subst hs'
    refine ⟨s', row, info, hw, ?_, rfl, rfl, rfl, rfl, rfl, rfl, hrow, rfl⟩
    have hmax : max st.st_size (info.position + (([] : List Nat).length : Int)) = st.st_size := by
      simp only [List.length_nil, Nat.cast_zero, add_zero]
      omega
    rw [hmax]
    exact h
  · have hr : ((buf.length : Int)) ≠ -1 := by omega
    obtain ⟨_, _, _, o, a, b, tbl, os, es, ho, _, hshape, hd, _⟩ :=
      mkfs_write_spec hs h hsz0 hsz1 hnil hw hr
    rw [if_neg (fun hx => hx hna)] at ho
    subst ho
    obtain ⟨_, row0, row', hrow0, htbl, hget⟩ := hd p hdata
    have hplt : p < s.mkfs_data_table.length := (List.getElem?_eq_some.mp hrow).1
    refine ⟨s', row', { info with position := info.position + buf.length }, hw, ?_, rfl, ?_, ?_,
      ?_, ?_, ?_, ?_, ?_⟩
    · rw [hshape]
      exact fd_open_update h _ _ _ rfl rfl rfl rfl rfl rfl rfl rfl rfl
    · rw [hshape]
      exact put_stat_file_desc _ _ _
    · rw [hshape]
      exact put_stat_fs_files _ _ _
    · rw [hshape]
      exact put_stat_next_file_index _ _ _
    · rw [hshape]
      simp only [List.length_set]
    · rw [hshape]
      show (put_stat _ sr _).mkfs_data_table.length = _
      rw [put_stat_data_table, htbl]
      simp only [List.length_set]
    · rw [hshape]
      show (put_stat _ sr _).mkfs_data_table[p]? = _
      rw [put_stat_data_table, htbl]
      simp only [List.getElem?_set_self hplt]
    · rw [row_read_eq_iff]
      refine ⟨rfl, fun i hi => ?_⟩
      rw [hget]
      have c1 : info.position ≤ ((info.position.toNat + i : Nat) : Int) ∧
          ((info.position.toNat + i : Nat) : Int) < info.position + buf.length := by omega
      rw [if_pos c1]
      congr 1
      omega

theorem mkfs_close_reg_eq {e : Env} (hs : e.Sane) (hne : e.no_err = true) {s : State}
    {fd idx : Int} {info : mkfs_file_info} {fr : FileRef} {f : mkfs_fs_file} {sr : StatRef}
    {st : Stat} (h : fd_open e s fd idx info fr f sr st) {d : mkfs_fd_info}
    (hd : arr_get s.file_desc fd = some d) (hreg : d.fd_kind = e.S_IFREG) :
    __mkfs_close e s fd =
      some (0, { s with file_desc := s.file_desc.set fd.toNat { d with fd_kind := 0 },
                        opened_files := s.opened_files.set idx.toNat { info with file := none } }) := by
  obtain ⟨hinfo, _, _, _, _, _⟩ := file_info_stat_parts h.2.2.2
  obtain ⟨d', hd', hk, hidx⟩ := h.2.2.1
  have hdd : d' = d := Option.some.inj (hd'.symm.trans hd)
  subst hdd
  have hn := hs.kinds
  simp only [List.nodup_cons, List.mem_cons, List.mem_singleton, not_or] at hn
  have hrange : ¬ (fd < 0 ∨ fd ≥ e.FOPEN_MAX) := by
    have h0 := h.1
    have h1 := h.2.1
    omega
  have hk0 : ¬ (d'.fd_kind = 0) := file_kind_ne_zero hs hk
  have hkf : ¬ (d'.fd_kind = e.S_IFIFO) := by omega
  have hgi := fd_open_get_file_info hs h
  have hchk : __mkfs_check_fd_file_ok e s fd = some (0, s) := by
    rw [check_fd_file_ok_open hs h, random_error_no_err e s hne]
    simp only [Bool.false_eq_true, if_false]
  have h01 : ¬ ((0 : Int) = -1) := by decide
  simp only [__mkfs_close, if_neg hrange, hd, if_neg hk0, if_neg hkf, if_pos hreg, close_file,
    hgi, hchk, if_neg h01, arr_set_of_get _ hd, hinfo, arr_set_of_get _ hinfo]

theorem get_file_loop_append (path : String) (xs : List mkfs_fs_file) (f : mkfs_fs_file)
    (i : Nat) (h : __mkfs_get_file_loop path xs i = none) (hf : f.fullpath = some path) :
    __mkfs_get_file_loop path (xs ++ [f]) i = some (i + xs.length) := by
  induction xs generalizing i with
  | nil => simp only [List.nil_append, __mkfs_get_file_loop, if_pos hf, List.length_nil, add_zero]
  | cons x xs ih =>
    simp only [__mkfs_get_file_loop, List.cons_append] at h ⊢
    by_cases hx : x.fullpath = some path
    · simp [hx] at h
    · simp only [hx, if_false] at h ⊢
      have h2 := ih (i + 1) h
      rw [List.length_cons]
      have h3 : i + (xs.length + 1) = i + 1 + xs.length := by omega
      rw [h3]
      exact h2

theorem open_existing_rdonly_eq {e : Env} (hs : e.Sane) (hne : e.no_err = true) (s : State)
    (path : String) (mode : Nat) (fd0 : Nat) (L : Nat) (f : mkfs_fs_file) (sr : StatRef)
    (st : Stat) (p : Nat)
    (hfound : __mkfs_get_file s path = some L) (hf : s.fs_files[L]? = some f)
    (hfs : file_stat s f = some (sr, st)) (hdata : f.data = some p)
    (hreg : S_ISREG e st.st_mode = true)
    (hperm : stat_access_ok e st e.R_OK = true)
    (hi : s.next_file_index < e.FOPEN_MAX) (hof : s.next_file_index < s.opened_files.length)
    (hfd : get_next_file_desc_loop s e.FOPEN_MAX 0 = some fd0) (hfd0 : fd0 < e.FOPEN_MAX) :
    __mkfs_open e s path e.O_RDONLY mode =
      some ((fd0 : Int),
        { s with next_file_index := s.next_file_index + 1,
                 file_desc := s.file_desc.set fd0
                   { fd_kind := e.S_IFREG, fd_index := s.next_file_index },
                 opened_files := s.opened_files.set s.next_file_index
                   { position := 0, error := 0, eof := 0, flags := e.O_RDONLY,
                     file := some (FileRef.fs_files L) } }) := by
  obtain ⟨⟨rw1, rw2, rc, rt⟩, _⟩ := flag_facts hs
  have hfdlen : fd0 < s.file_desc.length := by
    obtain ⟨_, ⟨d, hd, _⟩, _⟩ := desc_loop_found hfd (by omega)
    exact (List.getElem?_eq_some.mp hd).1
  have hsr : f.stat = some sr := by
    unfold file_stat at hfs
    cases hx : f.stat with
    | none => simp [hx] at hfs
    | some sr' =>
      simp only [hx] at hfs
      cases hy : get_stat s sr' with
      | none => simp [hy] at hfs
      | some st' =>
        simp only [hy, Option.some.injEq, Prod.mk.injEq] at hfs
        rw [hfs.1]
  have hnc : ¬ (e.O_RDONLY &&& e.O_CREAT ≠ 0) := fun hx => hx rc
  have hr2 : ¬ (e.O_RDONLY &&& e.O_WRONLY ≠ 0 ∨ e.O_RDONLY &&& e.O_RDWR ≠ 0) := by
    intro hx
    rcases hx with hx | hx
    · exact hx rw1
    · exact hx rw2
  have h01 : ¬ ((0 : Int) = -1) := by decide
  have hfdne : ((fd0 : Int)) ≠ -1 := by omega
  have hr1 : (if e.O_RDONLY &&& e.O_RDONLY ≠ 0 ∨ e.O_RDONLY &&& e.O_RDWR ≠ 0
      then stat_access e s st e.R_OK else ((0 : Int), s)) = ((0 : Int), s) := by
    by_cases hc : e.O_RDONLY &&& e.O_RDONLY ≠ 0 ∨ e.O_RDONLY &&& e.O_RDWR ≠ 0
    · rw [if_pos hc, stat_access_no_err hne, hperm]
      rfl
    · rw [if_neg hc]
  have hopen := open_fd_existing e s fd0 e.S_IFREG e.O_RDONLY f.content L f sr p hf hsr hdata
    hfdlen hi hof rt (Or.inl rfl)
  have htof : tis_open_flags e e.O_RDONLY = true := by
    simp only [tis_open_flags, Nat.and_self, beq_self_eq_true, Bool.true_or]
  simp only [__mkfs_open, open_file, htof, if_true, if_neg hnc, hfound, get_fs_file, hf, hfs,
    hr1, if_neg h01,
    if_neg hr2, get_next_file_desc_eq e hfd hfd0, if_pos hfdne, hreg, if_true, hopen, ne_eq,
    not_true_eq_false, if_false]

/-- With `__TIS_MKFS_NO_ERR`, `read` of at least `n` bytes at position 0 on a
readable descriptor of a materialized file of size `n` returns `n` and
delivers the first `n` bytes of the row. -/
theorem mkfs_read_whole {e : Env} (hs : e.Sane) (hne : e.no_err = true) {s : State}
    {fd idx : Int} {info : mkfs_file_info} {fr : FileRef} {f : mkfs_fs_file} {sr : StatRef}
    {st : Stat} (h : fd_open e s fd idx info fr f sr st)
    (hflags : info.flags &&& e.O_WRONLY = 0) (hperm : stat_access_ok e st e.R_OK = true)
    (hpos : info.position = 0)
    {p : Nat} {row : List Nat} (hdata : f.data = some p)
    (hrow : s.mkfs_data_table[p]? = some row)
    {n : Nat} (hsz : st.st_size = n) (hn : n ≤ TIS_FSIZE e)
    (buf : List Nat) (m : Nat) (hm : n ≤ m) (hbuf : m ≤ buf.length) :
    ∃ s', __mkfs_read e s fd buf m = some ((n : Int), row_read row 0 n ++ buf.drop n, s') := by
  have hint := hs.int_le_off
  have hT : TIS_FSIZE e = e.INT_MAX := rfl
  obtain ⟨hinfo, _, _, _, _, _⟩ := file_info_stat_parts h.2.2.2
  obtain ⟨d, hd, hk, hidx⟩ := h.2.2.1
  have hrange : ¬ (fd < 0 ∨ fd ≥ e.FOPEN_MAX) := by
    have h0 := h.1
    have h1 := h.2.1
    omega
  have hk0 : ¬ (d.fd_kind = 0) := file_kind_ne_zero hs hk
  have hkk : d.fd_kind = e.S_IFIFO ∨ d.fd_kind = e.S_IFCHR ∨ d.fd_kind = e.S_IFREG := by
    rcases hk with h1 | h1 | h1
    · exact Or.inr (Or.inr h1)
    · exact Or.inr (Or.inl h1)
    · exact Or.inl h1
  have hgi := fd_open_get_file_info hs h
  have hposok : ¬ (info.position < 0 ∨ info.position > e.OFF_MAX) := by omega
  have hchk := check_reading_no_err hs hne h hflags hperm
  have hlp := local_pread_open hs h (by omega) (by omega) buf m (Int.le_refl 0) hchk
  have hposok' : ¬ ((0 : Int) < 0 ∨ (0 : Int) > e.OFF_MAX) := by omega
  simp only [__mkfs_read, if_neg hrange, hd, if_neg hk0, if_pos hkk, read_file, hgi, hinfo,
    if_neg hposok, hpos, hlp, hsz, if_neg hposok']
  by_cases hz : n = 0
  · subst hz
    have c1 : (0 : Int) ≥ ((0 : Nat) : Int) := by decide
    have c2 : ¬ ((0 : Int) > 0) := by decide
    simp only [if_pos c1, if_neg c2]
    exact ⟨_, rfl⟩
  · have c1 : ¬ ((0 : Int) ≥ (n : Int)) := by omega
    have hmin : min m ((n : Int) - 0).toNat = n := by omega
    have c3 : ¬ (n > buf.length) := by omega
    have c4 : ¬ ((0 : Int).toNat + n > TIS_FSIZE e) := by
      simp only [Int.toNat_zero, Nat.zero_add]
      omega
    have c5 : (n : Int) > 0 := by omega
    have c4' : ¬ (0 + n > TIS_FSIZE e) := by omega
    simp only [if_neg c1, hmin, if_neg c3, hdata, hrow, if_neg c4, if_pos c5, hinfo,
      arr_set_of_get _ hinfo, Int.toNat_zero, if_neg c4']
    exact ⟨_, rfl⟩

theorem arr_get_nat {α : Type} (xs : List α) (i : Nat) : arr_get xs (i : Int) = xs[i]? := by
  have h : ¬ ((i : Int) < 0) := by omega
  simp only [arr_get, if_neg h, Int.toNat_ofNat]

theorem stat_access_ok_size (e : Env) (st : Stat) (x : Int) (m : Nat) :
    stat_access_ok e { st with st_size := x } m = stat_access_ok e st m := rfl

/-- C2 (amended): with `__TIS_MKFS_NO_ERR`, for a path that names no file, when
the file table, the inode pool, the data table, the open-file records (two are
used) and the descriptor table have room, `mode` carries no file-type bit, and
the check of `stat_access` grants the caller read and write access to the inode
that `mk_inode` creates (owned by the real user id, checked against the
effective one), then: open with `O_CREAT | O_WRONLY` returns the lowest free
descriptor, write of `b` returns its length, close returns 0, open with
`O_RDONLY` returns the same descriptor, the inode then records the size
`b.length`, and read of `m >= b.length` bytes into a buffer of at least `m`
bytes returns `b.length` and delivers exactly `b` at the start of the buffer. -/
theorem C2_create_write_close_reopen_read (e : Env) (hs : e.Sane) (hne : e.no_err = true)
    (s : State) (path : String) (mode mode2 : Nat) (b buf : List Nat) (m : Nat) (fd0 : Nat)
    (row : List Nat)
    (hunk : __mkfs_get_file s path = none)
    (hroom : s.fs_files.length < s.fs_files_nb_max)
    (hk : s.next_inode_index < e.FOPEN_MAX) (hklen : s.next_inode_index < s.inode_table.length)
    (hino0 : 0 ≤ s.next_inode) (hino1 : s.next_inode < e.FOPEN_MAX)
    (hrow : s.mkfs_data_table[s.next_inode.toNat]? = some row)
    (hi : s.next_file_index + 1 < e.FOPEN_MAX) (hof : e.FOPEN_MAX ≤ s.opened_files.length)
    (hfd : get_next_file_desc_loop s e.FOPEN_MAX 0 = some fd0) (hfd0 : fd0 < e.FOPEN_MAX)
    (hreg : (e.S_IFREG ||| mode) &&& e.S_IFMT = e.S_IFREG)
    (hpw : stat_access_ok e (created_stat e s.next_inode mode 0) e.W_OK = true)
    (hpr : stat_access_ok e (created_stat e s.next_inode mode 0) e.R_OK = true)
    (hlen : b.length ≤ e.INT_MAX) (hm : b.length ≤ m) (hbuf : m ≤ buf.length) :
    ∃ s1 s2 s3 s4 s5,
      __mkfs_open e s path (e.O_CREAT ||| e.O_WRONLY) mode = some ((fd0 : Int), s1) ∧
      __mkfs_write e s1 fd0 b = some ((b.length : Int), s2) ∧
      __mkfs_close e s2 fd0 = some (0, s3) ∧
      __mkfs_open e s3 path e.O_RDONLY mode2 = some ((fd0 : Int), s4) ∧
      get_stat s4 (StatRef.inode_table s.next_inode_index) =
        some (created_stat e s.next_inode mode b.length) ∧
      __mkfs_read e s4 fd0 buf m = some ((b.length : Int), b ++ buf.drop b.length, s5) := by
  obtain ⟨⟨rw1, _, _, _⟩, _, fw, _, _, _, fapp⟩ := flag_facts hs
  have hint := hs.int_le_off
  have hT : TIS_FSIZE e = e.INT_MAX := rfl
  obtain ⟨_, ⟨d0, hd0, hd0k⟩, _⟩ := desc_loop_found hfd (by omega)
  have hfdlen : fd0 < s.file_desc.length := (List.getElem?_eq_some.mp hd0).1
  -- the creating open
  have hopen1 := open_create_eq hs hne s path mode fd0 row hunk hroom hk hklen hino0 hino1 hrow
    (by omega) (by omega) hfd hfd0 hreg hpw
  obtain ⟨s1, hs1⟩ : ∃ s1 : State, s1 =
      { s with inode_table := s.inode_table.set s.next_inode_index
                 (created_stat e s.next_inode mode 0),
               next_inode_index := s.next_inode_index + 1,
               next_inode := s.next_inode + 1,
               fs_files := s.fs_files ++
                 [created_file path s.next_inode_index (some s.next_inode.toNat)],
               next_file_index := s.next_file_index + 1,
               file_desc := s.file_desc.set fd0
                 { fd_kind := e.S_IFREG, fd_index := s.next_file_index },
               opened_files := s.opened_files.set s.next_file_index
                 { position := 0, error := 0, eof := 0, flags := e.O_CREAT ||| e.O_WRONLY,
                   file := some (FileRef.fs_files s.fs_files.length) } } := ⟨_, rfl⟩
  rw [← hs1] at hopen1
  have h1fd : s1.file_desc = s.file_desc.set fd0
      { fd_kind := e.S_IFREG, fd_index := s.next_file_index } := by rw [hs1]
  have h1fs : s1.fs_files = s.fs_files ++
      [created_file path s.next_inode_index (some s.next_inode.toNat)] := by rw [hs1]
  have h1idx : s1.next_file_index = s.next_file_index + 1 := by rw [hs1]
  have h1of : s1.opened_files.length = s.opened_files.length := by
    rw [hs1]
    simp only [List.length_set]
  have h1row : s1.mkfs_data_table[s.next_inode.toNat]? = some row := by
    rw [hs1]
    exact hrow
  have h1open : fd_open e s1 fd0 s.next_file_index
      { position := 0, error := 0, eof := 0, flags := e.O_CREAT ||| e.O_WRONLY,
        file := some (FileRef.fs_files s.fs_files.length) }
      (FileRef.fs_files s.fs_files.length)
      (created_file path s.next_inode_index (some s.next_inode.toNat))
      (StatRef.inode_table s.next_inode_index) (created_stat e s.next_inode mode 0) := by
    refine ⟨by omega, by omega, ⟨{ fd_kind := e.S_IFREG, fd_index := s.next_file_index }, ?_,
      Or.inl rfl, rfl⟩, ?_⟩
    · rw [arr_get_nat, h1fd, List.getElem?_set_self hfdlen]
    · rw [hs1]
      have hofl : s.next_file_index < s.opened_files.length := by omega
      simp only [file_info_stat, file_info_file, arr_get_nat, List.getElem?_set_self hofl,
        get_fs_file, list_getElem?_append_last, file_stat, created_file, get_stat,
        List.getElem?_set_self hklen]
  -- the write
  have hfit : (0 : Int) + (b.length : Int) ≤ TIS_FSIZE e := by
    rw [hT]
    omega
  have hsz1 : (created_stat e s.next_inode mode 0).st_size ≤ e.OFF_MAX := by
    simp only [created_stat]
    omega
  obtain ⟨s2, row2, info2, hwrite, h2open, h2flags, h2fd, h2fs, h2idx, h2of, _, h2row, h2read⟩ :=
    mkfs_write_frame hs hne h1open (Or.inl fw) hpw fapp (Int.le_refl 0) rfl h1row
      (Int.le_refl 0) hsz1 hfit (Int.le_refl 0)
  have hbn : (0 : Int) ≤ (b.length : Int) := by omega
  have h2open' : fd_open e s2 fd0 s.next_file_index info2 (FileRef.fs_files s.fs_files.length)
      (created_file path s.next_inode_index (some s.next_inode.toNat))
      (StatRef.inode_table s.next_inode_index) (created_stat e s.next_inode mode b.length) := by
    have hx := h2open
    simp only [created_stat, zero_add, max_eq_right hbn] at hx
    exact hx
  simp only [Int.toNat_zero] at h2read
  obtain ⟨_, _, _, h2fstat, _, h2get⟩ := file_info_stat_parts h2open'.2.2.2
  have h2d : arr_get s2.file_desc fd0 =
      some { fd_kind := e.S_IFREG, fd_index := s.next_file_index } := by
    rw [arr_get_nat, h2fd, h1fd, List.getElem?_set_self hfdlen]
  -- the close
  have hclose := mkfs_close_reg_eq hs hne h2open' h2d rfl
  obtain ⟨s3, hs3⟩ : ∃ s3 : State, s3 =
      { s2 with file_desc := s2.file_desc.set (fd0 : Int).toNat
                  { fd_kind := 0, fd_index := s.next_file_index },
                opened_files := s2.opened_files.set (s.next_file_index : Int).toNat
                  { info2 with file := none } } := ⟨_, rfl⟩
  rw [← hs3] at hclose
  have h3fd : s3.file_desc = (s.file_desc.set fd0
      { fd_kind := e.S_IFREG, fd_index := s.next_file_index }).set fd0
      { fd_kind := 0, fd_index := s.next_file_index } := by
    rw [hs3]
    simp only [Int.toNat_ofNat, h2fd, h1fd]
  have h3fs : s3.fs_files = s.fs_files ++
      [created_file path s.next_inode_index (some s.next_inode.toNat)] := by
    rw [hs3]
    exact h2fs.trans h1fs
  have h3idx : s3.next_file_index = s.next_file_index + 1 := by
    rw [hs3]
    exact h2idx.trans h1idx
  have h3of : s3.opened_files.length = s.opened_files.length := by
    rw [hs3]
    simp only [List.length_set]
    exact h2of.trans h1of
  have h3row : s3.mkfs_data_table[s.next_inode.toNat]? = some row2 := by
    rw [hs3]
    exact h2row
  have h3fstat : file_stat s3 (created_file path s.next_inode_index (some s.next_inode.toNat)) =
      some (StatRef.inode_table s.next_inode_index,
        created_stat e s.next_inode mode b.length) := by
    rw [hs3, file_stat_congr _ rfl rfl]
    exact h2fstat
  have h3found : __mkfs_get_file s3 path = some s.fs_files.length := by
    have h := get_file_loop_append path s.fs_files
      (created_file path s.next_inode_index (some s.next_inode.toNat)) 0 hunk rfl
    rw [Nat.zero_add] at h
    simp only [__mkfs_get_file, h3fs]
    exact h
  have h3f : s3.fs_files[s.fs_files.length]? =
      some (created_file path s.next_inode_index (some s.next_inode.toNat)) := by
    rw [h3fs]
    exact list_getElem?_append_last _ _
  have h3loop : get_next_file_desc_loop s3 e.FOPEN_MAX 0 = some fd0 :=
    desc_loop_reuse _ _ hfd hfd0 rfl h3fd
  have hisreg : S_ISREG e ((created_stat e s.next_inode mode b.length).st_mode : Int) = true := by
    simp only [S_ISREG, land_int_ofNat, created_stat, hreg, beq_self_eq_true]
  -- the second open
  have hopen2 := open_existing_rdonly_eq hs hne s3 path mode2 fd0 s.fs_files.length
    (created_file path s.next_inode_index (some s.next_inode.toNat))
    (StatRef.inode_table s.next_inode_index) (created_stat e s.next_inode mode b.length)
    s.next_inode.toNat h3found h3f h3fstat rfl hisreg hpr (by omega) (by omega) h3loop hfd0
  obtain ⟨s4, hs4⟩ : ∃ s4 : State, s4 =
      { s3 with next_file_index := s3.next_file_index + 1,
                file_desc := s3.file_desc.set fd0
                  { fd_kind := e.S_IFREG, fd_index := s3.next_file_index },
                opened_files := s3.opened_files.set s3.next_file_index
                  { position := 0, error := 0, eof := 0, flags := e.O_RDONLY,
                    file := some (FileRef.fs_files s.fs_files.length) } } := ⟨_, rfl⟩
  rw [← hs4] at hopen2
  have h3fdlen : fd0 < s3.file_desc.length := by
    rw [h3fd]
    simp only [List.length_set]
    exact hfdlen
  have h4open : fd_open e s4 fd0 s3.next_file_index
      { position := 0, error := 0, eof := 0, flags := e.O_RDONLY,
        file := some (FileRef.fs_files s.fs_files.length) }
      (FileRef.fs_files s.fs_files.length)
      (created_file path s.next_inode_index (some s.next_inode.toNat))
      (StatRef.inode_table s.next_inode_index)
      (created_stat e s.next_inode mode b.length) := by
    refine ⟨by omega, by omega, ⟨{ fd_kind := e.S_IFREG, fd_index := s3.next_file_index }, ?_,
      Or.inl rfl, rfl⟩, ?_⟩
    · rw [arr_get_nat, hs4]
      exact List.getElem?_set_self h3fdlen
    · have hofl : s3.next_file_index < s3.opened_files.length := by omega
      have hfs4 : file_stat s4 (created_file path s.next_inode_index (some s.next_inode.toNat)) =
          some (StatRef.inode_table s.next_inode_index,
            created_stat e s.next_inode mode b.length) := by
        rw [hs4, file_stat_congr _ rfl rfl]
        exact h3fstat
      have hg4 : get_fs_file s4 (FileRef.fs_files s.fs_files.length) =
          some (created_file path s.next_inode_index (some s.next_inode.toNat)) := by
        rw [hs4]
        exact h3f
      have ha4 : arr_get s4.opened_files (s3.next_file_index : Int) =
          some { position := 0, error := 0, eof := 0, flags := e.O_RDONLY,
                 file := some (FileRef.fs_files s.fs_files.length) } := by
        rw [arr_get_nat, hs4]
        exact List.getElem?_set_self hofl
      simp only [file_info_stat, file_info_file, ha4, hg4, hfs4]
  have h4row : s4.mkfs_data_table[s.next_inode.toNat]? = some row2 := by
    rw [hs4]
    exact h3row
  have h4get : get_stat s4 (StatRef.inode_table s.next_inode_index) =
      some (created_stat e s.next_inode mode b.length) :=
    (file_info_stat_parts h4open.2.2.2).2.2.2.2.2
  -- the read
  obtain ⟨s5, hread⟩ := mkfs_read_whole hs hne h4open rw1 hpr rfl rfl h4row rfl
    (by rw [hT]; exact hlen) buf m hm hbuf
  rw [h2read] at hread
  exact ⟨s1, s2, s3, s4, s5, hopen1, hwrite, hclose, hopen2, h4get, hread⟩

/-! ## Growing a file with `ftruncate` -/

/-- What a successful `ftruncate` to a length above the size does to the row of
a materialized file. -/
theorem ftruncate_grow_bytes {e : Env} (hs : e.Sane) {s s1 : State} {fd idx : Int}
    {info : mkfs_file_info} {fr : FileRef} {f : mkfs_fs_file} {sr : StatRef} {st : Stat}
    {p : Nat} {row : List Nat} {L : Int}
    (h : fd_open e s fd idx info fr f sr st)
    (hdata : f.data = some p) (hrow : s.mkfs_data_table[p]? = some row)
    (hL : st.st_size < L)
    (ht : __mkfs_ftruncate e s fd L = some (0, s1)) :
    fd_open e s1 fd idx info fr f sr { st with st_size := L } ∧
    ∃ row', s1.mkfs_data_table[p]? = some row' ∧
      (∀ i : Nat, (i : Int) < st.st_size → row_get row' i = row_get row i) ∧
      (∀ i : Nat, st.st_size ≤ (i : Int) → (i : Int) < L → row_get row' i = 0) := by
  obtain ⟨_, a, b, tbl, hs1, hd, _⟩ := ftruncate_spec hs h ht
  have hopen1 := fd_open_put_stat h
    { s with errno := a, nondet := b, mkfs_data_table := tbl }
    { st with st_size := L } rfl rfl rfl rfl rfl rfl rfl rfl rfl
  rw [← hs1] at hopen1
  obtain ⟨_, _, hgrow⟩ := hd p hdata
  obtain ⟨h0, row0, hrow0, htbl⟩ := hgrow hL
  have hr : row0 = row := Option.some.inj (hrow0.symm.trans hrow)
  rw [hr] at htbl
  have hplt : p < s.mkfs_data_table.length := (List.getElem?_eq_some.mp hrow).1
  refine ⟨hopen1, row_zero row st.st_size.toNat (L - st.st_size).toNat, ?_, ?_, ?_⟩
  · rw [hs1, put_stat_data_table, htbl]
    exact List.getElem?_set_self hplt
  · intro i hi
    rw [row_get_row_zero]
    have c : ¬ (st.st_size.toNat ≤ i ∧ i < st.st_size.toNat + (L - st.st_size).toNat) := by
      omega
    rw [if_neg c]
  · intro i hi1 hi2
    rw [row_get_row_zero]
    have c : st.st_size.toNat ≤ i ∧ i < st.st_size.toNat + (L - st.st_size).toNat := by omega
    rw [if_pos c]

/-- C11: on a materialized file of size `s`, a successful `ftruncate (fd, L)`
with `L > s` leaves the bytes `[0, s)` as they were, makes the bytes `[s, L)`
zero and sets the size to `L`; the same holds of the bytes below and above `S`
when the file is first cut to a length `S <= s` by a successful `ftruncate` and
then grown to `L > S`: the bytes that the first call dropped come back as
zeros. -/
theorem C11_ftruncate_grow_zero_fills (e : Env) (hs : e.Sane) (s : State) (fd idx : Int)
    (info : mkfs_file_info) (fr : FileRef) (f : mkfs_fs_file) (sr : StatRef) (st : Stat)
    (p : Nat) (row : List Nat)
    (h : fd_open e s fd idx info fr f sr st) (hmat : materialized e s f st p row) :
    (∀ (L : Int) (s1 : State), st.st_size < L →
      __mkfs_ftruncate e s fd L = some (0, s1) →
      file_info_stat s1 idx = some (info, fr, f, sr, { st with st_size := L }) ∧
      ∃ row', s1.mkfs_data_table[p]? = some row' ∧
        (∀ i : Nat, (i : Int) < st.st_size → row_get row' i = row_get row i) ∧
        (∀ i : Nat, st.st_size ≤ (i : Int) → (i : Int) < L → row_get row' i = 0)) ∧
    (∀ (S L : Int) (sa sb : State), S ≤ st.st_size → S < L →
      __mkfs_ftruncate e s fd S = some (0, sa) →
      __mkfs_ftruncate e sa fd L = some (0, sb) →
      file_info_stat sb idx = some (info, fr, f, sr, { st with st_size := L }) ∧
      ∃ row', sb.mkfs_data_table[p]? = some row' ∧
        (∀ i : Nat, (i : Int) < S → row_get row' i = row_get row i) ∧
        (∀ i : Nat, S ≤ (i : Int) → (i : Int) < L → row_get row' i = 0)) := by
  obtain ⟨hdata, hrow, _⟩ := hmat
  constructor
  · intro L s1 hL ht
    obtain ⟨ho, hbytes⟩ := ftruncate_grow_bytes hs h hdata hrow hL ht
    exact ⟨ho.2.2.2, hbytes⟩
  · intro S L sa sb hS hL hta htb
    obtain ⟨_, a, b, tbl, hsa, hd, _⟩ := ftruncate_spec hs h hta
    obtain ⟨_, hkeep, _⟩ := hd p hdata
    have htbl := hkeep hS
    subst htbl
    have hopena := fd_open_put_stat h
      { s with errno := a, nondet := b, mkfs_data_table := s.mkfs_data_table }
      { st with st_size := S } rfl rfl rfl rfl rfl rfl rfl rfl rfl
    rw [← hsa] at hopena
    have hrowa : sa.mkfs_data_table[p]? = some row := by
      rw [hsa, put_stat_data_table]
      exact hrow
    obtain ⟨ho, hbytes⟩ := ftruncate_grow_bytes hs hopena hdata hrowa hL htb
    exact ⟨ho.2.2.2, hbytes⟩

/-! ## The frame of `close` -/

theorem random_error_fst_shape (e : Env) (s : State) :
    ∃ a b, RETURN_RANDOM_ERROR e s = ((RETURN_RANDOM_ERROR e s).1, ambient s a b) := by
  obtain ⟨a, b, h⟩ := random_error_shape e s
  exact ⟨a, b, Prod.ext rfl h⟩

/-- What `__mkfs_check_fd_file_ok` returns, on any state. -/
theorem check_fd_file_ok_inv {e : Env} {s : State} {fd : Int} {r : Int} {s' : State}
    (h : __mkfs_check_fd_file_ok e s fd = some (r, s')) :
    ∃ a b, s' = ambient s a b ∧ (r = 0 ∨ r = -1) ∧
      (r = 0 → ∃ idx info, __mkfs_get_file_info e s fd = some (some idx) ∧
        arr_get s.opened_files idx = some info ∧ info.file ≠ none) := by
  unfold __mkfs_check_fd_file_ok at h
  cases hd : arr_get s.file_desc fd with
  | none => simp [hd] at h
  | some d =>
    simp only [hd] at h
    by_cases hdir : S_ISDIR e d.fd_kind = true
    · simp only [hdir, if_true, Option.some.injEq, Prod.mk.injEq] at h
      exact ⟨e.EISDIR, s.nondet, h.2.symm, Or.inr h.1.symm, fun h0 => by omega⟩
    · simp only [hdir, Bool.false_eq_true, if_false] at h
      cases hg : __mkfs_get_file_info e s fd with
      | none => simp [hg] at h
      | some fi =>
        cases fi with
        | none =>
          simp only [hg, Option.some.injEq, Prod.mk.injEq] at h
          exact ⟨e.EBADF, s.nondet, h.2.symm, Or.inr h.1.symm, fun h0 => by omega⟩
        | some idx =>
          simp only [hg] at h
          cases hi : arr_get s.opened_files idx with
          | none => simp [hi] at h
          | some info =>
            simp only [hi] at h
            by_cases hfile : info.file = none
            · simp only [hfile, if_true, Option.some.injEq, Prod.mk.injEq] at h
              exact ⟨e.EBADF, s.nondet, h.2.symm, Or.inr h.1.symm, fun h0 => by omega⟩
            · obtain ⟨a, b, hab⟩ := random_error_shape e s
              simp only [hfile, if_false] at h
              by_cases hinj : (RETURN_RANDOM_ERROR e s).1 = true
              · simp only [hinj, if_true, Option.some.injEq, Prod.mk.injEq] at h
                exact ⟨a, b, by rw [← h.2, hab], Or.inr h.1.symm, fun h0 => by omega⟩
              · simp only [hinj, Bool.false_eq_true, if_false, Option.some.injEq,
                  Prod.mk.injEq] at h
                exact ⟨a, b, by rw [← h.2, hab], Or.inl h.1.symm,
                  fun _ => ⟨idx, info, rfl, hi, hfile⟩⟩

/-- What `close_file` returns, on any state. -/
theorem close_file_inv {e : Env} {s : State} {fd : Int} {r : Int} {s1 : State}
    (h : close_file e s fd = some (r, s1)) :
    ∃ a b, (r = -1 ∧ s1 = ambient s a b) ∨
      (r = 0 ∧ ∃ d idx info, arr_get s.file_desc fd = some d ∧
        __mkfs_get_file_info e s fd = some (some idx) ∧
        arr_get s.opened_files idx = some info ∧ info.file ≠ none ∧
        s1 = { ambient s a b with
               file_desc := s.file_desc.set fd.toNat { d with fd_kind := 0 },
               opened_files := s.opened_files.set idx.toNat { info with file := none } }) := by
  unfold close_file at h
  cases hg : __mkfs_get_file_info e s fd with
  | none => simp [hg] at h
  | some fi =>
    simp only [hg] at h
    cases hc : __mkfs_check_fd_file_ok e s fd with
    | none => simp [hc] at h
    | some t =>
      obtain ⟨res, s0⟩ := t
      obtain ⟨a, b, hs0, hres, hok⟩ := check_fd_file_ok_inv hc
      subst hs0
      simp only [hc] at h
      rcases hres with hres | hres
      · subst hres
        obtain ⟨idx, info, hg', hi, hfile⟩ := hok rfl
        rw [hg] at hg'
        have hfi : fi = some idx := Option.some.inj hg'
        subst hfi
        have h01 : ¬ ((0 : Int) = -1) := by decide
        simp only [if_neg h01] at h
        cases hd : arr_get s.file_desc fd with
        | none =>
          have hd' : arr_get (ambient s a b).file_desc fd = none := hd
          simp [hd'] at h
        | some d =>
          have hd' : arr_get (ambient s a b).file_desc fd = some d := hd
          have hi' : arr_get (ambient s a b).opened_files idx = some info := hi
          simp only [hd', arr_set_of_get _ hd', hi', arr_set_of_get _ hi', Option.some.injEq,
            Prod.mk.injEq] at h
          exact ⟨a, b, Or.inr ⟨h.1.symm, d, idx, info, rfl, rfl, hi, hfile, h.2.symm⟩⟩
      · subst hres
        simp only [if_true, Option.some.injEq, Prod.mk.injEq] at h
        exact ⟨a, b, Or.inl ⟨h.1.symm, h.2.symm⟩⟩

theorem arr_get_set_other {α : Type} {xs : List α} {i x : Int} {v0 : α} (v : α)
    (h : arr_get xs i = some v0) (hne : x ≠ i) :
    arr_get (xs.set i.toNat v) x = arr_get xs x := by
  obtain ⟨h0, _⟩ := arr_get_eq_some.mp h
  unfold arr_get
  by_cases hx : x < 0
  · simp only [if_pos hx]
  · simp only [if_neg hx]
    rw [List.getElem?_set_ne (by omega)]

/-- The positions of the open-file records are those of `ofs`. -/
theorem positions_kept_set {ofs : List mkfs_file_info} {idx : Int} {info v : mkfs_file_info}
    (h : arr_get ofs idx = some info) (hv : v.position = info.position) :
    ∀ j i0, arr_get ofs j = some i0 →
      ∃ i1, arr_get (ofs.set idx.toNat v) j = some i1 ∧ i1.position = i0.position := by
  intro j i0 hj
  by_cases hji : j = idx
  · subst hji
    rw [h] at hj
    have hi : info = i0 := Option.some.inj hj
    subst hi
    exact ⟨v, arr_get_set_same v h, hv⟩
  · exact ⟨i0, by rw [arr_get_set_other v h hji]; exact hj, rfl⟩

theorem arr_set_inv {α : Type} {xs ys : List α} {i : Int} {v : α}
    (h : arr_set xs i v = some ys) :
    (∃ v0, arr_get xs i = some v0) ∧ ys = xs.set i.toNat v := by
  unfold arr_set at h
  by_cases hc : 0 ≤ i ∧ i.toNat < xs.length
  · simp only [if_pos hc, Option.some.injEq] at h
    refine ⟨⟨xs[i.toNat], ?_⟩, h.symm⟩
    rw [arr_get_eq_some]
    exact ⟨hc.1, List.getElem?_eq_getElem hc.2⟩
  · simp [if_neg hc] at h

theorem free_fs_file_frame {s s2 : State} {x : Option FileRef}
    (h : free_fs_file s x = some s2) :
    s2.file_desc = s.file_desc ∧ s2.opened_files = s.opened_files := by
  cases x with
  | none =>
    simp only [free_fs_file, Option.some.injEq] at h
    subst h
    exact ⟨rfl, rfl⟩
  | some fr =>
    cases fr with
    | heap k =>
      simp only [free_fs_file] at h
      split at h
      · simp only [Option.some.injEq] at h
        subst h
        exact ⟨rfl, rfl⟩
      · simp at h
    | fs_stdin => simp [free_fs_file] at h
    | fs_stdout => simp [free_fs_file] at h
    | fs_stderr => simp [free_fs_file] at h
    | fs_files i => simp [free_fs_file] at h

/-- The frame of `close_file`: the other slots, the slot itself on success,
and the positions of the open-file records. -/
theorem close_file_frame {e : Env} {s : State} {fd : Int} {r : Int} {s1 : State}
    (h : close_file e s fd = some (r, s1)) :
    (∀ x, x ≠ fd → arr_get s1.file_desc x = arr_get s.file_desc x) ∧
    (r = 0 → ∃ d, arr_get s1.file_desc fd = some d ∧ d.fd_kind = 0) ∧
    (∀ j i0, arr_get s.opened_files j = some i0 →
      ∃ i1, arr_get s1.opened_files j = some i1 ∧ i1.position = i0.position) := by
  obtain ⟨a, b, hcase⟩ := close_file_inv h
  rcases hcase with ⟨hr, hs1⟩ | ⟨hr, d, idx, info, hd, _, hi, _, hs1⟩
  · subst hs1
    exact ⟨fun _ _ => rfl, fun h0 => by omega, fun j i0 hj => ⟨i0, hj, rfl⟩⟩
  · subst hs1
    refine ⟨fun x hx => arr_get_set_other _ hd hx, fun _ => ⟨_, arr_get_set_same _ hd, rfl⟩, ?_⟩
    exact positions_kept_set hi rfl

theorem close_fifo_frame {e : Env} {s : State} {fd : Int} {r : Int} {s1 : State}
    (h : close_fifo e s fd = some (r, s1)) :
    (∀ x, x ≠ fd → arr_get s1.file_desc x = arr_get s.file_desc x) ∧
    (r = 0 → ∃ d, arr_get s1.file_desc fd = some d ∧ d.fd_kind = 0) ∧
    (∀ j i0, arr_get s.opened_files j = some i0 →
      ∃ i1, arr_get s1.opened_files j = some i1 ∧ i1.position = i0.position) := by
  unfold close_fifo at h
  cases hg : __mkfs_get_file_info e s fd with
  | none => simp [hg] at h
  | some fi =>
    simp only [hg] at h
    cases hc : close_file e s fd with
    | none => simp [hc] at h
    | some t =>
      obtain ⟨res, sA⟩ := t
      obtain ⟨f1, f2, f3⟩ := close_file_frame hc
      simp only [hc] at h
      by_cases hres : res = 0
      · simp only [hres, if_true] at h
        cases fi with
        | none => simp at h
        | some idx =>
          simp only at h
          cases hi : arr_get sA.opened_files idx with
          | none => simp [hi] at h
          | some info =>
            simp only [hi] at h
            cases hfree : free_fs_file sA info.file with
            | none => simp [hfree] at h
            | some s2 =>
              obtain ⟨g1, g2⟩ := free_fs_file_frame hfree
              simp only [hfree] at h
              have hi2 : arr_get s2.opened_files idx = some info := by rw [g2]; exact hi
              simp only [arr_set_of_get _ hi2, Option.some.injEq, Prod.mk.injEq] at h
              obtain ⟨hr, hs1⟩ := h
              subst hs1
              refine ⟨fun x hx => ?_, fun _ => ?_, fun j i0 hj => ?_⟩
              · show arr_get s2.file_desc x = _
                rw [g1]
                exact f1 x hx
              · show ∃ d, arr_get s2.file_desc fd = some d ∧ d.fd_kind = 0
                rw [g1]
                exact f2 hres
              · obtain ⟨i1, hj1, hp1⟩ := f3 j i0 hj
                have hj2 : arr_get s2.opened_files j = some i1 := by rw [g2]; exact hj1
                obtain ⟨i2, hj3, hp2⟩ :=
                  positions_kept_set hi2
                    (rfl : ({ info with file := none } : mkfs_file_info).position = info.position)
                    j i1 hj2
                exact ⟨i2, hj3, hp2.trans hp1⟩
      · simp only [hres, if_false, Option.some.injEq, Prod.mk.injEq] at h
        obtain ⟨hr, hs1⟩ := h
        subst hs1
        subst hr
        exact ⟨f1, f2, f3⟩

theorem make_unknown_errno_shape (s : State) :
    ∃ a b, tis_make_unknown_errno s = ambient s a b := by
  unfold tis_make_unknown_errno tis_next ambient
  cases s with
  | mk en nd =>
    cases nd with
    | nil => exact ⟨_, _, rfl⟩
    | cons c rest => exact ⟨_, _, rfl⟩

theorem close_dir_frame {e : Env} {s : State} {fd : Int} {r : Int} {s1 : State}
    (h : close_dir e s fd = some (r, s1)) :
    (∀ x, x ≠ fd → arr_get s1.file_desc x = arr_get s.file_desc x) ∧
    (r = 0 → ∃ d, arr_get s1.file_desc fd = some d ∧ d.fd_kind = 0) ∧
    s1.opened_files = s.opened_files := by
  unfold close_dir at h
  cases hg : __mkfs_get_dir_info e s fd with
  | none => simp [hg] at h
  | some di =>
    cases di with
    | none =>
      simp only [hg, Option.some.injEq, Prod.mk.injEq] at h
      obtain ⟨hr, hs1⟩ := h
      subst hs1
      exact ⟨fun _ _ => rfl, fun h0 => by omega, rfl⟩
    | some idx =>
      simp only [hg] at h
      cases hdir : arr_get s.opendir idx with
      | none => simp [hdir] at h
      | some dir =>
        simp only [hdir, arr_set_of_get _ hdir] at h
        cases hd : arr_get s.file_desc fd with
        | none => simp [hd] at h
        | some d =>
          simp only [hd, arr_set_of_get _ hd, Option.some.injEq, Prod.mk.injEq] at h
          obtain ⟨hr, hs1⟩ := h
          subst hs1
          exact ⟨fun x hx => arr_get_set_other _ hd hx,
            fun _ => ⟨_, arr_get_set_same _ hd, rfl⟩, rfl⟩

theorem check_fd_socket_ok_shape {e : Env} {s : State} {fd : Int} {r : Int} {s' : State}
    (h : __mkfs_check_fd_socket_ok e s fd = some (r, s')) : ∃ a b, s' = ambient s a b := by
  unfold __mkfs_check_fd_socket_ok at h
  cases hg : __mkfs_get_socket_info e s fd with
  | none => simp [hg] at h
  | some si =>
    cases si with
    | none =>
      simp only [hg, Option.some.injEq, Prod.mk.injEq] at h
      exact ⟨e.EBADF, s.nondet, h.2.symm⟩
    | some idx =>
      obtain ⟨a, b, hab⟩ := random_error_shape e s
      simp only [hg] at h
      by_cases hinj : (RETURN_RANDOM_ERROR e s).1 = true
      · simp only [hinj, if_true, Option.some.injEq, Prod.mk.injEq] at h
        exact ⟨a, b, by rw [← h.2, hab]⟩
      · simp only [hinj, Bool.false_eq_true, if_false, Option.some.injEq, Prod.mk.injEq] at h
        exact ⟨a, b, by rw [← h.2, hab]⟩

theorem close_socket_frame {e : Env} {s : State} {fd : Int} {r : Int} {s1 : State}
    (h : close_socket e s fd = some (r, s1)) :
    (∀ x, x ≠ fd → arr_get s1.file_desc x = arr_get s.file_desc x) ∧
    (r = 0 → ∃ d, arr_get s1.file_desc fd = some d ∧ d.fd_kind = 0) ∧
    s1.opened_files = s.opened_files := by
  unfold close_socket at h
  cases hc : __mkfs_check_fd_socket_ok e s fd with
  | none => simp [hc] at h
  | some t =>
    obtain ⟨ret, s0⟩ := t
    obtain ⟨a, b, hs0⟩ := check_fd_socket_ok_shape hc
    subst hs0
    simp only [hc] at h
    by_cases hret : ret ≠ 0
    · rw [if_pos hret] at h
      simp only [Option.some.injEq, Prod.mk.injEq] at h
      obtain ⟨hr, hs1⟩ := h
      subst hs1
      exact ⟨fun _ _ => rfl, fun h0 => by omega, rfl⟩
    · rw [if_neg hret] at h
      cases hg : __mkfs_get_socket_info e (ambient s a b) fd with
      | none => simp [hg] at h
      | some si =>
        cases si with
        | none =>
          simp only [hg, Option.some.injEq, Prod.mk.injEq] at h
          obtain ⟨hr, hs1⟩ := h
          subst hs1
          exact ⟨fun _ _ => rfl, fun h0 => by omega, rfl⟩
        | some idx =>
          simp only [hg] at h
          cases hd : arr_get s.file_desc fd with
          | none =>
            have hd' : arr_get (ambient s a b).file_desc fd = none := hd
            simp [hd'] at h
          | some d =>
            have hd' : arr_get (ambient s a b).file_desc fd = some d := hd
            simp only [hd', arr_set_of_get _ hd', Option.some.injEq, Prod.mk.injEq] at h
            obtain ⟨hr, hs1⟩ := h
            subst hs1
            exact ⟨fun x hx => arr_get_set_other _ hd hx,
              fun _ => ⟨_, arr_get_set_same _ hd, rfl⟩, rfl⟩

/-- The frame of `__mkfs_close`, whatever the kind of the descriptor: the other
slots are untouched, on success the descriptor is in range and its slot has
kind 0, and the open-file records keep their positions. -/
theorem mkfs_close_frame {e : Env} {s : State} {fd : Int} {r : Int} {s1 : State}
    (h : __mkfs_close e s fd = some (r, s1)) :
    (∀ x, x ≠ fd → arr_get s1.file_desc x = arr_get s.file_desc x) ∧
    (r = 0 → 0 ≤ fd ∧ fd < e.FOPEN_MAX ∧ ∃ d, arr_get s1.file_desc fd = some d ∧ d.fd_kind = 0) ∧
    (∀ j i0, arr_get s.opened_files j = some i0 →
      ∃ i1, arr_get s1.opened_files j = some i1 ∧ i1.position = i0.position) := by
  unfold __mkfs_close at h
  have hkeep : ∀ s' : State, s'.opened_files = s.opened_files →
      ∀ j i0, arr_get s.opened_files j = some i0 →
        ∃ i1, arr_get s'.opened_files j = some i1 ∧ i1.position = i0.position :=
    fun s' hs' j i0 hj => ⟨i0, by rw [hs']; exact hj, rfl⟩
  by_cases hrange : fd < 0 ∨ fd ≥ e.FOPEN_MAX
  · simp only [if_pos hrange, Option.some.injEq, Prod.mk.injEq] at h
    obtain ⟨hr, hs1⟩ := h
    subst hs1
    exact ⟨fun _ _ => rfl, fun h0 => by omega, hkeep _ rfl⟩
  · simp only [if_neg hrange] at h
    have hin : 0 ≤ fd ∧ fd < e.FOPEN_MAX := by omega
    cases hd : arr_get s.file_desc fd with
    | none => simp [hd] at h
    | some d =>
      simp only [hd] at h
      by_cases k0 : d.fd_kind = 0
      · simp only [if_pos k0, Option.some.injEq, Prod.mk.injEq] at h
        obtain ⟨hr, hs1⟩ := h
        subst hs1
        exact ⟨fun _ _ => rfl, fun h0 => by omega, hkeep _ rfl⟩
      · simp only [if_neg k0] at h
        by_cases k1 : d.fd_kind = e.S_IFIFO
        · simp only [if_pos k1] at h
          obtain ⟨f1, f2, f3⟩ := close_fifo_frame h
          exact ⟨f1, fun h0 => ⟨hin.1, hin.2, f2 h0⟩, f3⟩
        · simp only [if_neg k1] at h
          by_cases k2 : d.fd_kind = e.S_IFREG
          · simp only [if_pos k2] at h
            obtain ⟨f1, f2, f3⟩ := close_file_frame h
            exact ⟨f1, fun h0 => ⟨hin.1, hin.2, f2 h0⟩, f3⟩
          · simp only [if_neg k2] at h
            by_cases k3 : d.fd_kind = e.S_IFDIR
            · simp only [if_pos k3] at h
              obtain ⟨f1, f2, f3⟩ := close_dir_frame h
              exact ⟨f1, fun h0 => ⟨hin.1, hin.2, f2 h0⟩, hkeep _ f3⟩
            · simp only [if_neg k3] at h
              by_cases k4 : d.fd_kind = e.S_IFSOCK
              · simp only [if_pos k4] at h
                obtain ⟨f1, f2, f3⟩ := close_socket_frame h
                exact ⟨f1, fun h0 => ⟨hin.1, hin.2, f2 h0⟩, hkeep _ f3⟩
              · simp only [if_neg k4] at h
                by_cases k5 : d.fd_kind = e.S_IFCHR
                · simp only [if_pos k5, arr_set_of_get _ hd, Option.some.injEq,
                    Prod.mk.injEq] at h
                  obtain ⟨hr, hs1⟩ := h
                  subst hs1
                  exact ⟨fun x hx => arr_get_set_other _ hd hx,
                    fun _ => ⟨hin.1, hin.2, _, arr_get_set_same _ hd, rfl⟩, hkeep _ rfl⟩
                · simp only [if_neg k5, Option.some.injEq, Prod.mk.injEq] at h
                  obtain ⟨hr, hs1⟩ := h
                  obtain ⟨a, b, hab⟩ := make_unknown_errno_shape s
                  rw [hab] at hs1
                  subst hs1
                  exact ⟨fun _ _ => rfl, fun h0 => by omega, hkeep _ rfl⟩

/-! ## Closed descriptors -/

theorem kind_zero_facts {e : Env} (hs : e.Sane) :
    S_ISDIR e 0 = false ∧ S_ISREG e 0 = false ∧ S_ISCHR e 0 = false ∧ S_ISFIFO e 0 = false ∧
      (0 : Int) ≠ e.S_IFREG := by
  have hn := hs.kinds
  simp only [List.nodup_cons, List.mem_cons, List.mem_singleton, not_or] at hn
  obtain ⟨⟨h1, h2, h3, h4, _⟩, _⟩ := hn
  have z : land_int 0 e.S_IFMT = 0 := by
    show (0 : Nat) &&& e.S_IFMT = 0
    exact Nat.zero_and _
  refine ⟨?_, ?_, ?_, ?_, by omega⟩
  · simp only [S_ISDIR, z, beq_eq_false_iff_ne, ne_eq]
    exact h4
  · simp only [S_ISREG, z, beq_eq_false_iff_ne, ne_eq]
    exact h1
  · simp only [S_ISCHR, z, beq_eq_false_iff_ne, ne_eq]
    exact h2
  · simp only [S_ISFIFO, z, beq_eq_false_iff_ne, ne_eq]
    exact h3

/-- On a slot of kind 0 the checks of `__mkfs_check_fd_file_ok` fail with
`EBADF` before any random error. -/
theorem check_fd_file_ok_free {e : Env} (hs : e.Sane) {s : State} {fd : Int} {d : mkfs_fd_info}
    (h0 : 0 ≤ fd) (h1 : fd < e.FOPEN_MAX) (hd : arr_get s.file_desc fd = some d)
    (hk : d.fd_kind = 0) :
    __mkfs_check_fd_file_ok e s fd = some (-1, { s with errno := e.EBADF }) := by
  obtain ⟨z1, z2, z3, z4, _⟩ := kind_zero_facts hs
  have hrange : ¬ (fd < 0 ∨ fd ≥ e.FOPEN_MAX) := by omega
  have hc : ¬ ((__mkfs_check_fd_ok e s fd).1 ≠ 0) := by
    rw [check_fd_ok_fst, if_neg hrange]
    decide
  simp only [__mkfs_check_fd_file_ok, hd, hk, z1, Bool.false_eq_true, if_false,
    __mkfs_get_file_info, if_neg hc, z2, z3, z4, Bool.or_self]

/-- Every `read`, `write`, `lseek` and `close` on a slot of kind 0 returns -1
with `errno` set to `EBADF` and changes nothing else. -/
theorem free_slot_calls {e : Env} (hs : e.Sane) {s : State} {fd : Int} {d : mkfs_fd_info}
    (h0 : 0 ≤ fd) (h1 : fd < e.FOPEN_MAX) (hd : arr_get s.file_desc fd = some d)
    (hk : d.fd_kind = 0) :
    (∀ buf count, __mkfs_read e s fd buf count = some (-1, buf, { s with errno := e.EBADF })) ∧
    (∀ buf, __mkfs_write e s fd buf = some (-1, { s with errno := e.EBADF })) ∧
    (∀ off wh, __mkfs_lseek e s fd off wh = some (-1, { s with errno := e.EBADF })) ∧
    __mkfs_close e s fd = some (-1, { s with errno := e.EBADF }) := by
  obtain ⟨_, _, _, _, z5⟩ := kind_zero_facts hs
  have hrange : ¬ (fd < 0 ∨ fd ≥ e.FOPEN_MAX) := by omega
  have hchk := check_fd_file_ok_free hs h0 h1 hd hk
  have hne : d.fd_kind ≠ e.S_IFREG := by
    rw [hk]
    exact z5
  refine ⟨fun buf count => ?_, fun buf => ?_, fun off wh => ?_, ?_⟩
  · simp only [__mkfs_read, if_neg hrange, hd, hk, if_true]
  · simp only [__mkfs_write, __mkfs_check_fd_file_ok_for_writing, hchk, if_true]
  · simp only [__mkfs_lseek, __mkfs_seekable, if_neg hrange, hd, if_pos hne, if_true]
  · simp only [__mkfs_close, if_neg hrange, hd, hk, if_true]

/-- C20: when `close (fd)` has returned 0 the slot of `fd` has kind 0, and in
every later state in which the slot still is what `close` left, `read`,
`write`, `lseek` and `close` on `fd` return -1 with `errno` set to `EBADF` and
change nothing else. -/
theorem C20_closed_descriptor_is_dead (e : Env) (hs : e.Sane) (s s1 s' : State) (fd : Int)
    (hclose : __mkfs_close e s fd = some (0, s1))
    (hslot : arr_get s'.file_desc fd = arr_get s1.file_desc fd) :
    (∃ d, arr_get s1.file_desc fd = some d ∧ d.fd_kind = 0) ∧
    (∀ buf count,
      __mkfs_read e s' fd buf count = some (-1, buf, { s' with errno := e.EBADF })) ∧
    (∀ buf, __mkfs_write e s' fd buf = some (-1, { s' with errno := e.EBADF })) ∧
    (∀ off wh, __mkfs_lseek e s' fd off wh = some (-1, { s' with errno := e.EBADF })) ∧
    __mkfs_close e s' fd = some (-1, { s' with errno := e.EBADF }) := by
  obtain ⟨_, hz, _⟩ := mkfs_close_frame hclose
  obtain ⟨h0, h1, d, hd, hk⟩ := hz rfl
  exact ⟨⟨d, hd, hk⟩, free_slot_calls hs h0 h1 (hslot.trans hd) hk⟩

/-! ## Duplicated descriptors -/

/-- What a call of `__mkfs_dup2` that returns `newfd` has done to the slots,
when `oldfd` is in use and differs from `newfd`. -/
theorem dup2_inv {e : Env} {s s1 : State} {a b : Int} {d : mkfs_fd_info}
    (ha0 : 0 ≤ a) (ha1 : a < e.FOPEN_MAX) (hd : arr_get s.file_desc a = some d)
    (hk : d.fd_kind ≠ 0) (hb0 : 0 ≤ b) (hb1 : b < e.FOPEN_MAX) (hab : b ≠ a)
    (hdup : __mkfs_dup2 e s a b = some (b, s1)) :
    arr_get s1.file_desc a = some d ∧
    arr_get s1.file_desc b = some { fd_kind := d.fd_kind, fd_index := d.fd_index } ∧
    (∀ j i0, arr_get s.opened_files j = some i0 →
      ∃ i1, arr_get s1.opened_files j = some i1 ∧ i1.position = i0.position) := by
  have hra : ¬ (a < 0 ∨ a ≥ e.FOPEN_MAX) := by omega
  have hrb : ¬ (b < 0 ∨ b ≥ e.FOPEN_MAX) := by omega
  have h01 : ¬ ((0 : Int) = -1) := by decide
  have hmid : ∀ (s' : State),
      (∀ x, x ≠ b → arr_get s'.file_desc x = arr_get s.file_desc x) →
      (∀ j i0, arr_get s.opened_files j = some i0 →
        ∃ i1, arr_get s'.opened_files j = some i1 ∧ i1.position = i0.position) →
      (match arr_get s'.file_desc a with
        | none => none
        | some dold =>
          match arr_set s'.file_desc b
              { fd_kind := dold.fd_kind, fd_index := dold.fd_index } with
          | none => none
          | some fds => some (b, { s' with file_desc := fds })) = some (b, s1) →
      arr_get s1.file_desc a = some d ∧
      arr_get s1.file_desc b = some { fd_kind := d.fd_kind, fd_index := d.fd_index } ∧
      (∀ j i0, arr_get s.opened_files j = some i0 →
        ∃ i1, arr_get s1.opened_files j = some i1 ∧ i1.position = i0.position) := by
    intro s' f1 f3 hm
    have hda : arr_get s'.file_desc a = some d := by
      rw [f1 a (fun hx => hab hx.symm)]
      exact hd
    simp only [hda] at hm
    cases hset : arr_set s'.file_desc b { fd_kind := d.fd_kind, fd_index := d.fd_index } with
    | none => simp [hset] at hm
    | some fds =>
      obtain ⟨⟨v0, hv0⟩, hfds⟩ := arr_set_inv hset
      simp only [hset, Option.some.injEq, Prod.mk.injEq, true_and] at hm
      subst hm
      subst hfds
      refine ⟨?_, arr_get_set_same _ hv0, f3⟩
      show arr_get (s'.file_desc.set b.toNat _) a = some d
      rw [arr_get_set_other _ hv0 (fun hx => hab hx.symm)]
      exact hda
  unfold __mkfs_dup2 at hdup
  simp only [check_fd_ok_fst, if_neg hra, if_neg hrb, if_neg h01, hd, if_neg hk, if_neg hab]
    at hdup
  cases hdn : arr_get s.file_desc b with
  | none => simp [hdn] at hdup
  | some dn =>
    simp only [hdn] at hdup
    by_cases hkn : dn.fd_kind ≠ 0
    · rw [if_pos hkn] at hdup
      cases hc : __mkfs_close e s b with
      | none => simp [hc] at hdup
      | some t =>
        obtain ⟨r, s'⟩ := t
        obtain ⟨f1, _, f3⟩ := mkfs_close_frame hc
        simp only [hc, Option.map_some'] at hdup
        exact hmid s' f1 f3 hdup
    · rw [if_neg hkn] at hdup
      exact hmid s (fun _ _ => rfl) (fun j i0 hj => ⟨i0, hj, rfl⟩) hdup

/-- On a file descriptor whose open-file record has lost its file, `read` and
`write` return -1 with `errno` set to `EBADF` and change nothing else. -/
theorem detached_calls {e : Env} (hs : e.Sane) {s : State} {fd : Int} {d : mkfs_fd_info}
    {info : mkfs_file_info}
    (h0 : 0 ≤ fd) (h1 : fd < e.FOPEN_MAX) (hd : arr_get s.file_desc fd = some d)
    (hk : file_kind e d.fd_kind) (hi : arr_get s.opened_files d.fd_index = some info)
    (hfile : info.file = none) (hpos : 0 ≤ info.position ∧ info.position ≤ e.OFF_MAX) :
    (∀ buf count, __mkfs_read e s fd buf count = some (-1, buf, { s with errno := e.EBADF })) ∧
    (∀ buf, __mkfs_write e s fd buf = some (-1, { s with errno := e.EBADF })) := by
  have hrange : ¬ (fd < 0 ∨ fd ≥ e.FOPEN_MAX) := by omega
  have hgi := get_file_info_of_open hs h0 h1 hd hk
  have hdir := not_isdir_of_file_kind hs hk
  have hk0 : ¬ (d.fd_kind = 0) := file_kind_ne_zero hs hk
  have hkk : d.fd_kind = e.S_IFIFO ∨ d.fd_kind = e.S_IFCHR ∨ d.fd_kind = e.S_IFREG := by
    rcases hk with h1 | h1 | h1
    · exact Or.inr (Or.inr h1)
    · exact Or.inr (Or.inl h1)
    · exact Or.inl h1
  have hchk : __mkfs_check_fd_file_ok e s fd = some (-1, { s with errno := e.EBADF }) := by
    simp only [__mkfs_check_fd_file_ok, hd, hdir, Bool.false_eq_true, if_false, hgi, hi, hfile,
      if_true]
  have hposok : ¬ (info.position < 0 ∨ info.position > e.OFF_MAX) := by omega
  have hoff : ¬ (info.position < 0) := by omega
  have hm1 : ((-1 : Int)) ≠ 0 := by decide
  have hm2 : ¬ ((-1 : Int) > 0) := by decide
  refine ⟨fun buf count => ?_, fun buf => ?_⟩
  · simp only [__mkfs_read, if_neg hrange, hd, if_neg hk0, if_pos hkk, read_file, hgi, hi,
      if_neg hposok, local_pread, if_neg hoff, __mkfs_check_fd_file_ok_for_reading, hchk,
      if_true, if_pos hm1, if_neg hm2]
  · simp only [__mkfs_write, __mkfs_check_fd_file_ok_for_writing, hchk, if_true]

/-- On a regular-file descriptor, `lseek` with `SEEK_SET` does not look at the
file of the open-file record: without a random error it returns the offset. -/
theorem lseek_set_detached {e : Env} (hs : e.Sane) {s : State} {fd : Int} {d : mkfs_fd_info}
    {info : mkfs_file_info}
    (h0 : 0 ≤ fd) (h1 : fd < e.FOPEN_MAX) (hd : arr_get s.file_desc fd = some d)
    (hreg : d.fd_kind = e.S_IFREG) (hi : arr_get s.opened_files d.fd_index = some info)
    (hq : no_injection e s) {off : Int} (ho0 : 0 ≤ off) (ho1 : off ≤ e.OFF_MAX) :
    ∃ s3, __mkfs_lseek e s fd off e.SEEK_SET = some (off, s3) := by
  have hrange : ¬ (fd < 0 ∨ fd ≥ e.FOPEN_MAX) := by omega
  have hk : file_kind e d.fd_kind := Or.inl hreg
  obtain ⟨a, b, hab⟩ := random_error_shape e s
  have hinj : (RETURN_RANDOM_ERROR e s).1 = false := hq
  have hne : ¬ (d.fd_kind ≠ e.S_IFREG) := fun hx => hx hreg
  have h01 : ¬ ((0 : Int) = -1) := by decide
  have hgi : __mkfs_get_file_info e (ambient s a b) fd = some (some d.fd_index) := by
    rw [get_file_info_ambient]
    exact get_file_info_of_open hs h0 h1 hd hk
  have hr : ¬ (off > e.OFF_MAX ∨ off < -(e.OFF_MAX : Int) - 1) := by omega
  have hn : ¬ (off < 0) := by omega
  have hi' : arr_get (ambient s a b).opened_files d.fd_index = some info := hi
  simp only [__mkfs_lseek, __mkfs_seekable, if_neg hrange, hd, if_neg hne, hinj,
    Bool.false_eq_true, if_false, if_neg h01, hab, hgi, if_true, if_neg hr, if_neg hn, hi',
    arr_set_of_get _ hi']
  exact ⟨_, rfl⟩

/-- C19 (amended): when `a` is a regular-file descriptor and `b` an in-range
descriptor other than `a`, after `dup2 (a, b)` has returned `b` and `close (a)`
has returned 0 the slot `b` is a regular-file slot that designates the
open-file record of `a`, whose file reference `close` has cleared and whose
position is the one `a` had: `read` and `write` on `b` return -1 with `errno`
set to `EBADF` and change nothing else, while `lseek` with `SEEK_SET` to an
offset in `[0, OFF_MAX]` still returns that offset when no random error is
returned. -/
theorem C19_dup2_then_close_detaches (e : Env) (hs : e.Sane) (s s1 s2 : State) (a b idx : Int)
    (info : mkfs_file_info) (fr : FileRef) (f : mkfs_fs_file) (sr : StatRef) (st : Stat)
    (d : mkfs_fd_info)
    (h : fd_open e s a idx info fr f sr st)
    (hd : arr_get s.file_desc a = some d) (hreg : d.fd_kind = e.S_IFREG)
    (hpos : 0 ≤ info.position ∧ info.position ≤ e.OFF_MAX)
    (hb0 : 0 ≤ b) (hb1 : b < e.FOPEN_MAX) (hab : b ≠ a)
    (hdup : __mkfs_dup2 e s a b = some (b, s1))
    (hclose : __mkfs_close e s1 a = some (0, s2)) :
    arr_get s2.file_desc b = some { fd_kind := e.S_IFREG, fd_index := idx } ∧
    (∃ info', arr_get s2.opened_files idx = some info' ∧ info'.file = none ∧
      info'.position = info.position) ∧
    (∀ buf count,
      __mkfs_read e s2 b buf count = some (-1, buf, { s2 with errno := e.EBADF })) ∧
    (∀ buf, __mkfs_write e s2 b buf = some (-1, { s2 with errno := e.EBADF })) ∧
    (∀ off : Int, 0 ≤ off → off ≤ e.OFF_MAX → no_injection e s2 →
      ∃ s3, __mkfs_lseek e s2 b off e.SEEK_SET = some (off, s3)) := by
  obtain ⟨ha0, ha1, ⟨d', hd', hk', hidx'⟩, hst⟩ := h
  have hdd : d' = d := Option.some.inj (hd'.symm.trans hd)
  subst hdd
  obtain ⟨hinfo, _, _, _, _, _⟩ := file_info_stat_parts hst
  have hk0 : d'.fd_kind ≠ 0 := file_kind_ne_zero hs hk'
  obtain ⟨h1a, h1b, h1p⟩ := dup2_inv ha0 ha1 hd hk0 hb0 hb1 hab hdup
  -- the close of `a`
  have hn := hs.kinds
  simp only [List.nodup_cons, List.mem_cons, List.mem_singleton, not_or] at hn
  have hra : ¬ (a < 0 ∨ a ≥ e.FOPEN_MAX) := by omega
  have hkf : ¬ (d'.fd_kind = e.S_IFIFO) := by omega
  unfold __mkfs_close at hclose
  simp only [if_neg hra, h1a, if_neg hk0, if_neg hkf, if_pos hreg] at hclose
  obtain ⟨a0, b0, hcase⟩ := close_file_inv hclose
  rcases hcase with ⟨hr, _⟩ | ⟨_, d2, idx2, info2, hd2, hg2, hi2, _, hs2⟩
  · exact absurd hr (by decide)
  have hgi := get_file_info_of_open hs ha0 ha1 h1a hk'
  rw [hgi] at hg2
  have hidx2 : d'.fd_index = idx2 := Option.some.inj (Option.some.inj hg2)
  have hd2' : d2 = d' := Option.some.inj (hd2.symm.trans h1a)
  subst hd2'
  obtain ⟨i1, hi1, hp1⟩ := h1p idx info hinfo
  rw [← hidx2, hidx'] at hi2
  have hii : i1 = info2 := Option.some.inj (hi1.symm.trans hi2)
  subst hii
  have hbslot : arr_get s2.file_desc b = some { fd_kind := e.S_IFREG, fd_index := idx } := by
    rw [hs2]
    show arr_get (s1.file_desc.set a.toNat _) b = _
    rw [arr_get_set_other _ h1a hab, h1b, hreg, hidx']
  have hrec : arr_get s2.opened_files idx = some { i1 with file := none } := by
    rw [hs2]
    show arr_get (s1.opened_files.set idx2.toNat _) idx = _
    rw [← hidx2, hidx']
    exact arr_get_set_same _ hi2
  have hrec' : arr_get s2.opened_files
      ({ fd_kind := e.S_IFREG, fd_index := idx } : mkfs_fd_info).fd_index =
      some { i1 with file := none } := hrec
  have hposr : 0 ≤ ({ i1 with file := none } : mkfs_file_info).position ∧
      ({ i1 with file := none } : mkfs_file_info).position ≤ e.OFF_MAX := by
    show 0 ≤ i1.position ∧ i1.position ≤ e.OFF_MAX
    rw [hp1]
    exact hpos
  obtain ⟨hread, hwrite⟩ := detached_calls hs hb0 hb1 hbslot (Or.inl rfl) hrec' rfl hposr
  refine ⟨hbslot, ⟨_, hrec, rfl, hp1⟩, hread, hwrite, fun off ho0 ho1 hq => ?_⟩
  exact lseek_set_detached hs hb0 hb1 hbslot rfl hrec' hq ho0 ho1

/-! ## Exclusive creation and the permission check -/

/-- C14: when the path names an entry of the file table and the flags (which
name an access mode, the precondition of `open_file`) contain `O_CREAT` and
`O_EXCL`, `open` returns -1, sets `errno` to `EEXIST` and changes nothing
else: no file, inode, descriptor or open-file record is touched. -/
theorem C14_open_creat_excl_existing (e : Env) (s : State) (path : String) (flags mode : Nat)
    (i : Nat) (hfound : __mkfs_get_file s path = some i)
    (hc : flags &&& e.O_CREAT ≠ 0) (hx : flags &&& e.O_EXCL ≠ 0)
    (hreq : tis_open_flags e flags = true) :
    __mkfs_open e s path flags mode = some (-1, { s with errno := e.EEXIST }) := by
  simp only [__mkfs_open, open_file, hreq, if_true, hfound, if_pos hc, if_pos hx]

theorem stat_access_ok_owner {e : Env} {st : Stat} (mode : Nat) (huid : st.st_uid = e.euid) :
    stat_access_ok e st mode = true ↔
      ((mode &&& e.R_OK ≠ 0 → st.st_mode &&& e.S_IRUSR ≠ 0) ∧
        (mode &&& e.W_OK ≠ 0 → st.st_mode &&& e.S_IWUSR ≠ 0) ∧
        (mode &&& e.X_OK ≠ 0 → st.st_mode &&& e.S_IXUSR ≠ 0)) := by
  unfold stat_access_ok
  simp only [if_pos huid]
  by_cases c1 : mode &&& e.R_OK ≠ 0 <;> by_cases c2 : mode &&& e.W_OK ≠ 0 <;>
    by_cases c3 : mode &&& e.X_OK ≠ 0 <;>
    simp [c1, c2, c3, and_assoc]

theorem stat_access_ok_other {e : Env} {st : Stat} (mode : Nat) (h1 : st.st_uid ≠ e.euid)
    (h2 : st.st_uid ≠ e.egid) :
    stat_access_ok e st mode = true ↔
      ((mode &&& e.R_OK ≠ 0 → st.st_mode &&& e.S_IROTH ≠ 0) ∧
        (mode &&& e.W_OK ≠ 0 → st.st_mode &&& e.S_IWOTH ≠ 0) ∧
        (mode &&& e.X_OK ≠ 0 → st.st_mode &&& e.S_IXOTH ≠ 0)) := by
  unfold stat_access_ok
  simp only [if_neg h1, if_neg h2]
  by_cases c1 : mode &&& e.R_OK ≠ 0 <;> by_cases c2 : mode &&& e.W_OK ≠ 0 <;>
    by_cases c3 : mode &&& e.X_OK ≠ 0 <;>
    simp [c1, c2, c3, and_assoc]

theorem stat_access_by_ok {e : Env} (hne : e.no_err = true) (s : State) (st : Stat)
    (mode : Nat) (P : Prop) (hP : stat_access_ok e st mode = true ↔ P) :
    ((stat_access e s st mode).1 = 0 ↔ P) ∧ (P → stat_access e s st mode = (0, s)) ∧
      (¬ P → stat_access e s st mode = (-1, { s with errno := e.EBADF })) := by
  rw [stat_access_no_err hne]
  by_cases hok : stat_access_ok e st mode = true
  · have hp : P := hP.mp hok
    rw [if_pos hok]
    exact ⟨⟨fun _ => hp, fun _ => rfl⟩, fun _ => rfl, fun hn => absurd hp hn⟩
  · have hp : ¬ P := fun h => hok (hP.mpr h)
    rw [if_neg hok]
    refine ⟨⟨fun h => ?_, fun h => absurd h hp⟩, fun h => absurd h hp, fun _ => rfl⟩
    have hm : ((-1 : Int)) = 0 := h
    exact absurd hm (by decide)

/-- C16: with `__TIS_MKFS_NO_ERR`, for an inode whose owner is the effective
user and a mode within `R_OK | W_OK | X_OK` (the precondition of
`stat_access`), `stat_access` returns 0, leaving the state as it is, exactly
when each right asked for has its owner bit in `st_mode`; the group and other
bits play no part; otherwise it returns -1 with `errno` set to `EBADF`. -/
theorem C16_stat_access_owner_bits (e : Env) (hne : e.no_err = true) (s : State) (st : Stat)
    (mode : Nat) (huid : st.st_uid = e.euid)
    (_hmode : mode &&& (e.R_OK ||| e.W_OK ||| e.X_OK) = mode) :
    ((stat_access e s st mode).1 = 0 ↔
      ((mode &&& e.R_OK ≠ 0 → st.st_mode &&& e.S_IRUSR ≠ 0) ∧
        (mode &&& e.W_OK ≠ 0 → st.st_mode &&& e.S_IWUSR ≠ 0) ∧
        (mode &&& e.X_OK ≠ 0 → st.st_mode &&& e.S_IXUSR ≠ 0))) ∧
    (((mode &&& e.R_OK ≠ 0 → st.st_mode &&& e.S_IRUSR ≠ 0) ∧
        (mode &&& e.W_OK ≠ 0 → st.st_mode &&& e.S_IWUSR ≠ 0) ∧
        (mode &&& e.X_OK ≠ 0 → st.st_mode &&& e.S_IXUSR ≠ 0)) →
      stat_access e s st mode = (0, s)) ∧
    (¬ ((mode &&& e.R_OK ≠ 0 → st.st_mode &&& e.S_IRUSR ≠ 0) ∧
        (mode &&& e.W_OK ≠ 0 → st.st_mode &&& e.S_IWUSR ≠ 0) ∧
        (mode &&& e.X_OK ≠ 0 → st.st_mode &&& e.S_IXUSR ≠ 0)) →
      stat_access e s st mode = (-1, { s with errno := e.EBADF })) :=
  stat_access_by_ok hne s st mode _ (stat_access_ok_owner mode huid)

/-- C17 (what the code does): with `__TIS_MKFS_NO_ERR`, for an inode whose
owner differs from the effective user and whose group is the effective group,
`stat_access` decides from the bits for others, not from the group bits,
whenever the owner id also differs from the effective group id: the test of the
group branch compares `st_uid`, not `st_gid`, with `__mkfs_egid`. -/
theorem C17_stat_access_group_branch_tests_uid (e : Env) (hne : e.no_err = true) (s : State)
    (st : Stat) (mode : Nat) (h1 : st.st_uid ≠ e.euid) (_hg : st.st_gid = e.egid)
    (h2 : st.st_uid ≠ e.egid) :
    ((stat_access e s st mode).1 = 0 ↔
      ((mode &&& e.R_OK ≠ 0 → st.st_mode &&& e.S_IROTH ≠ 0) ∧
        (mode &&& e.W_OK ≠ 0 → st.st_mode &&& e.S_IWOTH ≠ 0) ∧
        (mode &&& e.X_OK ≠ 0 → st.st_mode &&& e.S_IXOTH ≠ 0))) ∧
    (¬ ((mode &&& e.R_OK ≠ 0 → st.st_mode &&& e.S_IROTH ≠ 0) ∧
        (mode &&& e.W_OK ≠ 0 → st.st_mode &&& e.S_IWOTH ≠ 0) ∧
        (mode &&& e.X_OK ≠ 0 → st.st_mode &&& e.S_IXOTH ≠ 0)) →
      stat_access e s st mode = (-1, { s with errno := e.EBADF })) :=
  ⟨(stat_access_by_ok hne s st mode _ (stat_access_ok_other mode h1 h2)).1,
   (stat_access_by_ok hne s st mode _ (stat_access_ok_other mode h1 h2)).2.2⟩

/-! ## Truncation by path -/

/-- The result of `__mkfs_truncate` on an existing file when the inode grants
write access and no random error is returned: whatever the length, it is stored
as the size, the content provider is dropped, and nothing else changes but the
stream of unknown values. -/
theorem truncate_granted {e : Env} {s : State} {path : String} {i : Nat} {f : mkfs_fs_file}
    {sr : StatRef} {st : Stat}
    (hfound : __mkfs_get_file s path = some i) (hf : s.fs_files[i]? = some f)
    (hfs : file_stat s f = some (sr, st)) (hperm : stat_access_ok e st e.W_OK = true)
    (hq : no_injection e s) (L : Int) :
    ∃ s1, __mkfs_truncate e s path L = some (0, s1) ∧
      s1.file_desc = s.file_desc ∧ s1.opened_files = s.opened_files ∧
      s1.fs_files = s.fs_files.set i { f with content := none } ∧
      get_stat s1 sr = some { st with st_size := L } ∧
      s1.mkfs_data_table = s.mkfs_data_table ∧ s1.errno = s.errno := by
  obtain ⟨b, hb⟩ := no_injection_shape hq
  have hinj : (RETURN_RANDOM_ERROR e s).1 = false := hq
  have hsa : stat_access e s st e.W_OK = (0, ambient s s.errno b) := by
    unfold stat_access
    rw [if_pos hperm]
    simp only [hinj, Bool.false_eq_true, if_false, hb]
  have hg : get_stat s sr = some st := by
    unfold file_stat at hfs
    cases hx : f.stat with
    | none => simp [hx] at hfs
    | some sr' =>
      simp only [hx] at hfs
      cases hy : get_stat s sr' with
      | none => simp [hy] at hfs
      | some st' =>
        simp only [hy, Option.some.injEq, Prod.mk.injEq] at hfs
        rw [← hfs.1, ← hfs.2]
        exact hy
  have hga : get_stat (ambient s s.errno b) sr = some st := by
    rw [get_stat_congr sr rfl rfl]
    exact hg
  have hL : i < s.fs_files.length := (List.getElem?_eq_some.mp hf).1
  have hL' : i < (put_stat (ambient s s.errno b) sr { st with st_size := L }).fs_files.length := by
    rw [put_stat_fs_files]
    exact hL
  have hL2 : i < (ambient s s.errno b).fs_files.length := hL
  have h00 : ¬ ((0 : Int) ≠ 0) := by decide
  have heq : __mkfs_truncate e s path L =
      some (0, { put_stat (ambient s s.errno b) sr { st with st_size := L } with
                 fs_files := s.fs_files.set i { f with content := none } }) := by
    simp only [__mkfs_truncate, hfound, get_fs_file, hf, hfs, hsa, if_neg h00,
      set_stat_of_get _ hga, set_fs_file, if_pos hL', Option.map_some', put_stat_fs_files,
      if_pos hL2]
    rfl
  refine ⟨_, heq, ?_, ?_, rfl, ?_, ?_, ?_⟩
  · exact put_stat_file_desc _ _ _
  · exact put_stat_opened_files _ _ _
  · rw [get_stat_congr sr rfl rfl]
    exact get_stat_put_stat _ hga
  · exact put_stat_data_table _ _ _
  · exact put_stat_errno _ _ _

/-- C12 (what the code does): on an existing file whose inode grants write
access, when no random error is returned, `truncate (path, length)` returns 0
and stores `length` as the size for every `length`, the negative ones included:
`__mkfs_truncate` has no test of the sign, unlike `__mkfs_ftruncate`. -/
theorem C12_truncate_stores_any_length (e : Env) (s : State) (path : String) (i : Nat)
    (f : mkfs_fs_file) (sr : StatRef) (st : Stat) (L : Int)
    (hfound : __mkfs_get_file s path = some i) (hf : s.fs_files[i]? = some f)
    (hfs : file_stat s f = some (sr, st)) (hperm : stat_access_ok e st e.W_OK = true)
    (hq : no_injection e s) :
    ∃ s1, __mkfs_truncate e s path L = some (0, s1) ∧
      get_stat s1 sr = some { st with st_size := L } := by
  obtain ⟨s1, hb, _, _, _, hg, _, _⟩ := truncate_granted hfound hf hfs hperm hq L
  exact ⟨s1, hb, hg⟩

theorem no_injection_of_no_err {e : Env} (hne : e.no_err = true) (s : State) :
    no_injection e s := by
  unfold no_injection
  rw [random_error_no_err e s hne]

/-- C13 (what the code does): with `__TIS_MKFS_NO_ERR`, on an existing file of
size `s` with a materialized buffer whose inode grants read and write access,
`truncate (path, L)` with `s < L <= TIS_FSIZE` returns 0 and leaves the buffer
as it is, so that `pread` of the bytes `[s, L)` through a descriptor open for
reading returns `L - s` and delivers what the row held there before the call
(the old content after a cut, not zeros): `__mkfs_truncate` has no zero fill,
unlike `__mkfs_ftruncate`. -/
theorem C13_truncate_grow_keeps_old_bytes (e : Env) (hs : e.Sane) (hne : e.no_err = true)
    (s : State) (path : String) (i : Nat) (fd idx : Int) (info : mkfs_file_info)
    (f : mkfs_fs_file) (sr : StatRef) (st : Stat) (p : Nat) (row : List Nat) (L : Int)
    (buf : List Nat)
    (hfound : __mkfs_get_file s path = some i)
    (h : fd_open e s fd idx info (FileRef.fs_files i) f sr st)
    (hflags : info.flags &&& e.O_WRONLY = 0)
    (hr : stat_access_ok e st e.R_OK = true) (hw : stat_access_ok e st e.W_OK = true)
    (hmat : materialized e s f st p row) (hsz : 0 ≤ st.st_size)
    (hL : st.st_size < L) (hLmax : L ≤ TIS_FSIZE e)
    (hcap : (L - st.st_size).toNat ≤ buf.length) :
    ∃ s1, __mkfs_truncate e s path L = some (0, s1) ∧
      __mkfs_pread e s1 fd buf (L - st.st_size).toNat st.st_size =
        some (L - st.st_size,
          row_read row st.st_size.toNat (L - st.st_size).toNat ++
            buf.drop (L - st.st_size).toNat, s1) := by
  obtain ⟨hdata, hrow, _⟩ := hmat
  have hint := hs.int_le_off
  have hT : TIS_FSIZE e = e.INT_MAX := rfl
  obtain ⟨h0, h1, ⟨d, hd, hk, hidx⟩, hst⟩ := h
  obtain ⟨hinfo, hfile, hff, hfs, hstat, hg⟩ := file_info_stat_parts hst
  have hf : s.fs_files[i]? = some f := by
    unfold file_info_file at hff
    simp only [hinfo, hfile, get_fs_file] at hff
    cases hx : s.fs_files[i]? with
    | none => simp [hx] at hff
    | some f' =>
      simp only [hx, Option.some.injEq, Prod.mk.injEq, true_and] at hff
      rw [hff]
  have hi : i < s.fs_files.length := (List.getElem?_eq_some.mp hf).1
  obtain ⟨s1, hb, t1, t2, t3, t4, t5, _⟩ :=
    truncate_granted hfound hf hfs hw (no_injection_of_no_err hne s) L
  refine ⟨s1, hb, ?_⟩
  have hopen1 : fd_open e s1 fd idx info (FileRef.fs_files i) { f with content := none } sr
      { st with st_size := L } := by
    refine ⟨h0, h1, ⟨d, by rw [t1]; exact hd, hk, hidx⟩, ?_⟩
    have ha : arr_get s1.opened_files idx = some info := by
      rw [t2]
      exact hinfo
    have hgf : get_fs_file s1 (FileRef.fs_files i) = some { f with content := none } := by
      show s1.fs_files[i]? = _
      rw [t3]
      exact List.getElem?_set_self hi
    have hfs1 : file_stat s1 { f with content := none } =
        some (sr, { st with st_size := L }) := by
      simp only [file_stat, hstat, t4]
    simp only [file_info_stat, file_info_file, ha, hfile, hgf, hfs1]
  have hchk := check_reading_no_err hs hne hopen1 hflags hr
  unfold __mkfs_pread
  rw [local_pread_open hs hopen1 (by show (0 : Int) ≤ L; omega) (by show L ≤ e.OFF_MAX; omega)
    buf _ hsz hchk]
  have c1 : ¬ (st.st_size ≥ L) := by omega
  have hmin : min (L - st.st_size).toNat (L - st.st_size).toNat = (L - st.st_size).toNat :=
    Nat.min_self _
  have c2 : ¬ ((L - st.st_size).toNat > buf.length) := by omega
  have c3 : ¬ (st.st_size.toNat + (L - st.st_size).toNat > TIS_FSIZE e) := by omega
  have hrow1 : s1.mkfs_data_table[p]? = some row := by
    rw [t5]
    exact hrow
  have hcast : (((L - st.st_size).toNat : Nat) : Int) = L - st.st_size := by omega
  simp only [if_neg c1, hmin, if_neg c2, hdata, hrow1, if_neg c3, hcast]

/-! ## The size after `open` -/

theorem get_stat_set_fs_file {s s' : State} {fr : FileRef} {f : mkfs_fs_file}
    (h : set_fs_file s fr f = some s') (sr : StatRef) : get_stat s' sr = get_stat s sr := by
  cases fr with
  | fs_stdin =>
    simp only [set_fs_file, Option.some.injEq] at h
    subst h
    exact get_stat_congr sr rfl rfl
  | fs_stdout =>
    simp only [set_fs_file, Option.some.injEq] at h
    subst h
    exact get_stat_congr sr rfl rfl
  | fs_stderr =>
    simp only [set_fs_file, Option.some.injEq] at h
    subst h
    exact get_stat_congr sr rfl rfl
  | fs_files i =>
    simp only [set_fs_file] at h
    split at h
    · simp only [Option.some.injEq] at h
      subst h
      exact get_stat_congr sr rfl rfl
    · simp at h
  | heap k =>
    simp only [set_fs_file] at h
    split at h
    · simp only [Option.some.injEq] at h
      subst h
      exact get_stat_congr sr rfl rfl
    · simp at h

theorem init_fd_file_frame {e : Env} {s s1 : State} {fd : Int} {kind : Int} {flags : Nat}
    {file : Option FileRef} {x : Int}
    (h : init_fd_file e s fd kind flags file = some (x, s1)) :
    s1.fs_files = s.fs_files ∧ s1.inode_table = s.inode_table ∧
      s1.image_stats = s.image_stats := by
  unfold init_fd_file at h
  simp only at h
  cases h1 : arr_set (mkfs_get_next_file_index e s).2.file_desc fd
      { fd_kind := kind, fd_index := (mkfs_get_next_file_index e s).1 } with
  | none => simp [h1] at h
  | some fds =>
    simp only [h1] at h
    cases h2 : arr_set (mkfs_get_next_file_index e s).2.opened_files
        (mkfs_get_next_file_index e s).1
        { position := 0, error := 0, eof := 0, flags := flags, file := file } with
    | none => simp [h2] at h
    | some ofs =>
      simp only [h2, Option.some.injEq, Prod.mk.injEq] at h
      obtain ⟨_, hs1⟩ := h
      subst hs1
      unfold mkfs_get_next_file_index
      split <;> exact ⟨rfl, rfl, rfl⟩

/-- The size that `open_fd` leaves in the inode of the file it opens. -/
theorem open_fd_size {e : Env} {s s4 : State} {fd kind res : Int} {flags : Nat}
    {content : Option (List Nat)} {i : Nat} {f : mkfs_fs_file} {sr : StatRef} {st : Stat}
    (hf : s.fs_files[i]? = some f) (hsr : f.stat = some sr) (hg : get_stat s sr = some st)
    (h : open_fd e s fd kind flags content (FileRef.fs_files i) = some (res, s4)) :
    res = 0 ∧
    get_stat s4 sr = some { st with st_size :=
      if flags &&& e.O_TRUNC ≠ 0 ∧ (flags &&& e.O_WRONLY ≠ 0 ∨ flags &&& e.O_RDWR ≠ 0)
      then 0 else st.st_size } := by
  unfold open_fd at h
  by_cases hkind : kind = e.S_IFREG ∨ kind = e.S_IFIFO ∨ kind = e.S_IFCHR
  · simp only [if_pos hkind, get_fs_file, hf, hsr] at h
    cases hinit : init_fd_file e s fd kind flags (some (FileRef.fs_files i)) with
    | none => simp [hinit] at h
    | some t =>
      obtain ⟨x, sI⟩ := t
      obtain ⟨i1, i2, i3⟩ := init_fd_file_frame hinit
      have hgI : get_stat sI sr = some st := by
        rw [get_stat_congr sr i2 i3]
        exact hg
      simp only [hinit] at h
      -- the state after the truncation step
      have hstep : ∃ s2, (if flags &&& e.O_TRUNC ≠ 0 ∧
            (flags &&& e.O_WRONLY ≠ 0 ∨ flags &&& e.O_RDWR ≠ 0)
          then (get_stat sI sr).bind (fun st => set_stat sI sr { st with st_size := 0 })
          else some sI) = some s2 ∧ s2.fs_files = s.fs_files ∧
          get_stat s2 sr = some { st with st_size :=
            if flags &&& e.O_TRUNC ≠ 0 ∧ (flags &&& e.O_WRONLY ≠ 0 ∨ flags &&& e.O_RDWR ≠ 0)
            then 0 else st.st_size } := by
        by_cases ht : flags &&& e.O_TRUNC ≠ 0 ∧
            (flags &&& e.O_WRONLY ≠ 0 ∨ flags &&& e.O_RDWR ≠ 0)
        · refine ⟨put_stat sI sr { st with st_size := 0 }, ?_, ?_, ?_⟩
          · rw [if_pos ht, hgI]
            exact set_stat_of_get _ hgI
          · rw [put_stat_fs_files]
            exact i1
          · rw [if_pos ht]
            exact get_stat_put_stat _ hgI
        · refine ⟨sI, ?_, i1, ?_⟩
          · rw [if_neg ht]
          · rw [if_neg ht]
            exact hgI
      obtain ⟨s2, hs2, j1, j2⟩ := hstep
      rw [hs2] at h
      obtain ⟨st2, hst2⟩ : ∃ st2 : Stat, st2 = { st with st_size :=
          if flags &&& e.O_TRUNC ≠ 0 ∧ (flags &&& e.O_WRONLY ≠ 0 ∨ flags &&& e.O_RDWR ≠ 0)
          then 0 else st.st_size } := ⟨_, rfl⟩
      rw [← hst2] at j2 ⊢
      have hf2 : s2.fs_files[i]? = some f := by
        rw [j1]
        exact hf
      simp only [hf2] at h
      by_cases hcond : f.data = none ∧ (content ≠ none ∨ flags &&& e.O_CREAT ≠ 0)
      · rw [if_pos hcond] at h
        simp only [j2] at h
        split at h
        · simp at h
        · split at h
          · simp at h
          · split at h
            · simp at h
            · split at h
              · split at h
                · simp at h
                · split at h
                  · simp at h
                  · obtain ⟨s3, hset, heq⟩ := Option.map_eq_some'.mp h
                    simp only [Prod.mk.injEq] at heq
                    obtain ⟨hr, hs4⟩ := heq
                    subst hs4
                    refine ⟨hr.symm, ?_⟩
                    rw [get_stat_set_fs_file hset sr, get_stat_congr sr rfl rfl]
                    exact j2
              · obtain ⟨s3, hset, heq⟩ := Option.map_eq_some'.mp h
                simp only [Prod.mk.injEq] at heq
                obtain ⟨hr, hs4⟩ := heq
                subst hs4
                refine ⟨hr.symm, ?_⟩
                rw [get_stat_set_fs_file hset sr]
                exact j2
      · rw [if_neg hcond] at h
        simp only [Option.some.injEq, Prod.mk.injEq] at h
        obtain ⟨hr, hs4⟩ := h
        subst hs4
        exact ⟨hr.symm, j2⟩
  · simp [if_neg hkind] at h

theorem access_step_shape (e : Env) (s : State) (st : Stat) (m : Nat) (c : Prop)
    [Decidable c] {r : Int × State}
    (h : (if c then stat_access e s st m else ((0 : Int), s)) = r) :
    ∃ a b, r.2 = ambient s a b := by
  by_cases hc : c
  · rw [if_pos hc] at h
    rw [← h]
    exact stat_access_shape e s st m
  · rw [if_neg hc] at h
    rw [← h]
    exact ⟨s.errno, s.nondet, rfl⟩

theorem get_next_file_desc_inv {e : Env} {s s3 : State} {fd : Int}
    (h : get_next_file_desc e s = some (fd, s3)) (hfd : fd ≠ -1) : s3 = s := by
  unfold get_next_file_desc at h
  split at h
  · simp at h
  · split at h
    · simp only [Option.some.injEq, Prod.mk.injEq] at h
      exact h.2.symm
    · simp only at h
      by_cases hinj : (RETURN_RANDOM_ERROR e s).1 = true
      · simp only [hinj, if_true, Option.some.injEq, Prod.mk.injEq] at h
        exact absurd h.1.symm hfd
      · simp only [hinj, Bool.false_eq_true, if_false, Option.some.injEq, Prod.mk.injEq] at h
        exact absurd h.1.symm hfd

/-- C15: when `open` of a path that names an entry of the file table returns a
descriptor (not -1), the size recorded in the inode of the file is 0 if the
flags contain `O_TRUNC` together with `O_WRONLY` or `O_RDWR`, and is the size
it had before the call otherwise; the other fields of the inode are
unchanged. -/
theorem C15_open_size_after (e : Env) (s s1 : State) (path : String) (flags mode : Nat)
    (i : Nat) (f : mkfs_fs_file) (sr : StatRef) (st : Stat) (fd : Int)
    (hfound : __mkfs_get_file s path = some i) (hf : s.fs_files[i]? = some f)
    (hfs : file_stat s f = some (sr, st))
    (ho : __mkfs_open e s path flags mode = some (fd, s1)) (hfd : fd ≠ -1) :
    get_stat s1 sr = some { st with st_size :=
      if flags &&& e.O_TRUNC ≠ 0 ∧ (flags &&& e.O_WRONLY ≠ 0 ∨ flags &&& e.O_RDWR ≠ 0)
      then 0 else st.st_size } := by
  have hsr : f.stat = some sr ∧ get_stat s sr = some st := by
    unfold file_stat at hfs
    cases hx : f.stat with
    | none => simp [hx] at hfs
    | some sr' =>
      simp only [hx] at hfs
      cases hy : get_stat s sr' with
      | none => simp [hy] at hfs
      | some st' =>
        simp only [hy, Option.some.injEq, Prod.mk.injEq] at hfs
        rw [← hfs.1, ← hfs.2]
        exact ⟨rfl, hy⟩
  obtain ⟨hsr, hg⟩ := hsr
  unfold __mkfs_open open_file at ho
  by_cases hreq : tis_open_flags e flags = true
  · simp only [hreq, if_true, hfound] at ho
    have hcreated : (if flags &&& e.O_CREAT ≠ 0 then
          (if flags &&& e.O_EXCL ≠ 0 then (some none : Option (Option (Option Nat × State)))
           else some (some (some i, s)))
        else some (some (some i, s))) = some (some (some i, s)) ∨
        (if flags &&& e.O_CREAT ≠ 0 then
          (if flags &&& e.O_EXCL ≠ 0 then (some none : Option (Option (Option Nat × State)))
           else some (some (some i, s)))
        else some (some (some i, s))) = some none := by
      by_cases hc : flags &&& e.O_CREAT ≠ 0
      · by_cases hx : flags &&& e.O_EXCL ≠ 0
        · right
          rw [if_pos hc, if_pos hx]
        · left
          rw [if_pos hc, if_neg hx]
      · left
        rw [if_neg hc]
    rcases hcreated with hcr | hcr
    · rw [hcr] at ho
      simp only [get_fs_file, hf, hfs] at ho
      generalize hr1 : (if flags &&& e.O_RDONLY ≠ 0 ∨ flags &&& e.O_RDWR ≠ 0
        then stat_access e s st e.R_OK else ((0 : Int), s)) = r1 at ho
      obtain ⟨a1, b1, hs1⟩ := access_step_shape e s st e.R_OK _ hr1
      obtain ⟨x1, sx1⟩ := r1
      simp only at hs1
      subst hs1
      simp only at ho
      by_cases hx1 : x1 = -1
      · simp only [hx1, if_true, Option.some.injEq, Prod.mk.injEq] at ho
        exact absurd ho.1.symm hfd
      · simp only [if_neg hx1] at ho
        generalize hr2 : (if flags &&& e.O_WRONLY ≠ 0 ∨ flags &&& e.O_RDWR ≠ 0
          then stat_access e (ambient s a1 b1) st e.W_OK else ((0 : Int), ambient s a1 b1)) = r2
          at ho
        obtain ⟨a2, b2, hs2⟩ := access_step_shape e (ambient s a1 b1) st e.W_OK _ hr2
        obtain ⟨x2, sx2⟩ := r2
        simp only [ambient_ambient] at hs2
        subst hs2
        simp only at ho
        by_cases hx2 : x2 = -1
        · simp only [hx2, if_true, Option.some.injEq, Prod.mk.injEq] at ho
          exact absurd ho.1.symm hfd
        · simp only [if_neg hx2] at ho
          cases hgn : get_next_file_desc e (ambient s a2 b2) with
          | none => simp [hgn] at ho
          | some t =>
            obtain ⟨fd', s3⟩ := t
            simp only [hgn] at ho
            by_cases hfd' : fd' ≠ -1
            · have hs3 := get_next_file_desc_inv hgn hfd'
              subst hs3
              rw [if_pos hfd'] at ho
              cases hop : open_fd e (ambient s a2 b2) fd'
                  (if S_ISREG e st.st_mode = true then (e.S_IFREG : Int)
                   else if S_ISFIFO e st.st_mode = true then (e.S_IFIFO : Int)
                   else if S_ISCHR e st.st_mode = true then (e.S_IFCHR : Int) else -1)
                  flags f.content (FileRef.fs_files i) with
              | none => simp [hop] at ho
              | some u =>
                obtain ⟨res, s4⟩ := u
                have hga : get_stat (ambient s a2 b2) sr = some st := by
                  rw [get_stat_congr sr rfl rfl]
                  exact hg
                obtain ⟨hres, hsize⟩ := open_fd_size (by exact hf) hsr hga hop
                subst hres
                simp only [hop, ne_eq, not_true_eq_false, if_false, Option.some.injEq,
                  Prod.mk.injEq] at ho
                rw [← ho.2]
                exact hsize
            · rw [if_neg hfd'] at ho
              simp only [Option.some.injEq, Prod.mk.injEq] at ho
              have h1 : fd' = -1 := Decidable.not_not.mp hfd'
              exact absurd (ho.1.symm.trans h1) hfd
    · rw [hcr] at ho
      simp only [Option.some.injEq, Prod.mk.injEq] at ho
      exact absurd ho.1.symm hfd
  · simp [hreq] at ho

/-! ## Allocation of descriptors -/

theorem desc_loop_total {s : State} {n k : Nat} (hlen : k + n ≤ s.file_desc.length) :
    ∃ fd0, get_next_file_desc_loop s n k = some fd0 ∧ k ≤ fd0 ∧ fd0 ≤ k + n ∧
      (fd0 = k + n → ∀ j, k ≤ j → j < k + n → ∃ d, s.file_desc[j]? = some d ∧ d.fd_kind ≠ 0) := by
  induction n generalizing k with
  | zero => exact ⟨k, rfl, Nat.le_refl _, Nat.le_refl _, fun _ j h1 h2 => by omega⟩
  | succ n ih =>
    have hk : k < s.file_desc.length := by omega
    have hd : s.file_desc[k]? = some (s.file_desc.get ⟨k, hk⟩) := by
      simp [List.getElem?_eq_getElem hk]
    simp only [get_next_file_desc_loop, hd]
    by_cases hz : (s.file_desc.get ⟨k, hk⟩).fd_kind = 0
    · rw [if_pos hz]
      exact ⟨k, rfl, Nat.le_refl _, by omega, fun h => by omega⟩
    · rw [if_neg hz]
      obtain ⟨fd0, h1, h2, h3, h4⟩ := ih (k := k + 1) (by omega)
      refine ⟨fd0, h1, by omega, by omega, fun hfd j hj1 hj2 => ?_⟩
      by_cases hjk : j = k
      · subst hjk
        exact ⟨_, hd, hz⟩
      · exact h4 (by omega) j (by omega) (by omega)

theorem desc_loop_full {s : State} {n k : Nat}
    (hb : ∀ j, k ≤ j → j < k + n → ∃ d, s.file_desc[j]? = some d ∧ d.fd_kind ≠ 0) :
    get_next_file_desc_loop s n k = some (k + n) := by
  induction n generalizing k with
  | zero => rfl
  | succ n ih =>
    obtain ⟨d, hd, hz⟩ := hb k (Nat.le_refl _) (by omega)
    simp only [get_next_file_desc_loop, hd, if_neg hz]
    have h := ih (k := k + 1) (fun j h1 h2 => hb j (by omega) (by omega))
    rw [h]
    congr 1
    omega

theorem mk_inode_file_desc {e : Env} {s s1 : State} {mode : Nat} {st : StatRef}
    (h : mk_inode e s mode = some (st, s1)) : s1.file_desc = s.file_desc := by
  unfold mk_inode at h
  by_cases hc : s.next_inode_index < e.FOPEN_MAX
  · rw [if_pos hc] at h
    simp only at h
    split at h
    · simp at h
    · simp only [Option.some.injEq, Prod.mk.injEq] at h
      rw [← h.2]
  · rw [if_neg hc] at h
    simp at h

theorem create_file_file_desc {e : Env} {s s0 : State} {path : String} {mode : Nat}
    {x : Option Nat} (h : create_file e s path mode = some (x, s0)) :
    s0.file_desc = s.file_desc := by
  unfold create_file at h
  by_cases hfull : s.fs_files.length ≥ s.fs_files_nb_max
  · rw [if_pos hfull] at h
    simp only [Option.some.injEq, Prod.mk.injEq] at h
    rw [← h.2]
  · rw [if_neg hfull] at h
    obtain ⟨a, b, hab⟩ := random_error_shape e s
    simp only at h
    by_cases hinj : (RETURN_RANDOM_ERROR e s).1 = true
    · rw [if_pos hinj] at h
      simp only [Option.some.injEq, Prod.mk.injEq] at h
      rw [← h.2, hab]
      rfl
    · rw [if_neg hinj] at h
      have ha2 : (if e.no_err = true then ((0 : Int), (RETURN_RANDOM_ERROR e s).2)
          else tis_next (RETURN_RANDOM_ERROR e s).2).2.file_desc = s.file_desc := by
        split
        · rw [hab]; rfl
        · rw [hab]
          unfold tis_next
          split <;> rfl
      generalize (if e.no_err = true then ((0 : Int), (RETURN_RANDOM_ERROR e s).2)
          else tis_next (RETURN_RANDOM_ERROR e s).2) = A at h ha2
      by_cases hA : A.1 ≠ 0
      · rw [if_pos hA] at h
        simp only [Option.some.injEq, Prod.mk.injEq] at h
        rw [← h.2]
        exact ha2
      · rw [if_neg hA] at h
        cases hmk : mk_inode e A.2 (e.S_IFREG ||| mode) with
        | none => simp [hmk] at h
        | some t =>
          obtain ⟨st, s1⟩ := t
          simp only [hmk, Option.some.injEq, Prod.mk.injEq] at h
          rw [← h.2]
          exact (mk_inode_file_desc hmk).trans ha2

theorem open_fd_res {e : Env} {s s4 : State} {fd kind res : Int} {flags : Nat}
    {content : Option (List Nat)} {file : FileRef}
    (h : open_fd e s fd kind flags content file = some (res, s4)) : res = 0 := by
  unfold open_fd at h
  repeat' split at h
  all_goals first
    | (simp at h; done)
    | (simp only [Option.some.injEq, Prod.mk.injEq] at h; exact h.1.symm)
    | (simp only at h
       obtain ⟨_, _, hx⟩ := Option.map_eq_some'.mp h
       exact (congrArg Prod.fst hx).symm)
    | (obtain ⟨_, _, hx⟩ := Option.map_eq_some'.mp h
       exact (congrArg Prod.fst hx).symm)


theorem open_file_desc {e : Env} {s s2 : State} {path : String} {flags mode : Nat} {r : Int}
    (h : open_file e s path flags mode = some (r, s2)) (hr : r ≠ -1) :
    ∃ s3, s3.file_desc = s.file_desc ∧ get_next_file_desc e s3 = some (r, s3) := by
  unfold open_file at h
  by_cases hreq : tis_open_flags e flags = true
  · rw [if_pos hreq] at h
    simp only at h
    split at h
    · simp at h
    · simp only [Option.some.injEq, Prod.mk.injEq] at h
      exact absurd h.1.symm hr
    · split at h
      · simp only [Option.some.injEq, Prod.mk.injEq] at h
        exact absurd h.1.symm hr
      · simp only [Option.some.injEq, Prod.mk.injEq] at h
        exact absurd h.1.symm hr
    · rename_i i s0 heq
      have hfd0 : s0.file_desc = s.file_desc := by
        split at heq
        · split at heq
          · obtain ⟨y, hy, hy2⟩ := Option.map_eq_some'.mp heq
            simp only [Option.some.injEq] at hy2
            subst hy2
            exact create_file_file_desc hy
          · split at heq
            · simp at heq
            · simp only [Option.some.injEq, Prod.mk.injEq] at heq
              rw [← heq.2]
        · simp only [Option.some.injEq, Prod.mk.injEq] at heq
          rw [← heq.2]
      cases hgf : get_fs_file s0 (FileRef.fs_files i) with
      | none => simp [hgf] at h
      | some f =>
        simp only [hgf] at h
        cases hfs : file_stat s0 f with
        | none => simp [hfs] at h
        | some t =>
          obtain ⟨sr, st⟩ := t
          simp only [hfs] at h
          generalize hr1 : (if flags &&& e.O_RDONLY ≠ 0 ∨ flags &&& e.O_RDWR ≠ 0
            then stat_access e s0 st e.R_OK else ((0 : Int), s0)) = r1 at h
          obtain ⟨a1, b1, hs1⟩ := access_step_shape e s0 st e.R_OK _ hr1
          obtain ⟨x1, sx1⟩ := r1
          simp only at hs1
          subst hs1
          simp only at h
          by_cases hx1 : x1 = -1
          · simp only [hx1, if_true, Option.some.injEq, Prod.mk.injEq] at h
            exact absurd h.1.symm hr
          · simp only [if_neg hx1] at h
            generalize hr2 : (if flags &&& e.O_WRONLY ≠ 0 ∨ flags &&& e.O_RDWR ≠ 0
              then stat_access e (ambient s0 a1 b1) st e.W_OK
              else ((0 : Int), ambient s0 a1 b1)) = r2 at h
            obtain ⟨a2, b2, hs2⟩ := access_step_shape e (ambient s0 a1 b1) st e.W_OK _ hr2
            obtain ⟨x2, sx2⟩ := r2
            simp only [ambient_ambient] at hs2
            subst hs2
            simp only at h
            by_cases hx2 : x2 = -1
            · simp only [hx2, if_true, Option.some.injEq, Prod.mk.injEq] at h
              exact absurd h.1.symm hr
            · simp only [if_neg hx2] at h
              cases hgn : get_next_file_desc e (ambient s0 a2 b2) with
              | none => simp [hgn] at h
              | some t =>
                obtain ⟨fd1, s3⟩ := t
                simp only [hgn] at h
                by_cases hfd1 : fd1 ≠ -1
                · have hs3 := get_next_file_desc_inv hgn hfd1
                  subst hs3
                  rw [if_pos hfd1] at h
                  split at h
                  · simp at h
                  · rename_i res s4 hop
                    have hres := open_fd_res hop
                    subst hres
                    simp only [ne_eq, not_true_eq_false, if_false, Option.some.injEq,
                      Prod.mk.injEq] at h
                    refine ⟨ambient s0 a2 b2, hfd0, ?_⟩
                    rw [hgn, h.1]
                · rw [if_neg hfd1] at h
                  simp only [Option.some.injEq, Prod.mk.injEq] at h
                  have h1 : fd1 = -1 := Decidable.not_not.mp hfd1
                  exact absurd (h.1.symm.trans h1) hr
  · rw [if_neg hreq] at h
    simp at h

/-- C21: in the build with descriptor reuse, when the descriptor table has
`FOPEN_MAX` slots, `get_next_file_desc` returns the smallest index whose kind
is 0 and leaves the state unchanged; when no random error is injected it
returns -1 with `errno` set to `EMFILE` exactly when no slot has kind 0; and
after a `close (fd)` that returned 0 in a state where every descriptor below
`fd` was in use, an `open` that returns a descriptor returns `fd`. -/
theorem C21_descriptor_allocation (e : Env) (s : State)
    (hlen : s.file_desc.length = e.FOPEN_MAX) :
    (∀ i : Nat, i < e.FOPEN_MAX → (∃ d, s.file_desc[i]? = some d ∧ d.fd_kind = 0) →
      (∀ j, j < i → ∃ d, s.file_desc[j]? = some d ∧ d.fd_kind ≠ 0) →
      get_next_file_desc e s = some ((i : Int), s)) ∧
    (no_injection e s →
      ((∀ j, j < e.FOPEN_MAX → ∃ d, s.file_desc[j]? = some d ∧ d.fd_kind ≠ 0) ↔
        ∃ s1, get_next_file_desc e s = some (-1, s1) ∧ s1.errno = e.EMFILE)) ∧
    (∀ (fd : Int) (s1 s2 : State) (path : String) (flags mode : Nat) (r : Int),
      __mkfs_close e s fd = some (0, s1) →
      (∀ j : Nat, (j : Int) < fd → ∃ d, s.file_desc[j]? = some d ∧ d.fd_kind ≠ 0) →
      __mkfs_open e s1 path flags mode = some (r, s2) → r ≠ -1 → r = fd) := by
  refine ⟨fun i hi h0 hb => ?_, fun hno => ⟨fun hall => ?_, fun hret => ?_⟩, ?_⟩
  · exact get_next_file_desc_eq e
      (desc_loop_of (Nat.zero_le _) (by omega) h0 (fun j _ h2 => hb j h2)) hi
  · have hloop : get_next_file_desc_loop s e.FOPEN_MAX 0 = some (0 + e.FOPEN_MAX) :=
      desc_loop_full (fun j _ h2 => hall j (by omega))
    rw [Nat.zero_add] at hloop
    unfold no_injection at hno
    refine ⟨{ (RETURN_RANDOM_ERROR e s).2 with errno := e.EMFILE }, ?_, rfl⟩
    simp only [get_next_file_desc, hloop, lt_self_iff_false, if_false, hno, Bool.false_eq_true]
  · obtain ⟨s1, hg, _⟩ := hret
    obtain ⟨fd0, h1, _, h3, h4⟩ := desc_loop_total (s := s) (n := e.FOPEN_MAX) (k := 0)
      (by omega)
    unfold get_next_file_desc at hg
    rw [h1] at hg
    simp only at hg
    by_cases hlt : fd0 < e.FOPEN_MAX
    · rw [if_pos hlt] at hg
      simp only [Option.some.injEq, Prod.mk.injEq] at hg
      omega
    · intro j hj
      exact h4 (by omega) j (Nat.zero_le _) (by omega)
  · intro fd s1 s2 path flags mode r hclose hlow hopen hr
    obtain ⟨hother, hslot, _⟩ := mkfs_close_frame hclose
    obtain ⟨hfd0, hfd1, d0, hd0, hk0⟩ := hslot rfl
    unfold __mkfs_open at hopen
    obtain ⟨s3, hs3, hgn⟩ := open_file_desc hopen hr
    have hfdn : ((fd.toNat : Nat) : Int) = fd := Int.toNat_of_nonneg hfd0
    have hloop : get_next_file_desc_loop s3 e.FOPEN_MAX 0 = some fd.toNat := by
      refine desc_loop_of (Nat.zero_le _) (by omega) ⟨d0, ?_, hk0⟩ (fun j _ hj => ?_)
      · rw [hs3, ← arr_get_nat, hfdn]
        exact hd0
      · obtain ⟨d, hd, hk⟩ := hlow j (by omega)
        refine ⟨d, ?_, hk⟩
        rw [hs3, ← arr_get_nat, hother (j : Int) (by omega), arr_get_nat]
        exact hd
    have hres := get_next_file_desc_eq e hloop (by omega)
    rw [hres] at hgn
    simp only [Option.some.injEq, Prod.mk.injEq] at hgn
    omega

/-- C22 (what the code does): in the sample configuration (`FOPEN_MAX` is 8),
after start-up and five rounds of `open` and `close` of the file `f` the
counter of `mkfs_get_next_file_index` has reached `FOPEN_MAX` while descriptors
3 to 7 are free.  The next `open` gets descriptor 3 from `get_next_file_desc`
and -1 from `mkfs_get_next_file_index`; `init_fd_file` stores the kind
`S_IFREG` with the index -1 in slot 3 and then writes the element -1 of
`mkfs_opened_files`, so the call has no defined result. -/
theorem C22_file_index_counter_exhausted :
    demo_cycles 5 demo_boot = some demo_worn ∧
    demo_worn.next_file_index = demo_env.FOPEN_MAX ∧
    demo_worn.file_desc.map (fun d => d.fd_kind) = [8192, 8192, 8192, 0, 0, 0, 0, 0] ∧
    get_next_file_desc demo_env demo_worn = some (3, demo_worn) ∧
    mkfs_get_next_file_index demo_env demo_worn = (-1, demo_worn) ∧
    (arr_set demo_worn.file_desc 3 { fd_kind := 32768, fd_index := -1 }).isSome = true ∧
    arr_set demo_worn.opened_files (-1)
      { position := 0, error := 0, eof := 0, flags := 2, file := some (FileRef.fs_files 0) }
      = none ∧
    init_fd_file demo_env demo_worn 3 32768 2 (some (FileRef.fs_files 0)) = none ∧
    __mkfs_open demo_env demo_worn "f" 2 0 = none := by
  decide

/-- C23 (what the code does): for every `fd` outside `[0, FOPEN_MAX)`,
`__mkfs_check_fd_ok` returns -1 with `errno` set to `EBADF`, but
`__mkfs_check_fd_file_ok`, the first call of `write`, `ftruncate` and `fcntl`,
reads the slot `fd` of the descriptor table before any range check: the read
is outside the array and the three operations have no defined result. -/
theorem C23_out_of_range_descriptor (e : Env) (s : State) (fd : Int)
    (hlen : s.file_desc.length = e.FOPEN_MAX) (hfd : fd < 0 ∨ (e.FOPEN_MAX : Int) ≤ fd) :
    __mkfs_check_fd_ok e s fd = (-1, { s with errno := e.EBADF }) ∧
    arr_get s.file_desc fd = none ∧
    __mkfs_check_fd_file_ok e s fd = none ∧
    (∀ buf, __mkfs_write e s fd buf = none) ∧
    (∀ length, __mkfs_ftruncate e s fd length = none) ∧
    (∀ cmd, __mkfs_fcntl e s fd cmd = none) := by
  have hget : arr_get s.file_desc fd = none := by
    unfold arr_get
    by_cases h0 : fd < 0
    · rw [if_pos h0]
    · rw [if_neg h0]
      apply List.getElem?_eq_none
      omega
  have hchk : __mkfs_check_fd_file_ok e s fd = none := by
    unfold __mkfs_check_fd_file_ok
    rw [hget]
  have hw : __mkfs_check_fd_file_ok_for_writing e s fd = none := by
    unfold __mkfs_check_fd_file_ok_for_writing
    rw [hchk]
  refine ⟨?_, hget, hchk, fun buf => ?_, fun length => ?_, fun cmd => ?_⟩
  · unfold __mkfs_check_fd_ok
    rw [if_pos (by omega)]
  · unfold __mkfs_write
    rw [hw]
  · unfold __mkfs_ftruncate
    rw [hw]
  · unfold __mkfs_fcntl
    rw [hchk]

/-! ## Memory mappings -/

theorem find_data_loop_congr {s s' : State} (h : s'.maps = s.maps) (data : Option Nat)
    (n k : Nat) : find_data_map_loop s' data n k = find_data_map_loop s data n k := by
  induction n generalizing k with
  | zero => rfl
  | succ n ih => simp only [find_data_map_loop, h, ih]

theorem find_data_loop_found {s : State} {data : Option Nat} {n k i : Nat}
    (h : find_data_map_loop s data n k = some (some i)) :
    k ≤ i ∧ i < k + n ∧ ∃ m, s.maps[i]? = some m ∧ m.data = data := by
  induction n generalizing k with
  | zero => simp [find_data_map_loop] at h
  | succ n ih =>
    simp only [find_data_map_loop] at h
    cases hm : s.maps[k]? with
    | none => simp [hm] at h
    | some m =>
      simp only [hm] at h
      by_cases hd : m.data = data
      · rw [if_pos hd] at h
        simp only [Option.some.injEq] at h
        subst h
        exact ⟨Nat.le_refl _, by omega, m, hm, hd⟩
      · rw [if_neg hd] at h
        obtain ⟨h1, h2, h3⟩ := ih h
        exact ⟨by omega, by omega, h3⟩

/-- The entry that `add_map` makes when it does not reuse one, in the build
without random errors. -/
theorem add_map_fresh {e : Env} (hne : e.no_err = true) {s s1 : State} {data : Option Nat}
    {len : Nat} {sh w : Bool} {q : Int}
    (hfind : sh = true → find_data_map s data = some none)
    (h : add_map e s data len sh w = some (q, s1)) (hq : q ≠ MAP_FAILED) :
    ∃ p row, data = some p ∧ s.mkfs_data_table[p]? = some row ∧ len ≤ TIS_FSIZE e ∧
      s.maps_nb_used < e.FOPEN_MAX ∧ s.maps_nb_used < s.maps.length ∧
      q = (s.map_heap.length : Int) + 1 ∧
      s1.maps = s.maps.set s.maps_nb_used
        { data := data, addr := q, length := len, shared := sh, need_sync := w } ∧
      s1.maps_nb_used = s.maps_nb_used + 1 ∧
      s1.map_heap = s.map_heap ++ [some (row_read row 0 len)] ∧
      s1.mkfs_data_table = s.mkfs_data_table ∧ s1.errno = s.errno ∧ s1.nondet = s.nondet ∧
      s1.file_desc = s.file_desc ∧ s1.opened_files = s.opened_files ∧
      s1.fs_stdin = s.fs_stdin ∧ s1.fs_stdout = s.fs_stdout ∧ s1.fs_stderr = s.fs_stderr ∧
      s1.fs_files = s.fs_files ∧ s1.heap_files = s.heap_files ∧
      s1.inode_table = s.inode_table ∧ s1.image_stats = s.image_stats := by
  have hsel : (if sh = true then find_data_map s data else some none) = some none := by
    cases sh
    · rfl
    · simpa using hfind rfl
  unfold add_map at h
  rw [hsel] at h
  simp only [hne, if_true] at h
  by_cases hfull : s.maps_nb_used ≥ e.FOPEN_MAX
  · rw [if_pos hfull] at h
    simp only [Option.some.injEq, Prod.mk.injEq] at h
    exact absurd h.1.symm hq
  · rw [if_neg hfull] at h
    simp only [ne_eq, not_true_eq_false, if_false] at h
    cases hdata : data with
    | none => simp [hdata] at h
    | some p =>
      simp only [hdata] at h
      cases hrow : s.mkfs_data_table[p]? with
      | none => simp [hrow] at h
      | some row =>
        simp only [hrow] at h
        by_cases hlen : len ≤ TIS_FSIZE e
        · rw [if_pos hlen] at h
          split at h
          · simp at h
          · rename_i tbl htbl
            obtain ⟨⟨v0, hv0⟩, htbl2⟩ := arr_set_inv htbl
            simp only [Option.some.injEq, Prod.mk.injEq] at h
            obtain ⟨hq1, hs1⟩ := h
            have hlt : s.maps_nb_used < s.maps.length := by
              rw [arr_get_nat] at hv0
              exact (List.getElem?_eq_some.mp hv0).1
            subst hs1
            refine ⟨p, row, rfl, hrow, hlen, by omega, hlt, hq1.symm, ?_, rfl, rfl, rfl, rfl,
              rfl, rfl, rfl, rfl, rfl, rfl, rfl, rfl, rfl, rfl⟩
            simp only [htbl2, Int.toNat_ofNat, ← hq1]
        · rw [if_neg hlen] at h
          simp at h

theorem check_reading_inv_no_err {e : Env} (hs : e.Sane) (hne : e.no_err = true) {s : State}
    {fd idx : Int} {info : mkfs_file_info} {fr : FileRef} {f : mkfs_fs_file} {sr : StatRef}
    {st : Stat} (h : fd_open e s fd idx info fr f sr st) {r : Int} {s1 : State}
    (hc : __mkfs_check_fd_file_ok_for_reading e s fd = some (r, s1)) (hr : r = 0) :
    s1 = s := by
  rw [check_reading_open hs h, random_error_no_err e s hne, stat_access_no_err hne] at hc
  simp only [Bool.false_eq_true, if_false, Option.some.injEq] at hc
  split at hc
  · simp only [Prod.mk.injEq] at hc
    omega
  · split at hc
    · simp only [Prod.mk.injEq] at hc
      exact hc.2.symm
    · simp only [Prod.mk.injEq] at hc
      omega

theorem check_mmap_prot_no_err {e : Env} (hs : e.Sane) (hne : e.no_err = true) {s : State}
    {fd idx : Int} {info : mkfs_file_info} {fr : FileRef} {f : mkfs_fs_file} {sr : StatRef}
    {st : Stat} (h : fd_open e s fd idx info fr f sr st) {prot : Int} {s1 : State}
    (hc : __mkfs_check_mmap_prot e s fd prot = some (0, s1)) : s1 = s := by
  unfold __mkfs_check_mmap_prot at hc
  cases hrd : __mkfs_check_fd_file_ok_for_reading e s fd with
  | none => simp [hrd] at hc
  | some t =>
    obtain ⟨ret, sA⟩ := t
    simp only [hrd] at hc
    by_cases hret : ret ≠ 0
    · rw [if_pos hret] at hc
      simp only [Option.some.injEq, Prod.mk.injEq] at hc
      exact absurd hc.1 hret
    · rw [if_neg hret] at hc
      have hsA : sA = s := check_reading_inv_no_err hs hne h hrd (Decidable.not_not.mp hret)
      subst hsA
      by_cases hnone : prot = (e.PROT_NONE : Int)
      · rw [if_pos hnone] at hc
        simp at hc
      · rw [if_neg hnone] at hc
        by_cases hw : land_int prot e.PROT_WRITE ≠ 0
        · rw [if_pos hw] at hc
          exact (check_writing_no_err hs hne h hc (by decide)).2
        · rw [if_neg hw] at hc
          simp only [Option.some.injEq, Prod.mk.injEq] at hc
          exact hc.2.symm

/-- What a call of `mmap` that does not return `MAP_FAILED` has done, in the
build without random errors: the length is the size of the file and the result
is that of `add_map` on the buffer of the file. -/
theorem mmap_inv {e : Env} (hs : e.Sane) (hne : e.no_err = true) {s s1 : State}
    {fd idx : Int} {info : mkfs_file_info} {fr : FileRef} {f : mkfs_fs_file} {sr : StatRef}
    {st : Stat} (h : fd_open e s fd idx info fr f sr st) {a : Int} {len : Nat}
    {prot flags off q : Int}
    (hm : __mkfs_mmap e s a len prot flags fd off = some (q, s1)) (hq : q ≠ MAP_FAILED) :
    len = to_size_t e st.st_size ∧
    (if land_int flags e.MAP_SHARED ≠ 0 then
        add_map e s f.data len true (decide (land_int prot e.PROT_WRITE ≠ 0))
      else add_map e s f.data len false false) = some (q, s1) := by
  have hfi := fd_open_get_file_info hs h
  have hst := h.2.2.2
  have hff := (file_info_stat_parts hst).2.2.1
  have bad : ∀ {x : State}, some (MAP_FAILED, x) = some (q, s1) → False := by
    intro x hx
    simp only [Option.some.injEq, Prod.mk.injEq] at hx
    exact hq hx.1.symm
  unfold __mkfs_mmap at hm
  by_cases h1 : land_int flags e.MAP_FIXED ≠ 0
  · rw [if_pos h1] at hm
    exact (bad hm).elim
  · rw [if_neg h1] at hm
    by_cases h2 : off ≠ 0
    · rw [if_pos h2] at hm
      exact (bad hm).elim
    · rw [if_neg h2] at hm
      simp only [hfi, hst] at hm
      by_cases h3 : len ≠ to_size_t e st.st_size
      · rw [if_pos h3] at hm
        exact (bad hm).elim
      · rw [if_neg h3] at hm
        cases hcp : __mkfs_check_mmap_prot e s fd prot with
        | none => simp [hcp] at hm
        | some t =>
          obtain ⟨ret, sA⟩ := t
          simp only [hcp] at hm
          by_cases hret : ret ≠ 0
          · rw [if_pos hret] at hm
            exact (bad hm).elim
          · rw [if_neg hret] at hm
            have hret0 : ret = 0 := Decidable.not_not.mp hret
            subst hret0
            have hsA := check_mmap_prot_no_err hs hne h hcp
            subst hsA
            by_cases h4 : land_int flags (if (e.MAP_SHARED : Int) = flags then 1 else 0)
                &&& e.MAP_PRIVATE ≠ 0
            · rw [if_pos h4] at hm
              exact (bad hm).elim
            · rw [if_neg h4, random_error_no_err e sA hne] at hm
              simp only [Bool.false_eq_true, if_false, hff] at hm
              exact ⟨Decidable.not_not.mp h3, hm⟩

theorem region_store_spec {s s3 : State} {a : Int} {off : Nat} {bytes : List Nat}
    (h : region_store s a off bytes = some s3) :
    0 < a ∧ ∃ blk, region_load s a = some blk ∧ off + bytes.length ≤ blk.length ∧
      s3 = { s with map_heap := s.map_heap.set (a - 1).toNat (some (row_write blk off bytes)) } := by
  unfold region_store at h
  cases hl : region_load s a with
  | none => simp [hl] at h
  | some blk =>
    simp only [hl] at h
    by_cases hc : off + bytes.length ≤ blk.length
    · rw [if_pos hc] at h
      simp only [Option.some.injEq] at h
      refine ⟨?_, blk, rfl, hc, h.symm⟩
      unfold region_load at hl
      by_cases ha : a ≤ 0
      · simp [ha] at hl
      · omega
    · rw [if_neg hc] at h
      simp at h

theorem region_load_store_other {s s3 : State} {a b : Int} {off : Nat} {bytes : List Nat}
    (h : region_store s a off bytes = some s3) (hab : b ≠ a) :
    region_load s3 b = region_load s b := by
  obtain ⟨ha, blk, _, _, hs3⟩ := region_store_spec h
  subst hs3
  unfold region_load
  by_cases hb : b ≤ 0
  · simp only [if_pos hb]
  · simp only [if_neg hb]
    rw [List.getElem?_set_ne (by omega)]

theorem region_load_last (s : State) (hp : List (Option (List Nat))) (x : Option (List Nat)) :
    region_load { s with map_heap := hp ++ [x] } ((hp.length : Int) + 1) = x := by
  unfold region_load
  have h0 : ¬ ((hp.length : Int) + 1 ≤ 0) := by omega
  have h1 : ((hp.length : Int) + 1 - 1).toNat = hp.length := by omega
  simp only [if_neg h0, h1, list_getElem?_append_last, Option.some_bind, id]

theorem region_load_append {s : State} {hp : List (Option (List Nat))} {a : Int}
    (x : Option (List Nat)) (ha : a ≤ hp.length) :
    region_load { s with map_heap := hp ++ [x] } a = region_load { s with map_heap := hp } a := by
  unfold region_load
  by_cases h0 : a ≤ 0
  · simp only [if_pos h0]
  · simp only [if_neg h0]
    rw [List.getElem?_append_left (by omega)]

theorem region_load_congr {s s' : State} (h : s'.map_heap = s.map_heap) (a : Int) :
    region_load s' a = region_load s a := by
  unfold region_load
  rw [h]

/-- C25: in the build without random errors, let two consecutive `mmap` calls
on a descriptor of a file whose buffer is row `p` of the data table, with
flags that hold `MAP_PRIVATE` and not `MAP_SHARED`, return addresses `p1` and
`p2` other than `MAP_FAILED`.  Then both lengths are the size of the file, the
addresses differ, two different entries in use of the map table hold them,
each block holds the first bytes of the buffer of the file, the data table is
unchanged, and a store through one address changes the map heap only and
leaves the block at the other address as it was. -/
theorem C25_private_mappings_are_separate (e : Env) (hs : e.Sane) (hne : e.no_err = true)
    (s s1 s2 : State) (fd idx : Int) (info : mkfs_file_info) (fr : FileRef) (f : mkfs_fs_file)
    (sr : StatRef) (st : Stat) (p : Nat) (row : List Nat)
    (a1 a2 : Int) (len1 len2 : Nat) (prot1 prot2 flags1 flags2 p1 p2 : Int)
    (hopen : fd_open e s fd idx info fr f sr st)
    (hdata : f.data = some p) (hrow : s.mkfs_data_table[p]? = some row)
    (_hpriv1 : land_int flags1 e.MAP_PRIVATE ≠ 0) (hsh1 : land_int flags1 e.MAP_SHARED = 0)
    (hm1 : __mkfs_mmap e s a1 len1 prot1 flags1 fd 0 = some (p1, s1))
    (hp1 : p1 ≠ MAP_FAILED)
    (_hpriv2 : land_int flags2 e.MAP_PRIVATE ≠ 0) (hsh2 : land_int flags2 e.MAP_SHARED = 0)
    (hm2 : __mkfs_mmap e s1 a2 len2 prot2 flags2 fd 0 = some (p2, s2))
    (hp2 : p2 ≠ MAP_FAILED) :
    len1 = to_size_t e st.st_size ∧ len2 = to_size_t e st.st_size ∧ p1 ≠ p2 ∧
    (∃ i j, i ≠ j ∧ i < s2.maps_nb_used ∧ j < s2.maps_nb_used ∧
      s2.maps[i]? = some { data := some p, addr := p1, length := len1, shared := false,
                           need_sync := false } ∧
      s2.maps[j]? = some { data := some p, addr := p2, length := len2, shared := false,
                           need_sync := false }) ∧
    region_load s2 p1 = some (row_read row 0 len1) ∧
    region_load s2 p2 = some (row_read row 0 len2) ∧
    s2.mkfs_data_table = s.mkfs_data_table ∧
    (∀ off bytes s3, region_store s2 p1 off bytes = some s3 →
      (∃ hp, s3 = { s2 with map_heap := hp }) ∧
      region_load s3 p2 = some (row_read row 0 len2)) ∧
    (∀ off bytes s3, region_store s2 p2 off bytes = some s3 →
      (∃ hp, s3 = { s2 with map_heap := hp }) ∧
      region_load s3 p1 = some (row_read row 0 len1)) := by
  obtain ⟨hlen1, hadd1⟩ := mmap_inv hs hne hopen hm1 hp1
  rw [if_neg (fun h => h hsh1), hdata] at hadd1
  obtain ⟨x1, row1, hx1, hrow1, _, _, hlt1, hq1, hmaps1, hnb1, hheap1, htbl1, _, _, f0, f1, f2,
    f3, f4, f5, f6, f7, f8⟩ := add_map_fresh hne (fun h => absurd h (by decide)) hadd1 hp1
  simp only [Option.some.injEq] at hx1
  subst hx1
  rw [hrow] at hrow1
  simp only [Option.some.injEq] at hrow1
  subst hrow1
  have hopen1 : fd_open e s1 fd idx info fr f sr st :=
    fd_open_congr hopen f0 f1 f2 f3 f4 f5 f6 f7 f8
  obtain ⟨hlen2, hadd2⟩ := mmap_inv hs hne hopen1 hm2 hp2
  rw [if_neg (fun h => h hsh2), hdata] at hadd2
  obtain ⟨x2, row2, hx2, hrow2, _, _, hlt2, hq2, hmaps2, hnb2, hheap2, htbl2, _⟩ :=
    add_map_fresh hne (fun h => absurd h (by decide)) hadd2 hp2
  simp only [Option.some.injEq] at hx2
  subst hx2
  rw [htbl1, hrow] at hrow2
  simp only [Option.some.injEq] at hrow2
  subst hrow2
  have hl1 : s1.map_heap.length = s.map_heap.length + 1 := by
    rw [hheap1]
    simp
  have hlen_maps : s1.maps.length = s.maps.length := by
    rw [hmaps1]
    simp
  have hne12 : p1 ≠ p2 := by
    rw [hq1, hq2, hl1]
    push_cast
    omega
  have hload2 : region_load s2 p2 = some (row_read row 0 len2) := by
    have h := region_load_last s2 s1.map_heap (some (row_read row 0 len2))
    rw [← hq2] at h
    rw [← h]
    exact region_load_congr (by rw [hheap2]) p2
  have hload1 : region_load s2 p1 = some (row_read row 0 len1) := by
    have h := region_load_last s1 s.map_heap (some (row_read row 0 len1))
    rw [← hq1] at h
    rw [← h]
    have ha : p1 ≤ (s1.map_heap.length : Int) := by
      rw [hq1, hl1]
      push_cast
      omega
    have h2 := region_load_append (s := s2) (some (row_read row 0 len2)) ha
    rw [region_load_congr (s := { s2 with map_heap := s1.map_heap ++
        [some (row_read row 0 len2)] }) (by rw [hheap2]) p1, h2]
    exact region_load_congr (by rw [hheap1]) p1
  refine ⟨hlen1, hlen2, hne12, ⟨s.maps_nb_used, s1.maps_nb_used, by omega, by omega, by omega,
    ?_, ?_⟩, hload1, hload2, by rw [htbl2, htbl1], fun off bytes s3 h3 => ⟨?_, ?_⟩,
    fun off bytes s3 h3 => ⟨?_, ?_⟩⟩
  · rw [hmaps2, List.getElem?_set_ne (by omega), hmaps1, List.getElem?_set_self hlt1]
  · rw [hmaps2, List.getElem?_set_self hlt2]
  · obtain ⟨_, blk, _, _, h⟩ := region_store_spec h3
    exact ⟨_, h⟩
  · rw [region_load_store_other h3 (Ne.symm hne12)]
    exact hload2
  · obtain ⟨_, blk, _, _, h⟩ := region_store_spec h3
    exact ⟨_, h⟩
  · rw [region_load_store_other h3 hne12]
    exact hload1

theorem land_int_zero (m : Int) : land_int m 0 = 0 := by
  cases m <;> simp [land_int]

/-- The test of `__mkfs_mmap` against flags that hold `MAP_SHARED` and
`MAP_PRIVATE` together, or neither, never holds when the two constants share
no bit. -/
theorem mmap_flags_test_dead (e : Env) (hbits : e.MAP_SHARED &&& e.MAP_PRIVATE = 0)
    (flags : Int) :
    land_int flags (if (e.MAP_SHARED : Int) = flags then 1 else 0) &&& e.MAP_PRIVATE = 0 := by
  by_cases h : (e.MAP_SHARED : Int) = flags
  · rw [if_pos h, ← h]
    show (e.MAP_SHARED &&& 1) &&& e.MAP_PRIVATE = 0
    rw [Nat.and_assoc, Nat.and_comm 1, ← Nat.and_assoc, hbits]
    simp
  · rw [if_neg h, land_int_zero]
    simp

/-- C26 (what the code does): in the sample configuration, where descriptor 3
is open read-write on the file `f` of three bytes, the whole-file request
`mmap (NULL, 3, PROT_READ, flags, 3, 0)` returns the address 1, not
`MAP_FAILED`, leaves `errno` as it was and takes the first entry of the map
table, both for `flags = MAP_SHARED | MAP_PRIVATE` (a shared mapping) and for
`flags = 0` (a private mapping).  The test written
`flags & MAP_SHARED == flags & MAP_PRIVATE` is parsed as
`(flags & (MAP_SHARED == flags)) & MAP_PRIVATE`, which is 0 for every value of
`flags` when the two constants share no bit. -/
theorem C26_mmap_accepts_both_or_neither :
    (∀ e : Env, e.MAP_SHARED &&& e.MAP_PRIVATE = 0 → ∀ flags : Int,
      land_int flags (if (e.MAP_SHARED : Int) = flags then 1 else 0) &&& e.MAP_PRIVATE = 0) ∧
    demo_env.MAP_SHARED ||| demo_env.MAP_PRIVATE = 3 ∧
    demo_rw.errno = 0 ∧ demo_rw.maps_nb_used = 0 ∧
    (__mkfs_mmap demo_env demo_rw 0 3 1 3 3 0).map
        (fun r => (r.1, r.2.errno, r.2.maps_nb_used, r.2.maps[0]?)) =
      some (1, 0, 1, some { data := some 3, addr := 1, length := 3, shared := true,
                            need_sync := false }) ∧
    (__mkfs_mmap demo_env demo_rw 0 3 1 0 3 0).map
        (fun r => (r.1, r.2.errno, r.2.maps_nb_used, r.2.maps[0]?)) =
      some (1, 0, 1, some { data := some 3, addr := 1, length := 3, shared := false,
                            need_sync := false }) :=
  ⟨mmap_flags_test_dead, by decide, by decide, by decide, by decide, by decide⟩

/-- C27 (what the code does): in the sample configuration, after
`mmap (NULL, 3, PROT_READ | PROT_WRITE, MAP_PRIVATE, 3, 0)` has returned the
address 1 and the program has stored 7, 8, 9 through it, the buffer of the file
still holds 65, 66, 67 and `munmap (1, 3)` leaves it so.  But
`msync (1, 3, MS_SYNC)` finds the entry and calls `msync_map_to_file` on it
without testing `need_sync`: the precondition `map->need_sync` of that
function is violated, and its body, `memcpy (map->data, map->addr,
map->length)`, replaces the bytes of the file by 7, 8, 9. -/
theorem C27_msync_reaches_private_mapping :
    __mkfs_mmap demo_env demo_rw 0 3 3 2 3 0 = some (1, demo_private) ∧
    demo_private.maps[0]? = some { data := some 3, addr := 1, length := 3, shared := false,
                                   need_sync := false } ∧
    region_store demo_private 1 0 [7, 8, 9] = some demo_private_stored ∧
    demo_private_stored.mkfs_data_table[3]? = some [65, 66, 67] ∧
    (__mkfs_munmap demo_env demo_private_stored 1 3).map
        (fun r => (r.1, r.2.mkfs_data_table[3]?)) = some (0, some [65, 66, 67]) ∧
    find_addr_map demo_private_stored 1 3 = some (some 0) ∧
    msync_map_to_file demo_env demo_private_stored 0 = none ∧
    msync demo_env demo_private_stored 1 3 4 = none ∧
    (memcpy_map_to_file demo_env demo_private_stored 0).map (fun s => s.mkfs_data_table[3]?) =
      some (some [7, 8, 9]) := by
  decide

/-- C28 (what the code does): in the sample configuration, after a private
mapping of the file `f` (address 1, `need_sync` false),
`mmap (NULL, 3, PROT_READ | PROT_WRITE, MAP_SHARED, 3, 0)` returns the address
1 of that entry, because `find_data_map` compares the buffer only, and changes
nothing; after the program has stored 7, 8, 9 through the address,
`munmap (1, 3)` returns 0, releases the entry and copies nothing: the buffer of
the file still holds 65, 66, 67.  The same happens when the earlier mapping is
a shared one made with `PROT_READ` alone.  Without an earlier mapping of the
file the same `mmap` call makes an entry with `need_sync` true, and `munmap`
copies 7, 8, 9 to the buffer of the file. -/
theorem C28_munmap_skips_copy_on_reused_entry :
    __mkfs_mmap demo_env demo_rw 0 3 3 2 3 0 = some (1, demo_private) ∧
    __mkfs_mmap demo_env demo_private 0 3 3 1 3 0 = some (1, demo_private) ∧
    region_store demo_private 1 0 [7, 8, 9] = some demo_private_stored ∧
    region_load demo_private_stored 1 = some [7, 8, 9] ∧
    __mkfs_munmap demo_env demo_private_stored 1 3 = some (0, demo_private_unmapped) ∧
    demo_private_unmapped.mkfs_data_table[3]? = some [65, 66, 67] ∧
    demo_private_unmapped.maps[0]? = some { data := none, addr := 0, length := 0,
                                            shared := false, need_sync := false } ∧
    region_load demo_private_unmapped 1 = none ∧
    ((__mkfs_mmap demo_env demo_rw 0 3 1 1 3 0).bind (fun r1 =>
      (__mkfs_mmap demo_env r1.2 0 3 3 1 3 0).bind (fun r2 =>
        (region_store r2.2 r2.1 0 [7, 8, 9]).bind (fun s3 =>
          (__mkfs_munmap demo_env s3 r2.1 3).map (fun r4 =>
            (r1.1, r2.1, r4.1, r4.2.mkfs_data_table[3]?)))))) =
      some (1, 1, 0, some [65, 66, 67]) ∧
    __mkfs_mmap demo_env demo_rw 0 3 3 1 3 0 = some (1, demo_shared) ∧
    region_store demo_shared 1 0 [7, 8, 9] = some demo_shared_stored ∧
    (__mkfs_munmap demo_env demo_shared_stored 1 3).map
        (fun r => (r.1, r.2.mkfs_data_table[3]?)) = some (0, some [7, 8, 9]) := by
  decide

/-- C29 (what the code does): in the sample configuration, `munmap (1, 3)` of
the only mapping returns 0 and marks its entry released by the address NULL
and the length 0, while `maps.nb_used` stays 1.  After that `munmap (1, 3)`
returns -1 and changes nothing, but `munmap (NULL, 0)` returns 0:
`find_addr_map` finds the released entry, whose address and length are those
of the pair.  Before the release `munmap (NULL, 0)` returns -1 and changes
nothing. -/
theorem C29_munmap_null_matches_released_entry :
    __mkfs_munmap demo_env demo_private 1 3 = some (0, demo_unmapped) ∧
    demo_unmapped.maps_nb_used = 1 ∧
    demo_unmapped.maps[0]? = some { data := none, addr := 0, length := 0, shared := false,
                                    need_sync := false } ∧
    __mkfs_munmap demo_env demo_unmapped 1 3 = some (-1, demo_unmapped) ∧
    find_addr_map demo_unmapped 0 0 = some (some 0) ∧
    __mkfs_munmap demo_env demo_unmapped 0 0 = some (0, demo_unmapped) ∧
    __mkfs_munmap demo_env demo_private 0 0 = some (-1, demo_private) := by
  decide

/-- C30 (what the code does): when `MS_ASYNC` and `MS_SYNC` are both clear in
`flags`, `msync` returns -1 with `errno` set to `EINVAL` and changes nothing
else.  When both are set the test `(flags & MS_ASYNC) == (flags & MS_SYNC)`
compares the two masked values, which differ: in the sample configuration
(`MS_ASYNC` is 1, `MS_SYNC` is 4), `msync (1, 3, MS_ASYNC | MS_SYNC)` on a
shared writable mapping in which the program has stored 7, 8, 9 returns 0 and
copies these bytes to the buffer of the file, and on an address that is not
mapped it returns -1 with `errno` set to `ENOMEM`. -/
theorem C30_msync_accepts_async_with_sync :
    (∀ (e : Env) (s : State) (addr : Int) (length : Nat) (flags : Int),
      land_int flags e.MS_ASYNC = 0 → land_int flags e.MS_SYNC = 0 →
      msync e s addr length flags = some (-1, { s with errno := e.EINVAL })) ∧
    demo_env.MS_ASYNC ||| demo_env.MS_SYNC = 5 ∧
    land_int 5 demo_env.MS_ASYNC = 1 ∧ land_int 5 demo_env.MS_SYNC = 4 ∧
    demo_shared_stored.mkfs_data_table[3]? = some [65, 66, 67] ∧
    region_load demo_shared_stored 1 = some [7, 8, 9] ∧
    (msync demo_env demo_shared_stored 1 3 5).map
        (fun r => (r.1, r.2.errno, r.2.mkfs_data_table[3]?)) = some (0, 0, some [7, 8, 9]) ∧
    msync demo_env demo_shared_stored 2 3 5 =
      some (-1, { demo_shared_stored with errno := demo_env.ENOMEM }) :=
  ⟨fun e s addr length flags h1 h2 => by
      unfold msync
      rw [if_pos (h1.trans h2.symm)],
    by decide, by decide, by decide, by decide, by decide, by decide, by decide⟩

/-! ## Sockets, positions and directory streams -/

/-! ## Sockets -/

theorem sock_kind_facts {e : Env} (hs : e.Sane) :
    S_ISDIR e e.S_IFSOCK = false ∧ S_ISREG e e.S_IFSOCK = false ∧
    S_ISCHR e e.S_IFSOCK = false ∧ S_ISFIFO e e.S_IFSOCK = false ∧
    (e.S_IFSOCK : Int) ≠ 0 ∧ (e.S_IFSOCK : Int) ≠ e.S_IFIFO ∧
    (e.S_IFSOCK : Int) ≠ e.S_IFCHR ∧ (e.S_IFSOCK : Int) ≠ e.S_IFREG ∧
    (e.S_IFSOCK : Int) ≠ e.S_IFDIR := by
  have hn := hs.kinds
  simp only [List.nodup_cons, List.mem_cons, List.mem_singleton, not_or, List.not_mem_nil,
    not_false_eq_true, List.nodup_nil, and_true] at hn
  have hm : land_int (e.S_IFSOCK : Int) e.S_IFMT = e.S_IFSOCK := by
    simp [land_int, hs.ifsock]
  refine ⟨?_, ?_, ?_, ?_, ?_, ?_, ?_, ?_, ?_⟩
  · simp only [S_ISDIR, hm, beq_eq_false_iff_ne, ne_eq]; omega
  · simp only [S_ISREG, hm, beq_eq_false_iff_ne, ne_eq]; omega
  · simp only [S_ISCHR, hm, beq_eq_false_iff_ne, ne_eq]; omega
  · simp only [S_ISFIFO, hm, beq_eq_false_iff_ne, ne_eq]; omega
  all_goals omega

/-- C38: for every descriptor in range whose slot holds the kind `S_IFSOCK`,
`__mkfs_check_fd_file_ok` returns -1 with `errno` set to `EBADF`, so `write`
returns -1 with `errno` set to `EBADF` before its dispatch on the kind and
changes nothing else, while `read` on the same descriptor is the call of
`read_socket`. -/
theorem C38_write_rejects_sockets (e : Env) (hs : e.Sane) (s : State) (fd : Int)
    (d : mkfs_fd_info) (h0 : 0 ≤ fd) (h1 : fd < e.FOPEN_MAX)
    (hd : arr_get s.file_desc fd = some d) (hk : d.fd_kind = e.S_IFSOCK) :
    __mkfs_check_fd_file_ok e s fd = some (-1, { s with errno := e.EBADF }) ∧
    (∀ buf, __mkfs_write e s fd buf = some (-1, { s with errno := e.EBADF })) ∧
    (∀ buf count, __mkfs_read e s fd buf count = read_socket e s buf count) := by
  obtain ⟨k1, k2, k3, k4, k5, k6, k7, k8, k9⟩ := sock_kind_facts hs
  have hrange : ¬ (fd < 0 ∨ fd ≥ e.FOPEN_MAX) := by omega
  have hfi : __mkfs_get_file_info e s fd = some none := by
    unfold __mkfs_get_file_info __mkfs_check_fd_ok
    simp only [hrange, if_false, hd, hk, k2, k3, k4]
    simp
  have hchk : __mkfs_check_fd_file_ok e s fd = some (-1, { s with errno := e.EBADF }) := by
    unfold __mkfs_check_fd_file_ok
    simp only [hd, hk, k1, hfi]
    simp
  refine ⟨hchk, fun buf => ?_, fun buf count => ?_⟩
  · unfold __mkfs_write __mkfs_check_fd_file_ok_for_writing
    simp only [hchk]
    simp
  · unfold __mkfs_read
    rw [if_neg hrange]
    simp only [hd, hk]
    rw [if_neg k5, if_neg (by omega), if_neg k9]
    simp

/-! ## What the calls leave unchanged -/

theorem maps_kept_refl (s : State) : maps_kept s s := ⟨rfl, rfl, rfl⟩

theorem maps_kept_trans {s s1 s2 : State} (h1 : maps_kept s s1) (h2 : maps_kept s1 s2) :
    maps_kept s s2 :=
  ⟨h2.1.trans h1.1, h2.2.1.trans h1.2.1, h2.2.2.trans h1.2.2⟩

theorem maps_kept_ambient (s : State) (a : Int) (b : List Int) : maps_kept s (ambient s a b) :=
  ⟨rfl, rfl, rfl⟩

theorem tis_next_shape (s : State) : ∃ b, (tis_next s).2 = ambient s s.errno b := by
  unfold tis_next
  cases h : s.nondet with
  | nil => exact ⟨[], by simp [ambient, ← h]⟩
  | cons c rest => exact ⟨rest, rfl⟩

theorem make_unknown_buf_shape (s : State) (buf : List Nat) (n : Nat) :
    ∃ b, (tis_make_unknown_buf s buf n).2 = ambient s s.errno b := by
  induction n generalizing s buf with
  | zero => exact ⟨s.nondet, rfl⟩
  | succ n ih =>
    obtain ⟨b1, h1⟩ := tis_next_shape s
    obtain ⟨b2, h2⟩ := ih (tis_next s).2 (buf.drop 1)
    refine ⟨b2, ?_⟩
    simp only [tis_make_unknown_buf]
    rw [h2, h1]
    rfl

theorem check_reading_amb {e : Env} {s s1 : State} {fd r : Int}
    (h : __mkfs_check_fd_file_ok_for_reading e s fd = some (r, s1)) :
    ∃ a b, s1 = ambient s a b := by
  unfold __mkfs_check_fd_file_ok_for_reading at h
  cases hc : __mkfs_check_fd_file_ok e s fd with
  | none => simp [hc] at h
  | some t =>
    obtain ⟨ret, sA⟩ := t
    obtain ⟨a, b, hsA, _⟩ := check_fd_file_ok_inv hc
    subst hsA
    simp only [hc] at h
    by_cases hret : ret = -1
    · rw [if_pos hret] at h
      simp only [Option.some.injEq, Prod.mk.injEq] at h
      exact ⟨a, b, h.2.symm⟩
    · rw [if_neg hret] at h
      split at h
      · simp at h
      · simp at h
      · split at h
        · simp at h
        · split at h
          · simp only [Option.some.injEq, Prod.mk.injEq] at h
            exact ⟨e.EBADF, b, h.2.symm⟩
          · split at h
            · simp at h
            · rename_i st _
              obtain ⟨a2, b2, h2⟩ := stat_access_shape e (ambient s a b) st e.R_OK
              simp only [Option.some.injEq] at h
              rw [h] at h2
              exact ⟨a2, b2, h2⟩

theorem check_writing_amb {e : Env} {s s1 : State} {fd r : Int}
    (h : __mkfs_check_fd_file_ok_for_writing e s fd = some (r, s1)) :
    ∃ a b, s1 = ambient s a b := by
  unfold __mkfs_check_fd_file_ok_for_writing at h
  cases hc : __mkfs_check_fd_file_ok e s fd with
  | none => simp [hc] at h
  | some t =>
    obtain ⟨ret, sA⟩ := t
    obtain ⟨a, b, hsA, _⟩ := check_fd_file_ok_inv hc
    subst hsA
    simp only [hc] at h
    by_cases hret : ret = -1
    · rw [if_pos hret] at h
      simp only [Option.some.injEq, Prod.mk.injEq] at h
      exact ⟨a, b, h.2.symm⟩
    · rw [if_neg hret] at h
      split at h
      · simp at h
      · simp at h
      · split at h
        · simp at h
        · split at h
          · simp only [Option.some.injEq, Prod.mk.injEq] at h
            exact ⟨e.EBADF, b, h.2.symm⟩
          · split at h
            · simp at h
            · rename_i st _
              obtain ⟨a2, b2, h2⟩ := stat_access_shape e (ambient s a b) st e.W_OK
              simp only [Option.some.injEq] at h
              rw [h] at h2
              exact ⟨a2, b2, h2⟩

theorem make_unknown_buf_amb (s : State) (a : Int) (b : List Int) (buf : List Nat) (n : Nat) :
    ∃ a1 b1, (tis_make_unknown_buf (ambient s a b) buf n).2 = ambient s a1 b1 := by
  obtain ⟨b2, h2⟩ := make_unknown_buf_shape (ambient s a b) buf n
  exact ⟨a, b2, h2⟩

theorem local_pread_amb {e : Env} {s s1 : State} {fd r offset : Int} {buf bo : List Nat}
    {count : Nat} (h : local_pread e s fd buf count offset = some (r, bo, s1)) :
    ∃ a b, s1 = ambient s a b := by
  unfold local_pread at h
  by_cases ho : offset < 0
  · rw [if_pos ho] at h
    simp only [Option.some.injEq, Prod.mk.injEq] at h
    exact ⟨e.EINVAL, s.nondet, h.2.2.symm⟩
  · rw [if_neg ho] at h
    cases hc : __mkfs_check_fd_file_ok_for_reading e s fd with
    | none => simp [hc] at h
    | some t =>
      obtain ⟨ret, sA⟩ := t
      obtain ⟨a, b, hsA⟩ := check_reading_amb hc
      subst hsA
      simp only [hc] at h
      repeat' split at h
      all_goals first
        | (simp at h; done)
        | (simp only [Option.some.injEq, Prod.mk.injEq] at h
           exact ⟨_, _, h.2.2.symm⟩)
        | (simp only [Option.some.injEq, Prod.mk.injEq] at h
           rw [← h.2.2]
           exact make_unknown_buf_amb _ _ _ _ _)

theorem set_stat_inv {s s1 : State} {sr : StatRef} {x : Stat}
    (h : set_stat s sr x = some s1) : s1 = put_stat s sr x := by
  cases sr with
  | inode_table i =>
    simp only [set_stat] at h
    split at h
    · simp only [Option.some.injEq] at h
      rw [← h]
      rfl
    · simp at h
  | image j =>
    simp only [set_stat] at h
    split at h
    · simp only [Option.some.injEq] at h
      rw [← h]
      rfl
    · simp at h

theorem put_stat_maps_kept (s : State) (sr : StatRef) (x : Stat) :
    maps_kept s (put_stat s sr x) := by
  cases sr <;> exact ⟨rfl, rfl, rfl⟩

theorem set_fs_file_kept {s s1 : State} {r : FileRef} {f : mkfs_fs_file}
    (h : set_fs_file s r f = some s1) :
    maps_kept s s1 ∧ s1.file_desc = s.file_desc ∧ s1.opened_files = s.opened_files ∧
      s1.next_file_index = s.next_file_index := by
  cases r <;> simp only [set_fs_file] at h
  · simp only [Option.some.injEq] at h
    rw [← h]
    exact ⟨⟨rfl, rfl, rfl⟩, rfl, rfl, rfl⟩
  · simp only [Option.some.injEq] at h
    rw [← h]
    exact ⟨⟨rfl, rfl, rfl⟩, rfl, rfl, rfl⟩
  · simp only [Option.some.injEq] at h
    rw [← h]
    exact ⟨⟨rfl, rfl, rfl⟩, rfl, rfl, rfl⟩
  · split at h
    · simp only [Option.some.injEq] at h
      rw [← h]
      exact ⟨⟨rfl, rfl, rfl⟩, rfl, rfl, rfl⟩
    · simp at h
  · split at h
    · simp only [Option.some.injEq] at h
      rw [← h]
      exact ⟨⟨rfl, rfl, rfl⟩, rfl, rfl, rfl⟩
    · simp at h

/-- What `write__mkfs_data` leaves unchanged. -/
theorem write_data_kept {e : Env} {s s2 : State} {idx o r : Int} {buf : List Nat}
    (h : write__mkfs_data e s idx o buf = some (r, s2)) :
    maps_kept s s2 ∧ s2.file_desc = s.file_desc ∧ s2.opened_files = s.opened_files := by
  unfold write__mkfs_data at h
  repeat' split at h
  all_goals first
    | (simp at h; done)
    | (simp only [Option.some.injEq, Prod.mk.injEq] at h
       rw [← h.2]
       exact ⟨⟨rfl, rfl, rfl⟩, rfl, rfl⟩)

/-- What `local_pwrite_at` leaves unchanged. -/
theorem local_pwrite_at_kept {e : Env} {s s1 : State} {idx off r : Int} {buf : List Nat}
    (h : local_pwrite_at e s idx buf off = some (r, s1)) :
    maps_kept s s1 ∧ s1.file_desc = s.file_desc ∧ s1.opened_files = s.opened_files := by
  unfold local_pwrite_at at h
  cases hw : write__mkfs_data e s idx off buf with
  | none => simp [hw] at h
  | some t =>
    obtain ⟨ret2, s2⟩ := t
    obtain ⟨k1, k2, k3⟩ := write_data_kept hw
    simp only [hw] at h
    by_cases hret : ret2 = -1
    · rw [if_pos hret] at h
      simp only [Option.some.injEq, Prod.mk.injEq] at h
      rw [← h.2]
      exact ⟨k1, k2, k3⟩
    · rw [if_neg hret] at h
      cases hst : file_info_stat s2 idx with
      | none => simp [hst] at h
      | some u =>
        obtain ⟨i0, fr, f, sr, st⟩ := u
        simp only [hst] at h
        split at h
        · simp at h
        · rename_i s3 h3
          have hs3 : maps_kept s2 s3 ∧ s3.file_desc = s2.file_desc ∧
              s3.opened_files = s2.opened_files := by
            repeat' split at h3
            all_goals first
              | (simp at h3; done)
              | (simp only [Option.some.injEq] at h3
                 rw [← h3]
                 exact ⟨⟨rfl, rfl, rfl⟩, rfl, rfl⟩)
          obtain ⟨j1, j2, j3⟩ := hs3
          have base : maps_kept s s3 ∧ s3.file_desc = s.file_desc ∧
              s3.opened_files = s.opened_files :=
            ⟨maps_kept_trans k1 j1, j2.trans k2, j3.trans k3⟩
          split at h
          · split at h
            · simp at h
            · obtain ⟨s4, h4, h5⟩ := Option.map_eq_some'.mp h
              simp only [Prod.mk.injEq] at h5
              rw [← h5.2, set_stat_inv h4]
              exact ⟨maps_kept_trans base.1 (put_stat_maps_kept _ _ _),
                (put_stat_file_desc _ _ _).trans base.2.1,
                (put_stat_opened_files _ _ _).trans base.2.2⟩
          · simp only [Option.some.injEq, Prod.mk.injEq] at h
            rw [← h.2]
            exact base

/-- What `local_pwrite` leaves unchanged: the descriptor table, the open-file
records and the map table. -/
theorem local_pwrite_kept {e : Env} {s s1 : State} {fd off r : Int} {buf : List Nat}
    (h : local_pwrite e s fd buf off = some (r, s1)) :
    maps_kept s s1 ∧ s1.file_desc = s.file_desc ∧ s1.opened_files = s.opened_files := by
  unfold local_pwrite at h
  by_cases ho : off < 0
  · rw [if_pos ho] at h
    simp only [Option.some.injEq, Prod.mk.injEq] at h
    rw [← h.2]
    exact ⟨⟨rfl, rfl, rfl⟩, rfl, rfl⟩
  · rw [if_neg ho] at h
    cases hc : __mkfs_check_fd_file_ok_for_writing e s fd with
    | none => simp [hc] at h
    | some t =>
      obtain ⟨ret, sA⟩ := t
      obtain ⟨a, b, hsA⟩ := check_writing_amb hc
      subst hsA
      simp only [hc] at h
      by_cases hret : ret = -1
      · rw [if_pos hret] at h
        simp only [Option.some.injEq, Prod.mk.injEq] at h
        rw [← h.2]
        exact ⟨⟨rfl, rfl, rfl⟩, rfl, rfl⟩
      · rw [if_neg hret] at h
        split at h
        · simp at h
        · split at h
          · simp only [Option.some.injEq, Prod.mk.injEq] at h
            rw [← h.2]
            exact ⟨⟨rfl, rfl, rfl⟩, rfl, rfl⟩
          · split at h
            · simp at h
            · split at h
              · simp at h
              · split at h
                · simp at h
                · obtain ⟨j1, j2, j3⟩ := local_pwrite_at_kept h
                  exact ⟨maps_kept_trans (maps_kept_ambient s a b) j1, j2, j3⟩

/-- C32: whenever `pread` or `pwrite` has a result, with any return value, the
open-file records after the call are those before the call, so the position of
every record is unchanged. -/
theorem C32_pread_pwrite_keep_positions (e : Env) (s : State) (fd : Int) (buf : List Nat)
    (count : Nat) (offset : Int) :
    (∀ r bo s1, __mkfs_pread e s fd buf count offset = some (r, bo, s1) →
      s1.opened_files = s.opened_files) ∧
    (∀ r s1, __mkfs_pwrite e s fd buf offset = some (r, s1) →
      s1.opened_files = s.opened_files) := by
  refine ⟨fun r bo s1 h => ?_, fun r s1 h => ?_⟩
  · unfold __mkfs_pread at h
    obtain ⟨a, b, hab⟩ := local_pread_amb h
    rw [hab]
    rfl
  · unfold __mkfs_pwrite at h
    exact (local_pwrite_kept h).2.2

/-- C39: when `pwrite` of a non-empty buffer at offset `o`, through a
descriptor without `O_APPEND` on a file whose buffer is row `p` of the data
table, returns a value other than -1, that value is the length of the buffer,
and in the row after the call the bytes at the indices `[o, o + n)` are those
of the buffer while every byte at an index below the old size of the file and
outside `[o, o + n)` is the byte it was; no other row changes. -/
theorem C39_pwrite_touches_only_its_range (e : Env) (hs : e.Sane) (s s1 : State)
    (fd idx : Int) (info : mkfs_file_info) (fr : FileRef) (f : mkfs_fs_file) (sr : StatRef)
    (st : Stat) (p : Nat) (row : List Nat) (buf : List Nat) (o r : Int)
    (hopen : fd_open e s fd idx info fr f sr st) (hmat : materialized e s f st p row)
    (hsz0 : 0 ≤ st.st_size) (happ : info.flags &&& e.O_APPEND = 0) (hn : buf ≠ [])
    (ho : o ≤ e.OFF_MAX) (hw : __mkfs_pwrite e s fd buf o = some (r, s1)) (hr : r ≠ -1) :
    r = buf.length ∧ 0 ≤ o ∧
    ∃ row1, s1.mkfs_data_table[p]? = some row1 ∧
      (∀ i : Nat, o ≤ i → (i : Int) < o + buf.length →
        row_get row1 i = buf.getD (i - o.toNat) 0) ∧
      (∀ i : Nat, (i : Int) < st.st_size → ¬ (o ≤ i ∧ (i : Int) < o + buf.length) →
        row_get row1 i = row_get row i) ∧
      (∀ q, q ≠ p → s1.mkfs_data_table[q]? = s.mkfs_data_table[q]?) := by
  obtain ⟨hdata, hrow, hfit⟩ := hmat
  have hsz1 : st.st_size ≤ e.OFF_MAX := by
    have h1 := hs.int_le_off
    unfold TIS_FSIZE at hfit
    omega
  unfold __mkfs_pwrite at hw
  obtain ⟨h1, h2, _, o1, a, b, tbl, os, es, ho1, _, hs1, htbl, _⟩ :=
    local_pwrite_spec hs hopen hsz0 hsz1 hn ho hw hr
  have ho1' : o1 = o := by
    rw [ho1, if_neg (fun hx => hx happ)]
  subst ho1'
  obtain ⟨_, row0, row1, hrow0, htbl1, hbytes⟩ := htbl p hdata
  rw [hrow] at hrow0
  simp only [Option.some.injEq] at hrow0
  subst hrow0
  have hlt : p < s.mkfs_data_table.length := (List.getElem?_eq_some.mp hrow).1
  have htable : s1.mkfs_data_table = s.mkfs_data_table.set p row1 := by
    rw [hs1, put_stat_data_table, htbl1]
  refine ⟨h1, h2, row1, ?_, fun i hi1 hi2 => ?_, fun i hi1 hi2 => ?_, fun q hq => ?_⟩
  · rw [htable, List.getElem?_set_self hlt]
  · rw [hbytes i, if_pos ⟨hi1, hi2⟩]
  · rw [hbytes i, if_neg hi2, if_neg (by omega)]
  · rw [htable, List.getElem?_set_ne (Ne.symm hq)]

/-! ## Two descriptors on one open-file record -/

/-- The result of `lseek` with `SEEK_SET` or `SEEK_CUR` through a regular-file
slot, when no random error is returned and the new offset fits `off_t`. -/
theorem lseek_slot_eq {e : Env} (hs : e.Sane) (s : State) (fd : Int) (d : mkfs_fd_info)
    (info : mkfs_file_info) (off whence : Int)
    (h0 : 0 ≤ fd) (h1 : fd < e.FOPEN_MAX) (hd : arr_get s.file_desc fd = some d)
    (hreg : d.fd_kind = e.S_IFREG) (hi : arr_get s.opened_files d.fd_index = some info)
    (hq : no_injection e s)
    (hw : whence = e.SEEK_SET ∨ whence = e.SEEK_CUR)
    (ho0 : 0 ≤ (if whence = e.SEEK_SET then 0 else info.position) + off)
    (ho1 : (if whence = e.SEEK_SET then 0 else info.position) + off ≤ e.OFF_MAX) :
    __mkfs_lseek e s fd off whence =
      some ((if whence = e.SEEK_SET then 0 else info.position) + off,
        { (RETURN_RANDOM_ERROR e s).2 with
          opened_files := s.opened_files.set d.fd_index.toNat
            { info with position := (if whence = e.SEEK_SET then 0 else info.position) + off } })
      := by
  have hrange : ¬ (fd < 0 ∨ fd ≥ e.FOPEN_MAX) := by omega
  have hk : file_kind e d.fd_kind := Or.inl hreg
  obtain ⟨a, b, hab⟩ := random_error_shape e s
  have hinj : (RETURN_RANDOM_ERROR e s).1 = false := hq
  have hne : ¬ (d.fd_kind ≠ e.S_IFREG) := fun hx => hx hreg
  have h01 : ¬ ((0 : Int) = -1) := by decide
  have hgi : __mkfs_get_file_info e (ambient s a b) fd = some (some d.fd_index) := by
    rw [get_file_info_ambient]
    exact get_file_info_of_open hs h0 h1 hd hk
  have hi' : arr_get (ambient s a b).opened_files d.fd_index = some info := hi
  have hwh := hs.whence
  simp only [List.nodup_cons, List.mem_cons, List.mem_singleton, not_or, List.not_mem_nil,
    not_false_eq_true, List.nodup_nil, and_true] at hwh
  rcases hw with hw | hw
  · subst hw
    simp only [if_true, zero_add] at ho0 ho1 ⊢
    have hr : ¬ (off > e.OFF_MAX ∨ off < -(e.OFF_MAX : Int) - 1) := by omega
    have hn : ¬ (off < 0) := by omega
    simp only [__mkfs_lseek, __mkfs_seekable, if_neg hrange, hd, if_neg hne, hinj,
      Bool.false_eq_true, if_false, if_neg h01, hab, hgi, if_true, if_neg hr, if_neg hn, hi',
      arr_set_of_get _ hi']
    rfl
  · subst hw
    have hcs : ¬ (e.SEEK_CUR = e.SEEK_SET) := fun hx => hwh.1.1 hx.symm
    have hce : ¬ (e.SEEK_CUR = e.SEEK_END) := fun hx => hwh.2 hx
    simp only [if_neg hcs] at ho0 ho1 ⊢
    have hr : ¬ (info.position + off > e.OFF_MAX ∨
        info.position + off < -(e.OFF_MAX : Int) - 1) := by omega
    have hn : ¬ (info.position + off < 0) := by omega
    simp only [__mkfs_lseek, __mkfs_seekable, if_neg hrange, hd, if_neg hne, hinj,
      Bool.false_eq_true, if_false, if_neg h01, hab, hgi, if_neg hcs, if_neg hce, if_true, hi',
      Option.map_some', if_neg hr, if_neg hn, arr_set_of_get _ hi']
    rfl

theorem seekable_amb {e : Env} {s s1 : State} {fd r : Int}
    (h : __mkfs_seekable e s fd = some (r, s1)) : ∃ a b, s1 = ambient s a b := by
  unfold __mkfs_seekable at h
  by_cases hr : fd < 0 ∨ fd ≥ e.FOPEN_MAX
  · rw [if_pos hr] at h
    simp only [Option.some.injEq, Prod.mk.injEq] at h
    exact ⟨e.EBADF, s.nondet, h.2.symm⟩
  · rw [if_neg hr] at h
    cases hd : arr_get s.file_desc fd with
    | none => simp [hd] at h
    | some d =>
      simp only [hd] at h
      by_cases hk : d.fd_kind ≠ e.S_IFREG
      · rw [if_pos hk] at h
        simp only [Option.some.injEq, Prod.mk.injEq] at h
        exact ⟨e.EBADF, s.nondet, h.2.symm⟩
      · rw [if_neg hk] at h
        obtain ⟨x, y, hxy⟩ := random_error_shape e s
        by_cases hinj : (RETURN_RANDOM_ERROR e s).1 = true
        · rw [if_pos hinj] at h
          simp only [Option.some.injEq, Prod.mk.injEq] at h
          exact ⟨x, y, by rw [← h.2, hxy]⟩
        · rw [if_neg hinj] at h
          simp only [Option.some.injEq, Prod.mk.injEq] at h
          exact ⟨x, y, by rw [← h.2, hxy]⟩

/-- Two descriptors in range whose slots hold the same kind and index give the
same `lseek` and the same `read`. -/
theorem same_slot_calls (e : Env) {s : State} {a b : Int} {d : mkfs_fd_info}
    (ha0 : 0 ≤ a) (ha1 : a < e.FOPEN_MAX) (hb0 : 0 ≤ b) (hb1 : b < e.FOPEN_MAX)
    (hda : arr_get s.file_desc a = some d)
    (hdb : arr_get s.file_desc b = some { fd_kind := d.fd_kind, fd_index := d.fd_index }) :
    (∀ off whence, __mkfs_lseek e s b off whence = __mkfs_lseek e s a off whence) ∧
    (∀ buf count, __mkfs_read e s b buf count = __mkfs_read e s a buf count) := by
  have hra : ¬ (a < 0 ∨ a ≥ e.FOPEN_MAX) := by omega
  have hrb : ¬ (b < 0 ∨ b ≥ e.FOPEN_MAX) := by omega
  have hgi : ∀ t : State, t.file_desc = s.file_desc →
      __mkfs_get_file_info e t b = __mkfs_get_file_info e t a := by
    intro t ht
    simp only [__mkfs_get_file_info, check_fd_ok_fst, if_neg hra, if_neg hrb, ht, hda, hdb]
  have hck : __mkfs_check_fd_file_ok e s b = __mkfs_check_fd_file_ok e s a := by
    simp only [__mkfs_check_fd_file_ok, hgi s rfl, hda, hdb]
  have hrd : __mkfs_check_fd_file_ok_for_reading e s b =
      __mkfs_check_fd_file_ok_for_reading e s a := by
    unfold __mkfs_check_fd_file_ok_for_reading
    rw [hck]
    cases hc : __mkfs_check_fd_file_ok e s a with
    | none => rfl
    | some t =>
      obtain ⟨ret, sA⟩ := t
      obtain ⟨x, y, hsA, _⟩ := check_fd_file_ok_inv hc
      subst hsA
      simp only [hgi (ambient s x y) rfl]
  have hlp : ∀ buf count off, local_pread e s b buf count off = local_pread e s a buf count off := by
    intro buf count off
    unfold local_pread
    rw [hrd]
    cases hc : __mkfs_check_fd_file_ok_for_reading e s a with
    | none => rfl
    | some t =>
      obtain ⟨ret, sA⟩ := t
      obtain ⟨x, y, hsA⟩ := check_reading_amb hc
      subst hsA
      simp only [hgi (ambient s x y) rfl]
  refine ⟨fun off whence => ?_, fun buf count => ?_⟩
  · unfold __mkfs_lseek
    have hsk : __mkfs_seekable e s b = __mkfs_seekable e s a := by
      simp only [__mkfs_seekable, if_neg hra, if_neg hrb, hda, hdb]
    rw [hsk]
    cases hc : __mkfs_seekable e s a with
    | none => rfl
    | some t =>
      obtain ⟨ret, sA⟩ := t
      have hsA : sA.file_desc = s.file_desc := by
        obtain ⟨x, y, hxy⟩ := seekable_amb hc
        rw [hxy]
        rfl
      simp only [hgi sA hsA]
  · simp only [__mkfs_read, if_neg hra, if_neg hrb, hda, hdb, read_file, hgi s rfl, hlp]

/-- What a `read_file` that returns a positive count has done to the state. -/
theorem read_file_pos {e : Env} {s s2 : State} {fd n : Int} {buf bo : List Nat} {count : Nat}
    (h : read_file e s fd buf count = some (n, bo, s2)) (hn : 0 < n) :
    ∃ idx i1 x y, __mkfs_get_file_info e s fd = some (some idx) ∧
      arr_get s.opened_files idx = some i1 ∧ 0 ≤ i1.position ∧
      s2 = { ambient s x y with
             opened_files := s.opened_files.set idx.toNat
               { i1 with position := i1.position + n } } := by
  unfold read_file at h
  cases hg : __mkfs_get_file_info e s fd with
  | none => simp [hg] at h
  | some o =>
    cases o with
    | none => simp [hg] at h
    | some idx =>
      simp only [hg] at h
      cases hi : arr_get s.opened_files idx with
      | none => simp [hi] at h
      | some i1 =>
        simp only [hi] at h
        by_cases hp : i1.position < 0 ∨ i1.position > e.OFF_MAX
        · rw [if_pos hp] at h
          simp at h
        · rw [if_neg hp] at h
          cases hl : local_pread e s fd buf count i1.position with
          | none => simp [hl] at h
          | some t =>
            obtain ⟨n1, b1, sA⟩ := t
            obtain ⟨x, y, hsA⟩ := local_pread_amb hl
            subst hsA
            simp only [hl] at h
            by_cases hn1 : n1 > 0
            · rw [if_pos hn1] at h
              have hi2 : arr_get (ambient s x y).opened_files idx = some i1 := hi
              simp only [hi2] at h
              split at h
              · simp at h
              · rename_i ofs hset
                obtain ⟨_, hofs⟩ := arr_set_inv hset
                simp only [Option.some.injEq, Prod.mk.injEq] at h
                obtain ⟨h1, _, h3⟩ := h
                subst h1
                refine ⟨idx, i1, x, y, rfl, hi, by omega, ?_⟩
                rw [← h3, hofs]
                rfl
            · rw [if_neg hn1] at h
              simp only [Option.some.injEq, Prod.mk.injEq] at h
              omega

/-- C37: let `a` be an open regular-file descriptor and `b` a descriptor in
range other than `a`.  After `dup2 (a, b)` has returned `b`, the slots of `a`
and `b` hold the same kind and the same index of open-file record; in every
state where they do, `lseek` and `read` through `b` are `lseek` and `read`
through `a`.  When no random error is returned, `lseek (a, k, SEEK_SET)` with
`k` in `[0, OFF_MAX]` returns `k` and `lseek (b, 0, SEEK_CUR)` then returns
`k`; and a `read` through `a` that returns `n > 0` adds `n` to the position of
the shared record, which is what `lseek (b, 0, SEEK_CUR)` then returns. -/
theorem C37_dup2_shares_position (e : Env) (hs : e.Sane) (s s1 : State) (a b idx : Int)
    (info : mkfs_file_info) (fr : FileRef) (f : mkfs_fs_file) (sr : StatRef) (st : Stat)
    (d : mkfs_fd_info)
    (h : fd_open e s a idx info fr f sr st)
    (hd : arr_get s.file_desc a = some d) (hreg : d.fd_kind = e.S_IFREG)
    (hb0 : 0 ≤ b) (hb1 : b < e.FOPEN_MAX) (hab : b ≠ a)
    (hdup : __mkfs_dup2 e s a b = some (b, s1)) :
    arr_get s1.file_desc a = some d ∧
    arr_get s1.file_desc b = some { fd_kind := d.fd_kind, fd_index := idx } ∧
    (∀ t : State, arr_get t.file_desc a = some d →
      arr_get t.file_desc b = some { fd_kind := d.fd_kind, fd_index := idx } →
      (∀ off whence, __mkfs_lseek e t b off whence = __mkfs_lseek e t a off whence) ∧
      (∀ buf count, __mkfs_read e t b buf count = __mkfs_read e t a buf count)) ∧
    (∀ k : Int, 0 ≤ k → k ≤ e.OFF_MAX → no_injection e s1 →
      ∃ s2, __mkfs_lseek e s1 a k e.SEEK_SET = some (k, s2) ∧
        (no_injection e s2 → ∃ s3, __mkfs_lseek e s2 b 0 e.SEEK_CUR = some (k, s3))) ∧
    (∀ buf count n bo s2, __mkfs_read e s1 a buf count = some (n, bo, s2) → 0 < n →
      ∃ i1 i2, arr_get s1.opened_files idx = some i1 ∧
        arr_get s2.opened_files idx = some i2 ∧ i2.position = i1.position + n ∧
        (i2.position ≤ e.OFF_MAX → no_injection e s2 →
          ∃ s3, __mkfs_lseek e s2 b 0 e.SEEK_CUR = some (i1.position + n, s3))) := by
  obtain ⟨ha0, ha1, ⟨d1, hd1, hk1, hidx⟩, hfis⟩ := h
  rw [hd] at hd1
  simp only [Option.some.injEq] at hd1
  subst hd1
  subst hidx
  have hk0 : d.fd_kind ≠ 0 := by
    rw [hreg]
    exact fun hx => (kind_zero_facts hs).2.2.2.2 hx.symm
  obtain ⟨ha, _, _⟩ := file_info_stat_parts hfis
  obtain ⟨hsa, hsb, hrec⟩ := dup2_inv ha0 ha1 hd hk0 hb0 hb1 hab hdup
  obtain ⟨i1, hi1, _⟩ := hrec d.fd_index info ha
  have hwh := hs.whence
  simp only [List.nodup_cons, List.mem_cons, List.mem_singleton, not_or, List.not_mem_nil,
    not_false_eq_true, List.nodup_nil, and_true] at hwh
  have hcs : ¬ (e.SEEK_CUR = e.SEEK_SET) := fun hx => hwh.1.1 hx.symm
  have hgi : __mkfs_get_file_info e s1 a = some (some d.fd_index) :=
    get_file_info_of_open hs ha0 ha1 hsa (Or.inl hreg)
  refine ⟨hsa, hsb, fun t hta htb => same_slot_calls e ha0 ha1 hb0 hb1 hta htb,
    fun k hk0 hk1 hq => ?_, fun buf count n bo s2 hrd hn => ?_⟩
  · have hl := lseek_slot_eq hs s1 a d i1 k e.SEEK_SET ha0 ha1 hsa hreg hi1 hq (Or.inl rfl)
      (by rw [if_pos rfl]; omega) (by rw [if_pos rfl]; omega)
    simp only [if_true, zero_add] at hl
    refine ⟨_, hl, fun hq2 => ?_⟩
    obtain ⟨x, y, hxy⟩ := random_error_shape e s1
    have hl2 := lseek_slot_eq hs { (RETURN_RANDOM_ERROR e s1).2 with
        opened_files := s1.opened_files.set d.fd_index.toNat { i1 with position := k } }
      b { fd_kind := d.fd_kind, fd_index := d.fd_index }
      { i1 with position := k } 0 e.SEEK_CUR
      hb0 hb1 (by rw [hxy]; exact hsb) hreg (arr_get_set_same _ hi1) hq2 (Or.inr rfl)
      (by rw [if_neg hcs]; simpa using hk0) (by rw [if_neg hcs]; simpa using hk1)
    rw [if_neg hcs] at hl2
    simp only [add_zero] at hl2
    exact ⟨_, hl2⟩
  · have hrange : ¬ (a < 0 ∨ a ≥ e.FOPEN_MAX) := by omega
    have hrf : read_file e s1 a buf count = some (n, bo, s2) := by
      unfold __mkfs_read at hrd
      rw [if_neg hrange] at hrd
      simp only [hsa, if_neg hk0] at hrd
      rw [if_pos (Or.inr (Or.inr hreg))] at hrd
      exact hrd
    obtain ⟨idx2, j1, x, y, hg2, hj1, hpos, hs2⟩ := read_file_pos hrf hn
    rw [hgi] at hg2
    simp only [Option.some.injEq] at hg2
    subst hg2
    rw [hi1] at hj1
    simp only [Option.some.injEq] at hj1
    subst hj1
    have hrec2 : arr_get s2.opened_files d.fd_index =
        some { i1 with position := i1.position + n } := by
      rw [hs2]
      exact arr_get_set_same _ hi1
    refine ⟨i1, _, hi1, hrec2, rfl, fun hfit hq2 => ?_⟩
    have hl2 := lseek_slot_eq hs s2 b { fd_kind := d.fd_kind, fd_index := d.fd_index }
      { i1 with position := i1.position + n } 0 e.SEEK_CUR
      hb0 hb1 (by rw [hs2]; exact hsb) hreg hrec2 hq2 (Or.inr rfl)
      (by rw [if_neg hcs]; simp only [add_zero]; omega)
      (by rw [if_neg hcs]; simpa using hfit)
    rw [if_neg hcs] at hl2
    simp only [add_zero] at hl2
    exact ⟨_, hl2⟩

/-! ## Directory streams -/

theorem get_dir_info_congr (e : Env) {s s1 : State} (fd : Int)
    (h : s1.file_desc = s.file_desc) :
    __mkfs_get_dir_info e s1 fd = __mkfs_get_dir_info e s fd := by
  simp only [__mkfs_get_dir_info, check_fd_ok_fst, h]

/-- What `opendir` has done when it returns a `DIR` object. -/
theorem opendir_inv {e : Env} {s s1 : State} {path : String} {dirp : Int}
    (h : __mkfs_opendir e s path = some (some dirp, s1)) :
    ∃ j dir sr, __mkfs_get_dir s path = some j ∧ s.fs_dirs[j]? = some dir ∧
      dir.stat = some sr ∧
      __mkfs_get_dir_info e s1 dirp = some (some dirp) ∧
      arr_get s1.opendir dirp = some { dir_id := dirp, dir_position := 0,
                                       dir_inode := some sr, dir_entries := dir.dir_entries } := by
  unfold __mkfs_opendir at h
  cases ho : opendir_fd e s path with
  | none => simp [ho] at h
  | some t =>
    obtain ⟨fd, sA⟩ := t
    simp only [ho] at h
    by_cases hfd : fd ≠ -1
    · rw [if_pos hfd] at h
      cases hg : __mkfs_get_dir_info e sA fd with
      | none => simp [hg] at h
      | some o =>
        simp only [hg, Option.some.injEq, Prod.mk.injEq] at h
        obtain ⟨ho1, hs1⟩ := h
        subst hs1
        subst ho1
        unfold opendir_fd at ho
        cases hj : __mkfs_get_dir s path with
        | none =>
          simp only [hj, Option.some.injEq, Prod.mk.injEq] at ho
          exact absurd ho.1.symm hfd
        | some j =>
          simp only [hj] at ho
          cases hdir : s.fs_dirs[j]? with
          | none => simp [hdir] at ho
          | some dir =>
            simp only [hdir] at ho
            cases hsr : dir.stat with
            | none => simp [hsr] at ho
            | some sr =>
              simp only [hsr] at ho
              cases hst : get_stat s sr with
              | none => simp [hst] at ho
              | some st =>
                simp only [hst] at ho
                by_cases hacc : (stat_access e s st e.R_OK).1 = -1
                · rw [if_pos hacc] at ho
                  simp only [Option.some.injEq, Prod.mk.injEq] at ho
                  exact absurd ho.1.symm hfd
                · rw [if_neg hacc] at ho
                  cases hn : get_next_file_desc e (stat_access e s st e.R_OK).2 with
                  | none => simp [hn] at ho
                  | some u =>
                    obtain ⟨fd1, sB⟩ := u
                    simp only [hn] at ho
                    by_cases hfd1 : fd1 ≠ -1
                    · rw [if_pos hfd1] at ho
                      cases hset : arr_set sB.file_desc fd1
                          { fd_kind := e.S_IFDIR, fd_index := fd1 } with
                      | none => simp [hset] at ho
                      | some fds =>
                        simp only [hset] at ho
                        obtain ⟨⟨v0, hv0⟩, hfds⟩ := arr_set_inv hset
                        cases hgd : __mkfs_get_dir_info e { sB with file_desc := fds } fd1 with
                        | none => simp [hgd] at ho
                        | some o2 =>
                          cases o2 with
                          | none => simp [hgd] at ho
                          | some idx =>
                            simp only [hgd] at ho
                            cases hset2 : arr_set sB.opendir idx
                                { dir_id := fd1, dir_position := 0, dir_inode := some sr,
                                  dir_entries := dir.dir_entries } with
                            | none => simp [hset2] at ho
                            | some dirs =>
                              simp only [hset2, Option.some.injEq, Prod.mk.injEq] at ho
                              obtain ⟨hfdeq, hsA⟩ := ho
                              subst hfdeq
                              subst hsA
                              obtain ⟨⟨w0, hw0⟩, hdirs⟩ := arr_set_inv hset2
                              -- the index stored in the slot is the descriptor
                              have hidx : idx = fd1 := by
                                unfold __mkfs_get_dir_info at hgd
                                split at hgd
                                · simp at hgd
                                · have hslot : arr_get fds fd1 =
                                      some { fd_kind := e.S_IFDIR, fd_index := fd1 } := by
                                    rw [hfds]
                                    exact arr_get_set_same _ hv0
                                  simp only [hslot] at hgd
                                  split at hgd
                                  · simp only [Option.some.injEq] at hgd
                                    exact hgd.symm
                                  · simp at hgd
                              subst hidx
                              have hg2 : __mkfs_get_dir_info e
                                  { sB with file_desc := fds, opendir := dirs } idx =
                                  some (some idx) := by
                                rw [← hgd]
                                exact get_dir_info_congr e idx rfl
                              rw [hg2] at hg
                              simp only [Option.some.injEq] at hg
                              subst hg
                              refine ⟨j, dir, sr, rfl, hdir, hsr, hg2, ?_⟩
                              show arr_get dirs idx = _
                              rw [hdirs]
                              exact arr_get_set_same _ hw0
                    · rw [if_neg hfd1] at ho
                      simp only [Option.some.injEq, Prod.mk.injEq] at ho
                      exact absurd (ho.1.symm.trans (Decidable.not_not.mp hfd1)) hfd
    · rw [if_neg hfd] at h
      simp at h

theorem check_fd_dir_ok_no_err {e : Env} (hne : e.no_err = true) {t : State} {dirp : Int}
    {d : mkfs_dir_info} (hg : __mkfs_get_dir_info e t dirp = some (some dirp))
    (hrec : arr_get t.opendir dirp = some d) (hid : d.dir_id = dirp)
    (hino : d.dir_inode ≠ none) :
    __mkfs_check_fd_dir_ok e t dirp = some (0, t) := by
  unfold __mkfs_check_fd_dir_ok
  simp only [hg, hrec]
  have hc : ¬ (d.dir_id ≠ dirp ∨ d.dir_inode = none) := by
    rintro (h | h)
    · exact h hid
    · exact hino h
  rw [if_neg hc, random_error_no_err e t hne]
  simp

/-- One call of `readdir` in front of an entry: the entry is returned and the
cursor moves by one. -/
theorem readdir_step_entry {e : Env} (hne : e.no_err = true) {t : State} {dirp : Int}
    {sr : StatRef} {es : List String} {j : Nat} {ent : String}
    (hg : __mkfs_get_dir_info e t dirp = some (some dirp))
    (hrec : arr_get t.opendir dirp = some ⟨dirp, (j : Int), some sr, some es⟩)
    (hj : es[j]? = some ent) :
    __mkfs_readdir e t dirp = some (some ent,
      { t with opendir := t.opendir.set dirp.toNat ⟨dirp, (j : Int) + 1, some sr, some es⟩ }) := by
  have hlt : j < es.length := (List.getElem?_eq_some.mp hj).1
  have hck := check_fd_dir_ok_no_err hne hg hrec rfl (by simp)
  unfold __mkfs_readdir
  simp only [hrec, hck]
  have hc : ¬ ((j : Int) < 0 ∨ (j : Int) > (es.length : Int)) := by omega
  simp only [ne_eq, not_true_eq_false, if_false, if_neg hc, Int.toNat_ofNat, hj,
    arr_set_of_get _ hrec]

/-- One call of `readdir` on the null sentinel: NULL, and nothing changes. -/
theorem readdir_step_end {e : Env} (hne : e.no_err = true) {t : State} {dirp : Int}
    {sr : StatRef} {es : List String}
    (hg : __mkfs_get_dir_info e t dirp = some (some dirp))
    (hrec : arr_get t.opendir dirp = some ⟨dirp, (es.length : Int), some sr, some es⟩) :
    __mkfs_readdir e t dirp = some (none, t) := by
  have hck := check_fd_dir_ok_no_err hne hg hrec rfl (by simp)
  unfold __mkfs_readdir
  simp only [hrec, hck]
  have hc : ¬ ((es.length : Int) < 0 ∨ (es.length : Int) > (es.length : Int)) := by omega
  simp only [ne_eq, not_true_eq_false, if_false, if_neg hc, Int.toNat_ofNat]
  have : es[es.length]? = none := List.getElem?_eq_none (Nat.le_refl _)
  simp only [this]

theorem readdir_times_end {e : Env} (hne : e.no_err = true) {t : State} {dirp : Int}
    {sr : StatRef} {es : List String}
    (hg : __mkfs_get_dir_info e t dirp = some (some dirp))
    (hrec : arr_get t.opendir dirp = some ⟨dirp, (es.length : Int), some sr, some es⟩)
    (m : Nat) : readdir_times e dirp m t = some (List.replicate m none, t) := by
  induction m with
  | zero => rfl
  | succ m ih =>
    simp only [readdir_times, readdir_step_end hne hg hrec, ih, List.replicate_succ]

theorem readdir_times_from {e : Env} (hne : e.no_err = true) (dirp : Int) (sr : StatRef)
    (es : List String) (m : Nat) :
    ∀ (n j : Nat) (t : State), j + n = es.length →
      __mkfs_get_dir_info e t dirp = some (some dirp) →
      arr_get t.opendir dirp = some ⟨dirp, (j : Int), some sr, some es⟩ →
      ∃ t1, readdir_times e dirp (n + m) t =
          some ((es.drop j).map some ++ List.replicate m none, t1) ∧
        t1.file_desc = t.file_desc ∧
        arr_get t1.opendir dirp = some ⟨dirp, (es.length : Int), some sr, some es⟩ := by
  intro n
  induction n with
  | zero =>
    intro j t hjn hg hrec
    have hj : j = es.length := by omega
    subst hj
    refine ⟨t, ?_, rfl, hrec⟩
    rw [Nat.zero_add, readdir_times_end hne hg hrec m]
    simp
  | succ n ih =>
    intro j t hjn hg hrec
    have hlt : j < es.length := by omega
    have hj : es[j]? = some es[j] := List.getElem?_eq_getElem hlt
    have hstep := readdir_step_entry hne hg hrec hj
    have hg1 : __mkfs_get_dir_info e
        { t with opendir := t.opendir.set dirp.toNat ⟨dirp, (j : Int) + 1, some sr, some es⟩ }
        dirp = some (some dirp) := by
      rw [← hg]
      exact get_dir_info_congr e dirp rfl
    have hrec1 : arr_get (t.opendir.set dirp.toNat ⟨dirp, (j : Int) + 1, some sr, some es⟩) dirp =
        some ⟨dirp, ((j + 1 : Nat) : Int), some sr, some es⟩ := by
      rw [arr_get_set_same _ hrec]
      simp
    obtain ⟨t1, h1, h2, h3⟩ := ih (j + 1) _ (by omega) hg1 hrec1
    refine ⟨t1, ?_, h2, h3⟩
    have hnm : n + 1 + m = (n + m) + 1 := by omega
    rw [hnm, List.drop_eq_getElem_cons hlt]
    simp only [readdir_times, hstep, h1, List.map_cons, List.cons_append]

/-- C31: with `__TIS_MKFS_NO_ERR`, when `opendir` returns a `DIR` object for a
directory whose entry array holds `es` before the null sentinel, the first
`es.length` calls of `readdir` return the entries of `es` in array order, every
later call returns NULL, and the cursor then stands at `es.length`. -/
theorem C31_readdir_in_array_order (e : Env) (hne : e.no_err = true) (s s1 : State)
    (path : String) (dirp : Int) (j : Nat) (dir : mkfs_fs_dir) (es : List String)
    (hget : __mkfs_get_dir s path = some j) (hdir : s.fs_dirs[j]? = some dir)
    (hes : dir.dir_entries = some es)
    (hopen : __mkfs_opendir e s path = some (some dirp, s1)) (m : Nat) :
    ∃ s2, readdir_times e dirp (es.length + m) s1 =
        some (es.map some ++ List.replicate m none, s2) ∧
      (arr_get s2.opendir dirp).map (fun d => d.dir_position) = some (es.length : Int) ∧
      (∀ i : Nat, ∃ s3, readdir_times e dirp i s2 = some (List.replicate i none, s3) ∧
        (arr_get s3.opendir dirp).map (fun d => d.dir_position) = some (es.length : Int)) := by
  obtain ⟨j1, dir1, sr, hj1, hdir1, hsr, hg, hrec⟩ := opendir_inv hopen
  rw [hget] at hj1
  simp only [Option.some.injEq] at hj1
  subst hj1
  rw [hdir] at hdir1
  simp only [Option.some.injEq] at hdir1
  subst hdir1
  rw [hes] at hrec
  obtain ⟨t1, h1, h2, h3⟩ :=
    readdir_times_from hne dirp sr es m es.length 0 s1 (by omega) hg (by simpa using hrec)
  have hg2 : __mkfs_get_dir_info e t1 dirp = some (some dirp) := by
    rw [← hg]
    exact get_dir_info_congr e dirp h2
  refine ⟨t1, by simpa using h1, by simp [h3], ?_⟩
  intro i
  exact ⟨t1, readdir_times_end hne hg2 h3 i, by simp [h3]⟩

set_option linter.unusedTactic false
set_option linter.unreachableTactic false

/-! ## The counter of the map table under the calls of the interface

Each lemma carries the value `k` of `maps.nb_used` from the state before to
the state after. -/

theorem tis_next_nb {s : State} {k : Nat} (hk : s.maps_nb_used = k) :
    (tis_next s).2.maps_nb_used = k := by
  unfold tis_next
  split <;> exact hk

theorem make_unknown_errno_nb {s : State} {k : Nat} (hk : s.maps_nb_used = k) :
    (tis_make_unknown_errno s).maps_nb_used = k :=
  tis_next_nb hk

theorem make_unknown_buf_nb {s : State} {k : Nat} (buf : List Nat) (n : Nat)
    (hk : s.maps_nb_used = k) : (tis_make_unknown_buf s buf n).2.maps_nb_used = k := by
  obtain ⟨b, h⟩ := make_unknown_buf_shape s buf n
  rw [h]
  exact hk

theorem random_error_nb {e : Env} {s : State} {k : Nat} (hk : s.maps_nb_used = k) :
    (RETURN_RANDOM_ERROR e s).2.maps_nb_used = k := by
  obtain ⟨a, b, h⟩ := random_error_shape e s
  rw [h]
  exact hk

theorem check_fd_ok_nb {e : Env} {s : State} {fd : Int} {k : Nat} (hk : s.maps_nb_used = k) :
    (__mkfs_check_fd_ok e s fd).2.maps_nb_used = k := by
  unfold __mkfs_check_fd_ok
  split <;> exact hk

theorem next_file_index_nb {e : Env} {s : State} {k : Nat} (hk : s.maps_nb_used = k) :
    (mkfs_get_next_file_index e s).2.maps_nb_used = k := by
  unfold mkfs_get_next_file_index
  split <;> exact hk

theorem stat_access_nb {e : Env} {s : State} {st : Stat} {m : Nat} {k : Nat}
    (hk : s.maps_nb_used = k) : (stat_access e s st m).2.maps_nb_used = k := by
  obtain ⟨a, b, h⟩ := stat_access_shape e s st m
  rw [h]
  exact hk

theorem put_stat_nb {s : State} {sr : StatRef} {x : Stat} {k : Nat}
    (hk : s.maps_nb_used = k) : (put_stat s sr x).maps_nb_used = k := by
  cases sr <;> exact hk

theorem set_stat_nb {s s1 : State} {sr : StatRef} {x : Stat} {k : Nat}
    (h : set_stat s sr x = some s1) (hk : s.maps_nb_used = k) : s1.maps_nb_used = k := by
  rw [set_stat_inv h]
  exact put_stat_nb hk

theorem set_fs_file_nb {s s1 : State} {r : FileRef} {f : mkfs_fs_file} {k : Nat}
    (h : set_fs_file s r f = some s1) (hk : s.maps_nb_used = k) : s1.maps_nb_used = k :=
  ((set_fs_file_kept h).1.2.1).trans hk

theorem check_reading_nb {e : Env} {s s1 : State} {fd r : Int} {k : Nat}
    (h : __mkfs_check_fd_file_ok_for_reading e s fd = some (r, s1))
    (hk : s.maps_nb_used = k) : s1.maps_nb_used = k := by
  obtain ⟨a, b, h1⟩ := check_reading_amb h
  rw [h1]
  exact hk

theorem check_writing_nb {e : Env} {s s1 : State} {fd r : Int} {k : Nat}
    (h : __mkfs_check_fd_file_ok_for_writing e s fd = some (r, s1))
    (hk : s.maps_nb_used = k) : s1.maps_nb_used = k := by
  obtain ⟨a, b, h1⟩ := check_writing_amb h
  rw [h1]
  exact hk

theorem local_pwrite_at_nb {e : Env} {s s1 : State} {idx off r : Int} {buf : List Nat} {k : Nat}
    (h : local_pwrite_at e s idx buf off = some (r, s1)) (hk : s.maps_nb_used = k) :
    s1.maps_nb_used = k :=
  ((local_pwrite_at_kept h).1.2.1).trans hk

theorem local_pwrite_nb {e : Env} {s s1 : State} {fd off r : Int} {buf : List Nat} {k : Nat}
    (h : local_pwrite e s fd buf off = some (r, s1)) (hk : s.maps_nb_used = k) :
    s1.maps_nb_used = k :=
  ((local_pwrite_kept h).1.2.1).trans hk

theorem free_fs_file_nb {s s1 : State} {fr : Option FileRef} {k : Nat}
    (h : free_fs_file s fr = some s1) (hk : s.maps_nb_used = k) : s1.maps_nb_used = k := by
  unfold free_fs_file at h
  repeat' split at h
  all_goals first
    | (simp at h; done)
    | (simp only [Option.some.injEq] at h
       rw [← h]
       exact hk)

theorem mk_inode_nb {e : Env} {s s1 : State} {mode : Nat} {sr : StatRef} {k : Nat}
    (h : mk_inode e s mode = some (sr, s1)) (hk : s.maps_nb_used = k) :
    s1.maps_nb_used = k := by
  unfold mk_inode at h
  repeat' first | split at h | (simp only [] at h; split at h)
  all_goals first
    | (simp at h; done)
    | (simp only [Option.some.injEq, Prod.mk.injEq] at h
       first | rw [← h.2.2] | rw [← h.2]
       try dsimp only
       solve_by_elim []
       done)
    | (simp only [Option.some.injEq] at h
       have h2 := congrArg Prod.snd h
       dsimp only at h2
       rw [← h2]
       solve_by_elim []
       done)
    | (solve_by_elim []
       done)
    | (obtain ⟨y, hy, hy2⟩ := Option.map_eq_some'.mp h
       simp only [Prod.mk.injEq] at hy2
       first | rw [← hy2.2.2] | rw [← hy2.2]
       solve_by_elim []
       done)

theorem init_fd_file_nb {e : Env} {s s1 : State} {fd kind r : Int} {flags : Nat} {file : Option FileRef} {k : Nat}
    (h : init_fd_file e s fd kind flags file = some (r, s1)) (hk : s.maps_nb_used = k) :
    s1.maps_nb_used = k := by
  unfold init_fd_file at h
  repeat' first | split at h | (simp only [] at h; split at h)
  all_goals first
    | (simp at h; done)
    | (simp only [Option.some.injEq, Prod.mk.injEq] at h
       first | rw [← h.2.2] | rw [← h.2]
       try dsimp only
       solve_by_elim [next_file_index_nb]
       done)
    | (simp only [Option.some.injEq] at h
       have h2 := congrArg Prod.snd h
       dsimp only at h2
       rw [← h2]
       solve_by_elim [next_file_index_nb]
       done)
    | (solve_by_elim [next_file_index_nb]
       done)
    | (obtain ⟨y, hy, hy2⟩ := Option.map_eq_some'.mp h
       simp only [Prod.mk.injEq] at hy2
       first | rw [← hy2.2.2] | rw [← hy2.2]
       solve_by_elim [next_file_index_nb]
       done)

theorem get_next_file_desc_nb {e : Env} {s s1 : State} {r : Int} {k : Nat}
    (h : get_next_file_desc e s = some (r, s1)) (hk : s.maps_nb_used = k) :
    s1.maps_nb_used = k := by
  unfold get_next_file_desc at h
  repeat' first | split at h | (simp only [] at h; split at h)
  all_goals first
    | (simp at h; done)
    | (simp only [Option.some.injEq, Prod.mk.injEq] at h
       first | rw [← h.2.2] | rw [← h.2]
       try dsimp only
       solve_by_elim [random_error_nb]
       done)
    | (simp only [Option.some.injEq] at h
       have h2 := congrArg Prod.snd h
       dsimp only at h2
       rw [← h2]
       solve_by_elim [random_error_nb]
       done)
    | (solve_by_elim [random_error_nb]
       done)
    | (obtain ⟨y, hy, hy2⟩ := Option.map_eq_some'.mp h
       simp only [Prod.mk.injEq] at hy2
       first | rw [← hy2.2.2] | rw [← hy2.2]
       solve_by_elim [random_error_nb]
       done)

theorem check_fd_file_ok_nb {e : Env} {s s1 : State} {fd r : Int} {k : Nat}
    (h : __mkfs_check_fd_file_ok e s fd = some (r, s1)) (hk : s.maps_nb_used = k) :
    s1.maps_nb_used = k := by
  unfold __mkfs_check_fd_file_ok at h
  repeat' first | split at h | (simp only [] at h; split at h)
  all_goals first
    | (simp at h; done)
    | (simp only [Option.some.injEq, Prod.mk.injEq] at h
       first | rw [← h.2.2] | rw [← h.2]
       try dsimp only
       solve_by_elim [random_error_nb]
       done)
    | (simp only [Option.some.injEq] at h
       have h2 := congrArg Prod.snd h
       dsimp only at h2
       rw [← h2]
       solve_by_elim [random_error_nb]
       done)
    | (solve_by_elim [random_error_nb]
       done)
    | (obtain ⟨y, hy, hy2⟩ := Option.map_eq_some'.mp h
       simp only [Prod.mk.injEq] at hy2
       first | rw [← hy2.2.2] | rw [← hy2.2]
       solve_by_elim [random_error_nb]
       done)

theorem check_fd_socket_ok_nb {e : Env} {s s1 : State} {fd r : Int} {k : Nat}
    (h : __mkfs_check_fd_socket_ok e s fd = some (r, s1)) (hk : s.maps_nb_used = k) :
    s1.maps_nb_used = k := by
  unfold __mkfs_check_fd_socket_ok at h
  repeat' first | split at h | (simp only [] at h; split at h)
  all_goals first
    | (simp at h; done)
    | (simp only [Option.some.injEq, Prod.mk.injEq] at h
       first | rw [← h.2.2] | rw [← h.2]
       try dsimp only
       solve_by_elim [random_error_nb]
       done)
    | (simp only [Option.some.injEq] at h
       have h2 := congrArg Prod.snd h
       dsimp only at h2
       rw [← h2]
       solve_by_elim [random_error_nb]
       done)
    | (solve_by_elim [random_error_nb]
       done)
    | (obtain ⟨y, hy, hy2⟩ := Option.map_eq_some'.mp h
       simp only [Prod.mk.injEq] at hy2
       first | rw [← hy2.2.2] | rw [← hy2.2]
       solve_by_elim [random_error_nb]
       done)

theorem create_file_nb {e : Env} {s s1 : State} {path : String} {mode : Nat} {x : Option Nat} {k : Nat}
    (h : create_file e s path mode = some (x, s1)) (hk : s.maps_nb_used = k) :
    s1.maps_nb_used = k := by
  unfold create_file at h
  repeat' first | split at h | (simp only [] at h; split at h)
  all_goals first
    | (simp at h; done)
    | (simp only [Option.some.injEq, Prod.mk.injEq] at h
       first | rw [← h.2.2] | rw [← h.2]
       try dsimp only
       solve_by_elim [random_error_nb, tis_next_nb, mk_inode_nb]
       done)
    | (simp only [Option.some.injEq] at h
       have h2 := congrArg Prod.snd h
       dsimp only at h2
       rw [← h2]
       solve_by_elim [random_error_nb, tis_next_nb, mk_inode_nb]
       done)
    | (solve_by_elim [random_error_nb, tis_next_nb, mk_inode_nb]
       done)
    | (obtain ⟨y, hy, hy2⟩ := Option.map_eq_some'.mp h
       simp only [Prod.mk.injEq] at hy2
       first | rw [← hy2.2.2] | rw [← hy2.2]
       solve_by_elim [random_error_nb, tis_next_nb, mk_inode_nb]
       done)

theorem local_pread_nb {e : Env} {s s1 : State} {fd r offset : Int} {buf bo : List Nat} {count : Nat} {k : Nat}
    (h : local_pread e s fd buf count offset = some (r, bo, s1)) (hk : s.maps_nb_used = k) :
    s1.maps_nb_used = k := by
  unfold local_pread at h
  repeat' first | split at h | (simp only [] at h; split at h)
  all_goals first
    | (simp at h; done)
    | (simp only [Option.some.injEq, Prod.mk.injEq] at h
       first | rw [← h.2.2] | rw [← h.2]
       try dsimp only
       solve_by_elim [check_reading_nb, make_unknown_buf_nb]
       done)
    | (simp only [Option.some.injEq] at h
       have h2 := congrArg Prod.snd h
       dsimp only at h2
       rw [← h2]
       solve_by_elim [check_reading_nb, make_unknown_buf_nb]
       done)
    | (solve_by_elim [check_reading_nb, make_unknown_buf_nb]
       done)
    | (obtain ⟨y, hy, hy2⟩ := Option.map_eq_some'.mp h
       simp only [Prod.mk.injEq] at hy2
       first | rw [← hy2.2.2] | rw [← hy2.2]
       solve_by_elim [check_reading_nb, make_unknown_buf_nb]
       done)

theorem read_file_nb {e : Env} {s s1 : State} {fd r : Int} {buf bo : List Nat} {count : Nat} {k : Nat}
    (h : read_file e s fd buf count = some (r, bo, s1)) (hk : s.maps_nb_used = k) :
    s1.maps_nb_used = k := by
  unfold read_file at h
  repeat' first | split at h | (simp only [] at h; split at h)
  all_goals first
    | (simp at h; done)
    | (simp only [Option.some.injEq, Prod.mk.injEq] at h
       first | rw [← h.2.2] | rw [← h.2]
       try dsimp only
       solve_by_elim [local_pread_nb]
       done)
    | (simp only [Option.some.injEq] at h
       have h2 := congrArg Prod.snd h
       dsimp only at h2
       rw [← h2]
       solve_by_elim [local_pread_nb]
       done)
    | (solve_by_elim [local_pread_nb]
       done)
    | (obtain ⟨y, hy, hy2⟩ := Option.map_eq_some'.mp h
       simp only [Prod.mk.injEq] at hy2
       first | rw [← hy2.2.2] | rw [← hy2.2]
       solve_by_elim [local_pread_nb]
       done)

theorem read_socket_nb {e : Env} {s s1 : State} {r : Int} {buf bo : List Nat} {count : Nat} {k : Nat}
    (h : read_socket e s buf count = some (r, bo, s1)) (hk : s.maps_nb_used = k) :
    s1.maps_nb_used = k := by
  unfold read_socket at h
  repeat' first | split at h | (simp only [] at h; split at h)
  all_goals first
    | (simp at h; done)
    | (simp only [Option.some.injEq, Prod.mk.injEq] at h
       first | rw [← h.2.2] | rw [← h.2]
       try dsimp only
       solve_by_elim [tis_next_nb, make_unknown_errno_nb, make_unknown_buf_nb]
       done)
    | (simp only [Option.some.injEq] at h
       have h2 := congrArg Prod.snd h
       dsimp only at h2
       rw [← h2]
       solve_by_elim [tis_next_nb, make_unknown_errno_nb, make_unknown_buf_nb]
       done)
    | (solve_by_elim [tis_next_nb, make_unknown_errno_nb, make_unknown_buf_nb]
       done)
    | (obtain ⟨y, hy, hy2⟩ := Option.map_eq_some'.mp h
       simp only [Prod.mk.injEq] at hy2
       first | rw [← hy2.2.2] | rw [← hy2.2]
       solve_by_elim [tis_next_nb, make_unknown_errno_nb, make_unknown_buf_nb]
       done)

theorem mkfs_read_nb {e : Env} {s s1 : State} {fd r : Int} {buf bo : List Nat} {count : Nat} {k : Nat}
    (h : __mkfs_read e s fd buf count = some (r, bo, s1)) (hk : s.maps_nb_used = k) :
    s1.maps_nb_used = k := by
  unfold __mkfs_read at h
  repeat' first | split at h | (simp only [] at h; split at h)
  all_goals first
    | (simp at h; done)
    | (simp only [Option.some.injEq, Prod.mk.injEq] at h
       first | rw [← h.2.2] | rw [← h.2]
       try dsimp only
       solve_by_elim [read_file_nb, read_socket_nb, make_unknown_errno_nb]
       done)
    | (simp only [Option.some.injEq] at h
       have h2 := congrArg Prod.snd h
       dsimp only at h2
       rw [← h2]
       solve_by_elim [read_file_nb, read_socket_nb, make_unknown_errno_nb]
       done)
    | (solve_by_elim [read_file_nb, read_socket_nb, make_unknown_errno_nb]
       done)
    | (obtain ⟨y, hy, hy2⟩ := Option.map_eq_some'.mp h
       simp only [Prod.mk.injEq] at hy2
       first | rw [← hy2.2.2] | rw [← hy2.2]
       solve_by_elim [read_file_nb, read_socket_nb, make_unknown_errno_nb]
       done)

theorem mkfs_pread_nb {e : Env} {s s1 : State} {fd r offset : Int} {buf bo : List Nat} {count : Nat} {k : Nat}
    (h : __mkfs_pread e s fd buf count offset = some (r, bo, s1)) (hk : s.maps_nb_used = k) :
    s1.maps_nb_used = k := by
  unfold __mkfs_pread at h
  repeat' first | split at h | (simp only [] at h; split at h)
  all_goals first
    | (simp at h; done)
    | (simp only [Option.some.injEq, Prod.mk.injEq] at h
       first | rw [← h.2.2] | rw [← h.2]
       try dsimp only
       solve_by_elim [local_pread_nb]
       done)
    | (simp only [Option.some.injEq] at h
       have h2 := congrArg Prod.snd h
       dsimp only at h2
       rw [← h2]
       solve_by_elim [local_pread_nb]
       done)
    | (solve_by_elim [local_pread_nb]
       done)
    | (obtain ⟨y, hy, hy2⟩ := Option.map_eq_some'.mp h
       simp only [Prod.mk.injEq] at hy2
       first | rw [← hy2.2.2] | rw [← hy2.2]
       solve_by_elim [local_pread_nb]
       done)

theorem write_data_nb {e : Env} {s s1 : State} {idx o r : Int} {buf : List Nat} {k : Nat}
    (h : write__mkfs_data e s idx o buf = some (r, s1)) (hk : s.maps_nb_used = k) :
    s1.maps_nb_used = k := by
  unfold write__mkfs_data at h
  repeat' first | split at h | (simp only [] at h; split at h)
  all_goals first
    | (simp at h; done)
    | (simp only [Option.some.injEq, Prod.mk.injEq] at h
       first | rw [← h.2.2] | rw [← h.2]
       try dsimp only
       solve_by_elim []
       done)
    | (simp only [Option.some.injEq] at h
       have h2 := congrArg Prod.snd h
       dsimp only at h2
       rw [← h2]
       solve_by_elim []
       done)
    | (solve_by_elim []
       done)
    | (obtain ⟨y, hy, hy2⟩ := Option.map_eq_some'.mp h
       simp only [Prod.mk.injEq] at hy2
       first | rw [← hy2.2.2] | rw [← hy2.2]
       solve_by_elim []
       done)

theorem write_file_nb {e : Env} {s s1 : State} {fd r : Int} {buf : List Nat} {k : Nat}
    (h : write_file e s fd buf = some (r, s1)) (hk : s.maps_nb_used = k) :
    s1.maps_nb_used = k := by
  unfold write_file at h
  repeat' first | split at h | (simp only [] at h; split at h)
  all_goals first
    | (simp at h; done)
    | (simp only [Option.some.injEq, Prod.mk.injEq] at h
       first | rw [← h.2.2] | rw [← h.2]
       try dsimp only
       solve_by_elim [local_pwrite_nb]
       done)
    | (simp only [Option.some.injEq] at h
       have h2 := congrArg Prod.snd h
       dsimp only at h2
       rw [← h2]
       solve_by_elim [local_pwrite_nb]
       done)
    | (solve_by_elim [local_pwrite_nb]
       done)
    | (obtain ⟨y, hy, hy2⟩ := Option.map_eq_some'.mp h
       simp only [Prod.mk.injEq] at hy2
       first | rw [← hy2.2.2] | rw [← hy2.2]
       solve_by_elim [local_pwrite_nb]
       done)

theorem write_socket_nb {e : Env} {s s1 : State} {r : Int} {count : Nat} {k : Nat}
    (h : write_socket e s count = some (r, s1)) (hk : s.maps_nb_used = k) :
    s1.maps_nb_used = k := by
  unfold write_socket at h
  repeat' first | split at h | (simp only [] at h; split at h)
  all_goals first
    | (simp at h; done)
    | (simp only [Option.some.injEq, Prod.mk.injEq] at h
       first | rw [← h.2.2] | rw [← h.2]
       try dsimp only
       solve_by_elim [tis_next_nb, make_unknown_errno_nb]
       done)
    | (simp only [Option.some.injEq] at h
       have h2 := congrArg Prod.snd h
       dsimp only at h2
       rw [← h2]
       solve_by_elim [tis_next_nb, make_unknown_errno_nb]
       done)
    | (solve_by_elim [tis_next_nb, make_unknown_errno_nb]
       done)
    | (obtain ⟨y, hy, hy2⟩ := Option.map_eq_some'.mp h
       simp only [Prod.mk.injEq] at hy2
       first | rw [← hy2.2.2] | rw [← hy2.2]
       solve_by_elim [tis_next_nb, make_unknown_errno_nb]
       done)

theorem mkfs_write_nb {e : Env} {s s1 : State} {fd r : Int} {buf : List Nat} {k : Nat}
    (h : __mkfs_write e s fd buf = some (r, s1)) (hk : s.maps_nb_used = k) :
    s1.maps_nb_used = k := by
  unfold __mkfs_write at h
  repeat' first | split at h | (simp only [] at h; split at h)
  all_goals first
    | (simp at h; done)
    | (simp only [Option.some.injEq, Prod.mk.injEq] at h
       first | rw [← h.2.2] | rw [← h.2]
       try dsimp only
       solve_by_elim [check_writing_nb, write_file_nb, write_socket_nb, make_unknown_errno_nb]
       done)
    | (simp only [Option.some.injEq] at h
       have h2 := congrArg Prod.snd h
       dsimp only at h2
       rw [← h2]
       solve_by_elim [check_writing_nb, write_file_nb, write_socket_nb, make_unknown_errno_nb]
       done)
    | (solve_by_elim [check_writing_nb, write_file_nb, write_socket_nb, make_unknown_errno_nb]
       done)
    | (obtain ⟨y, hy, hy2⟩ := Option.map_eq_some'.mp h
       simp only [Prod.mk.injEq] at hy2
       first | rw [← hy2.2.2] | rw [← hy2.2]
       solve_by_elim [check_writing_nb, write_file_nb, write_socket_nb, make_unknown_errno_nb]
       done)

theorem mkfs_pwrite_nb {e : Env} {s s1 : State} {fd r offset : Int} {buf : List Nat} {k : Nat}
    (h : __mkfs_pwrite e s fd buf offset = some (r, s1)) (hk : s.maps_nb_used = k) :
    s1.maps_nb_used = k := by
  unfold __mkfs_pwrite at h
  repeat' first | split at h | (simp only [] at h; split at h)
  all_goals first
    | (simp at h; done)
    | (simp only [Option.some.injEq, Prod.mk.injEq] at h
       first | rw [← h.2.2] | rw [← h.2]
       try dsimp only
       solve_by_elim [local_pwrite_nb]
       done)
    | (simp only [Option.some.injEq] at h
       have h2 := congrArg Prod.snd h
       dsimp only at h2
       rw [← h2]
       solve_by_elim [local_pwrite_nb]
       done)
    | (solve_by_elim [local_pwrite_nb]
       done)
    | (obtain ⟨y, hy, hy2⟩ := Option.map_eq_some'.mp h
       simp only [Prod.mk.injEq] at hy2
       first | rw [← hy2.2.2] | rw [← hy2.2]
       solve_by_elim [local_pwrite_nb]
       done)

theorem seekable_nb {e : Env} {s s1 : State} {fd r : Int} {k : Nat}
    (h : __mkfs_seekable e s fd = some (r, s1)) (hk : s.maps_nb_used = k) :
    s1.maps_nb_used = k := by
  unfold __mkfs_seekable at h
  repeat' first | split at h | (simp only [] at h; split at h)
  all_goals first
    | (simp at h; done)
    | (simp only [Option.some.injEq, Prod.mk.injEq] at h
       first | rw [← h.2.2] | rw [← h.2]
       try dsimp only
       solve_by_elim [random_error_nb]
       done)
    | (simp only [Option.some.injEq] at h
       have h2 := congrArg Prod.snd h
       dsimp only at h2
       rw [← h2]
       solve_by_elim [random_error_nb]
       done)
    | (solve_by_elim [random_error_nb]
       done)
    | (obtain ⟨y, hy, hy2⟩ := Option.map_eq_some'.mp h
       simp only [Prod.mk.injEq] at hy2
       first | rw [← hy2.2.2] | rw [← hy2.2]
       solve_by_elim [random_error_nb]
       done)

theorem mkfs_lseek_nb {e : Env} {s s1 : State} {fd r offset whence : Int} {k : Nat}
    (h : __mkfs_lseek e s fd offset whence = some (r, s1)) (hk : s.maps_nb_used = k) :
    s1.maps_nb_used = k := by
  unfold __mkfs_lseek at h
  repeat' first | split at h | (simp only [] at h; split at h)
  all_goals first
    | (simp at h; done)
    | (simp only [Option.some.injEq, Prod.mk.injEq] at h
       first | rw [← h.2.2] | rw [← h.2]
       try dsimp only
       solve_by_elim [seekable_nb]
       done)
    | (simp only [Option.some.injEq] at h
       have h2 := congrArg Prod.snd h
       dsimp only at h2
       rw [← h2]
       solve_by_elim [seekable_nb]
       done)
    | (solve_by_elim [seekable_nb]
       done)
    | (obtain ⟨y, hy, hy2⟩ := Option.map_eq_some'.mp h
       simp only [Prod.mk.injEq] at hy2
       first | rw [← hy2.2.2] | rw [← hy2.2]
       solve_by_elim [seekable_nb]
       done)

theorem close_file_nb {e : Env} {s s1 : State} {fd r : Int} {k : Nat}
    (h : close_file e s fd = some (r, s1)) (hk : s.maps_nb_used = k) :
    s1.maps_nb_used = k := by
  unfold close_file at h
  repeat' first | split at h | (simp only [] at h; split at h)
  all_goals first
    | (simp at h; done)
    | (simp only [Option.some.injEq, Prod.mk.injEq] at h
       first | rw [← h.2.2] | rw [← h.2]
       try dsimp only
       solve_by_elim [check_fd_file_ok_nb]
       done)
    | (simp only [Option.some.injEq] at h
       have h2 := congrArg Prod.snd h
       dsimp only at h2
       rw [← h2]
       solve_by_elim [check_fd_file_ok_nb]
       done)
    | (solve_by_elim [check_fd_file_ok_nb]
       done)
    | (obtain ⟨y, hy, hy2⟩ := Option.map_eq_some'.mp h
       simp only [Prod.mk.injEq] at hy2
       first | rw [← hy2.2.2] | rw [← hy2.2]
       solve_by_elim [check_fd_file_ok_nb]
       done)

theorem close_fifo_nb {e : Env} {s s1 : State} {fd r : Int} {k : Nat}
    (h : close_fifo e s fd = some (r, s1)) (hk : s.maps_nb_used = k) :
    s1.maps_nb_used = k := by
  unfold close_fifo at h
  repeat' first | split at h | (simp only [] at h; split at h)
  all_goals first
    | (simp at h; done)
    | (simp only [Option.some.injEq, Prod.mk.injEq] at h
       first | rw [← h.2.2] | rw [← h.2]
       try dsimp only
       solve_by_elim [close_file_nb, free_fs_file_nb]
       done)
    | (simp only [Option.some.injEq] at h
       have h2 := congrArg Prod.snd h
       dsimp only at h2
       rw [← h2]
       solve_by_elim [close_file_nb, free_fs_file_nb]
       done)
    | (solve_by_elim [close_file_nb, free_fs_file_nb]
       done)
    | (obtain ⟨y, hy, hy2⟩ := Option.map_eq_some'.mp h
       simp only [Prod.mk.injEq] at hy2
       first | rw [← hy2.2.2] | rw [← hy2.2]
       solve_by_elim [close_file_nb, free_fs_file_nb]
       done)

theorem close_dir_nb {e : Env} {s s1 : State} {fd r : Int} {k : Nat}
    (h : close_dir e s fd = some (r, s1)) (hk : s.maps_nb_used = k) :
    s1.maps_nb_used = k := by
  unfold close_dir at h
  repeat' first | split at h | (simp only [] at h; split at h)
  all_goals first
    | (simp at h; done)
    | (simp only [Option.some.injEq, Prod.mk.injEq] at h
       first | rw [← h.2.2] | rw [← h.2]
       try dsimp only
       solve_by_elim []
       done)
    | (simp only [Option.some.injEq] at h
       have h2 := congrArg Prod.snd h
       dsimp only at h2
       rw [← h2]
       solve_by_elim []
       done)
    | (solve_by_elim []
       done)
    | (obtain ⟨y, hy, hy2⟩ := Option.map_eq_some'.mp h
       simp only [Prod.mk.injEq] at hy2
       first | rw [← hy2.2.2] | rw [← hy2.2]
       solve_by_elim []
       done)

theorem close_socket_nb {e : Env} {s s1 : State} {fd r : Int} {k : Nat}
    (h : close_socket e s fd = some (r, s1)) (hk : s.maps_nb_used = k) :
    s1.maps_nb_used = k := by
  unfold close_socket at h
  repeat' first | split at h | (simp only [] at h; split at h)
  all_goals first
    | (simp at h; done)
    | (simp only [Option.some.injEq, Prod.mk.injEq] at h
       first | rw [← h.2.2] | rw [← h.2]
       try dsimp only
       solve_by_elim [check_fd_socket_ok_nb]
       done)
    | (simp only [Option.some.injEq] at h
       have h2 := congrArg Prod.snd h
       dsimp only at h2
       rw [← h2]
       solve_by_elim [check_fd_socket_ok_nb]
       done)
    | (solve_by_elim [check_fd_socket_ok_nb]
       done)
    | (obtain ⟨y, hy, hy2⟩ := Option.map_eq_some'.mp h
       simp only [Prod.mk.injEq] at hy2
       first | rw [← hy2.2.2] | rw [← hy2.2]
       solve_by_elim [check_fd_socket_ok_nb]
       done)

theorem mkfs_close_nb {e : Env} {s s1 : State} {fd r : Int} {k : Nat}
    (h : __mkfs_close e s fd = some (r, s1)) (hk : s.maps_nb_used = k) :
    s1.maps_nb_used = k := by
  unfold __mkfs_close at h
  repeat' first | split at h | (simp only [] at h; split at h)
  all_goals first
    | (simp at h; done)
    | (simp only [Option.some.injEq, Prod.mk.injEq] at h
       first | rw [← h.2.2] | rw [← h.2]
       try dsimp only
       solve_by_elim [close_fifo_nb, close_file_nb, close_dir_nb, close_socket_nb, make_unknown_errno_nb]
       done)
    | (simp only [Option.some.injEq] at h
       have h2 := congrArg Prod.snd h
       dsimp only at h2
       rw [← h2]
       solve_by_elim [close_fifo_nb, close_file_nb, close_dir_nb, close_socket_nb, make_unknown_errno_nb]
       done)
    | (solve_by_elim [close_fifo_nb, close_file_nb, close_dir_nb, close_socket_nb, make_unknown_errno_nb]
       done)
    | (obtain ⟨y, hy, hy2⟩ := Option.map_eq_some'.mp h
       simp only [Prod.mk.injEq] at hy2
       first | rw [← hy2.2.2] | rw [← hy2.2]
       solve_by_elim [close_fifo_nb, close_file_nb, close_dir_nb, close_socket_nb, make_unknown_errno_nb]
       done)

theorem mkfs_fcntl_nb {e : Env} {s s1 : State} {fd cmd r : Int} {k : Nat}
    (h : __mkfs_fcntl e s fd cmd = some (r, s1)) (hk : s.maps_nb_used = k) :
    s1.maps_nb_used = k := by
  unfold __mkfs_fcntl at h
  repeat' first | split at h | (simp only [] at h; split at h)
  all_goals first
    | (simp at h; done)
    | (simp only [Option.some.injEq, Prod.mk.injEq] at h
       first | rw [← h.2.2] | rw [← h.2]
       try dsimp only
       solve_by_elim [check_fd_file_ok_nb, tis_next_nb, make_unknown_errno_nb]
       done)
    | (simp only [Option.some.injEq] at h
       have h2 := congrArg Prod.snd h
       dsimp only at h2
       rw [← h2]
       solve_by_elim [check_fd_file_ok_nb, tis_next_nb, make_unknown_errno_nb]
       done)
    | (solve_by_elim [check_fd_file_ok_nb, tis_next_nb, make_unknown_errno_nb]
       done)
    | (obtain ⟨y, hy, hy2⟩ := Option.map_eq_some'.mp h
       simp only [Prod.mk.injEq] at hy2
       first | rw [← hy2.2.2] | rw [← hy2.2]
       solve_by_elim [check_fd_file_ok_nb, tis_next_nb, make_unknown_errno_nb]
       done)

theorem check_fd_dir_ok_nb {e : Env} {s s1 : State} {fd r : Int} {k : Nat}
    (h : __mkfs_check_fd_dir_ok e s fd = some (r, s1)) (hk : s.maps_nb_used = k) :
    s1.maps_nb_used = k := by
  unfold __mkfs_check_fd_dir_ok at h
  repeat' first | split at h | (simp only [] at h; split at h)
  all_goals first
    | (simp at h; done)
    | (simp only [Option.some.injEq, Prod.mk.injEq] at h
       first | rw [← h.2.2] | rw [← h.2]
       try dsimp only
       solve_by_elim [random_error_nb]
       done)
    | (simp only [Option.some.injEq] at h
       have h2 := congrArg Prod.snd h
       dsimp only at h2
       rw [← h2]
       solve_by_elim [random_error_nb]
       done)
    | (solve_by_elim [random_error_nb]
       done)
    | (obtain ⟨y, hy, hy2⟩ := Option.map_eq_some'.mp h
       simp only [Prod.mk.injEq] at hy2
       first | rw [← hy2.2.2] | rw [← hy2.2]
       solve_by_elim [random_error_nb]
       done)

theorem opendir_fd_nb {e : Env} {s s1 : State} {path : String} {r : Int} {k : Nat}
    (h : opendir_fd e s path = some (r, s1)) (hk : s.maps_nb_used = k) :
    s1.maps_nb_used = k := by
  unfold opendir_fd at h
  repeat' first | split at h | (simp only [] at h; split at h)
  all_goals first
    | (simp at h; done)
    | (simp only [Option.some.injEq, Prod.mk.injEq] at h
       first | rw [← h.2.2] | rw [← h.2]
       try dsimp only
       solve_by_elim [make_unknown_errno_nb, stat_access_nb, get_next_file_desc_nb]
       done)
    | (simp only [Option.some.injEq] at h
       have h2 := congrArg Prod.snd h
       dsimp only at h2
       rw [← h2]
       solve_by_elim [make_unknown_errno_nb, stat_access_nb, get_next_file_desc_nb]
       done)
    | (solve_by_elim [make_unknown_errno_nb, stat_access_nb, get_next_file_desc_nb]
       done)
    | (obtain ⟨y, hy, hy2⟩ := Option.map_eq_some'.mp h
       simp only [Prod.mk.injEq] at hy2
       first | rw [← hy2.2.2] | rw [← hy2.2]
       solve_by_elim [make_unknown_errno_nb, stat_access_nb, get_next_file_desc_nb]
       done)

theorem mkfs_opendir_nb {e : Env} {s s1 : State} {path : String} {r : Option Int} {k : Nat}
    (h : __mkfs_opendir e s path = some (r, s1)) (hk : s.maps_nb_used = k) :
    s1.maps_nb_used = k := by
  unfold __mkfs_opendir at h
  repeat' first | split at h | (simp only [] at h; split at h)
  all_goals first
    | (simp at h; done)
    | (simp only [Option.some.injEq, Prod.mk.injEq] at h
       first | rw [← h.2.2] | rw [← h.2]
       try dsimp only
       solve_by_elim [opendir_fd_nb]
       done)
    | (simp only [Option.some.injEq] at h
       have h2 := congrArg Prod.snd h
       dsimp only at h2
       rw [← h2]
       solve_by_elim [opendir_fd_nb]
       done)
    | (solve_by_elim [opendir_fd_nb]
       done)
    | (obtain ⟨y, hy, hy2⟩ := Option.map_eq_some'.mp h
       simp only [Prod.mk.injEq] at hy2
       first | rw [← hy2.2.2] | rw [← hy2.2]
       solve_by_elim [opendir_fd_nb]
       done)

theorem mkfs_readdir_nb {e : Env} {s s1 : State} {dirp : Int} {r : Option String} {k : Nat}
    (h : __mkfs_readdir e s dirp = some (r, s1)) (hk : s.maps_nb_used = k) :
    s1.maps_nb_used = k := by
  unfold __mkfs_readdir at h
  repeat' first | split at h | (simp only [] at h; split at h)
  all_goals first
    | (simp at h; done)
    | (simp only [Option.some.injEq, Prod.mk.injEq] at h
       first | rw [← h.2.2] | rw [← h.2]
       try dsimp only
       solve_by_elim [check_fd_dir_ok_nb]
       done)
    | (simp only [Option.some.injEq] at h
       have h2 := congrArg Prod.snd h
       dsimp only at h2
       rw [← h2]
       solve_by_elim [check_fd_dir_ok_nb]
       done)
    | (solve_by_elim [check_fd_dir_ok_nb]
       done)
    | (obtain ⟨y, hy, hy2⟩ := Option.map_eq_some'.mp h
       simp only [Prod.mk.injEq] at hy2
       first | rw [← hy2.2.2] | rw [← hy2.2]
       solve_by_elim [check_fd_dir_ok_nb]
       done)

theorem mkfs_socket_nb {e : Env} {s s1 : State} {domain type protocol r : Int} {k : Nat}
    (h : __mkfs_socket e s domain type protocol = some (r, s1)) (hk : s.maps_nb_used = k) :
    s1.maps_nb_used = k := by
  unfold __mkfs_socket at h
  repeat' first | split at h | (simp only [] at h; split at h)
  all_goals first
    | (simp at h; done)
    | (simp only [Option.some.injEq, Prod.mk.injEq] at h
       first | rw [← h.2.2] | rw [← h.2]
       try dsimp only
       solve_by_elim [get_next_file_desc_nb]
       done)
    | (simp only [Option.some.injEq] at h
       have h2 := congrArg Prod.snd h
       dsimp only at h2
       rw [← h2]
       solve_by_elim [get_next_file_desc_nb]
       done)
    | (solve_by_elim [get_next_file_desc_nb]
       done)
    | (obtain ⟨y, hy, hy2⟩ := Option.map_eq_some'.mp h
       simp only [Prod.mk.injEq] at hy2
       first | rw [← hy2.2.2] | rw [← hy2.2]
       solve_by_elim [get_next_file_desc_nb]
       done)

theorem mkfs_stat_nb {e : Env} {s s1 : State} {path : String} {r : Int} {o : Option Stat} {k : Nat}
    (h : __mkfs_stat e s path = some (r, o, s1)) (hk : s.maps_nb_used = k) :
    s1.maps_nb_used = k := by
  unfold __mkfs_stat at h
  repeat' first | split at h | (simp only [] at h; split at h)
  all_goals first
    | (simp at h; done)
    | (simp only [Option.some.injEq, Prod.mk.injEq] at h
       first | rw [← h.2.2] | rw [← h.2]
       try dsimp only
       solve_by_elim [random_error_nb]
       done)
    | (simp only [Option.some.injEq] at h
       have h2 := congrArg Prod.snd h
       dsimp only at h2
       rw [← h2]
       solve_by_elim [random_error_nb]
       done)
    | (solve_by_elim [random_error_nb]
       done)
    | (obtain ⟨y, hy, hy2⟩ := Option.map_eq_some'.mp h
       simp only [Prod.mk.injEq] at hy2
       first | rw [← hy2.2.2] | rw [← hy2.2]
       solve_by_elim [random_error_nb]
       done)

theorem mkfs_access_nb {e : Env} {s s1 : State} {path : String} {mode r : Int} {k : Nat}
    (h : __mkfs_access e s path mode = some (r, s1)) (hk : s.maps_nb_used = k) :
    s1.maps_nb_used = k := by
  unfold __mkfs_access at h
  repeat' first | split at h | (simp only [] at h; split at h)
  all_goals first
    | (simp at h; done)
    | (simp only [Option.some.injEq, Prod.mk.injEq] at h
       first | rw [← h.2.2] | rw [← h.2]
       try dsimp only
       solve_by_elim [mkfs_stat_nb, stat_access_nb, make_unknown_errno_nb]
       done)
    | (simp only [Option.some.injEq] at h
       have h2 := congrArg Prod.snd h
       dsimp only at h2
       rw [← h2]
       solve_by_elim [mkfs_stat_nb, stat_access_nb, make_unknown_errno_nb]
       done)
    | (solve_by_elim [mkfs_stat_nb, stat_access_nb, make_unknown_errno_nb]
       done)
    | (obtain ⟨y, hy, hy2⟩ := Option.map_eq_some'.mp h
       simp only [Prod.mk.injEq] at hy2
       first | rw [← hy2.2.2] | rw [← hy2.2]
       solve_by_elim [mkfs_stat_nb, stat_access_nb, make_unknown_errno_nb]
       done)

theorem mkfs_truncate_nb {e : Env} {s s1 : State} {path : String} {length r : Int} {k : Nat}
    (h : __mkfs_truncate e s path length = some (r, s1)) (hk : s.maps_nb_used = k) :
    s1.maps_nb_used = k := by
  unfold __mkfs_truncate at h
  repeat' first | split at h | (simp only [] at h; split at h)
  all_goals first
    | (simp at h; done)
    | (simp only [Option.some.injEq, Prod.mk.injEq] at h
       rw [← h.2]
       try dsimp only
       solve_by_elim [stat_access_nb]
       done)
    | (obtain ⟨y, hy, hy2⟩ := Option.map_eq_some'.mp h
       simp only [Prod.mk.injEq] at hy2
       rw [← hy2.2]
       rename_i hq
       exact set_fs_file_nb hy (set_stat_nb hq (@stat_access_nb e s _ e.W_OK k hk)))

theorem mkfs_ftruncate_nb {e : Env} {s s1 : State} {fd length r : Int} {k : Nat}
    (h : __mkfs_ftruncate e s fd length = some (r, s1)) (hk : s.maps_nb_used = k) :
    s1.maps_nb_used = k := by
  unfold __mkfs_ftruncate at h
  cases hc : __mkfs_check_fd_file_ok_for_writing e s fd with
  | none => simp [hc] at h
  | some t =>
    obtain ⟨ret, sA⟩ := t
    have hA : sA.maps_nb_used = k := check_writing_nb hc hk
    simp only [hc] at h
    by_cases hret : ret = -1
    · rw [if_pos hret] at h
      simp only [Option.some.injEq, Prod.mk.injEq] at h
      rw [← h.2]
      exact hA
    · rw [if_neg hret] at h
      cases hg : __mkfs_get_file_info e sA fd with
      | none => simp [hg] at h
      | some o =>
        cases o with
        | none => simp [hg] at h
        | some idx =>
          simp only [hg] at h
          cases hf : file_info_stat sA idx with
          | none => simp [hf] at h
          | some t5 =>
            obtain ⟨i0, fr0, f0, sr0, st0⟩ := t5
            simp only [hf] at h
            have hB : (stat_access e sA st0 e.W_OK).2.maps_nb_used = k := stat_access_nb hA
            generalize stat_access e sA st0 e.W_OK = R at h hB
            obtain ⟨r1, sB⟩ := R
            simp only at h hB
            by_cases hr1 : r1 ≠ 0
            · rw [if_pos hr1] at h
              simp only [Option.some.injEq, Prod.mk.injEq] at h
              rw [← h.2]
              exact hB
            · rw [if_neg hr1] at h
              by_cases hl : length < 0
              · rw [if_pos hl] at h
                simp only [Option.some.injEq, Prod.mk.injEq] at h
                rw [← h.2]
                exact hB
              · rw [if_neg hl] at h
                cases hf2 : file_info_stat sB idx with
                | none => simp [hf2] at h
                | some t6 =>
                  obtain ⟨i1, fr1, f1, sr1, st1⟩ := t6
                  simp only [hf2] at h
                  split at h
                  · simp at h
                  · rename_i s2 hres
                    have hC : s2.maps_nb_used = k := by
                      repeat' split at hres
                      all_goals first
                        | (simp at hres; done)
                        | (simp only [Option.some.injEq] at hres
                           rw [← hres]
                           exact hB)
                    obtain ⟨y, hy, hy2⟩ := Option.map_eq_some'.mp h
                    simp only [Prod.mk.injEq] at hy2
                    rw [← hy2.2]
                    exact set_stat_nb hy hC

theorem mkfs_ungetc_nb {e : Env} {s s1 : State} {c fd r : Int} {k : Nat}
    (h : __mkfs_ungetc e s c fd = some (r, s1)) (hk : s.maps_nb_used = k) :
    s1.maps_nb_used = k := by
  unfold __mkfs_ungetc at h
  cases hc : __mkfs_check_fd_file_ok_for_reading e s fd with
  | none => simp [hc] at h
  | some t =>
    obtain ⟨ret, sA⟩ := t
    have hA : sA.maps_nb_used = k := check_reading_nb hc hk
    simp only [hc] at h
    by_cases hret : ret ≠ 0
    · rw [if_pos hret] at h
      simp only [Option.some.injEq, Prod.mk.injEq] at h
      rw [← h.2]
      exact hA
    · rw [if_neg hret] at h
      cases hg : __mkfs_get_file_info e sA fd with
      | none => simp [hg] at h
      | some o =>
        cases o with
        | none => simp [hg] at h
        | some idx =>
          simp only [hg] at h
          cases hf : file_info_file sA idx with
          | none => simp [hf] at h
          | some t3 =>
            obtain ⟨info, fr, f⟩ := t3
            simp only [hf] at h
            split at h
            · simp at h
            · rename_i info1 s2 hst
              have hC : s2.maps_nb_used = k := by
                repeat' first | split at hst | (simp only [] at hst; split at hst)
                all_goals first
                  | (simp at hst; done)
                  | (simp only [Option.some.injEq, Prod.mk.injEq] at hst
                     rw [← hst.2]
                     exact hA)
              repeat' first | split at h | (simp only [] at h; split at h)
              all_goals first
                | (simp at h; done)
                | (simp only [Option.some.injEq, Prod.mk.injEq] at h
                   rw [← h.2]
                   exact random_error_nb hC)

theorem mkfs_dup2_nb {e : Env} {s s1 : State} {a b r : Int} {k : Nat}
    (h : __mkfs_dup2 e s a b = some (r, s1)) (hk : s.maps_nb_used = k) :
    s1.maps_nb_used = k := by
  unfold __mkfs_dup2 at h
  simp only at h
  by_cases h1 : (__mkfs_check_fd_ok e s a).1 = -1
  · rw [if_pos h1] at h
    simp only [Option.some.injEq, Prod.mk.injEq] at h
    rw [← h.2]
    exact check_fd_ok_nb hk
  · rw [if_neg h1] at h
    cases hd : arr_get s.file_desc a with
    | none => simp [hd] at h
    | some d =>
      simp only [hd] at h
      by_cases h2 : d.fd_kind = 0
      · rw [if_pos h2] at h
        simp only [Option.some.injEq, Prod.mk.injEq] at h
        rw [← h.2]
        exact hk
      · rw [if_neg h2] at h
        by_cases h3 : (__mkfs_check_fd_ok e s b).1 = -1
        · rw [if_pos h3] at h
          simp only [Option.some.injEq, Prod.mk.injEq] at h
          rw [← h.2]
          exact check_fd_ok_nb hk
        · rw [if_neg h3] at h
          by_cases h4 : b = a
          · rw [if_pos h4] at h
            simp only [Option.some.injEq, Prod.mk.injEq] at h
            rw [← h.2]
            exact hk
          · rw [if_neg h4] at h
            cases hdn : arr_get s.file_desc b with
            | none => simp [hdn] at h
            | some dn =>
              simp only [hdn] at h
              split at h
              · simp at h
              · rename_i sA hcl
                have hA : sA.maps_nb_used = k := by
                  split at hcl
                  · obtain ⟨y, hy, hy2⟩ := Option.map_eq_some'.mp hcl
                    obtain ⟨r0, sy⟩ := y
                    simp only at hy2
                    rw [← hy2]
                    exact mkfs_close_nb hy hk
                  · simp only [Option.some.injEq] at hcl
                    rw [← hcl]
                    exact hk
                repeat' split at h
                all_goals first
                  | (simp at h; done)
                  | (simp only [Option.some.injEq, Prod.mk.injEq] at h
                     rw [← h.2]
                     exact hA)

/-! ## What `open` does to the state -/

theorem get_next_file_desc_amb {e : Env} {s s3 : State} {fd : Int}
    (h : get_next_file_desc e s = some (fd, s3)) : ∃ a b, s3 = ambient s a b := by
  unfold get_next_file_desc at h
  obtain ⟨a, b, hab⟩ := random_error_shape e s
  repeat' first | split at h | (simp only [] at h; split at h)
  all_goals first
    | (simp at h; done)
    | (simp only [Option.some.injEq, Prod.mk.injEq] at h
       rw [← h.2]
       exact ⟨s.errno, s.nondet, rfl⟩)
    | (simp only [Option.some.injEq, Prod.mk.injEq] at h
       rw [← h.2, hab]
       exact ⟨a, b, rfl⟩)
    | (simp only [Option.some.injEq, Prod.mk.injEq] at h
       rw [← h.2, hab]
       exact ⟨e.EMFILE, b, rfl⟩)

theorem open_fd_nb {e : Env} {s s1 : State} {fd kind r : Int} {flags : Nat}
    {content : Option (List Nat)} {file : FileRef} {k : Nat}
    (h : open_fd e s fd kind flags content file = some (r, s1)) (hk : s.maps_nb_used = k) :
    s1.maps_nb_used = k := by
  unfold open_fd at h
  split at h
  · cases hg : get_fs_file s file with
    | none => simp [hg] at h
    | some f0 =>
      simp only [hg] at h
      cases hsr : f0.stat with
      | none => simp [hsr] at h
      | some sr =>
        simp only [hsr] at h
        cases hi : init_fd_file e s fd kind flags (some file) with
        | none => simp [hi] at h
        | some t =>
          obtain ⟨x, sA⟩ := t
          have hA : sA.maps_nb_used = k := init_fd_file_nb hi hk
          simp only [hi] at h
          split at h
          · simp at h
          · rename_i sB htr
            have hB : sB.maps_nb_used = k := by
              split at htr
              · obtain ⟨st, _, hset⟩ := Option.bind_eq_some.mp htr
                exact set_stat_nb hset hA
              · simp only [Option.some.injEq] at htr
                rw [← htr]
                exact hA
            repeat' first | split at h | (simp only [] at h; split at h)
            all_goals first
              | (simp at h; done)
              | (simp only [Option.some.injEq, Prod.mk.injEq] at h
                 rw [← h.2]
                 exact hB)
              | (obtain ⟨y, hy, hy2⟩ := Option.map_eq_some'.mp h
                 simp only [Prod.mk.injEq] at hy2
                 rw [← hy2.2]
                 exact set_fs_file_nb hy hB)
  · simp at h

/-- The two ways of `open_file` out: -1 after the file named has been looked
up or created, with nothing else changed than `errno` and the stream of unknown
values; or the descriptor, after `open_fd` has run on it. -/
theorem open_file_inv {e : Env} {s s2 : State} {path : String} {flags mode : Nat} {r : Int}
    (h : open_file e s path flags mode = some (r, s2)) :
    ∃ s0, (s0 = s ∨ (flags &&& e.O_CREAT ≠ 0 ∧ __mkfs_get_file s path = none ∧
              ∃ x, create_file e s path mode = some (x, s0))) ∧
      ((r = -1 ∧ ∃ a b, s2 = ambient s0 a b) ∨
       (r ≠ -1 ∧ ∃ a b kind content file,
          open_fd e (ambient s0 a b) r kind flags content file = some (0, s2))) := by
  unfold open_file at h
  by_cases hreq : tis_open_flags e flags = true
  · rw [if_pos hreq] at h
    simp only at h
    split at h
    · simp at h
    · simp only [Option.some.injEq, Prod.mk.injEq] at h
      exact ⟨s, Or.inl rfl, Or.inl ⟨h.1.symm, e.EEXIST, s.nondet, h.2.symm⟩⟩
    · rename_i s0 heq
      have hs0 : s0 = s ∨ (flags &&& e.O_CREAT ≠ 0 ∧ __mkfs_get_file s path = none ∧
          ∃ x, create_file e s path mode = some (x, s0)) := by
        split at heq
        · rename_i hcr
          split at heq
          · rename_i hnone
            obtain ⟨y, hy, hy2⟩ := Option.map_eq_some'.mp heq
            simp only [Option.some.injEq] at hy2
            subst hy2
            exact Or.inr ⟨hcr, hnone, none, hy⟩
          · split at heq
            · simp at heq
            · simp at heq
        · simp only [Option.some.injEq, Prod.mk.injEq] at heq
          exact Or.inl heq.2.symm
      refine ⟨s0, hs0, Or.inl ?_⟩
      split at h
      · simp only [Option.some.injEq, Prod.mk.injEq] at h
        exact ⟨h.1.symm, s0.errno, s0.nondet, h.2.symm⟩
      · simp only [Option.some.injEq, Prod.mk.injEq] at h
        exact ⟨h.1.symm, e.ENOENT, s0.nondet, h.2.symm⟩
    · rename_i i s0 heq
      have hs0 : s0 = s ∨ (flags &&& e.O_CREAT ≠ 0 ∧ __mkfs_get_file s path = none ∧
          ∃ x, create_file e s path mode = some (x, s0)) := by
        split at heq
        · rename_i hcr
          split at heq
          · rename_i hnone
            obtain ⟨y, hy, hy2⟩ := Option.map_eq_some'.mp heq
            simp only [Option.some.injEq] at hy2
            subst hy2
            exact Or.inr ⟨hcr, hnone, some i, hy⟩
          · split at heq
            · simp at heq
            · simp only [Option.some.injEq, Prod.mk.injEq] at heq
              exact Or.inl heq.2.symm
        · simp only [Option.some.injEq, Prod.mk.injEq] at heq
          exact Or.inl heq.2.symm
      refine ⟨s0, hs0, ?_⟩
      cases hgf : get_fs_file s0 (FileRef.fs_files i) with
      | none => simp [hgf] at h
      | some f =>
        simp only [hgf] at h
        cases hfs : file_stat s0 f with
        | none => simp [hfs] at h
        | some t =>
          obtain ⟨sr, st⟩ := t
          simp only [hfs] at h
          generalize hr1 : (if flags &&& e.O_RDONLY ≠ 0 ∨ flags &&& e.O_RDWR ≠ 0
            then stat_access e s0 st e.R_OK else ((0 : Int), s0)) = r1 at h
          obtain ⟨a1, b1, hs1⟩ := access_step_shape e s0 st e.R_OK _ hr1
          obtain ⟨x1, sx1⟩ := r1
          simp only at hs1
          subst hs1
          simp only at h
          by_cases hx1 : x1 = -1
          · simp only [hx1, if_true, Option.some.injEq, Prod.mk.injEq] at h
            exact Or.inl ⟨h.1.symm, a1, b1, h.2.symm⟩
          · simp only [if_neg hx1] at h
            generalize hr2 : (if flags &&& e.O_WRONLY ≠ 0 ∨ flags &&& e.O_RDWR ≠ 0
              then stat_access e (ambient s0 a1 b1) st e.W_OK
              else ((0 : Int), ambient s0 a1 b1)) = r2 at h
            obtain ⟨a2, b2, hs2⟩ := access_step_shape e (ambient s0 a1 b1) st e.W_OK _ hr2
            obtain ⟨x2, sx2⟩ := r2
            simp only [ambient_ambient] at hs2
            subst hs2
            simp only at h
            by_cases hx2 : x2 = -1
            · simp only [hx2, if_true, Option.some.injEq, Prod.mk.injEq] at h
              exact Or.inl ⟨h.1.symm, a2, b2, h.2.symm⟩
            · simp only [if_neg hx2] at h
              cases hgn : get_next_file_desc e (ambient s0 a2 b2) with
              | none => simp [hgn] at h
              | some t =>
                obtain ⟨fd1, s3⟩ := t
                simp only [hgn] at h
                by_cases hfd1 : fd1 ≠ -1
                · have hs3 := get_next_file_desc_inv hgn hfd1
                  subst hs3
                  rw [if_pos hfd1] at h
                  split at h
                  · simp at h
                  · rename_i res s4 hop
                    have hres := open_fd_res hop
                    subst hres
                    simp only [ne_eq, not_true_eq_false, if_false, Option.some.injEq,
                      Prod.mk.injEq] at h
                    obtain ⟨h1, h2⟩ := h
                    subst h1
                    subst h2
                    exact Or.inr ⟨hfd1, a2, b2, _, _, _, hop⟩
                · rw [if_neg hfd1] at h
                  simp only [Option.some.injEq, Prod.mk.injEq] at h
                  obtain ⟨a3, b3, hs3⟩ := get_next_file_desc_amb hgn
                  refine Or.inl ⟨h.1.symm.trans (Decidable.not_not.mp hfd1), a3, b3, ?_⟩
                  rw [← h.2, hs3]
                  rfl
  · rw [if_neg hreq] at h
    simp at h

theorem open_file_nb {e : Env} {s s1 : State} {path : String} {flags mode : Nat} {r : Int}
    {k : Nat} (h : open_file e s path flags mode = some (r, s1)) (hk : s.maps_nb_used = k) :
    s1.maps_nb_used = k := by
  obtain ⟨s0, h0, h1⟩ := open_file_inv h
  have hk0 : s0.maps_nb_used = k := by
    rcases h0 with h0 | ⟨_, _, x, hx⟩
    · rw [h0]
      exact hk
    · exact create_file_nb hx hk
  rcases h1 with ⟨_, a, b, hab⟩ | ⟨_, a, b, kind, content, file, hop⟩
  · rw [hab]
    exact hk0
  · exact open_fd_nb hop hk0

theorem mkfs_open_nb {e : Env} {s s1 : State} {path : String} {flags mode : Nat} {r : Int}
    {k : Nat} (h : __mkfs_open e s path flags mode = some (r, s1)) (hk : s.maps_nb_used = k) :
    s1.maps_nb_used = k :=
  open_file_nb h hk

theorem mkfs_creat_nb {e : Env} {s s1 : State} {path : String} {mode : Nat} {r : Int}
    {k : Nat} (h : __mkfs_creat e s path mode = some (r, s1)) (hk : s.maps_nb_used = k) :
    s1.maps_nb_used = k :=
  open_file_nb h hk

/-! ## The map table under `mmap`, `munmap` and `msync` -/

theorem tis_next_nb_eq (s : State) : (tis_next s).2.maps_nb_used = s.maps_nb_used :=
  tis_next_nb rfl

theorem random_error_nb_eq (e : Env) (s : State) :
    (RETURN_RANDOM_ERROR e s).2.maps_nb_used = s.maps_nb_used :=
  random_error_nb rfl

theorem random_error_maps (e : Env) (s : State) : (RETURN_RANDOM_ERROR e s).2.maps = s.maps := by
  obtain ⟨a, b, h⟩ := random_error_shape e s
  rw [h]
  rfl

theorem region_store_nb {s s1 : State} {addr : Int} {off : Nat} {bytes : List Nat} {k : Nat}
    (h : region_store s addr off bytes = some s1) (hk : s.maps_nb_used = k) :
    s1.maps_nb_used = k := by
  unfold region_store at h
  repeat' split at h
  all_goals first
    | (simp at h; done)
    | (simp only [Option.some.injEq] at h
       rw [← h]
       exact hk)

theorem map_free_kept {s s1 : State} {addr : Int} (h : map_free s addr = some s1) :
    s1.maps_nb_used = s.maps_nb_used ∧ s1.maps = s.maps := by
  unfold map_free at h
  repeat' split at h
  all_goals first
    | (simp at h; done)
    | (simp only [Option.some.injEq] at h
       rw [← h]
       exact ⟨rfl, rfl⟩)

theorem memcpy_map_kept {e : Env} {s s1 : State} {i : Nat}
    (h : memcpy_map_to_file e s i = some s1) :
    s1.maps_nb_used = s.maps_nb_used ∧ s1.maps = s.maps := by
  unfold memcpy_map_to_file at h
  repeat' split at h
  all_goals first
    | (simp at h; done)
    | (simp only [Option.some.injEq] at h
       rw [← h]
       exact ⟨rfl, rfl⟩)

theorem msync_map_kept {e : Env} {s s1 : State} {i : Nat}
    (h : msync_map_to_file e s i = some s1) :
    s1.maps_nb_used = s.maps_nb_used ∧ s1.maps = s.maps := by
  unfold msync_map_to_file at h
  repeat' split at h
  all_goals first
    | (simp at h; done)
    | exact memcpy_map_kept h

/-- What `munmap` does to the map table: the counter keeps its value, and when
the call returns 0 one entry has been marked released, by the buffer NULL, the
address NULL and the length 0. -/
theorem munmap_inv {e : Env} {s s1 : State} {addr : Int} {len : Nat} {r : Int}
    (h : __mkfs_munmap e s addr len = some (r, s1)) :
    s1.maps_nb_used = s.maps_nb_used ∧
    (r ≠ 0 → s1.maps = s.maps) ∧
    (r = 0 → ∃ i m, s.maps[i]? = some m ∧
      s1.maps = s.maps.set i { m with data := none, addr := 0, length := 0 }) := by
  unfold __mkfs_munmap at h
  simp only at h
  have hnb := random_error_nb_eq e s
  have hmaps := random_error_maps e s
  generalize (RETURN_RANDOM_ERROR e s) = R at h hnb hmaps
  obtain ⟨b, sA⟩ := R
  simp only at h hnb hmaps
  by_cases hb : b = true
  · rw [if_pos hb] at h
    simp only [Option.some.injEq, Prod.mk.injEq] at h
    rw [← h.2, ← h.1]
    exact ⟨hnb, fun _ => hmaps, fun h0 => absurd h0 (by decide)⟩
  · rw [if_neg hb] at h
    cases hf : find_addr_map sA addr len with
    | none => simp [hf] at h
    | some o =>
      cases o with
      | none =>
        simp only [hf, Option.some.injEq, Prod.mk.injEq] at h
        rw [← h.2, ← h.1]
        exact ⟨hnb, fun _ => hmaps, fun h0 => absurd h0 (by decide)⟩
      | some i =>
        simp only [hf] at h
        cases hm : sA.maps[i]? with
        | none => simp [hm] at h
        | some m =>
          simp only [hm] at h
          split at h
          · simp at h
          · rename_i sB hsync
            have hB : sB.maps_nb_used = sA.maps_nb_used ∧ sB.maps = sA.maps := by
              split at hsync
              · exact msync_map_kept hsync
              · simp only [Option.some.injEq] at hsync
                rw [← hsync]
                exact ⟨rfl, rfl⟩
            cases hfr : map_free sB m.addr with
            | none => simp [hfr] at h
            | some sC =>
              obtain ⟨hC1, hC2⟩ := map_free_kept hfr
              simp only [hfr, Option.some.injEq, Prod.mk.injEq] at h
              rw [← h.2, ← h.1]
              refine ⟨?_, fun h0 => absurd rfl h0, fun _ => ⟨i, m, ?_, ?_⟩⟩
              · show sC.maps_nb_used = s.maps_nb_used
                rw [hC1, hB.1, hnb]
              · rw [← hmaps]
                exact hm
              · show sC.maps.set i _ = _
                rw [hC2, hB.2, hmaps]

theorem munmap_nb {e : Env} {s s1 : State} {addr : Int} {len : Nat} {r : Int} {k : Nat}
    (h : __mkfs_munmap e s addr len = some (r, s1)) (hk : s.maps_nb_used = k) :
    s1.maps_nb_used = k :=
  (munmap_inv h).1.trans hk

theorem msync_nb {e : Env} {s s1 : State} {addr : Int} {len : Nat} {flags r : Int} {k : Nat}
    (h : msync e s addr len flags = some (r, s1)) (hk : s.maps_nb_used = k) :
    s1.maps_nb_used = k := by
  unfold msync at h
  repeat' split at h
  all_goals first
    | (simp at h; done)
    | (simp only [Option.some.injEq, Prod.mk.injEq] at h
       rw [← h.2]
       exact hk)
    | (obtain ⟨y, hy, hy2⟩ := Option.map_eq_some'.mp h
       simp only [Prod.mk.injEq] at hy2
       rw [← hy2.2]
       exact (msync_map_kept hy).1.trans hk)

theorem check_mmap_prot_nb {e : Env} {s s1 : State} {fd prot r : Int} {k : Nat}
    (h : __mkfs_check_mmap_prot e s fd prot = some (r, s1)) (hk : s.maps_nb_used = k) :
    s1.maps_nb_used = k := by
  unfold __mkfs_check_mmap_prot at h
  repeat' split at h
  all_goals first
    | (simp at h; done)
    | (simp only [Option.some.injEq, Prod.mk.injEq] at h
       rw [← h.2]
       solve_by_elim [check_reading_nb, check_writing_nb]
       done)
    | (solve_by_elim [check_reading_nb, check_writing_nb]
       done)

/-- The function `add_map` never lowers the counter of the map table. -/
theorem add_map_le {e : Env} {s s1 : State} {data : Option Nat} {len : Nat} {sh w : Bool}
    {q : Int} (h : add_map e s data len sh w = some (q, s1)) :
    s.maps_nb_used ≤ s1.maps_nb_used := by
  unfold add_map at h
  repeat' first | split at h | (simp only [] at h; split at h)
  all_goals first
    | (simp at h; done)
    | (simp only [Option.some.injEq, Prod.mk.injEq] at h
       rw [← h.2]
       try simp only [tis_next_nb_eq]
       try dsimp only
       try omega
       done)

/-- With the map table full, `add_map` fails with `ENOMEM` as soon as it does
not reuse an entry. -/
theorem add_map_full {e : Env} {s : State} (hfull : e.FOPEN_MAX ≤ s.maps_nb_used)
    (data : Option Nat) (len : Nat) (sh w : Bool)
    (hfind : sh = true → find_data_map s data = some none) :
    add_map e s data len sh w = some (MAP_FAILED, { s with errno := e.ENOMEM }) := by
  have hsel : (if sh = true then find_data_map s data else some none) = some none := by
    cases sh
    · rfl
    · simpa using hfind rfl
  unfold add_map
  rw [hsel]
  simp only
  rw [if_pos hfull]

/-- With the map table full, `add_map` returns the address of an entry in use
or fails, and does not change the table. -/
theorem add_map_full_inv {e : Env} {s s1 : State} (hfull : e.FOPEN_MAX ≤ s.maps_nb_used)
    {data : Option Nat} {len : Nat} {sh w : Bool} {q : Int}
    (h : add_map e s data len sh w = some (q, s1)) :
    s1.maps = s.maps ∧ s1.maps_nb_used = s.maps_nb_used ∧
    (q ≠ MAP_FAILED → sh = true ∧
      ∃ i m, i < s.maps_nb_used ∧ s.maps[i]? = some m ∧ m.data = data ∧ m.addr = q) := by
  cases hsel : (if sh = true then find_data_map s data else some none) with
  | none =>
    unfold add_map at h
    simp [hsel] at h
  | some o =>
    cases o with
    | none =>
      unfold add_map at h
      rw [hsel] at h
      simp only at h
      rw [if_pos hfull] at h
      simp only [Option.some.injEq, Prod.mk.injEq] at h
      rw [← h.2, ← h.1]
      exact ⟨rfl, rfl, fun hq => absurd rfl hq⟩
    | some i =>
      have hsh : sh = true := by
        cases sh
        · simp at hsel
        · rfl
      subst hsh
      simp only [if_true] at hsel
      unfold add_map at h
      simp only [if_true, hsel] at h
      cases hm : s.maps[i]? with
      | none => simp [hm] at h
      | some m =>
        simp only [hm, Option.some.injEq, Prod.mk.injEq] at h
        rw [← h.2, ← h.1]
        unfold find_data_map at hsel
        obtain ⟨_, hlt, m1, hm1, hd⟩ := find_data_loop_found hsel
        rw [hm] at hm1
        simp only [Option.some.injEq] at hm1
        subst hm1
        exact ⟨rfl, rfl, fun _ => ⟨rfl, i, m, by omega, hm, hd, rfl⟩⟩

theorem check_mmap_prot_amb {e : Env} {s s1 : State} {fd prot r : Int}
    (h : __mkfs_check_mmap_prot e s fd prot = some (r, s1)) : ∃ a b, s1 = ambient s a b := by
  unfold __mkfs_check_mmap_prot at h
  cases hc : __mkfs_check_fd_file_ok_for_reading e s fd with
  | none => simp [hc] at h
  | some t =>
    obtain ⟨ret, sA⟩ := t
    obtain ⟨a, b, hA⟩ := check_reading_amb hc
    subst hA
    simp only [hc] at h
    repeat' split at h
    all_goals first
      | (simp at h; done)
      | (simp only [Option.some.injEq, Prod.mk.injEq] at h
         exact ⟨a, b, h.2.symm⟩)
      | (obtain ⟨a2, b2, h2⟩ := check_writing_amb h
         exact ⟨a2, b2, h2⟩)

/-- The two ways of `mmap` out: `MAP_FAILED` with the map table untouched, or the
result of `add_map`, called with `shared` true exactly when `flags` hold
`MAP_SHARED`, in a state that differs from the first by `errno` and the stream
of unknown values at most. -/
theorem mmap_cases {e : Env} {s s2 : State} {a : Int} {len : Nat} {prot flags fd off r : Int}
    (h : __mkfs_mmap e s a len prot flags fd off = some (r, s2)) :
    (r = MAP_FAILED ∧ s2.maps = s.maps ∧ s2.maps_nb_used = s.maps_nb_used) ∨
    ∃ x y data sh w, (sh = true ↔ land_int flags e.MAP_SHARED ≠ 0) ∧
      add_map e (ambient s x y) data len sh w = some (r, s2) := by
  unfold __mkfs_mmap at h
  by_cases h1 : land_int flags e.MAP_FIXED ≠ 0
  · rw [if_pos h1] at h
    simp only [Option.some.injEq, Prod.mk.injEq] at h
    rw [← h.1, ← h.2]
    exact Or.inl ⟨rfl, rfl, rfl⟩
  · rw [if_neg h1] at h
    by_cases h2 : off ≠ 0
    · rw [if_pos h2] at h
      simp only [Option.some.injEq, Prod.mk.injEq] at h
      rw [← h.1, ← h.2]
      exact Or.inl ⟨rfl, rfl, rfl⟩
    · rw [if_neg h2] at h
      cases hg : __mkfs_get_file_info e s fd with
      | none => simp [hg] at h
      | some o =>
        cases o with
        | none => simp [hg] at h
        | some idx =>
          simp only [hg] at h
          cases hf : file_info_stat s idx with
          | none => simp [hf] at h
          | some t5 =>
            obtain ⟨i0, fr0, f0, sr0, st0⟩ := t5
            simp only [hf] at h
            by_cases h3 : len ≠ to_size_t e st0.st_size
            · rw [if_pos h3] at h
              simp only [Option.some.injEq, Prod.mk.injEq] at h
              rw [← h.1, ← h.2]
              exact Or.inl ⟨rfl, rfl, rfl⟩
            · rw [if_neg h3] at h
              cases hc : __mkfs_check_mmap_prot e s fd prot with
              | none => simp [hc] at h
              | some t =>
                obtain ⟨ret, sA⟩ := t
                obtain ⟨x, y, hA⟩ := check_mmap_prot_amb hc
                subst hA
                simp only [hc] at h
                by_cases h4 : ret ≠ 0
                · rw [if_pos h4] at h
                  simp only [Option.some.injEq, Prod.mk.injEq] at h
                  rw [← h.1, ← h.2]
                  exact Or.inl ⟨rfl, rfl, rfl⟩
                · rw [if_neg h4] at h
                  by_cases h5 : land_int flags (if (e.MAP_SHARED : Int) = flags then 1 else 0)
                      &&& e.MAP_PRIVATE ≠ 0
                  · rw [if_pos h5] at h
                    simp only [Option.some.injEq, Prod.mk.injEq] at h
                    rw [← h.1, ← h.2]
                    exact Or.inl ⟨rfl, rfl, rfl⟩
                  · rw [if_neg h5] at h
                    obtain ⟨x2, y2, hR0⟩ := random_error_shape e (ambient s x y)
                    have hR : (RETURN_RANDOM_ERROR e (ambient s x y)).2 = ambient s x2 y2 := hR0
                    generalize (RETURN_RANDOM_ERROR e (ambient s x y)) = R at h hR
                    obtain ⟨b, sB⟩ := R
                    simp only at hR
                    subst hR
                    simp only at h
                    by_cases hb : b = true
                    · rw [if_pos hb] at h
                      simp only [Option.some.injEq, Prod.mk.injEq] at h
                      rw [← h.1, ← h.2]
                      exact Or.inl ⟨rfl, rfl, rfl⟩
                    · rw [if_neg hb] at h
                      cases hff : file_info_file (ambient s x2 y2) idx with
                      | none => simp [hff] at h
                      | some t3 =>
                        obtain ⟨i1, fr1, f1⟩ := t3
                        simp only [hff] at h
                        by_cases h6 : land_int flags e.MAP_SHARED ≠ 0
                        · rw [if_pos h6] at h
                          exact Or.inr ⟨x2, y2, _, true, _, by simp [h6], h⟩
                        · rw [if_neg h6] at h
                          exact Or.inr ⟨x2, y2, _, false, _, by simp [h6], h⟩

theorem mmap_le {e : Env} {s s2 : State} {a : Int} {len : Nat} {prot flags fd off r : Int}
    (h : __mkfs_mmap e s a len prot flags fd off = some (r, s2)) :
    s.maps_nb_used ≤ s2.maps_nb_used := by
  rcases mmap_cases h with ⟨_, _, h2⟩ | ⟨x, y, data, sh, w, _, hadd⟩
  · exact h2.ge
  · have hle := add_map_le hadd
    exact hle

/-- An `mmap` call on a full map table makes no entry: it fails, or its flags
hold `MAP_SHARED` and it returns the address of an entry in use. -/
theorem mmap_full_inv {e : Env} {s s2 : State} (hfull : e.FOPEN_MAX ≤ s.maps_nb_used)
    {a : Int} {len : Nat} {prot flags fd off r : Int}
    (h : __mkfs_mmap e s a len prot flags fd off = some (r, s2)) :
    s2.maps = s.maps ∧ s2.maps_nb_used = s.maps_nb_used ∧
    (r ≠ MAP_FAILED → land_int flags e.MAP_SHARED ≠ 0 ∧
      ∃ i m, i < s.maps_nb_used ∧ s.maps[i]? = some m ∧ m.addr = r) := by
  rcases mmap_cases h with ⟨h1, h2, h3⟩ | ⟨x, y, data, sh, w, hsh, hadd⟩
  · exact ⟨h2, h3, fun hr => absurd h1 hr⟩
  · have hfull2 : e.FOPEN_MAX ≤ (ambient s x y).maps_nb_used := hfull
    obtain ⟨j1, j2, j3⟩ := add_map_full_inv hfull2 hadd
    refine ⟨j1, j2, fun hr => ?_⟩
    obtain ⟨k1, i, m, k2, k3, _, k4⟩ := j3 hr
    exact ⟨hsh.mp k1, i, m, k2, k3, k4⟩

/-- In the build without random errors, an `mmap` call that passes every check
and needs a new entry fails with `ENOMEM` when the map table is full. -/
theorem mmap_full_enomem {e : Env} (hs : e.Sane) (hne : e.no_err = true)
    (hbits : e.MAP_SHARED &&& e.MAP_PRIVATE = 0) {s : State}
    (hfull : e.FOPEN_MAX ≤ s.maps_nb_used) {fd idx : Int} {info : mkfs_file_info}
    {fr : FileRef} {f : mkfs_fs_file} {sr : StatRef} {st : Stat}
    (hopen : fd_open e s fd idx info fr f sr st) (a : Int) (len : Nat) (prot flags : Int)
    (hfix : land_int flags e.MAP_FIXED = 0) (hlen : len = to_size_t e st.st_size)
    (hchk : __mkfs_check_mmap_prot e s fd prot = some (0, s))
    (hfind : land_int flags e.MAP_SHARED ≠ 0 → find_data_map s f.data = some none) :
    __mkfs_mmap e s a len prot flags fd 0 = some (MAP_FAILED, { s with errno := e.ENOMEM }) := by
  have hfi := fd_open_get_file_info hs hopen
  have hst := hopen.2.2.2
  have hff := (file_info_stat_parts hst).2.2.1
  unfold __mkfs_mmap
  rw [if_neg (fun hx => hx hfix), if_neg (fun hx => hx rfl)]
  simp only [hfi, hst]
  rw [if_neg (fun hx => hx hlen)]
  simp only [hchk]
  rw [if_neg (fun hx => hx rfl), if_neg (fun hx => hx (mmap_flags_test_dead e hbits flags))]
  simp only [random_error_no_err e s hne, Bool.false_eq_true, if_false, hff]
  by_cases h6 : land_int flags e.MAP_SHARED ≠ 0
  · rw [if_pos h6]
    exact add_map_full hfull _ _ _ _ (fun _ => hfind h6)
  · rw [if_neg h6]
    exact add_map_full hfull _ _ _ _ (fun hx => absurd hx (by decide))

/-! ## Every call of the interface -/

theorem run_call_le {e : Env} {s s1 : State} {c : Call} (h : run_call e s c = some s1) :
    s.maps_nb_used ≤ s1.maps_nb_used := by
  cases c with
  | «open» path flags mode =>
    obtain ⟨⟨r, t⟩, hy, rfl⟩ := Option.map_eq_some'.mp h
    exact (mkfs_open_nb hy rfl).ge
  | creat path mode =>
    obtain ⟨⟨r, t⟩, hy, rfl⟩ := Option.map_eq_some'.mp h
    exact (mkfs_creat_nb hy rfl).ge
  | close fd =>
    obtain ⟨⟨r, t⟩, hy, rfl⟩ := Option.map_eq_some'.mp h
    exact (mkfs_close_nb hy rfl).ge
  | dup2 a b =>
    obtain ⟨⟨r, t⟩, hy, rfl⟩ := Option.map_eq_some'.mp h
    exact (mkfs_dup2_nb hy rfl).ge
  | read fd buf count =>
    obtain ⟨⟨r, bo, t⟩, hy, rfl⟩ := Option.map_eq_some'.mp h
    exact (mkfs_read_nb hy rfl).ge
  | pread fd buf count offset =>
    obtain ⟨⟨r, bo, t⟩, hy, rfl⟩ := Option.map_eq_some'.mp h
    exact (mkfs_pread_nb hy rfl).ge
  | write fd buf =>
    obtain ⟨⟨r, t⟩, hy, rfl⟩ := Option.map_eq_some'.mp h
    exact (mkfs_write_nb hy rfl).ge
  | pwrite fd buf offset =>
    obtain ⟨⟨r, t⟩, hy, rfl⟩ := Option.map_eq_some'.mp h
    exact (mkfs_pwrite_nb hy rfl).ge
  | lseek fd offset whence =>
    obtain ⟨⟨r, t⟩, hy, rfl⟩ := Option.map_eq_some'.mp h
    exact (mkfs_lseek_nb hy rfl).ge
  | ftruncate fd length =>
    obtain ⟨⟨r, t⟩, hy, rfl⟩ := Option.map_eq_some'.mp h
    exact (mkfs_ftruncate_nb hy rfl).ge
  | truncate path length =>
    obtain ⟨⟨r, t⟩, hy, rfl⟩ := Option.map_eq_some'.mp h
    exact (mkfs_truncate_nb hy rfl).ge
  | fcntl fd cmd =>
    obtain ⟨⟨r, t⟩, hy, rfl⟩ := Option.map_eq_some'.mp h
    exact (mkfs_fcntl_nb hy rfl).ge
  | stat path =>
    obtain ⟨⟨r, bo, t⟩, hy, rfl⟩ := Option.map_eq_some'.mp h
    exact (mkfs_stat_nb hy rfl).ge
  | access path mode =>
    obtain ⟨⟨r, t⟩, hy, rfl⟩ := Option.map_eq_some'.mp h
    exact (mkfs_access_nb hy rfl).ge
  | ungetc c fd =>
    obtain ⟨⟨r, t⟩, hy, rfl⟩ := Option.map_eq_some'.mp h
    exact (mkfs_ungetc_nb hy rfl).ge
  | socket domain type protocol =>
    obtain ⟨⟨r, t⟩, hy, rfl⟩ := Option.map_eq_some'.mp h
    exact (mkfs_socket_nb hy rfl).ge
  | opendir path =>
    obtain ⟨⟨r, t⟩, hy, rfl⟩ := Option.map_eq_some'.mp h
    exact (mkfs_opendir_nb hy rfl).ge
  | readdir dirp =>
    obtain ⟨⟨r, t⟩, hy, rfl⟩ := Option.map_eq_some'.mp h
    exact (mkfs_readdir_nb hy rfl).ge
  | mmap addr length prot flags fd offset =>
    obtain ⟨⟨r, t⟩, hy, rfl⟩ := Option.map_eq_some'.mp h
    exact mmap_le hy
  | munmap addr length =>
    obtain ⟨⟨r, t⟩, hy, rfl⟩ := Option.map_eq_some'.mp h
    exact (munmap_nb hy rfl).ge
  | msync addr length flags =>
    obtain ⟨⟨r, t⟩, hy, rfl⟩ := Option.map_eq_some'.mp h
    exact (msync_nb hy rfl).ge
  | store addr off bytes =>
    exact (region_store_nb h rfl).ge

theorem run_calls_le {e : Env} (cs : List Call) :
    ∀ {s s1 : State}, run_calls e s cs = some s1 → s.maps_nb_used ≤ s1.maps_nb_used := by
  induction cs with
  | nil =>
    intro s s1 h
    simp only [run_calls, Option.some.injEq] at h
    rw [h]
  | cons c rest ih =>
    intro s s1 h
    simp only [run_calls] at h
    cases hc : run_call e s c with
    | none => simp [hc] at h
    | some t =>
      simp only [hc] at h
      exact Nat.le_trans (run_call_le hc) (ih h)

/-- C33: the counter `maps.nb_used` of the map table never decreases, under any
call of the type `Call` (the functions of the interface embedded here, `mmap`,
`munmap` and `msync` among them, and a store through a mapped address) or any
sequence of them.  `munmap` keeps the counter; when it returns 0 it has marked
one entry released (buffer NULL, address NULL, length 0) and changed no other
entry.
Once the counter has reached `MMAP_MAX` (which is `FOPEN_MAX`), after any
sequence of calls, `munmap` calls included: an `mmap` call makes no entry and
returns `MAP_FAILED` unless its flags hold `MAP_SHARED` and it returns the
address of an entry in use; `add_map` returns `MAP_FAILED` with `errno` set to
`ENOMEM` whenever it does not reuse an entry; and in the build without random
errors an `mmap` call that passes every check and needs a new entry (its flags
do not hold `MAP_SHARED`, or no entry in use holds the buffer of the file)
returns `MAP_FAILED` with `errno` set to `ENOMEM`. -/
theorem C33_map_entries_never_reclaimed (e : Env) (s : State) :
    (∀ c s1, run_call e s c = some s1 → s.maps_nb_used ≤ s1.maps_nb_used) ∧
    (∀ cs s1, run_calls e s cs = some s1 → s.maps_nb_used ≤ s1.maps_nb_used) ∧
    (∀ addr len r s1, __mkfs_munmap e s addr len = some (r, s1) →
      s1.maps_nb_used = s.maps_nb_used ∧
      (r = 0 → ∃ i m, s.maps[i]? = some m ∧
        s1.maps = s.maps.set i { m with data := none, addr := 0, length := 0 })) ∧
    (e.FOPEN_MAX ≤ s.maps_nb_used → ∀ cs s1, run_calls e s cs = some s1 →
      e.FOPEN_MAX ≤ s1.maps_nb_used ∧
      (∀ a len prot flags fd off r s2,
        __mkfs_mmap e s1 a len prot flags fd off = some (r, s2) →
        s2.maps = s1.maps ∧ s2.maps_nb_used = s1.maps_nb_used ∧
        (r ≠ MAP_FAILED → land_int flags e.MAP_SHARED ≠ 0 ∧
          ∃ i m, i < s1.maps_nb_used ∧ s1.maps[i]? = some m ∧ m.addr = r)) ∧
      (∀ data len sh w, (sh = true → find_data_map s1 data = some none) →
        add_map e s1 data len sh w = some (MAP_FAILED, { s1 with errno := e.ENOMEM })) ∧
      (e.Sane → e.no_err = true → e.MAP_SHARED &&& e.MAP_PRIVATE = 0 →
        ∀ fd idx info fr f sr st a len prot flags,
          fd_open e s1 fd idx info fr f sr st →
          land_int flags e.MAP_FIXED = 0 → len = to_size_t e st.st_size →
          __mkfs_check_mmap_prot e s1 fd prot = some (0, s1) →
          (land_int flags e.MAP_SHARED ≠ 0 → find_data_map s1 f.data = some none) →
          __mkfs_mmap e s1 a len prot flags fd 0 =
            some (MAP_FAILED, { s1 with errno := e.ENOMEM }))) := by
  refine ⟨fun c s1 h => run_call_le h, fun cs s1 h => run_calls_le cs h,
    fun addr len r s1 h => ⟨(munmap_inv h).1, (munmap_inv h).2.2⟩, ?_⟩
  intro hfull cs s1 hrun
  have hfull1 : e.FOPEN_MAX ≤ s1.maps_nb_used := Nat.le_trans hfull (run_calls_le cs hrun)
  refine ⟨hfull1, ?_, ?_, ?_⟩
  · intro a len prot flags fd off r s2 h
    exact mmap_full_inv hfull1 h
  · intro data len sh w hfind
    exact add_map_full hfull1 data len sh w hfind
  · intro hs hne hbits fd idx info fr f sr st a len prot flags hopen hfix hlen hchk hfind
    exact mmap_full_enomem hs hne hbits hfull1 hopen a len prot flags hfix hlen hchk hfind

/-! ## A failed `open` -/

theorem mk_inode_frame {e : Env} {s s1 : State} {mode : Nat} {st : StatRef}
    (h : mk_inode e s mode = some (st, s1)) :
    s1.file_desc = s.file_desc ∧ s1.opened_files = s.opened_files ∧
    s1.next_file_index = s.next_file_index ∧ s1.fs_files = s.fs_files ∧
    s1.next_inode_index = s.next_inode_index + 1 := by
  unfold mk_inode at h
  repeat' first | split at h | (simp only [] at h; split at h)
  all_goals first
    | (simp at h; done)
    | (simp only [Option.some.injEq, Prod.mk.injEq] at h
       rw [← h.2]
       exact ⟨rfl, rfl, rfl, rfl, rfl⟩)

/-- The two ways of `create_file` out: NULL with nothing changed but `errno`
and the stream of unknown values, or the new entry, appended to the file table
with an inode taken from the pool. -/
theorem create_file_inv {e : Env} {s s0 : State} {path : String} {mode : Nat} {x : Option Nat}
    (h : create_file e s path mode = some (x, s0)) :
    (x = none ∧ ∃ a b, s0 = ambient s a b) ∨
    (x = some s.fs_files.length ∧ s0.file_desc = s.file_desc ∧
      s0.opened_files = s.opened_files ∧ s0.next_file_index = s.next_file_index ∧
      s0.next_inode_index = s.next_inode_index + 1 ∧
      ∃ sr, s0.fs_files = s.fs_files ++
        [{ fullpath := some path, stat := some sr, content := none, data := none }]) := by
  unfold create_file at h
  by_cases hfull : s.fs_files.length ≥ s.fs_files_nb_max
  · rw [if_pos hfull] at h
    simp only [Option.some.injEq, Prod.mk.injEq] at h
    exact Or.inl ⟨h.1.symm, e.EMFILE, s.nondet, h.2.symm⟩
  · rw [if_neg hfull] at h
    obtain ⟨a, b, hab⟩ := random_error_shape e s
    simp only at h
    by_cases hinj : (RETURN_RANDOM_ERROR e s).1 = true
    · rw [if_pos hinj] at h
      simp only [Option.some.injEq, Prod.mk.injEq] at h
      exact Or.inl ⟨h.1.symm, a, b, by rw [← h.2, hab]⟩
    · rw [if_neg hinj] at h
      have ha2 : ∃ b2, (if e.no_err = true then ((0 : Int), (RETURN_RANDOM_ERROR e s).2)
          else tis_next (RETURN_RANDOM_ERROR e s).2).2 = ambient s a b2 := by
        split
        · exact ⟨b, hab⟩
        · obtain ⟨b2, hb2⟩ := tis_next_shape (RETURN_RANDOM_ERROR e s).2
          rw [hb2, hab]
          exact ⟨b2, rfl⟩
      obtain ⟨b2, hA2⟩ := ha2
      generalize (if e.no_err = true then ((0 : Int), (RETURN_RANDOM_ERROR e s).2)
          else tis_next (RETURN_RANDOM_ERROR e s).2) = A at h hA2
      obtain ⟨v, sA⟩ := A
      simp only at hA2
      subst hA2
      simp only at h
      by_cases hA : v ≠ 0
      · rw [if_pos hA] at h
        simp only [Option.some.injEq, Prod.mk.injEq] at h
        exact Or.inl ⟨h.1.symm, e.ENOMEM, b2, h.2.symm⟩
      · rw [if_neg hA] at h
        cases hmk : mk_inode e (ambient s a b2) (e.S_IFREG ||| mode) with
        | none => simp [hmk] at h
        | some t =>
          obtain ⟨st, s1⟩ := t
          obtain ⟨j1, j2, j3, j4, j5⟩ := mk_inode_frame hmk
          simp only [hmk, Option.some.injEq, Prod.mk.injEq] at h
          obtain ⟨h1, h2⟩ := h
          refine Or.inr ⟨?_, ?_, ?_, ?_, ?_, st, ?_⟩
          · rw [← h1, j4]
            rfl
          · rw [← h2]
            exact j1
          · rw [← h2]
            exact j2
          · rw [← h2]
            exact j3
          · rw [← h2]
            exact j5
          · rw [← h2]
            show s1.fs_files ++ _ = _
            rw [j4]
            rfl

/-- C34 (amended): in the build with the static data table (neither
`__TIS_MKFS_PREALLOCATE` nor `__TIS_MKFS_DYNAMIC_ALLOCATE`, where `alloc_data`
cannot fail), when `open` returns -1, no descriptor slot and no open-file
record has been allocated: the descriptor table, the open-file records and
their counter are as before.  Unless the flags hold `O_CREAT` and the path did
not resolve before the call, the state is unchanged but for `errno` and the
stream of unknown values: no file has been added and no inode consumed.  With
`O_CREAT` on a path that did not resolve, either the same holds, or
`create_file` has appended the file to the file table and taken an inode
before the permission check or the descriptor allocation failed, and the file
and the inode stay. -/
theorem C34_failed_open_allocates_no_descriptor (e : Env) (s s1 : State) (path : String)
    (flags mode : Nat) (h : __mkfs_open e s path flags mode = some (-1, s1)) :
    s1.file_desc = s.file_desc ∧ s1.opened_files = s.opened_files ∧
    s1.next_file_index = s.next_file_index ∧
    ((flags &&& e.O_CREAT = 0 ∨ __mkfs_get_file s path ≠ none) → ∃ a b, s1 = ambient s a b) ∧
    ((∃ a b, s1 = ambient s a b) ∨
      (flags &&& e.O_CREAT ≠ 0 ∧ __mkfs_get_file s path = none ∧
        s1.next_inode_index = s.next_inode_index + 1 ∧
        ∃ sr, s1.fs_files = s.fs_files ++
          [{ fullpath := some path, stat := some sr, content := none, data := none }])) := by
  obtain ⟨s0, h0, h1⟩ := open_file_inv h
  have hamb : ∃ a b, s1 = ambient s0 a b := by
    rcases h1 with ⟨_, a, b, hab⟩ | ⟨hr, _⟩
    · exact ⟨a, b, hab⟩
    · exact absurd rfl hr
  obtain ⟨a, b, hab⟩ := hamb
  subst hab
  rcases h0 with h0 | ⟨hcr, hnone, x, hx⟩
  · subst h0
    exact ⟨rfl, rfl, rfl, fun _ => ⟨a, b, rfl⟩, Or.inl ⟨a, b, rfl⟩⟩
  · rcases create_file_inv hx with ⟨_, a0, b0, h00⟩ | ⟨_, j1, j2, j3, j4, sr, j5⟩
    · subst h00
      exact ⟨rfl, rfl, rfl, fun _ => ⟨a, b, rfl⟩, Or.inl ⟨a, b, rfl⟩⟩
    · refine ⟨j1, j2, j3, fun hc => ?_, Or.inr ⟨hcr, hnone, j4, sr, j5⟩⟩
      rcases hc with hc | hc
      · exact absurd hc hcr
      · exact absurd hnone hc

theorem to_int_small (e : Env) (x : Int) (h0 : -((e.INT_MAX : Int) + 1) ≤ x)
    (h1 : x ≤ e.INT_MAX) : to_int e x = x := by
  unfold to_int
  rw [Int.emod_eq_of_lt (by omega) (by omega)]
  omega

/-- C35 (what the code does): the test of `access` is parsed as
`mode & ((R_OK | W_OK | X_OK) != mode)`, so the call returns -1 with `errno` set
to `EINVAL` for every mode with the lowest bit set other than `F_OK` and
`R_OK | W_OK | X_OK`, whatever the path.  In the sample configuration (`F_OK`
0, `R_OK` 4, `W_OK` 2, `X_OK` 1), on the existing file `f`: `X_OK`, `W_OK | X_OK`
and `R_OK | X_OK` are rejected with `EINVAL` (22), `R_OK`, `W_OK` and
`R_OK | W_OK` return 0 from the permission check, `R_OK | W_OK | X_OK` returns -1
from the permission check (`errno` 9), and the mode 8, a bit outside
`R_OK | W_OK | X_OK`, is not rejected: `stat` returns 0 and `stat_access` is
called outside its precondition `tis_access_mode`. -/
theorem C35_access_tests_the_lowest_bit :
    (∀ (e : Env) (s : State) (path : String) (mode : Int),
      mode ≠ e.F_OK → ((e.R_OK ||| e.W_OK ||| e.X_OK : Nat) : Int) ≠ mode →
      land_int mode 1 ≠ 0 →
      __mkfs_access e s path mode = some (-1, { s with errno := e.EINVAL })) ∧
    (demo_env.F_OK, demo_env.R_OK, demo_env.W_OK, demo_env.X_OK, demo_env.EINVAL) =
      (0, 4, 2, 1, 22) ∧
    __mkfs_get_file demo_rw "f" = some 0 ∧
    __mkfs_access demo_env demo_rw "f" 1 = some (-1, { demo_rw with errno := 22 }) ∧
    __mkfs_access demo_env demo_rw "f" 3 = some (-1, { demo_rw with errno := 22 }) ∧
    __mkfs_access demo_env demo_rw "f" 5 = some (-1, { demo_rw with errno := 22 }) ∧
    __mkfs_access demo_env demo_rw "f" 4 = some (0, demo_rw) ∧
    __mkfs_access demo_env demo_rw "f" 2 = some (0, demo_rw) ∧
    __mkfs_access demo_env demo_rw "f" 6 = some (0, demo_rw) ∧
    __mkfs_access demo_env demo_rw "f" 7 = some (-1, { demo_rw with errno := 9 }) ∧
    (__mkfs_stat demo_env demo_rw "f").map (fun r => r.1) = some 0 ∧
    __mkfs_access demo_env demo_rw "f" 8 = none := by
  refine ⟨?_, by decide, by decide, by decide, by decide, by decide, by decide, by decide,
    by decide, by decide, by decide, by decide⟩
  intro e s path mode h0 h1 h2
  unfold __mkfs_access
  rw [if_pos h1, if_pos ⟨h0, h2⟩]

/-- C36 (what the code does): `find_data_map` compares the buffers only, so
`add_map` called for a shared mapping returns the address of the first entry
in use that holds the buffer of the file, whatever the field `shared` of that
entry, and changes nothing.  In the sample configuration,
`mmap (NULL, 3, PROT_READ | PROT_WRITE, MAP_PRIVATE, 3, 0)` returns the address
1 and makes the entry number 0, with `shared` false; then
`mmap (NULL, 3, PROT_READ | PROT_WRITE, MAP_SHARED, 3, 0)` on the same file
succeeds, returns the address 1 of that private region and makes no entry. -/
theorem C36_shared_mmap_returns_private_region :
    (∀ (e : Env) (s : State) (data : Option Nat) (len : Nat) (w : Bool) (i : Nat)
        (m : mkfs_map),
      find_data_map s data = some (some i) → s.maps[i]? = some m →
      add_map e s data len true w = some (m.addr, s)) ∧
    (demo_env.MAP_SHARED, demo_env.MAP_PRIVATE) = (1, 2) ∧
    __mkfs_mmap demo_env demo_rw 0 3 3 2 3 0 = some (1, demo_private) ∧
    demo_private.maps_nb_used = 1 ∧
    demo_private.maps[0]? = some { data := some 3, addr := 1, length := 3, shared := false,
                                   need_sync := false } ∧
    __mkfs_mmap demo_env demo_private 0 3 3 1 3 0 = some (1, demo_private) ∧
    (1 : Int) ≠ MAP_FAILED := by
  refine ⟨?_, by decide, by decide, by decide, by decide, by decide, by decide⟩
  intro e s data len w i m hf hm
  unfold add_map
  simp only [if_true, hf, hm]

/-- C40 (what the code does): `__mkfs_ungetc` stores at `position - 1` without
a test.  On a descriptor at position 0 of a file with a buffer the store is
`data[-1]`, before the buffer: the call has no defined result.  In the sample
configuration, where descriptor 3 is open for reading on the file `f` of size
3: at position 0 the call has no defined result; at position 5, reached by
`lseek`, it returns the byte and stores it at index 4, outside `[0, 3)`; at
position 1 it stores at index 0 and leaves the position 0. -/
theorem C40_ungetc_stores_without_a_test :
    (∀ (e : Env) (s s1 : State) (c fd idx : Int) (info : mkfs_file_info) (fr : FileRef)
        (f : mkfs_fs_file) (p : Nat),
      __mkfs_check_fd_file_ok_for_reading e s fd = some (0, s1) →
      __mkfs_get_file_info e s1 fd = some (some idx) →
      file_info_file s1 idx = some (info, fr, f) → f.data = some p → info.position = 0 →
      __mkfs_ungetc e s c fd = none) ∧
    demo_append.opened_files[3]? = some (demo_info 0 1090) ∧
    (__mkfs_check_fd_file_ok_for_reading demo_env demo_append 3).map (fun r => r.1) = some 0 ∧
    __mkfs_ungetc demo_env demo_append 90 3 = none ∧
    demo_seek5.opened_files[3]? = some (demo_info 5 66) ∧
    get_stat demo_seek5 (StatRef.inode_table 3) = some (demo_st 3) ∧
    (__mkfs_ungetc demo_env demo_seek5 90 3).map
        (fun r => (r.1, r.2.mkfs_data_table[3]?,
          r.2.opened_files[3]?.map (fun i => i.position))) =
      some (90, some [65, 66, 67, 0, 90], some 4) ∧
    (__mkfs_ungetc demo_env demo_rw 90 3).map
        (fun r => (r.1, r.2.mkfs_data_table[3]?,
          r.2.opened_files[3]?.map (fun i => i.position))) =
      some (90, some [90, 66, 67], some 0) := by
  refine ⟨?_, by decide, by decide, by decide, by decide, by decide, by decide, by decide⟩
  intro e s s1 c fd idx info fr f p h1 h2 h3 h4 h5
  have hpos : to_int e (info.position - 1) = -1 := by
    rw [h5]
    exact to_int_small e (0 - 1) (by omega) (by omega)
  unfold __mkfs_ungetc
  simp only [h1, h2, h3, h4, hpos]
  simp

/-- C34 (counterexample): in the sample configuration after start-up,
`open ("g", O_CREAT | O_RDWR, 0)` returns -1: the file is created with mode 0
and the permission check that follows fails.  The file table, where `g` did not
resolve, now holds `g`, and one inode has been taken from the pool. -/
theorem C34_counterexample :
    __mkfs_open demo_env demo_boot "g" (64 ||| 2) 0 = some (-1, demo_denied) ∧
    __mkfs_get_file demo_boot "g" = none ∧
    __mkfs_get_file demo_denied "g" = some 0 ∧
    demo_boot.fs_files.length = 0 ∧ demo_denied.fs_files.length = 1 ∧
    demo_boot.next_inode_index = 3 ∧ demo_denied.next_inode_index = 4 := by
  decide


/-! ## The entries of the map table under the calls that are not `mmap` or `munmap`

Each lemma carries the value `k` of `maps.maps` from the state before to the
state after. -/

theorem local_pwrite_at_mp {e : Env} {s s1 : State} {idx off r : Int} {buf : List Nat} {k : List mkfs_map}
    (h : local_pwrite_at e s idx buf off = some (r, s1)) (hk : s.maps = k) :
    s1.maps = k :=
  ((local_pwrite_at_kept h).1.1).trans hk

theorem write_data_mp {e : Env} {s s1 : State} {idx o r : Int} {buf : List Nat} {k : List mkfs_map}
    (h : write__mkfs_data e s idx o buf = some (r, s1)) (hk : s.maps = k) :
    s1.maps = k := by
  unfold write__mkfs_data at h
  repeat' first | split at h | (simp only [] at h; split at h)
  all_goals first
    | (simp at h; done)
    | (simp only [Option.some.injEq, Prod.mk.injEq] at h
       first | rw [← h.2.2] | rw [← h.2]
       try dsimp only
       solve_by_elim []
       done)
    | (simp only [Option.some.injEq] at h
       have h2 := congrArg Prod.snd h
       dsimp only at h2
       rw [← h2]
       solve_by_elim []
       done)
    | (solve_by_elim []
       done)
    | (obtain ⟨y, hy, hy2⟩ := Option.map_eq_some'.mp h
       simp only [Prod.mk.injEq] at hy2
       first | rw [← hy2.2.2] | rw [← hy2.2]
       solve_by_elim []
       done)

theorem demo_rw_open :
    fd_open demo_env demo_rw 3 3 (demo_info 1 66) (FileRef.fs_files 0) demo_f
      (StatRef.inode_table 3) (demo_st 3) :=
  ⟨by decide, by decide, ⟨⟨32768, 3⟩, by decide, Or.inl rfl, rfl⟩, by decide⟩

theorem demo_append_open :
    fd_open demo_env demo_append 3 3 (demo_info 0 1090) (FileRef.fs_files 0) demo_f
      (StatRef.inode_table 3) (demo_st 3) :=
  ⟨by decide, by decide, ⟨⟨32768, 3⟩, by decide, Or.inl rfl, rfl⟩, by decide⟩

theorem demo_wo_open :
    fd_open demo_env demo_wo 3 3 (demo_info 0 65) (FileRef.fs_files 0) demo_f
      (StatRef.inode_table 3) (demo_st 0) :=
  ⟨by decide, by decide, ⟨⟨32768, 3⟩, by decide, Or.inl rfl, rfl⟩, by decide⟩

theorem demo_ro_open :
    fd_open demo_env demo_ro 3 3 (demo_info 0 64) (FileRef.fs_files 0) demo_f
      (StatRef.inode_table 3) (demo_st 0) :=
  ⟨by decide, by decide, ⟨⟨32768, 3⟩, by decide, Or.inl rfl, rfl⟩, by decide⟩

theorem C3_witness :
    __mkfs_pwrite demo_env demo_rw 3 [9] 5 = some (1, demo_gap) ∧
    ∃ r b s2, __mkfs_pread demo_env demo_gap 3 [7, 7, 7] 2 3 = some (r, b, s2) ∧
      (r ≠ -1 → r = 2 ∧ b.take 2 = [0, 0]) ∧
      (demo_env.no_err = true → (demo_info 1 66).flags &&& demo_env.O_WRONLY = 0 →
        stat_access_ok demo_env (demo_st 3) demo_env.R_OK = true → r ≠ -1) :=
  ⟨by decide,
   C3_gap_after_write_past_end_reads_zero demo_env (sample_env_sane _ _ _) demo_rw demo_gap
    3 3 (demo_info 1 66) (FileRef.fs_files 0) demo_f (StatRef.inode_table 3) (demo_st 3)
    3 [65, 66, 67] [9] 5 3 3 (demo_info 1 66) [7, 7, 7]
    demo_rw_open ⟨rfl, by decide, by decide⟩ (by decide) (by decide) (by decide) (by decide)
    (by decide) (by decide) demo_rw_open (by decide)⟩

theorem C4_witness :
    ∃ r b s2, __mkfs_pread demo_env demo_rw 3 [7, 7, 7, 7] 4 1 = some (r, b, s2) ∧
      r = 2 ∧
      (∀ p row, demo_f.data = some p → demo_rw.mkfs_data_table[p]? = some row →
        b = row_read row 1 r.toNat ++ [7, 7, 7, 7].drop r.toNat ∧ s2 = demo_rw) :=
  C4_pread_clamps_to_file_size demo_env (sample_env_sane _ _ _) demo_rw demo_rw 3 3
    (demo_info 1 66) (FileRef.fs_files 0) demo_f (StatRef.inode_table 3) (demo_st 3)
    [7, 7, 7, 7] 4 1 demo_rw_open (by decide) (by decide) (by decide) (by decide)
    (fun p hp => by
      have hp3 : p = 3 := (Option.some.inj hp).symm
      subst hp3
      exact ⟨by decide, [65, 66, 67], by decide⟩)
    (by decide)

theorem C5_witness :
    (∃ a b, __mkfs_pread demo_env demo_wo 3 [7, 7] 2 0 = some (-1, [7, 7], ambient demo_wo a b) ∧
      ((0 : Int) ≤ 0 → no_injection demo_env demo_wo → a = demo_env.EBADF) ∧
      ((0 : Int) < 0 → a = demo_env.EINVAL)) ∧
    (∃ a b, __mkfs_read demo_env demo_wo 3 [7, 7] 2 = some (-1, [7, 7], ambient demo_wo a b) ∧
      (no_injection demo_env demo_wo → a = demo_env.EBADF)) :=
  C5_read_on_write_only_descriptor demo_env (sample_env_sane _ _ _) demo_wo 3 3
    (demo_info 0 65) (FileRef.fs_files 0) demo_f (StatRef.inode_table 3)
    (demo_st 0) [7, 7] 2 0 demo_wo_open (by decide) (by decide)

theorem C6_witness :
    (∃ a b, __mkfs_pwrite demo_env demo_ro 3 [7, 7] 0 = some (-1, ambient demo_ro a b) ∧
      ((0 : Int) ≤ 0 → no_injection demo_env demo_ro → a = demo_env.EBADF) ∧
      ((0 : Int) < 0 → a = demo_env.EINVAL)) ∧
    (∃ a b, __mkfs_write demo_env demo_ro 3 [7, 7] = some (-1, ambient demo_ro a b) ∧
      (no_injection demo_env demo_ro → a = demo_env.EBADF)) :=
  C6_write_on_read_only_descriptor demo_env (sample_env_sane _ _ _) demo_ro 3 3
    (demo_info 0 64) (FileRef.fs_files 0) demo_f (StatRef.inode_table 3)
    (demo_st 0) [7, 7] 0 demo_ro_open (by decide)

theorem C5_counterexample :
    demo_env.no_err = true ∧
    __mkfs_open demo_env demo_boot "f" (demo_env.O_CREAT ||| demo_env.O_WRONLY) 420 =
      some (3, demo_wo) ∧
    __mkfs_pread demo_env demo_wo 3 [7, 7] 2 (-1) =
      some (-1, [7, 7], { demo_wo with errno := demo_env.EINVAL }) ∧
    demo_env.EINVAL ≠ demo_env.EBADF := by
  decide

theorem C6_counterexample :
    demo_env.no_err = true ∧
    __mkfs_open demo_env demo_boot "f" (demo_env.O_CREAT ||| demo_env.O_RDONLY) 420 =
      some (3, demo_ro) ∧
    __mkfs_pwrite demo_env demo_ro 3 [7, 7] (-1) =
      some (-1, { demo_ro with errno := demo_env.EINVAL }) ∧
    demo_env.EINVAL ≠ demo_env.EBADF := by
  decide

theorem C7_witness :
    __mkfs_write demo_env demo_append 3 [9] = some (1, demo_append_written) ∧
    (∃ row', demo_append_written.mkfs_data_table[3]? = some row' ∧
        row_read row' 3 1 = [9] ∧
        ∀ i : Nat, (i : Int) < 3 → row_get row' i = row_get [65, 66, 67] i) ∧
      file_info_stat demo_append_written 3 =
        some (demo_info 4 1090, FileRef.fs_files 0, demo_f, StatRef.inode_table 3, demo_st 4) :=
  ⟨by decide,
   (C7_append_writes_at_end_of_file demo_env (sample_env_sane _ _ _) demo_append 3 3
    (demo_info 0 1090) (FileRef.fs_files 0) demo_f (StatRef.inode_table 3) (demo_st 3)
    3 [65, 66, 67] [9] demo_append_open (by decide) ⟨rfl, by decide, by decide⟩ (by decide)
    (by decide)).2 demo_append_written (by decide)⟩

theorem C8_witness :
    __mkfs_write demo_env demo_rw 3 [1, 2, 3] = some (3, demo_rw_written) ∧
    file_info_stat demo_rw_written 3 =
      some (demo_info 4 66, FileRef.fs_files 0, demo_f, StatRef.inode_table 3, demo_st 4) :=
  ⟨by decide,
   (C8_size_after_write_is_max demo_env (sample_env_sane _ _ _) demo_rw 3 3
    (demo_info 1 66) (FileRef.fs_files 0) demo_f (StatRef.inode_table 3) (demo_st 3)
    [1, 2, 3] demo_rw_open (by decide) (by decide) (by decide) (by decide)).2.1
    demo_rw_written (by decide)⟩

theorem C9_witness :
    ∃ b, __mkfs_lseek demo_env demo_rw 3 (-1) 2 =
      some (2, { ambient demo_rw demo_rw.errno b with
        opened_files := demo_rw.opened_files.set 3 (demo_info 2 66) }) :=
  C9_lseek_sets_position demo_env (sample_env_sane _ _ _) demo_rw 3 3
    (demo_info 1 66) (FileRef.fs_files 0) demo_f (StatRef.inode_table 3) (demo_st 3)
    ⟨32768, 3⟩ (-1) 2 demo_rw_open (by decide) rfl (by unfold no_injection; decide)
    (fun _ => by decide)

theorem C10_witness :
    __mkfs_ftruncate demo_env demo_rw 3 1 = some (0, demo_truncated) ∧
    file_info_stat demo_truncated 3 =
      some (demo_info 1 66, FileRef.fs_files 0, demo_f, StatRef.inode_table 3, demo_st 1) ∧
    ∃ r s2, __mkfs_lseek demo_env demo_truncated 3 0 demo_env.SEEK_END = some (r, s2) ∧
      (no_injection demo_env demo_truncated → r = 1) ∧ (r = 1 ∨ r = -1) :=
  ⟨by decide,
   C10_ftruncate_sets_size demo_env (sample_env_sane _ _ _) demo_rw demo_truncated 3 3
    (demo_info 1 66) (FileRef.fs_files 0) demo_f (StatRef.inode_table 3) (demo_st 3)
    ⟨32768, 3⟩ 1 demo_rw_open (by decide) rfl (by decide) (by decide) (by decide)⟩

theorem C2_witness :
    ∃ s1 s2 s3 s4 s5,
      __mkfs_open demo_env demo_boot "f" (64 ||| 1) 420 = some (3, s1) ∧
      __mkfs_write demo_env s1 3 [65, 66] = some (2, s2) ∧
      __mkfs_close demo_env s2 3 = some (0, s3) ∧
      __mkfs_open demo_env s3 "f" 0 0 = some (3, s4) ∧
      get_stat s4 (StatRef.inode_table 3) = some (created_stat demo_env 3 420 2) ∧
      __mkfs_read demo_env s4 3 [7, 7, 7, 7] 4 = some (2, [65, 66, 7, 7], s5) :=
  C2_create_write_close_reopen_read demo_env (sample_env_sane _ _ _) rfl demo_boot "f" 420 0
    [65, 66] [7, 7, 7, 7] 4 3 [] (by decide) (by decide) (by decide) (by decide) (by decide)
    (by decide) (by decide) (by decide) (by decide) (by decide) (by decide) (by decide)
    (by decide) (by decide) (by decide) (by decide) (by decide)

theorem C2_counterexample :
    demo_su_env.no_err = true ∧
    demo_su_boot.fs_files.length < demo_su_boot.fs_files_nb_max ∧
    __mkfs_get_file demo_su_boot "f" = none ∧
    (__mkfs_open demo_su_env demo_su_boot "f" (demo_su_env.O_CREAT ||| demo_su_env.O_WRONLY)
        420).map Prod.fst = some (-1) ∧
    (__mkfs_open demo_su_env demo_su_boot "f" (demo_su_env.O_CREAT ||| demo_su_env.O_WRONLY)
        420).map (fun r => r.2.errno) = some (demo_su_env.EBADF : Int) ∧
    stat_access_ok demo_su_env (created_stat demo_su_env demo_su_boot.next_inode 420 0)
      demo_su_env.W_OK = false := by
  decide

theorem demo_no_injection (s : State) : no_injection demo_env s :=
  no_injection_of_no_err rfl s

theorem C11_witness :
    __mkfs_ftruncate demo_env demo_rw 3 1 = some (0, demo_truncated) ∧
    __mkfs_ftruncate demo_env demo_truncated 3 3 = some (0, demo_regrown) ∧
    file_info_stat demo_regrown 3 =
      some (demo_info 1 66, FileRef.fs_files 0, demo_f, StatRef.inode_table 3, demo_st 3) ∧
    ∃ row', demo_regrown.mkfs_data_table[3]? = some row' ∧
      (∀ i : Nat, (i : Int) < 1 → row_get row' i = row_get [65, 66, 67] i) ∧
      (∀ i : Nat, (1 : Int) ≤ (i : Int) → (i : Int) < 3 → row_get row' i = 0) :=
  ⟨by decide, by decide,
   (C11_ftruncate_grow_zero_fills demo_env (sample_env_sane _ _ _) demo_rw 3 3
    (demo_info 1 66) (FileRef.fs_files 0) demo_f (StatRef.inode_table 3) (demo_st 3)
    3 [65, 66, 67] demo_rw_open ⟨rfl, by decide, by decide⟩).2 1 3 demo_truncated demo_regrown
    (by decide) (by decide) (by decide) (by decide)⟩

theorem C12_witness :
    ∃ s1, __mkfs_truncate demo_env demo_rw "f" (-1) = some (0, s1) ∧
      get_stat s1 (StatRef.inode_table 3) = some (demo_st (-1)) :=
  C12_truncate_stores_any_length demo_env demo_rw "f" 0 demo_f (StatRef.inode_table 3)
    (demo_st 3) (-1) (by decide) (by decide) (by decide) (by decide) (demo_no_injection _)

theorem demo_cut_open :
    fd_open demo_env demo_cut 3 3 (demo_info 1 66) (FileRef.fs_files 0) demo_f
      (StatRef.inode_table 3) (demo_st 1) :=
  ⟨by decide, by decide, ⟨⟨32768, 3⟩, by decide, Or.inl rfl, rfl⟩, by decide⟩

theorem C13_witness :
    __mkfs_truncate demo_env demo_rw "f" 1 = some (0, demo_cut) ∧
    ∃ s1, __mkfs_truncate demo_env demo_cut "f" 3 = some (0, s1) ∧
      __mkfs_pread demo_env s1 3 [7, 7] 2 1 = some (2, [66, 67], s1) :=
  ⟨by decide,
   C13_truncate_grow_keeps_old_bytes demo_env (sample_env_sane _ _ _) rfl demo_cut "f" 0 3 3
    (demo_info 1 66) demo_f (StatRef.inode_table 3) (demo_st 1) 3 [65, 66, 67] 3 [7, 7]
    (by decide) demo_cut_open (by decide) (by decide) (by decide)
    ⟨rfl, by decide, by decide⟩ (by decide) (by decide) (by decide) (by decide)⟩

theorem C14_witness :
    __mkfs_open demo_env demo_rw "f" (64 ||| 128 ||| 2) 420 =
      some (-1, { demo_rw with errno := demo_env.EEXIST }) :=
  C14_open_creat_excl_existing demo_env demo_rw "f" (64 ||| 128 ||| 2) 420 0 (by decide)
    (by decide) (by decide) (by decide)

theorem C15_witness :
    __mkfs_open demo_env demo_rw "f" (512 ||| 1) 0 = some (4, demo_trunc_open) ∧
    get_stat demo_trunc_open (StatRef.inode_table 3) = some (demo_st 0) ∧
    (__mkfs_open demo_env demo_rw "f" 512 0).map Prod.fst = some 4 ∧
    get_stat (state_of ((__mkfs_open demo_env demo_rw "f" 512 0).map Prod.snd))
      (StatRef.inode_table 3) = some (demo_st 3) :=
  ⟨by decide,
   (C15_open_size_after demo_env demo_rw demo_trunc_open "f" (512 ||| 1) 0 0 demo_f
    (StatRef.inode_table 3) (demo_st 3) 4 (by decide) (by decide) (by decide) (by decide)
    (by decide)).trans (by decide),
   by decide,
   (C15_open_size_after demo_env demo_rw
    (state_of ((__mkfs_open demo_env demo_rw "f" 512 0).map Prod.snd)) "f" 512 0 0 demo_f
    (StatRef.inode_table 3) (demo_st 3) 4 (by decide) (by decide) (by decide) (by decide)
    (by decide)).trans (by decide)⟩

theorem C16_witness :
    stat_access demo_env demo_boot (demo_st 3) 6 = (0, demo_boot) ∧
    stat_access demo_env demo_boot (demo_st 3) 1 =
      (-1, { demo_boot with errno := demo_env.EBADF }) :=
  ⟨(C16_stat_access_owner_bits demo_env rfl demo_boot (demo_st 3) 6 (by decide)
      (by decide)).2.1 (by decide),
   (C16_stat_access_owner_bits demo_env rfl demo_boot (demo_st 3) 1 (by decide)
      (by decide)).2.2 (by decide)⟩

theorem C17_witness :
    demo_grp_st.st_uid ≠ demo_su_env.euid ∧ demo_grp_st.st_gid = demo_su_env.egid ∧
    demo_grp_st.st_mode &&& demo_su_env.S_IRGRP ≠ 0 ∧
    stat_access demo_su_env demo_su_boot demo_grp_st demo_su_env.R_OK =
      (-1, { demo_su_boot with errno := demo_su_env.EBADF }) :=
  ⟨by decide, by decide, by decide,
   (C17_stat_access_group_branch_tests_uid demo_su_env rfl demo_su_boot demo_grp_st
      demo_su_env.R_OK (by decide) (by decide) (by decide)).2 (by decide)⟩

/-- C18 (what the code does): in the sample configuration, where `O_RDONLY` is
0 as in the C library, the file `f` has mode 0200, which grants its owner no
read access, and descriptor 3 is free; `open` of `f` with `O_RDONLY` returns
descriptor 3 and makes it a regular-file descriptor, because the test
`flags & O_RDONLY` of `open_file` is never true and the read check is skipped;
`open` with `O_RDWR` returns -1 with `errno` set to `EBADF` and changes nothing
else. -/
theorem C18_open_rdonly_skips_read_check :
    __mkfs_get_file demo_noread "f" = some 0 ∧
    get_stat demo_noread (StatRef.inode_table 3) =
      some { demo_st 0 with st_mode := 32768 ||| 128 } ∧
    stat_access_ok demo_env { demo_st 0 with st_mode := 32768 ||| 128 } demo_env.R_OK = false ∧
    (arr_get demo_noread.file_desc 3).map (fun d => d.fd_kind) = some 0 ∧
    (__mkfs_open demo_env demo_noread "f" demo_env.O_RDONLY 0).map Prod.fst = some 3 ∧
    ((__mkfs_open demo_env demo_noread "f" demo_env.O_RDONLY 0).bind
      (fun r => arr_get r.2.file_desc 3)).map (fun d => d.fd_kind) = some 32768 ∧
    __mkfs_open demo_env demo_noread "f" demo_env.O_RDWR 0 =
      some (-1, { demo_noread with errno := demo_env.EBADF }) := by
  decide

theorem C19_counterexample :
    (__mkfs_read demo_env demo_rw 3 [7, 7] 2).map (fun r => (r.1, r.2.1)) =
      some (2, [66, 67]) ∧
    __mkfs_dup2 demo_env demo_rw 3 4 = some (4, demo_dup) ∧
    __mkfs_close demo_env demo_dup 3 = some (0, demo_dup_closed) ∧
    __mkfs_read demo_env demo_dup_closed 4 [7, 7] 2 =
      some (-1, [7, 7], { demo_dup_closed with errno := demo_env.EBADF }) ∧
    __mkfs_write demo_env demo_dup_closed 4 [9] =
      some (-1, { demo_dup_closed with errno := demo_env.EBADF }) := by
  decide

theorem C19_witness :
    arr_get demo_dup_closed.file_desc 4 = some { fd_kind := 32768, fd_index := 3 } ∧
    __mkfs_read demo_env demo_dup_closed 4 [7, 7] 2 =
      some (-1, [7, 7], { demo_dup_closed with errno := demo_env.EBADF }) ∧
    ∃ s3, __mkfs_lseek demo_env demo_dup_closed 4 2 demo_env.SEEK_SET = some (2, s3) :=
  ⟨(C19_dup2_then_close_detaches demo_env (sample_env_sane _ _ _) demo_rw demo_dup
      demo_dup_closed 3 4 3 (demo_info 1 66) (FileRef.fs_files 0) demo_f
      (StatRef.inode_table 3) (demo_st 3) ⟨32768, 3⟩ demo_rw_open (by decide) rfl (by decide)
      (by decide) (by decide) (by decide) (by decide) (by decide)).1,
   (C19_dup2_then_close_detaches demo_env (sample_env_sane _ _ _) demo_rw demo_dup
      demo_dup_closed 3 4 3 (demo_info 1 66) (FileRef.fs_files 0) demo_f
      (StatRef.inode_table 3) (demo_st 3) ⟨32768, 3⟩ demo_rw_open (by decide) rfl (by decide)
      (by decide) (by decide) (by decide) (by decide) (by decide)).2.2.1 [7, 7] 2,
   (C19_dup2_then_close_detaches demo_env (sample_env_sane _ _ _) demo_rw demo_dup
      demo_dup_closed 3 4 3 (demo_info 1 66) (FileRef.fs_files 0) demo_f
      (StatRef.inode_table 3) (demo_st 3) ⟨32768, 3⟩ demo_rw_open (by decide) rfl (by decide)
      (by decide) (by decide) (by decide) (by decide) (by decide)).2.2.2.2 2 (by decide)
      (by decide) (demo_no_injection _)⟩

theorem C20_witness :
    __mkfs_close demo_env demo_rw 3 = some (0, demo_closed) ∧
    (∃ d, arr_get demo_closed.file_desc 3 = some d ∧ d.fd_kind = 0) ∧
    __mkfs_read demo_env demo_closed 3 [7] 1 =
      some (-1, [7], { demo_closed with errno := demo_env.EBADF }) ∧
    __mkfs_write demo_env demo_closed 3 [7] =
      some (-1, { demo_closed with errno := demo_env.EBADF }) ∧
    __mkfs_lseek demo_env demo_closed 3 0 0 =
      some (-1, { demo_closed with errno := demo_env.EBADF }) ∧
    __mkfs_close demo_env demo_closed 3 =
      some (-1, { demo_closed with errno := demo_env.EBADF }) :=
  ⟨by decide,
   (C20_closed_descriptor_is_dead demo_env (sample_env_sane _ _ _) demo_rw demo_closed
      demo_closed 3 (by decide) rfl).1,
   (C20_closed_descriptor_is_dead demo_env (sample_env_sane _ _ _) demo_rw demo_closed
      demo_closed 3 (by decide) rfl).2.1 [7] 1,
   (C20_closed_descriptor_is_dead demo_env (sample_env_sane _ _ _) demo_rw demo_closed
      demo_closed 3 (by decide) rfl).2.2.1 [7],
   (C20_closed_descriptor_is_dead demo_env (sample_env_sane _ _ _) demo_rw demo_closed
      demo_closed 3 (by decide) rfl).2.2.2.1 0 0,
   (C20_closed_descriptor_is_dead demo_env (sample_env_sane _ _ _) demo_rw demo_closed
      demo_closed 3 (by decide) rfl).2.2.2.2⟩

theorem demo_rw_in_use (j : Nat) (h : j < 4) :
    ∃ d, demo_rw.file_desc[j]? = some d ∧ d.fd_kind ≠ 0 :=
  match j, h with
  | 0, _ => ⟨⟨8192, 0⟩, by decide⟩
  | 1, _ => ⟨⟨8192, 1⟩, by decide⟩
  | 2, _ => ⟨⟨8192, 2⟩, by decide⟩
  | 3, _ => ⟨⟨32768, 3⟩, by decide⟩
  | n + 4, h => absurd h (by omega)

theorem demo_shared_open :
    fd_open demo_env demo_shared 3 3 (demo_info 1 66) (FileRef.fs_files 0) demo_f
      (StatRef.inode_table 3) (demo_st 3) :=
  ⟨by decide, by decide, ⟨⟨32768, 3⟩, by decide, Or.inl rfl, rfl⟩, by decide⟩

theorem C21_witness :
    demo_rw.file_desc.length = demo_env.FOPEN_MAX ∧
    get_next_file_desc demo_env demo_rw = some (4, demo_rw) ∧
    __mkfs_close demo_env demo_rw 3 = some (0, demo_closed) ∧
    (∀ r s2, __mkfs_open demo_env demo_closed "f" 2 0 = some (r, s2) → r ≠ -1 → r = 3) ∧
    (__mkfs_open demo_env demo_closed "f" 2 0).map Prod.fst = some 3 :=
  ⟨by decide,
   (C21_descriptor_allocation demo_env demo_rw (by decide)).1 4 (by decide)
     ⟨⟨0, 0⟩, by decide⟩ demo_rw_in_use,
   by decide,
   fun r s2 => (C21_descriptor_allocation demo_env demo_rw (by decide)).2.2 3 demo_closed s2
     "f" 2 0 r (by decide) (fun j hj => demo_rw_in_use j (by omega)),
   by decide⟩

theorem C23_witness :
    demo_rw.file_desc.length = demo_env.FOPEN_MAX ∧
    ((8 : Int) < 0 ∨ (demo_env.FOPEN_MAX : Int) ≤ 8) ∧
    __mkfs_check_fd_ok demo_env demo_rw 8 = (-1, { demo_rw with errno := demo_env.EBADF }) ∧
    __mkfs_write demo_env demo_rw 8 [1] = none ∧
    __mkfs_ftruncate demo_env demo_rw 8 0 = none ∧
    __mkfs_fcntl demo_env demo_rw 8 demo_env.F_GETFL = none ∧
    __mkfs_write demo_env demo_rw (-1) [1] = none :=
  ⟨by decide, by decide,
   (C23_out_of_range_descriptor demo_env demo_rw 8 (by decide) (by decide)).1,
   (C23_out_of_range_descriptor demo_env demo_rw 8 (by decide) (by decide)).2.2.2.1 [1],
   (C23_out_of_range_descriptor demo_env demo_rw 8 (by decide) (by decide)).2.2.2.2.1 0,
   (C23_out_of_range_descriptor demo_env demo_rw 8 (by decide) (by decide)).2.2.2.2.2
     demo_env.F_GETFL,
   (C23_out_of_range_descriptor demo_env demo_rw (-1) (by decide) (by decide)).2.2.2.1 [1]⟩

theorem C25_witness :
    __mkfs_mmap demo_env demo_rw 0 3 3 2 3 0 = some (1, demo_private) ∧
    __mkfs_mmap demo_env demo_private 0 3 3 2 3 0 = some (2, demo_private2) ∧
    demo_private2.maps_nb_used = 2 ∧
    region_load demo_private2 1 = some [65, 66, 67] ∧
    region_load demo_private2 2 = some [65, 66, 67] ∧
    ((region_store demo_private2 1 0 [7, 8, 9]).bind (fun s3 => region_load s3 1)) =
      some [7, 8, 9] ∧
    (∀ s3, region_store demo_private2 1 0 [7, 8, 9] = some s3 →
      (∃ hp, s3 = { demo_private2 with map_heap := hp }) ∧
      region_load s3 2 = some (row_read [65, 66, 67] 0 3)) :=
  ⟨by decide, by decide, by decide, by decide, by decide, by decide,
   (C25_private_mappings_are_separate demo_env (sample_env_sane _ _ _) rfl
     demo_rw demo_private demo_private2 3 3 (demo_info 1 66) (FileRef.fs_files 0) demo_f
     (StatRef.inode_table 3) (demo_st 3) 3 [65, 66, 67] 0 0 3 3 3 3 2 2 1 2
     demo_rw_open rfl (by decide) (by decide) (by decide) (by decide) (by decide)
     (by decide) (by decide) (by decide) (by decide)).2.2.2.2.2.2.2.1 0 [7, 8, 9]⟩

theorem demo_maps_worn_open :
    fd_open demo_env demo_maps_worn 3 3 (demo_info 1 66) (FileRef.fs_files 0) demo_f
      (StatRef.inode_table 3) (demo_st 3) :=
  ⟨by decide, by decide, ⟨⟨32768, 3⟩, by decide, Or.inl rfl, rfl⟩, by decide⟩

theorem C31_witness :
    __mkfs_get_dir demo_dirs "/" = some 0 ∧ demo_dirs.fs_dirs[0]? = some demo_root_dir ∧
    __mkfs_opendir demo_env demo_dirs "/" = some (some 4, demo_dir_open) ∧
    ∃ s2, readdir_times demo_env 4 5 demo_dir_open =
        some ([some ".", some "..", some "f", none, none], s2) ∧
      (arr_get s2.opendir 4).map (fun d => d.dir_position) = some 3 ∧
      (∀ i : Nat, ∃ s3, readdir_times demo_env 4 i s2 = some (List.replicate i none, s3) ∧
        (arr_get s3.opendir 4).map (fun d => d.dir_position) = some 3) :=
  ⟨by decide, by decide, by decide,
   C31_readdir_in_array_order demo_env rfl demo_dirs demo_dir_open "/" 4 0 demo_root_dir
     [".", "..", "f"] (by decide) (by decide) rfl (by decide) 2⟩

theorem C32_witness :
    (__mkfs_pread demo_env demo_rw 3 [0, 0] 2 0).map (fun r => (r.1, r.2.1)) =
      some (2, [65, 66]) ∧
    (__mkfs_pwrite demo_env demo_rw 3 [1, 2] 2).map (fun r => r.1) = some 2 ∧
    (__mkfs_pwrite demo_env demo_rw 3 [1] (-1)).map (fun r => r.1) = some (-1) ∧
    demo_rw.opened_files[3]? = some (demo_info 1 66) ∧
    (∀ r bo s1, __mkfs_pread demo_env demo_rw 3 [0, 0] 2 0 = some (r, bo, s1) →
      s1.opened_files = demo_rw.opened_files) ∧
    (∀ r s1, __mkfs_pwrite demo_env demo_rw 3 [1, 2] 2 = some (r, s1) →
      s1.opened_files = demo_rw.opened_files) :=
  ⟨by decide, by decide, by decide, by decide,
   (C32_pread_pwrite_keep_positions demo_env demo_rw 3 [0, 0] 2 0).1,
   (C32_pread_pwrite_keep_positions demo_env demo_rw 3 [1, 2] 0 2).2⟩

theorem C33_witness :
    run_calls demo_env demo_rw ((List.range 8).flatMap demo_map_round) = some demo_maps_worn ∧
    demo_rw.maps_nb_used = 0 ∧ demo_maps_worn.maps_nb_used = 8 ∧ demo_env.FOPEN_MAX = 8 ∧
    demo_maps_worn.maps.map (fun m => (m.data, m.addr, m.length)) =
      List.replicate 8 (none, 0, 0) ∧
    __mkfs_mmap demo_env demo_maps_worn 0 3 1 2 3 0 =
      some (MAP_FAILED, { demo_maps_worn with errno := demo_env.ENOMEM }) ∧
    __mkfs_mmap demo_env demo_maps_worn 0 3 1 1 3 0 =
      some (MAP_FAILED, { demo_maps_worn with errno := demo_env.ENOMEM }) :=
  ⟨by decide, by decide, by decide, by decide, by decide,
   ((C33_map_entries_never_reclaimed demo_env demo_maps_worn).2.2.2 (by decide) []
      demo_maps_worn rfl).2.2.2 (sample_env_sane _ _ _) rfl (by decide) 3 3 (demo_info 1 66)
      (FileRef.fs_files 0) demo_f (StatRef.inode_table 3) (demo_st 3) 0 3 1 2
      demo_maps_worn_open (by decide) (by decide) (by decide)
      (fun h => absurd (by decide) h),
   ((C33_map_entries_never_reclaimed demo_env demo_maps_worn).2.2.2 (by decide) []
      demo_maps_worn rfl).2.2.2 (sample_env_sane _ _ _) rfl (by decide) 3 3 (demo_info 1 66)
      (FileRef.fs_files 0) demo_f (StatRef.inode_table 3) (demo_st 3) 0 3 1 1
      demo_maps_worn_open (by decide) (by decide) (by decide) (fun _ => by decide)⟩

theorem C34_witness :
    __mkfs_open demo_env demo_rw "nope" 0 0 = some (-1, { demo_rw with errno := 2 }) ∧
    ({ demo_rw with errno := 2 } : State).file_desc = demo_rw.file_desc ∧
    ({ demo_rw with errno := 2 } : State).opened_files = demo_rw.opened_files ∧
    ({ demo_rw with errno := 2 } : State).next_file_index = demo_rw.next_file_index ∧
    (∃ a b, ({ demo_rw with errno := 2 } : State) = ambient demo_rw a b) :=
  ⟨by decide,
   (C34_failed_open_allocates_no_descriptor demo_env demo_rw { demo_rw with errno := 2 }
      "nope" 0 0 (by decide)).1,
   (C34_failed_open_allocates_no_descriptor demo_env demo_rw { demo_rw with errno := 2 }
      "nope" 0 0 (by decide)).2.1,
   (C34_failed_open_allocates_no_descriptor demo_env demo_rw { demo_rw with errno := 2 }
      "nope" 0 0 (by decide)).2.2.1,
   (C34_failed_open_allocates_no_descriptor demo_env demo_rw { demo_rw with errno := 2 }
      "nope" 0 0 (by decide)).2.2.2.1 (Or.inl (by decide))⟩

theorem C37_witness :
    fd_open demo_env demo_rw 3 3 (demo_info 1 66) (FileRef.fs_files 0) demo_f
      (StatRef.inode_table 3) (demo_st 3) ∧
    __mkfs_dup2 demo_env demo_rw 3 4 = some (4, demo_dup) ∧
    arr_get demo_dup.file_desc 3 = some { fd_kind := 32768, fd_index := 3 } ∧
    arr_get demo_dup.file_desc 4 = some { fd_kind := 32768, fd_index := 3 } ∧
    (∃ s2, __mkfs_lseek demo_env demo_dup 3 2 demo_env.SEEK_SET = some (2, s2) ∧
      (no_injection demo_env s2 →
        ∃ s3, __mkfs_lseek demo_env s2 4 0 demo_env.SEEK_CUR = some (2, s3))) :=
  ⟨demo_rw_open, by decide,
   (C37_dup2_shares_position demo_env (sample_env_sane _ _ _) demo_rw demo_dup 3 4 3
      (demo_info 1 66) (FileRef.fs_files 0) demo_f (StatRef.inode_table 3) (demo_st 3)
      { fd_kind := 32768, fd_index := 3 } demo_rw_open (by decide) rfl (by decide) (by decide)
      (by decide) (by decide)).1,
   (C37_dup2_shares_position demo_env (sample_env_sane _ _ _) demo_rw demo_dup 3 4 3
      (demo_info 1 66) (FileRef.fs_files 0) demo_f (StatRef.inode_table 3) (demo_st 3)
      { fd_kind := 32768, fd_index := 3 } demo_rw_open (by decide) rfl (by decide) (by decide)
      (by decide) (by decide)).2.1,
   (C37_dup2_shares_position demo_env (sample_env_sane _ _ _) demo_rw demo_dup 3 4 3
      (demo_info 1 66) (FileRef.fs_files 0) demo_f (StatRef.inode_table 3) (demo_st 3)
      { fd_kind := 32768, fd_index := 3 } demo_rw_open (by decide) rfl (by decide) (by decide)
      (by decide) (by decide)).2.2.2.1 2 (by decide) (by decide) rfl⟩

theorem C38_witness :
    __mkfs_socket demo_env demo_rw 1 1 0 = some (4, demo_sock) ∧
    arr_get demo_sock.file_desc 4 = some { fd_kind := 49152, fd_index := 4 } ∧
    demo_env.S_IFSOCK = 49152 ∧
    __mkfs_check_fd_file_ok demo_env demo_sock 4 =
      some (-1, { demo_sock with errno := demo_env.EBADF }) ∧
    (∀ buf, __mkfs_write demo_env demo_sock 4 buf =
      some (-1, { demo_sock with errno := demo_env.EBADF })) ∧
    (∀ buf count, __mkfs_read demo_env demo_sock 4 buf count =
      read_socket demo_env demo_sock buf count) :=
  ⟨by decide, by decide, by decide,
   C38_write_rejects_sockets demo_env (sample_env_sane _ _ _) demo_sock 4
     { fd_kind := 49152, fd_index := 4 } (by decide) (by decide) (by decide) rfl⟩

theorem C39_witness :
    __mkfs_pwrite demo_env demo_rw 3 [1, 2] 2 = some (2, demo_pwritten) ∧
    demo_rw.mkfs_data_table[3]? = some [65, 66, 67] ∧
    demo_pwritten.mkfs_data_table[3]? = some [65, 66, 1, 2] ∧
    ((2 : Int) = ([1, 2] : List Nat).length ∧ (0 : Int) ≤ 2 ∧
      ∃ row1, demo_pwritten.mkfs_data_table[3]? = some row1 ∧
        (∀ i : Nat, (2 : Int) ≤ i → (i : Int) < 2 + ([1, 2] : List Nat).length →
          row_get row1 i = ([1, 2] : List Nat).getD (i - (2 : Int).toNat) 0) ∧
        (∀ i : Nat, (i : Int) < (demo_st 3).st_size →
          ¬ ((2 : Int) ≤ i ∧ (i : Int) < 2 + ([1, 2] : List Nat).length) →
          row_get row1 i = row_get [65, 66, 67] i) ∧
        (∀ q, q ≠ 3 → demo_pwritten.mkfs_data_table[q]? = demo_rw.mkfs_data_table[q]?)) :=
  ⟨by decide, by decide, by decide,
   C39_pwrite_touches_only_its_range demo_env (sample_env_sane _ _ _) demo_rw demo_pwritten
     3 3 (demo_info 1 66) (FileRef.fs_files 0) demo_f (StatRef.inode_table 3) (demo_st 3) 3
     [65, 66, 67] [1, 2] 2 2 demo_rw_open ⟨rfl, by decide, by decide⟩ (by decide) (by decide)
     (by decide) (by decide) (by decide) (by decide)⟩

end Mkfs
